import Mathlib

/-! # edid-decode: a shallow embedding of `edid-decode.c`

The C program decodes a 128-byte EDID base block and its chained extension
blocks and accumulates conformance flags in file-scope variables.  Here the
file-scope variables become the fields of `State`, every C function becomes a
function that threads a `State`, bytes (`unsigned char`) are natural numbers
below 256 held in lists, `int` values are integers, and a C pointer `x + i`
into a buffer is the list `x.drop i`.
-/

namespace EdidDecode

/-! ## Buffers -/

/-- Read `x[i]` from a byte buffer. -/
def rd (x : List Nat) (i : Nat) : Nat := x.getD i 0

/-- Every element of the buffer is an `unsigned char`. -/
def is_bytes (x : List Nat) : Prop := ∀ b ∈ x, b < 256

instance (x : List Nat) : Decidable (is_bytes x) := by
  unfold is_bytes; infer_instance

/-- The macro `min(a, b) ((a) < (b) ? (a) : (b))`. -/
def cmin (a b : Int) : Int := if a < b then a else b

/-- The macro `max(a, b) ((a) > (b) ? (a) : (b))`. -/
def cmax (a b : Int) : Int := if a > b then a else b

/-! ## `do_checksum` -/

/-- The value of `sum` after `n` iterations of `for (i = 0; i < len-1; i++) sum += x[i];`
where `sum` is an `unsigned char`. -/
def checksum_sum (x : List Nat) : Nat → Nat
  | 0 => 0
  | n + 1 => (checksum_sum x n + rd x n) % 256

/-- What `do_checksum` returns and what it prints after `Checksum: 0x..`:
`should_be = some v` stands for the text ` (should be 0xv)`, `none` for ` (valid)`. -/
structure ChecksumResult where
  ret : Int
  should_be : Option Int
deriving DecidableEq, Repr

/-- The function `do_checksum(x, len)`; every caller passes `len >= 1`. -/
def do_checksum (x : List Nat) (len : Nat) : ChecksumResult :=
  let check := rd x (len - 1)
  let sum := checksum_sum x (len - 1)
  if (check + sum) % 256 ≠ 0 then
    { ret := 0, should_be := some (Int.land (-(sum : Int)) 0xff) }
  else
    { ret := 1, should_be := none }

/-! ## The conformance state: the file-scope variables of `edid-decode.c` -/

/-- The file-scope `static int` variables, with their initialisers, and the two
function-local `static` variables (`name` of `detailed_block`, held as the C
string it contains, and `last_block_was_hdmi_vsdb` of `cea_block`). -/
structure State where
  claims_one_point_oh : Int := 0
  claims_one_point_two : Int := 0
  claims_one_point_three : Int := 0
  claims_one_point_four : Int := 0
  nonconformant_digital_display : Int := 0
  nonconformant_extension : Int := 0
  did_detailed_timing : Int := 0
  has_name_descriptor : Int := 0
  name_descriptor_terminated : Int := 0
  has_range_descriptor : Int := 0
  has_preferred_timing : Int := 0
  has_valid_checksum : Int := 1
  has_valid_cea_checksum : Int := 1
  has_valid_displayid_checksum : Int := 1
  has_valid_cvt : Int := 1
  has_valid_dummy_block : Int := 1
  has_valid_serial_number : Int := 0
  has_valid_serial_string : Int := 0
  has_valid_week : Int := 0
  has_valid_year : Int := 0
  has_valid_detailed_blocks : Int := 0
  has_valid_descriptor_ordering : Int := 1
  has_valid_descriptor_pad : Int := 1
  has_valid_range_descriptor : Int := 1
  has_valid_max_dotclock : Int := 1
  has_valid_string_termination : Int := 1
  has_cea861 : Int := 0
  has_640x480p60_est_timing : Int := 0
  has_cea861_vic_1 : Int := 0
  manufacturer_name_well_formed : Int := 0
  seen_non_detailed_descriptor : Int := 0
  warning_excessive_dotclock_correction : Int := 0
  warning_zero_preferred_refresh : Int := 0
  nonconformant_hf_vsdb_position : Int := 0
  nonconformant_srgb_chromaticity : Int := 0
  nonconformant_cea861_640x480 : Int := 0
  min_hor_freq_hz : Int := 0xfffffff
  max_hor_freq_hz : Int := 0
  min_vert_freq_hz : Int := 0xfffffff
  max_vert_freq_hz : Int := 0
  max_pixclk_khz : Int := 0
  mon_min_hor_freq_hz : Int := 0
  mon_max_hor_freq_hz : Int := 0
  mon_min_vert_freq_hz : Int := 0
  mon_max_vert_freq_hz : Int := 0
  mon_max_pixclk_khz : Int := 0
  conformant : Int := 1
  name : List Nat := []
  last_block_was_hdmi_vsdb : Int := 0

/-- The state at program start. -/
def State.init : State := {}

/-- C truth value of a condition. -/
def b2i (b : Bool) : Int := if b then 1 else 0

/-- C `!v`. -/
def lnot (v : Int) : Int := if v = 0 then 1 else 0

/-- An `int` converted to `unsigned int`. -/
def to_unsigned (a : Int) : Int := a % 4294967296

/-- The macro `min(a, b)` with `a` an `int` and `b` an `unsigned int`: the
comparison is made on unsigned values and the result is stored in an `int`. -/
def cmin_u (a b : Int) : Int := if to_unsigned a < b then a else b

/-- The macro `max(a, b)` with `a` an `int` and `b` an `unsigned int`. -/
def cmax_u (a b : Int) : Int := if to_unsigned a > b then a else b

/-- C integer division; division by zero has no result. -/
def cdiv (a b : Int) : Option Int := if b = 0 then none else some (Int.tdiv a b)

/-! ## Timing mode tables -/

/-- One row of `established_timings` / `established_timings3`; `flag` is the
last column (`interlaced`, respectively `rb`). -/
structure EstTiming where
  x : Int
  y : Int
  refresh : Int
  ratio_w : Int
  ratio_h : Int
  hor_freq_hz : Int
  pixclk_khz : Int
  flag : Int
deriving DecidableEq, Repr, Inhabited

/-- One row of `edid_cea_modes` / `edid_cea_hdmi_modes`. -/
structure CeaMode where
  name : String
  refresh : Int
  hor_freq_hz : Int
  pixclk_khz : Int
deriving DecidableEq, Repr, Inhabited

def established_timings : List EstTiming :=
  [ EstTiming.mk 720 400 70 9 5 31469 28320 0,
    EstTiming.mk 720 400 88 9 5 39500 35500 0,
    EstTiming.mk 640 480 60 4 3 31469 25175 0,
    EstTiming.mk 640 480 67 4 3 35000 30240 0,
    EstTiming.mk 640 480 72 4 3 37900 31500 0,
    EstTiming.mk 640 480 75 4 3 37500 31500 0,
    EstTiming.mk 800 600 56 4 3 35200 36000 0,
    EstTiming.mk 800 600 60 4 3 37900 40000 0,
    EstTiming.mk 800 600 72 4 3 48100 50000 0,
    EstTiming.mk 800 600 75 4 3 46900 49500 0,
    EstTiming.mk 832 624 75 4 3 49726 57284 0,
    EstTiming.mk 1280 768 87 5 3 35522 44900 1,
    EstTiming.mk 1024 768 60 4 3 48400 65000 0,
    EstTiming.mk 1024 768 70 4 3 56500 75000 0,
    EstTiming.mk 1024 768 75 4 3 60000 78750 0,
    EstTiming.mk 1280 1024 75 5 4 80000 135000 0,
    EstTiming.mk 1152 870 75 192 145 67500 108000 0 ]

def established_timings3 : List EstTiming :=
  [ EstTiming.mk 640 350 85 64 35 37900 31500 0,
    EstTiming.mk 640 400 85 16 10 37900 31500 0,
    EstTiming.mk 720 400 85 9 5 37900 35500 0,
    EstTiming.mk 640 480 85 4 3 43300 36000 0,
    EstTiming.mk 848 480 60 53 30 31000 33750 0,
    EstTiming.mk 800 600 85 4 3 53700 56250 0,
    EstTiming.mk 1024 768 85 4 3 68700 94500 0,
    EstTiming.mk 1152 864 75 4 3 67500 108000 0,
    EstTiming.mk 1280 768 60 5 3 47400 68250 1,
    EstTiming.mk 1280 768 60 5 3 47800 79500 0,
    EstTiming.mk 1280 768 75 5 3 60300 102250 0,
    EstTiming.mk 1280 768 85 5 3 68600 117500 0,
    EstTiming.mk 1280 960 60 4 3 60000 108000 0,
    EstTiming.mk 1280 960 85 4 3 85900 148500 0,
    EstTiming.mk 1280 1024 60 5 4 64000 108000 0,
    EstTiming.mk 1280 1024 85 5 4 91100 157500 0,
    EstTiming.mk 1360 768 60 85 48 47700 85500 0,
    EstTiming.mk 1440 900 60 16 10 55500 88750 1,
    EstTiming.mk 1440 900 60 16 10 65300 121750 0,
    EstTiming.mk 1440 900 75 16 10 82300 156000 0,
    EstTiming.mk 1440 900 85 16 10 93900 179500 0,
    EstTiming.mk 1400 1050 60 4 3 64700 101000 1,
    EstTiming.mk 1400 1050 60 4 3 65300 121750 0,
    EstTiming.mk 1400 1050 75 4 3 82300 156000 0,
    EstTiming.mk 1400 1050 85 4 3 93900 179500 0,
    EstTiming.mk 1680 1050 60 16 10 64700 119000 1,
    EstTiming.mk 1680 1050 60 16 10 65300 146250 0,
    EstTiming.mk 1680 1050 75 16 10 82300 187000 0,
    EstTiming.mk 1680 1050 85 16 10 93900 214750 0,
    EstTiming.mk 1600 1200 60 4 3 75000 162000 0,
    EstTiming.mk 1600 1200 65 4 3 81300 175500 0,
    EstTiming.mk 1600 1200 70 4 3 87500 189000 0,
    EstTiming.mk 1600 1200 75 4 3 93800 202500 0,
    EstTiming.mk 1600 1200 85 4 3 106300 229500 0,
    EstTiming.mk 1792 1344 60 4 3 83600 204750 0,
    EstTiming.mk 1792 1344 75 4 3 106300 261000 0,
    EstTiming.mk 1856 1392 60 4 3 86300 218250 0,
    EstTiming.mk 1856 1392 75 4 3 112500 288000 0,
    EstTiming.mk 1920 1200 60 16 10 74000 154000 1,
    EstTiming.mk 1920 1200 60 16 10 74600 193250 0,
    EstTiming.mk 1920 1200 75 16 10 94000 245250 0,
    EstTiming.mk 1920 1200 85 16 10 107200 281250 0,
    EstTiming.mk 1920 1440 60 4 3 90000 234000 0,
    EstTiming.mk 1920 1440 75 4 3 112500 297000 0 ]

def edid_cea_modes : List CeaMode :=
  [ CeaMode.mk "640x480@60Hz 4:3" 60 31469 25175,
    CeaMode.mk "720x480@60Hz 4:3" 60 31469 27000,
    CeaMode.mk "720x480@60Hz 16:9" 60 31469 27000,
    CeaMode.mk "1280x720@60Hz 16:9" 60 45000 74250,
    CeaMode.mk "1920x1080i@60Hz 16:9" 60 33750 74250,
    CeaMode.mk "1440x480i@60Hz 4:3" 60 15734 27000,
    CeaMode.mk "1440x480i@60Hz 16:9" 60 15734 27000,
    CeaMode.mk "1440x240@60Hz 4:3" 60 15734 27000,
    CeaMode.mk "1440x240@60Hz 16:9" 60 15734 27000,
    CeaMode.mk "2880x480i@60Hz 4:3" 60 15734 54000,
    CeaMode.mk "2880x480i@60Hz 16:9" 60 15734 54000,
    CeaMode.mk "2880x240@60Hz 4:3" 60 15734 54000,
    CeaMode.mk "2880x240@60Hz 16:9" 60 15734 54000,
    CeaMode.mk "1440x480@60Hz 4:3" 60 31469 54000,
    CeaMode.mk "1440x480@60Hz 16:9" 60 31469 54000,
    CeaMode.mk "1920x1080@60Hz 16:9" 60 67500 148500,
    CeaMode.mk "720x576@50Hz 4:3" 50 31250 27000,
    CeaMode.mk "720x576@50Hz 16:9" 50 31250 27000,
    CeaMode.mk "1280x720@50Hz 16:9" 50 37500 74250,
    CeaMode.mk "1920x1080i@50Hz 16:9" 50 28125 74250,
    CeaMode.mk "1440x576i@50Hz 4:3" 50 15625 27000,
    CeaMode.mk "1440x576i@50Hz 16:9" 50 15625 27000,
    CeaMode.mk "1440x288@50Hz 4:3" 50 15625 27000,
    CeaMode.mk "1440x288@50Hz 16:9" 50 15625 27000,
    CeaMode.mk "2880x576i@50Hz 4:3" 50 15625 54000,
    CeaMode.mk "2880x576i@50Hz 16:9" 50 15625 54000,
    CeaMode.mk "2880x288@50Hz 4:3" 50 15625 54000,
    CeaMode.mk "2880x288@50Hz 16:9" 50 15625 54000,
    CeaMode.mk "1440x576@50Hz 4:3" 50 31250 54000,
    CeaMode.mk "1440x576@50Hz 16:9" 50 31250 54000,
    CeaMode.mk "1920x1080@50Hz 16:9" 50 56250 148500,
    CeaMode.mk "1920x1080@24Hz 16:9" 24 27000 74250,
    CeaMode.mk "1920x1080@25Hz 16:9" 25 28125 74250,
    CeaMode.mk "1920x1080@30Hz 16:9" 30 33750 74250,
    CeaMode.mk "2880x480@60Hz 4:3" 60 31469 108000,
    CeaMode.mk "2880x480@60Hz 16:9" 60 31469 108000,
    CeaMode.mk "2880x576@50Hz 4:3" 50 31250 108000,
    CeaMode.mk "2880x576@50Hz 16:9" 50 31250 108000,
    CeaMode.mk "1920x1080i@50Hz 16:9" 50 31250 72000,
    CeaMode.mk "1920x1080i@100Hz 16:9" 100 56250 148500,
    CeaMode.mk "1280x720@100Hz 16:9" 100 75000 148500,
    CeaMode.mk "720x576@100Hz 4:3" 100 62500 54000,
    CeaMode.mk "720x576@100Hz 16:9" 100 62500 54000,
    CeaMode.mk "1440x576@100Hz 4:3" 100 31250 54000,
    CeaMode.mk "1440x576@100Hz 16:9" 100 31250 54000,
    CeaMode.mk "1920x1080i@120Hz 16:9" 120 67500 148500,
    CeaMode.mk "1280x720@120Hz 16:9" 120 90000 148500,
    CeaMode.mk "720x480@120Hz 4:3" 120 62937 54000,
    CeaMode.mk "720x480@120Hz 16:9" 120 62937 54000,
    CeaMode.mk "1440x480i@120Hz 4:3" 120 31469 54000,
    CeaMode.mk "1440x480i@120Hz 16:9" 120 31469 54000,
    CeaMode.mk "720x576@200Hz 4:3" 200 125000 108000,
    CeaMode.mk "720x576@200Hz 16:9" 200 125000 108000,
    CeaMode.mk "1440x576i@200Hz 4:3" 200 62500 108000,
    CeaMode.mk "1440x576i@200Hz 16:9" 200 62500 108000,
    CeaMode.mk "720x480@240Hz 4:3" 240 125874 108000,
    CeaMode.mk "720x480@240Hz 16:9" 240 125874 108000,
    CeaMode.mk "1440x480i@240Hz 4:3" 240 62937 108000,
    CeaMode.mk "1440x480i@240Hz 16:9" 240 62937 108000,
    CeaMode.mk "1280x720@24Hz 16:9" 24 18000 59400,
    CeaMode.mk "1280x720@25Hz 16:9" 25 18750 74250,
    CeaMode.mk "1280x720@30Hz 16:9" 30 22500 74250,
    CeaMode.mk "1920x1080@120Hz 16:9" 120 135000 297000,
    CeaMode.mk "1920x1080@100Hz 16:9" 100 112500 297000,
    CeaMode.mk "1280x720@24Hz 64:27" 24 18000 59400,
    CeaMode.mk "1280x720@25Hz 64:27" 25 18750 74250,
    CeaMode.mk "1280x720@30Hz 64:27" 30 22500 74250,
    CeaMode.mk "1280x720@50Hz 64:27" 50 37500 74250,
    CeaMode.mk "1280x720@60Hz 64:27" 60 45000 74250,
    CeaMode.mk "1280x720@100Hz 64:27" 100 75000 148500,
    CeaMode.mk "1280x720@120Hz 64:27" 120 91000 148500,
    CeaMode.mk "1920x1080@24Hz 64:27" 24 27000 74250,
    CeaMode.mk "1920x1080@25Hz 64:27" 25 28125 74250,
    CeaMode.mk "1920x1080@30Hz 64:27" 30 33750 74250,
    CeaMode.mk "1920x1080@50Hz 64:27" 50 56250 148500,
    CeaMode.mk "1920x1080@60Hz 64:27" 60 67500 148500,
    CeaMode.mk "1920x1080@100Hz 64:27" 100 112500 297000,
    CeaMode.mk "1920x1080@120Hz 64:27" 120 135000 297000,
    CeaMode.mk "1680x720@24Hz 64:27" 24 18000 59400,
    CeaMode.mk "1680x720@25Hz 64:27" 25 18750 59400,
    CeaMode.mk "1680x720@30Hz 64:27" 30 22500 59400,
    CeaMode.mk "1680x720@50Hz 64:27" 50 37500 82500,
    CeaMode.mk "1680x720@60Hz 64:27" 60 45000 99000,
    CeaMode.mk "1680x720@100Hz 64:27" 100 82500 165000,
    CeaMode.mk "1680x720@120Hz 64:27" 120 99000 198000,
    CeaMode.mk "2560x1080@24Hz 64:27" 24 26400 99000,
    CeaMode.mk "2560x1080@25Hz 64:27" 25 28125 90000,
    CeaMode.mk "2560x1080@30Hz 64:27" 30 33750 118800,
    CeaMode.mk "2560x1080@50Hz 64:27" 50 56250 185625,
    CeaMode.mk "2560x1080@60Hz 64:27" 60 66000 198000,
    CeaMode.mk "2560x1080@100Hz 64:27" 100 125000 371250,
    CeaMode.mk "2560x1080@120Hz 64:27" 120 150000 495000,
    CeaMode.mk "3840x2160@24Hz 16:9" 24 54000 297000,
    CeaMode.mk "3840x2160@25Hz 16:9" 25 56250 297000,
    CeaMode.mk "3840x2160@30Hz 16:9" 30 67500 297000,
    CeaMode.mk "3840x2160@50Hz 16:9" 50 112500 594000,
    CeaMode.mk "3840x2160@60Hz 16:9" 60 135000 594000,
    CeaMode.mk "4096x2160@24Hz 256:135" 24 54000 297000,
    CeaMode.mk "4096x2160@25Hz 256:135" 25 56250 297000,
    CeaMode.mk "4096x2160@30Hz 256:135" 30 67500 297000,
    CeaMode.mk "4096x2160@50Hz 256:135" 50 112500 594000,
    CeaMode.mk "4096x2160@60Hz 256:135" 60 135000 594000,
    CeaMode.mk "3840x2160@24Hz 64:27" 24 54000 297000,
    CeaMode.mk "3840x2160@25Hz 64:27" 25 56250 297000,
    CeaMode.mk "3840x2160@30Hz 64:27" 30 67500 297000,
    CeaMode.mk "3840x2160@50Hz 64:27" 50 112500 594000,
    CeaMode.mk "3840x2160@60Hz 64:27" 60 135000 594000 ]

def edid_cea_hdmi_modes : List CeaMode :=
  [ CeaMode.mk "3840x2160@30Hz 16:9" 30 67500 297000,
    CeaMode.mk "3840x2160@25Hz 16:9" 25 56250 297000,
    CeaMode.mk "3840x2160@24Hz 16:9" 24 54000 297000,
    CeaMode.mk "4096x2160@24Hz 256:135" 24 54000 297000 ]

/-- Fold one catalog row into the observed vertical/horizontal/pixel-clock ranges
(the five `min`/`max` assignments that follow every catalog hit). -/
def observe (refresh hor_freq_hz pixclk_khz : Int) (s : State) : State :=
  { s with
    min_vert_freq_hz := cmin s.min_vert_freq_hz refresh
    max_vert_freq_hz := cmax s.max_vert_freq_hz refresh
    min_hor_freq_hz := cmin s.min_hor_freq_hz hor_freq_hz
    max_hor_freq_hz := cmax s.max_hor_freq_hz hor_freq_hz
    max_pixclk_khz := cmax s.max_pixclk_khz pixclk_khz }


/-! ## Character classes (the "C" locale) -/

/-- The C library predicate `isupper` on an `unsigned char` value. -/
def isupper (c : Nat) : Bool := decide (0x41 ≤ c ∧ c ≤ 0x5a)

/-- The C library predicate `isgraph` on an `unsigned char` value. -/
def isgraph (c : Nat) : Bool := decide (0x21 ≤ c ∧ c ≤ 0x7e)

/-! ## `manufacturer_name` -/

/-- The function `manufacturer_name(x)`: the four bytes of the static `name` buffer and the
updated state. -/
def manufacturer_name (x : List Nat) (s : State) : List Nat × State :=
  let name0 := ((rd x 0 &&& 0x7C) >>> 2) + 0x40
  let name1 := ((rd x 0 &&& 0x03) <<< 3) + ((rd x 1 &&& 0xE0) >>> 5) + 0x40
  let name2 := (rd x 1 &&& 0x1F) + 0x40
  let s := if isupper name0 && isupper name1 && isupper name2 then
      { s with manufacturer_name_well_formed := 1 } else s
  ([name0, name1, name2, 0], s)

/-! ## `detailed_cvt_descriptor` -/

/-- The function `detailed_cvt_descriptor(x, first)`: the returned `valid` and the updated state. -/
def detailed_cvt_descriptor (x : List Nat) (first : Int) (s : State) : Int × State :=
  if first = 0 ∧ (rd x 0 = 0 ∧ rd x 1 = 0 ∧ rd x 2 = 0) then (1, s)
  else
    let valid : Int := 1
    let valid : Int := if rd x 1 &&& 0x03 ≠ 0 then 0 else valid
    let valid : Int := if rd x 2 &&& 0x80 ≠ 0 then 0 else valid
    let valid : Int := if rd x 2 &&& 0x1f = 0 then 0 else valid
    let fifty := rd x 2 &&& 0x10
    let sixty := rd x 2 &&& 0x08
    let seventyfive := rd x 2 &&& 0x04
    let eightyfive := rd x 2 &&& 0x02
    let min_refresh : Int :=
      if fifty ≠ 0 then 50 else if sixty ≠ 0 then 60 else
      if seventyfive ≠ 0 then 75 else if eightyfive ≠ 0 then 85 else 0xfffffff
    let max_refresh : Int :=
      if eightyfive ≠ 0 then 85 else if seventyfive ≠ 0 then 75 else
      if sixty ≠ 0 then 60 else if fifty ≠ 0 then 50 else 0
    if valid = 0 then (valid, s)
    else
      (valid, { s with
        min_vert_freq_hz := cmin s.min_vert_freq_hz min_refresh
        max_vert_freq_hz := cmax s.max_vert_freq_hz max_refresh })

/-! ## `extract_string` -/

/-- The `for` loop of `extract_string` over the remaining indices: arguments are
`seen_newline`, the buffer `ret` and `*valid_termination`; the result is the
returned buffer and the final `*valid_termination`. -/
def extract_string_loop (x : List Nat) : List Nat → Int → List Nat → Int → List Nat × Int
  | [], _, ret, valid_termination => (ret, valid_termination)
  | i :: rest, seen_newline, ret, valid_termination =>
    if isgraph (rd x i) then
      extract_string_loop x rest seen_newline (ret.set i (rd x i)) valid_termination
    else if seen_newline = 0 then
      if rd x i = 0x0a then
        extract_string_loop x rest 1 ret valid_termination
      else if rd x i = 0x20 then
        extract_string_loop x rest seen_newline (ret.set i (rd x i)) valid_termination
      else (ret, 0)
    else
      if rd x i ≠ 0x20 then (ret, 0)
      else extract_string_loop x rest seen_newline ret valid_termination

/-- The function `extract_string(x, valid_termination, len)`: the 128-byte static buffer `ret`
(zeroed by `memset`) after the call, and the value left in `*valid_termination`. -/
def extract_string (x : List Nat) (valid_termination : Int) (len : Nat) : List Nat × Int :=
  extract_string_loop x (List.range len) 0 (List.replicate 128 0) valid_termination

/-! ## `print_standard_timing` -/

/-- The tuple printed by `print_standard_timing` as `%dx%d@%dHz %d:%d`. -/
structure StdTiming where
  x : Int
  y : Int
  refresh : Int
  ratio_w : Int
  ratio_h : Int
deriving DecidableEq, Repr

/-- The decode of a standard-timing pair with `b1 != 0` and not `(1,1)`: the
`switch ((b2 >> 6) & 0x3)` and the refresh computation. -/
def standard_timing_mode (claims_one_point_three : Int) (b1 b2 : Nat) : StdTiming :=
  let x : Int := ((b1 + 31) * 8 : Nat)
  let refresh : Int := (60 + (b2 &&& 0x3f) : Nat)
  match (b2 >>> 6) &&& 0x3 with
  | 0 =>
    if claims_one_point_three ≠ 0 then ⟨x, Int.tdiv (x * 10) 16, refresh, 16, 10⟩
    else ⟨x, x, refresh, 1, 1⟩
  | 1 => ⟨x, Int.tdiv (x * 3) 4, refresh, 4, 3⟩
  | 2 => ⟨x, Int.tdiv (x * 4) 5, refresh, 5, 4⟩
  | _ => ⟨x, Int.tdiv (x * 9) 16, refresh, 16, 9⟩

/-- The first row of a table matching on `x`, `y`, `refresh`, `ratio_w`, `ratio_h`
(the search loops of `print_standard_timing`). -/
def est_lookup (tbl : List EstTiming) (t : StdTiming) : Option EstTiming :=
  tbl.find? (fun e => decide (e.x = t.x ∧ e.y = t.y ∧ e.refresh = t.refresh ∧
    e.ratio_w = t.ratio_w ∧ e.ratio_h = t.ratio_h))

/-- The function `print_standard_timing(b1, b2)`. -/
def print_standard_timing (b1 b2 : Nat) (s : State) : State :=
  if b1 = 0x01 ∧ b2 = 0x01 then s
  else if b1 = 0 then s
  else
    let t := standard_timing_mode s.claims_one_point_three b1 b2
    let s := { s with
      min_vert_freq_hz := cmin_u s.min_vert_freq_hz t.refresh
      max_vert_freq_hz := cmax_u s.max_vert_freq_hz t.refresh }
    let (pixclk_khz, hor_freq_hz) : Int × Int :=
      match est_lookup established_timings t with
      | some e => (e.pixclk_khz, e.hor_freq_hz)
      | none => (0, 0)
    let (pixclk_khz, hor_freq_hz) : Int × Int :=
      if pixclk_khz = 0 then
        match est_lookup established_timings3 t with
        | some e => (e.pixclk_khz, e.hor_freq_hz)
        | none => (pixclk_khz, hor_freq_hz)
      else (pixclk_khz, hor_freq_hz)
    if pixclk_khz ≠ 0 then
      { s with
        min_hor_freq_hz := cmin s.min_hor_freq_hz hor_freq_hz
        max_hor_freq_hz := cmax s.max_hor_freq_hz hor_freq_hz
        max_pixclk_khz := cmax s.max_pixclk_khz pixclk_khz }
    else s


/-! ## `detailed_block` -/

/-- Tag `0xF7`: the loop over the 44 bits of the established-timings-III bitmap. -/
def detailed_block_est3 (x : List Nat) (s : State) : State :=
  (List.range 44).foldl (fun s i =>
    if rd x (6 + i / 8) &&& (1 <<< (7 - i % 8)) ≠ 0 then
      let e := established_timings3.getD i default
      observe e.refresh e.hor_freq_hz e.pixclk_khz s
    else s) s

/-- Tag `0xF8`: the CVT 3-byte code descriptor; returns the block's result. -/
def detailed_block_cvt (x : List Nat) (s : State) : Int × State :=
  if rd x 5 ≠ 0x01 then (0, { s with has_valid_cvt := 0 })
  else
    let (valid_cvt, s) := (List.range 4).foldl (fun (acc : Int × State) i =>
      let r := detailed_cvt_descriptor (x.drop (6 + i * 3)) (b2i (i == 0)) acc.2
      (Int.land acc.1 r.1, r.2)) ((1 : Int), s)
    (valid_cvt, { s with has_valid_cvt := Int.land s.has_valid_cvt valid_cvt })

/-- Tag `0xFC`: the monitor name, accumulated in the static buffer `name`. -/
def detailed_block_name (x : List Nat) (s : State) : State :=
  let s := { s with has_name_descriptor := 1 }
  if 0x0a ∈ s.name then s
  else
    let s := { s with name := s.name ++ ((x.drop 5).take 13).takeWhile (fun c => c != 0) }
    if 0x0a ∈ s.name then
      let r := extract_string s.name s.has_valid_string_termination s.name.length
      { s with name_descriptor_terminated := 1, has_valid_string_termination := r.2 }
    else s

/-- The four offsets `(h_max_offset, h_min_offset, v_max_offset, v_min_offset)`
of the range descriptor under EDID 1.4. -/
def range_offsets (x4 : Nat) : Int × Int × Int × Int :=
  let v_max_offset : Int := if x4 &&& 0x02 ≠ 0 then 255 else 0
  let v_min_offset : Int := if x4 &&& 0x02 ≠ 0 then (if x4 &&& 0x01 ≠ 0 then 255 else 0) else 0
  let h_max_offset : Int := if x4 &&& 0x04 ≠ 0 then 255 else 0
  let h_min_offset : Int := if x4 &&& 0x04 ≠ 0 then (if x4 &&& 0x03 ≠ 0 then 255 else 0) else 0
  (h_max_offset, h_min_offset, v_max_offset, v_min_offset)

/-- Tag `0xFD`, the CVT part (`if (is_cvt) { ... }`). -/
def detailed_block_range_cvt (x : List Nat) (s : State) : State :=
  let s := if rd x 12 &&& 0xfc ≠ 0 then
      let raw_offset := (rd x 12 &&& 0xfc) >>> 2
      if raw_offset ≥ 40 then { s with warning_excessive_dotclock_correction := 1 } else s
    else s
  let s := if rd x 14 &&& 0x07 ≠ 0 then { s with has_valid_range_descriptor := 0 } else s
  let s := if rd x 15 &&& 0x07 ≠ 0 then { s with has_valid_range_descriptor := 0 } else s
  let s := if rd x 16 &&& 0x0f ≠ 0 then { s with has_valid_range_descriptor := 0 } else s
  if rd x 17 ≠ 0 then s else { s with warning_zero_preferred_refresh := 1 }

/-- Tag `0xFD`, the revision gate on byte 4: the four offsets
`(h_max_offset, h_min_offset, v_max_offset, v_min_offset)` and the state. -/
def detailed_block_range_offsets (x : List Nat) (s : State) :
    (Int × Int × Int × Int) × State :=
  if s.claims_one_point_four ≠ 0 then (range_offsets (rd x 4), s)
  else if rd x 4 ≠ 0 then ((0, 0, 0, 0), { s with has_valid_range_descriptor := 0 })
  else ((0, 0, 0, 0), s)

/-- Tag `0xFD`, `switch (x[10])`: the value of `is_cvt` and the state. -/
def detailed_block_range_class (x : List Nat) (s : State) : Int × State :=
  if rd x 10 = 0x00 then (0, s)
  else if rd x 10 = 0x01 then
    (0, if s.claims_one_point_four = 0 then { s with has_valid_range_descriptor := 0 } else s)
  else if rd x 10 = 0x02 then (0, s)
  else if rd x 10 = 0x04 then
    (1, if s.claims_one_point_four = 0 then { s with has_valid_range_descriptor := 0 } else s)
  else (0, { s with has_valid_range_descriptor := 0 })

/-- Tag `0xFD`, the vertical bounds (bytes 5 and 6). -/
def detailed_block_range_vert (x : List Nat) (v_min_offset v_max_offset : Int) (s : State) :
    State :=
  let s := if (rd x 5 : Int) + v_min_offset > (rd x 6 : Int) + v_max_offset then
      { s with has_valid_range_descriptor := 0 } else s
  { s with
    mon_min_vert_freq_hz := (rd x 5 : Int) + v_min_offset
    mon_max_vert_freq_hz := (rd x 6 : Int) + v_max_offset }

/-- Tag `0xFD`, the horizontal bounds (bytes 7 and 8). -/
def detailed_block_range_hor (x : List Nat) (h_min_offset h_max_offset : Int) (s : State) :
    State :=
  let s := if (rd x 7 : Int) + h_min_offset > (rd x 8 : Int) + h_max_offset then
      { s with has_valid_range_descriptor := 0 } else s
  { s with
    mon_min_hor_freq_hz := ((rd x 7 : Int) + h_min_offset) * 1000
    mon_max_hor_freq_hz := ((rd x 8 : Int) + h_max_offset) * 1000 }

/-- Tag `0xFD`, the maximum dot clock (byte 9). -/
def detailed_block_range_dotclock (x : List Nat) (s : State) : State :=
  if rd x 9 ≠ 0 then { s with mon_max_pixclk_khz := (rd x 9 : Int) * 10000 }
  else if s.claims_one_point_four ≠ 0 then { s with has_valid_max_dotclock := 0 }
  else s

/-- Tag `0xFD`: the range descriptor; returns `has_valid_range_descriptor`. -/
def detailed_block_range (x : List Nat) (s : State) : Int × State :=
  let s := { s with has_range_descriptor := 1 }
  let r := detailed_block_range_offsets x s
  let h_max_offset := r.1.1
  let h_min_offset := r.1.2.1
  let v_max_offset := r.1.2.2.1
  let v_min_offset := r.1.2.2.2
  let c := detailed_block_range_class x r.2
  let is_cvt := c.1
  let s := detailed_block_range_vert x v_min_offset v_max_offset c.2
  let s := detailed_block_range_hor x h_min_offset h_max_offset s
  let s := detailed_block_range_dotclock x s
  let s := if is_cvt ≠ 0 then detailed_block_range_cvt x s else s
  (s.has_valid_range_descriptor, s)

/-- The numeric (detailed timing) path of `detailed_block`; there is no result
when `(ha + hbl) * (va + vbl)` is zero, because the code divides by it. -/
def detailed_block_timing (x : List Nat) (in_extension : Int) (s : State) :
    Option (Int × State) :=
  let s := if s.seen_non_detailed_descriptor ≠ 0 ∧ in_extension = 0 then
      { s with has_valid_descriptor_ordering := 0 } else s
  let s := { s with did_detailed_timing := 1 }
  let ha : Int := (rd x 2 + ((rd x 4 &&& 0xF0) <<< 4) : Nat)
  let hbl : Int := (rd x 3 + ((rd x 4 &&& 0x0F) <<< 8) : Nat)
  let va : Int := (rd x 5 + ((rd x 7 &&& 0xF0) <<< 4) : Nat)
  let vbl : Int := (rd x 6 + ((rd x 7 &&& 0x0F) <<< 8) : Nat)
  let pixclk_khz : Int := ((rd x 0 + (rd x 1 <<< 8)) * 10 : Nat)
  match cdiv (pixclk_khz * 1000) ((ha + hbl) * (va + vbl)) with
  | none => none
  | some refresh =>
    match cdiv (pixclk_khz * 1000) (ha + hbl) with
    | none => none
    | some hor_freq =>
      some (1, { s with
        min_vert_freq_hz := cmin s.min_vert_freq_hz refresh
        max_vert_freq_hz := cmax s.max_vert_freq_hz refresh
        min_hor_freq_hz := cmin s.min_hor_freq_hz hor_freq
        max_hor_freq_hz := cmax s.max_hor_freq_hz hor_freq
        max_pixclk_khz := cmax s.max_pixclk_khz pixclk_khz })

/-- The monitor-descriptor path, before the tag is examined: the padding checks
on bytes 2 and 4 and the flag `seen_non_detailed_descriptor`. -/
def detailed_block_pad (x : List Nat) (s : State) : State :=
  let s := if rd x 2 ≠ 0 then { s with has_valid_descriptor_pad := 0 } else s
  let s := if rd x 3 ≠ 0xfd ∧ rd x 4 ≠ 0x00 then { s with has_valid_descriptor_pad := 0 } else s
  { s with seen_non_detailed_descriptor := 1 }

/-- Tag `0x10`: the dummy block must be zero from byte 5 on. -/
def detailed_block_dummy (x : List Nat) (s : State) : State :=
  (List.range' 5 13).foldl (fun s i =>
    if rd x i ≠ 0x00 then { s with has_valid_dummy_block := 0 } else s) s

/-- Tag `0xFA`: six more standard timings. -/
def detailed_block_standard (x : List Nat) (s : State) : State :=
  (List.range 6).foldl (fun s i =>
    print_standard_timing (rd x (5 + i * 2)) (rd x (5 + i * 2 + 1)) s) s

/-- Tag `0xFE`: an ASCII string. -/
def detailed_block_ascii (x : List Nat) (s : State) : State :=
  { s with has_valid_string_termination :=
      (extract_string (x.drop 5) s.has_valid_string_termination 13).2 }

/-- Tag `0xFF`: the serial number string. -/
def detailed_block_serial (x : List Nat) (s : State) : State :=
  { s with
    has_valid_string_termination :=
      (extract_string (x.drop 5) s.has_valid_string_termination 13).2
    has_valid_serial_string := 1 }

/-- The monitor-descriptor path, dispatch on the tag `x[3]`. -/
def detailed_block_tag (x : List Nat) (s : State) : Int × State :=
  if rd x 3 ≤ 0xF then (1, s)
  else if rd x 3 = 0x10 then (1, detailed_block_dummy x s)
  else if rd x 3 = 0xF7 then (1, detailed_block_est3 x s)
  else if rd x 3 = 0xF8 then detailed_block_cvt x s
  else if rd x 3 = 0xF9 then (1, s)
  else if rd x 3 = 0xFA then (1, detailed_block_standard x s)
  else if rd x 3 = 0xFB then (1, s)
  else if rd x 3 = 0xFC then (1, detailed_block_name x s)
  else if rd x 3 = 0xFD then detailed_block_range x s
  else if rd x 3 = 0xFE then (1, detailed_block_ascii x s)
  else if rd x 3 = 0xFF then (1, detailed_block_serial x s)
  else (0, s)

/-- The monitor-descriptor path of `detailed_block` (bytes 0 and 1 both zero). -/
def detailed_block_monitor (x : List Nat) (s : State) : Int × State :=
  detailed_block_tag x (detailed_block_pad x s)

/-- The function `detailed_block(x, in_extension)`: the return value and the updated state, or
no result when the numeric path divides by zero. -/
def detailed_block (x : List Nat) (in_extension : Int) (s : State) : Option (Int × State) :=
  if rd x 0 = 0 ∧ rd x 1 = 0 then some (detailed_block_monitor x s)
  else detailed_block_timing x in_extension s


/-! ## CEA extension -/

/-- One line `    VIC %3d %s %s` printed by `cea_svd`. -/
structure SvdLine where
  vic : Nat
  mode : String
  native : Bool
deriving DecidableEq, Repr

/-- One iteration of the loop of `cea_svd` on the byte `svd`: the line printed
(none when the byte is skipped by `continue`) and the updated state. -/
def cea_svd_entry (svd : Nat) (s : State) : Option SvdLine × State :=
  if svd &&& 0x7f = 0 then (none, s)
  else
    let vic : Nat := if (svd - 1) &&& 0x40 ≠ 0 then svd else svd &&& 0x7f
    let native : Nat := if (svd - 1) &&& 0x40 ≠ 0 then 0 else svd &&& 0x80
    let hit : Bool := decide (vic > 0 ∧ vic ≤ edid_cea_modes.length)
    let m := edid_cea_modes.getD (vic - 1) default
    let mode : String := if hit then m.name else "Unknown mode"
    let s := if hit then observe m.refresh m.hor_freq_hz m.pixclk_khz s else s
    let s := if vic = 1 then { s with has_cea861_vic_1 := 1 } else s
    (some ⟨vic, mode, decide (native ≠ 0)⟩, s)

/-- The function `cea_svd(x, n)`: the lines printed, in order, and the updated state. -/
def cea_svd (x : List Nat) (n : Int) (s : State) : List SvdLine × State :=
  (List.range n.toNat).foldl (fun (acc : List SvdLine × State) i =>
    let r := cea_svd_entry (rd x i) acc.2
    (acc.1 ++ r.1.toList, r.2)) ([], s)

/-- The function `cea_video_block(x)`. -/
def cea_video_block (x : List Nat) (s : State) : State :=
  (cea_svd (x.drop 1) ((rd x 0 &&& 0x1f : Nat) : Int) s).2

/-- The function `cea_y420vdb(x)`. -/
def cea_y420vdb (x : List Nat) (s : State) : State :=
  (cea_svd (x.drop 2) (((rd x 0 &&& 0x1f : Nat) : Int) - 1) s).2

/-- The HDMI VIC loop of `cea_hdmi_block`, reading `len_vic` bytes from
`x[base]`; `vic--` is taken on an `unsigned char`. -/
def cea_hdmi_vics (x : List Nat) (base len_vic : Nat) (s : State) : State :=
  (List.range len_vic).foldl (fun s i =>
    let vic := (rd x (base + i) + 255) % 256
    if vic < edid_cea_hdmi_modes.length then
      let m := edid_cea_hdmi_modes.getD vic default
      observe m.refresh m.hor_freq_hz m.pixclk_khz s
    else s) s

/-- The function `cea_hdmi_block(x)`: only the HDMI VIC list changes the state, the rest of
the function prints. -/
def cea_hdmi_block (x : List Nat) (s : State) : State :=
  let length := rd x 0 &&& 0x1f
  if length > 7 then
    let b := 0
    let b := if rd x 8 &&& 0x80 ≠ 0 then b + 2 else b
    let b := if rd x 8 &&& 0x40 ≠ 0 then b + 2 else b
    if rd x 8 &&& 0x20 ≠ 0 then
      let len_vic := (rd x (10 + b) &&& 0xe0) >>> 5
      let b := b + 2
      if len_vic ≠ 0 then cea_hdmi_vics x (9 + b) len_vic s else s
    else s
  else s

/-- The vendor-specific case (tag 3) of `cea_block`. -/
def cea_block_vendor (x : List Nat) (s : State) : State :=
  let oui := (rd x 3 <<< 16) + (rd x 2 <<< 8) + rd x 1
  if oui = 0x000c03 then
    { cea_hdmi_block x s with last_block_was_hdmi_vsdb := 1 }
  else
    let s := if oui = 0xc45dd8 then
        (if s.last_block_was_hdmi_vsdb = 0 then
          { s with nonconformant_hf_vsdb_position := 1 } else s)
      else s
    { s with last_block_was_hdmi_vsdb := 0 }

/-- The function `cea_block(x)`; the audio, speaker, video-capability, colorimetry, HDR and
video-format-preference sub-decoders only print. -/
def cea_block (x : List Nat) (s : State) : State :=
  let tag := (rd x 0 &&& 0xe0) >>> 5
  if tag = 0x02 then { cea_video_block x s with last_block_was_hdmi_vsdb := 0 }
  else if tag = 0x03 then cea_block_vendor x s
  else if tag = 0x07 then
    if rd x 1 = 0x0e then { cea_y420vdb x s with last_block_was_hdmi_vsdb := 0 }
    else { s with last_block_was_hdmi_vsdb := 0 }
  else { s with last_block_was_hdmi_vsdb := 0 }

/-- The data-block walk `for (i = 4; i < offset; i += (x[i] & 0x1f) + 1) cea_block(x + i);`
from index `i`, with a bound on the number of iterations. -/
def parse_cea_blocks (x : List Nat) (offset : Nat) : Nat → Nat → State → State
  | 0, _, s => s
  | fuel + 1, i, s =>
    if i < offset then
      parse_cea_blocks x offset fuel (i + ((rd x i &&& 0x1f) + 1)) (cea_block (x.drop i) s)
    else s

/-- The loop `for (detailed = x + offset; detailed + 18 < x + 127; detailed += 18)`
from offset `d`, with a bound on the number of iterations. -/
def parse_cea_detailed (x : List Nat) : Nat → Nat → State → Option State
  | 0, _, s => some s
  | fuel + 1, d, s =>
    if d + 18 < 127 then
      if rd x d ≠ 0 then
        match detailed_block (x.drop d) 1 s with
        | none => none
        | some r => parse_cea_detailed x fuel (d + 18) r.2
      else parse_cea_detailed x fuel (d + 18) s
    else some s

/-- The three assignments that end `parse_cea`. -/
def parse_cea_tail (x : List Nat) (s : State) : State :=
  { s with
    has_valid_cea_checksum := (do_checksum x 128).ret
    has_cea861 := 1
    nonconformant_cea861_640x480 :=
      b2i (decide (s.has_cea861_vic_1 = 0) && decide (s.has_640x480p60_est_timing = 0)) }

/-- The `do { ... } while (0)` body of `parse_cea` for `version >= 1`: the value
of `ret` and the state. -/
def parse_cea_body (x : List Nat) (s : State) : Option (Int × State) :=
  let version := rd x 1
  let offset := rd x 2
  let ret : Int := if version = 1 ∧ rd x 3 ≠ 0 then 1 else 0
  if offset < 4 then some (ret, s)
  else
    let s := if version < 3 then s
      else if version = 3 then parse_cea_blocks x offset offset 4 s
      else s
    match parse_cea_detailed x 8 offset s with
    | none => none
    | some s => some (ret, s)

/-- The function `parse_cea(x)`. -/
def parse_cea (x : List Nat) (s : State) : Option (Int × State) :=
  match (if rd x 1 ≥ 1 then parse_cea_body x s else some (0, s)) with
  | none => none
  | some r => some (r.1, parse_cea_tail x r.2)

/-! ## DisplayID extension and extension dispatch -/

/-- The function `parse_displayid(x)`: the sub-block walk only prints. -/
def parse_displayid (x : List Nat) (s : State) : State :=
  { s with has_valid_displayid_checksum := (do_checksum (x.drop 1) (rd x 2 + 5)).ret }

/-- The function `parse_extension(x)`.  The local `conformant_extension` is assigned only in
the CEA case; in every other case the function returns it uninitialised, and
`junk` stands for that value. -/
def parse_extension (x : List Nat) (junk : Int) (s : State) : Option (Int × State) :=
  if rd x 0 = 0x02 then parse_cea x s
  else if rd x 0 = 0x70 then some (junk, parse_displayid x s)
  else some (junk, s)


/-! ## `main`: the base block -/

/-- The function `memcmp(a, b, n)`: zero when the first `n` bytes agree, otherwise the
difference of the first two bytes that differ (only its sign is specified). -/
def memcmp (a b : List Nat) : Nat → Int
  | 0 => 0
  | n + 1 =>
    if rd a 0 = rd b 0 then memcmp (a.drop 1) (b.drop 1) n
    else (rd a 0 : Int) - (rd b 0 : Int)

/-- The table `srgb_chromaticity` of `main`. -/
def srgb_chromaticity : List Nat :=
  [0xee, 0x91, 0xa3, 0x54, 0x4c, 0x99, 0x26, 0x0f, 0x50, 0x54]

/-- Manufacturer name and serial number (bytes 0x08 to 0x0F). -/
def main_vendor (edid : List Nat) (s : State) : State :=
  let s := (manufacturer_name (edid.drop 0x08) s).2
  let serial : Bool := decide (rd edid 0x0C ≠ 0) || decide (rd edid 0x0D ≠ 0) ||
    decide (rd edid 0x0E ≠ 0) || decide (rd edid 0x0F ≠ 0)
  { s with has_valid_serial_number := b2i serial }

/-- Week and year of manufacture (bytes 0x10 and 0x11); `tm_year` is the field
of the `struct tm` returned by `localtime`. -/
def main_date (tm_year : Int) (edid : List Nat) (s : State) : State :=
  if rd edid 0x10 < 55 ∨ rd edid 0x10 = 0xff then
    let s := { s with has_valid_week := 1 }
    if rd edid 0x11 > 0x0f then
      if rd edid 0x10 = 0xff then { s with has_valid_year := 1 }
      else if (rd edid 0x11 : Int) + 90 ≤ tm_year then { s with has_valid_year := 1 }
      else s
    else s
  else s

/-- The `switch (edid[0x13])` with its fall-through cases. -/
def main_revision (rev : Nat) (s : State) : State :=
  match rev with
  | 4 => { s with claims_one_point_four := 1, claims_one_point_three := 1,
                  claims_one_point_two := 1 }
  | 3 => { s with claims_one_point_three := 1, claims_one_point_two := 1 }
  | 2 => { s with claims_one_point_two := 1 }
  | _ => s

/-- EDID version and revision (bytes 0x12 and 0x13).  A revision above 4 is
overwritten with 4 in the buffer itself, so the buffer is returned too. -/
def main_version (edid : List Nat) (s : State) : List Nat × State :=
  if rd edid 0x12 = 1 then
    let edid := if rd edid 0x13 > 4 then edid.set 0x13 4 else edid
    let s := main_revision (rd edid 0x13) s
    (edid, { s with claims_one_point_oh := 1 })
  else (edid, s)

/-- The assignment `if (!nonconformant_digital_display) nonconformant_digital_display = edid[0x14] & conformance_mask;`. -/
def main_digital_mask (edid : List Nat) (conformance_mask : Nat) (s : State) : State :=
  if s.nonconformant_digital_display = 0 then
    { s with nonconformant_digital_display := ((rd edid 0x14 &&& conformance_mask : Nat) : Int) }
  else s

/-- The EDID 1.4 checks of the digital display byte. -/
def main_digital_14 (edid : List Nat) (s : State) : State :=
  let s := if rd edid 0x14 &&& 0x70 = 0x00 then s
    else if rd edid 0x14 &&& 0x70 = 0x70 then { s with nonconformant_digital_display := 1 }
    else s
  if rd edid 0x14 &&& 0x0f ≤ 0x05 then s
  else { s with nonconformant_digital_display := 1 }

/-- The display section for byte 0x14; the analog branch only prints. -/
def main_display (edid : List Nat) (s : State) : State :=
  if rd edid 0x14 &&& 0x80 ≠ 0 then
    if s.claims_one_point_four ≠ 0 then main_digital_mask edid 0 (main_digital_14 edid s)
    else if s.claims_one_point_two ≠ 0 then main_digital_mask edid 0x7E s
    else main_digital_mask edid 0x7F s
  else s

/-- The feature byte 0x18: sRGB chromaticity check and preferred timing flag. -/
def main_features (edid : List Nat) (s : State) : State :=
  let s := if rd edid 0x18 &&& 0x04 ≠ 0 then
      { s with nonconformant_srgb_chromaticity := memcmp (edid.drop 0x19) srgb_chromaticity 10 }
    else s
  if rd edid 0x18 &&& 0x02 ≠ 0 then { s with has_preferred_timing := 1 } else s

/-- The condition under which the established-timings loop prints (and folds
into the observed ranges) entry `i` of `established_timings`. -/
def established_bit (edid : List Nat) (i : Nat) : Bool :=
  decide (rd edid (0x23 + i / 8) &&& (1 <<< (7 - i % 8)) ≠ 0)

/-- The indices of the rows of `established_timings` printed by the loop
`for (i = 0; i < 17; i++)`, in order. -/
def established_reported (edid : List Nat) : List Nat :=
  (List.range 17).filter (fun i => established_bit edid i)

/-- The established timings (bytes 0x23 to 0x25). -/
def main_established (edid : List Nat) (s : State) : State :=
  let s := (List.range 17).foldl (fun s i =>
    if established_bit edid i then
      let e := established_timings.getD i default
      observe e.refresh e.hor_freq_hz e.pixclk_khz s
    else s) s
  { s with has_640x480p60_est_timing := ((rd edid 0x23 &&& 0x20 : Nat) : Int) }

/-- The eight standard timings (bytes 0x26 to 0x35). -/
def main_standard (edid : List Nat) (s : State) : State :=
  (List.range 8).foldl (fun s i =>
    print_standard_timing (rd edid (0x26 + i * 2)) (rd edid (0x26 + i * 2 + 1)) s) s

/-- The statement `has_valid_detailed_blocks &= detailed_block(edid + off, 0);`. -/
def main_detailed_and (edid : List Nat) (off : Nat) (s : State) : Option State :=
  match detailed_block (edid.drop off) 0 s with
  | none => none
  | some r =>
    some { r.2 with has_valid_detailed_blocks := Int.land r.2.has_valid_detailed_blocks r.1 }

/-- The first descriptor slot and the preferred-timing adjustment that follows it. -/
def main_detailed_first (edid : List Nat) (s : State) : Option State :=
  match detailed_block (edid.drop 0x36) 0 s with
  | none => none
  | some r =>
    let s := { r.2 with has_valid_detailed_blocks := r.1 }
    some (if s.has_preferred_timing ≠ 0 ∧ s.did_detailed_timing = 0 then
      { s with has_preferred_timing := 0 } else s)

/-- The four descriptor slots of the base block. -/
def main_detailed (edid : List Nat) (s : State) : Option State :=
  (((main_detailed_first edid s).bind (main_detailed_and edid 0x48)).bind
    (main_detailed_and edid 0x5A)).bind (main_detailed_and edid 0x6C)

/-- The extension loop `for (edid_lines /= 8; edid_lines > 1; edid_lines--)`:
`n` blocks remain to be parsed and `k` is the index of the next one. -/
def main_extensions (edid : List Nat) (junk : Nat → Int) : Nat → Nat → State → Option State
  | 0, _, s => some s
  | n + 1, k, s =>
    match parse_extension (edid.drop (128 * k)) (junk k) s with
    | none => none
    | some r =>
      main_extensions edid junk n (k + 1)
        { r.2 with nonconformant_extension := r.2.nonconformant_extension + r.1 }

/-- Everything `main` does before the verdict: the base block, its checksum and
the extension blocks.  `edid_lines` is the number of 16-byte lines that
`extract_edid` returned in `edid`. -/
def main_decode (tm_year : Int) (edid : List Nat) (edid_lines : Int) (junk : Nat → Int) :
    Option State :=
  let s := main_date tm_year edid (main_vendor edid State.init)
  let r := main_version edid s
  let edid := r.1
  let s := main_standard edid (main_established edid (main_features edid (main_display edid r.2)))
  match main_detailed edid s with
  | none => none
  | some s =>
    let s := { s with has_valid_checksum := (do_checksum edid 128).ret }
    main_extensions edid junk (Int.tdiv edid_lines 8 - 1).toNat 1 s

/-! ## `main`: the verdict -/

/-- The condition of the EDID 1.3 rule. -/
def fails_one_point_three (s : State) : Bool :=
  decide (s.nonconformant_digital_display ≠ 0) ||
  decide (s.nonconformant_hf_vsdb_position ≠ 0) ||
  decide (s.nonconformant_srgb_chromaticity ≠ 0) ||
  decide (s.nonconformant_cea861_640x480 ≠ 0) ||
  decide (s.has_valid_string_termination = 0) ||
  decide (s.has_valid_descriptor_pad = 0) ||
  decide (s.has_name_descriptor = 0) ||
  decide (s.name_descriptor_terminated = 0) ||
  decide (s.has_preferred_timing = 0) ||
  decide (s.has_range_descriptor = 0)

/-- The condition of the EDID 1.2 rule. -/
def fails_one_point_two (s : State) : Bool :=
  decide (s.nonconformant_digital_display ≠ 0) ||
  (decide (s.has_name_descriptor ≠ 0) && decide (s.name_descriptor_terminated = 0))

/-- The revision-gated stage `if (claims_one_point_three) ... else if ...`. -/
def verdict_revision (s : State) : State :=
  if s.claims_one_point_three ≠ 0 then
    if fails_one_point_three s then { s with conformant := 0 } else s
  else if s.claims_one_point_two ≠ 0 then
    if fails_one_point_two s then { s with conformant := 0 } else s
  else if s.claims_one_point_oh ≠ 0 then
    if s.seen_non_detailed_descriptor ≠ 0 then { s with conformant := 0 } else s
  else s

/-- The condition of the observed-range stage. -/
def fails_range (s : State) : Bool :=
  decide (s.has_valid_range_descriptor ≠ 0) &&
  (decide (s.min_vert_freq_hz < s.mon_min_vert_freq_hz) ||
   decide (s.max_vert_freq_hz > s.mon_max_vert_freq_hz) ||
   decide (s.min_hor_freq_hz < s.mon_min_hor_freq_hz) ||
   decide (s.max_hor_freq_hz > s.mon_max_hor_freq_hz) ||
   decide (s.max_pixclk_khz > s.mon_max_pixclk_khz))

/-- The observed-range stage. -/
def verdict_range (s : State) : State :=
  if fails_range s then { s with conformant := 0 } else s

/-- The condition of the stage that applies to every revision. -/
def fails_always (s : State) : Bool :=
  decide (s.nonconformant_extension ≠ 0) ||
  decide (s.has_valid_checksum = 0) ||
  decide (s.has_valid_cvt = 0) ||
  decide (s.has_valid_year = 0) ||
  decide (s.has_valid_week = 0) ||
  (decide (s.has_cea861 ≠ 0) && decide (s.has_valid_serial_number ≠ 0) &&
    decide (s.has_valid_serial_string ≠ 0)) ||
  decide (s.has_valid_detailed_blocks = 0) ||
  decide (s.has_valid_dummy_block = 0) ||
  decide (s.has_valid_descriptor_ordering = 0) ||
  decide (s.has_valid_range_descriptor = 0) ||
  decide (s.manufacturer_name_well_formed = 0)

/-- The stage that applies to every revision. -/
def verdict_always (s : State) : State :=
  if fails_always s then { s with conformant := 0 } else s

/-- The three verdict stages in program order. -/
def main_verdict (s : State) : State :=
  verdict_always (verdict_range (verdict_revision s))

/-- The value of `return !conformant;`. -/
def main_return (s : State) : Int := lnot s.conformant

/-- The core of `main`, after `extract_edid` has delivered `edid` and
`edid_lines`: the exit status, or no result when a division by zero stops the
program. -/
def main (tm_year : Int) (edid : List Nat) (edid_lines : Int) (junk : Nat → Int) :
    Option Int :=
  (main_decode tm_year edid edid_lines junk).map (fun s => main_return (main_verdict s))


/-! ## Sample blocks -/

/-- A base block that declares EDID 1.3: vendor `ABC`, week 1 of 2010, an analog
display with the preferred-timing bit, the established timing 640x480@60, a
detailed timing 640x480 at 25.17 MHz, a range descriptor 50-75 Hz, 30-80 kHz,
140 MHz, the name `Test` terminated by a newline, and a dummy descriptor. -/
def sample_edid : List Nat :=
  [ 0x00, 0xff, 0xff, 0xff, 0xff, 0xff, 0xff, 0x00, 0x04, 0x43, 0x00, 0x00, 0x00, 0x00, 0x00, 0x00,
    0x01, 0x14, 0x01, 0x03, 0x00, 0x20, 0x18, 0x78, 0x0a, 0xee, 0x91, 0xa3, 0x54, 0x4c, 0x99, 0x26,
    0x0f, 0x50, 0x54, 0x20, 0x00, 0x00, 0x01, 0x01, 0x01, 0x01, 0x01, 0x01, 0x01, 0x01, 0x01, 0x01,
    0x01, 0x01, 0x01, 0x01, 0x01, 0x01, 0xd5, 0x09, 0x80, 0xa0, 0x20, 0xe0, 0x2d, 0x10, 0x10, 0x60,
    0xa2, 0x00, 0x40, 0xf0, 0x10, 0x00, 0x00, 0x18, 0x00, 0x00, 0x00, 0xfd, 0x00, 0x32, 0x4b, 0x1e,
    0x50, 0x0e, 0x00, 0x0a, 0x20, 0x20, 0x20, 0x20, 0x20, 0x20, 0x00, 0x00, 0x00, 0xfc, 0x00, 0x54,
    0x65, 0x73, 0x74, 0x0a, 0x20, 0x20, 0x20, 0x20, 0x20, 0x20, 0x20, 0x20, 0x00, 0x00, 0x00, 0x10,
    0x00, 0x00, 0x00, 0x00, 0x00, 0x00, 0x00, 0x00, 0x00, 0x00, 0x00, 0x00, 0x00, 0x00, 0x00, 0x6d ]

/-- The uninitialised return value of `parse_extension` taken as zero. -/
def junk_zero : Nat → Int := fun _ => 0

/-- The block `sample_edid` with the revision byte set to 5 (EDID 1.5) and a
checksum byte that is one above the value that makes the block sum to zero. -/
def sample_edid_rev5_off : List Nat :=
  [ 0x00, 0xff, 0xff, 0xff, 0xff, 0xff, 0xff, 0x00, 0x04, 0x43, 0x00, 0x00, 0x00, 0x00, 0x00, 0x00,
    0x01, 0x14, 0x01, 0x05, 0x00, 0x20, 0x18, 0x78, 0x0a, 0xee, 0x91, 0xa3, 0x54, 0x4c, 0x99, 0x26,
    0x0f, 0x50, 0x54, 0x20, 0x00, 0x00, 0x01, 0x01, 0x01, 0x01, 0x01, 0x01, 0x01, 0x01, 0x01, 0x01,
    0x01, 0x01, 0x01, 0x01, 0x01, 0x01, 0xd5, 0x09, 0x80, 0xa0, 0x20, 0xe0, 0x2d, 0x10, 0x10, 0x60,
    0xa2, 0x00, 0x40, 0xf0, 0x10, 0x00, 0x00, 0x18, 0x00, 0x00, 0x00, 0xfd, 0x00, 0x32, 0x4b, 0x1e,
    0x50, 0x0e, 0x00, 0x0a, 0x20, 0x20, 0x20, 0x20, 0x20, 0x20, 0x00, 0x00, 0x00, 0xfc, 0x00, 0x54,
    0x65, 0x73, 0x74, 0x0a, 0x20, 0x20, 0x20, 0x20, 0x20, 0x20, 0x20, 0x20, 0x00, 0x00, 0x00, 0x10,
    0x00, 0x00, 0x00, 0x00, 0x00, 0x00, 0x00, 0x00, 0x00, 0x00, 0x00, 0x00, 0x00, 0x00, 0x00, 0x6c ]


/-- An 18-byte range descriptor (tag 0xFD) whose minimum vertical rate 80 Hz
exceeds its maximum 60 Hz. -/
def sample_range_misordered : List Nat :=
  [0, 0, 0, 0xFD, 0, 80, 60, 30, 80, 14, 0, 0x0A, 0x20, 0x20, 0x20, 0x20, 0x20, 0x20]


/-- The block `sample_edid` with the week of manufacture set to 60 and the
checksum byte recomputed. -/
def sample_edid_week60 : List Nat :=
  [ 0x00, 0xff, 0xff, 0xff, 0xff, 0xff, 0xff, 0x00, 0x04, 0x43, 0x00, 0x00, 0x00, 0x00, 0x00, 0x00,
    0x3c, 0x14, 0x01, 0x03, 0x00, 0x20, 0x18, 0x78, 0x0a, 0xee, 0x91, 0xa3, 0x54, 0x4c, 0x99, 0x26,
    0x0f, 0x50, 0x54, 0x20, 0x00, 0x00, 0x01, 0x01, 0x01, 0x01, 0x01, 0x01, 0x01, 0x01, 0x01, 0x01,
    0x01, 0x01, 0x01, 0x01, 0x01, 0x01, 0xd5, 0x09, 0x80, 0xa0, 0x20, 0xe0, 0x2d, 0x10, 0x10, 0x60,
    0xa2, 0x00, 0x40, 0xf0, 0x10, 0x00, 0x00, 0x18, 0x00, 0x00, 0x00, 0xfd, 0x00, 0x32, 0x4b, 0x1e,
    0x50, 0x0e, 0x00, 0x0a, 0x20, 0x20, 0x20, 0x20, 0x20, 0x20, 0x00, 0x00, 0x00, 0xfc, 0x00, 0x54,
    0x65, 0x73, 0x74, 0x0a, 0x20, 0x20, 0x20, 0x20, 0x20, 0x20, 0x20, 0x20, 0x00, 0x00, 0x00, 0x10,
    0x00, 0x00, 0x00, 0x00, 0x00, 0x00, 0x00, 0x00, 0x00, 0x00, 0x00, 0x00, 0x00, 0x00, 0x00, 0x32 ]

/-! ## Views of the state used to state what a decode step leaves alone -/

/-- The claimed-revision flags, the flags that only extension blocks set, and the
verdict `conformant`. -/
def base_view (s : State) : (Int × Int × Int × Int) × (Int × Int × Int × Int) × Int :=
  ((s.claims_one_point_oh, s.claims_one_point_two, s.claims_one_point_three,
    s.claims_one_point_four),
   (s.nonconformant_extension, s.has_cea861, s.nonconformant_hf_vsdb_position,
    s.nonconformant_cea861_640x480),
   s.conformant)


/-- The block `sample_edid` with the newline that ends the monitor name replaced
by the byte 0x01 (neither space nor graphic) and the checksum byte recomputed. -/
def sample_edid_name_unterminated : List Nat :=
  [ 0x00, 0xff, 0xff, 0xff, 0xff, 0xff, 0xff, 0x00, 0x04, 0x43, 0x00, 0x00, 0x00, 0x00, 0x00, 0x00,
    0x01, 0x14, 0x01, 0x03, 0x00, 0x20, 0x18, 0x78, 0x0a, 0xee, 0x91, 0xa3, 0x54, 0x4c, 0x99, 0x26,
    0x0f, 0x50, 0x54, 0x20, 0x00, 0x00, 0x01, 0x01, 0x01, 0x01, 0x01, 0x01, 0x01, 0x01, 0x01, 0x01,
    0x01, 0x01, 0x01, 0x01, 0x01, 0x01, 0xd5, 0x09, 0x80, 0xa0, 0x20, 0xe0, 0x2d, 0x10, 0x10, 0x60,
    0xa2, 0x00, 0x40, 0xf0, 0x10, 0x00, 0x00, 0x18, 0x00, 0x00, 0x00, 0xfd, 0x00, 0x32, 0x4b, 0x1e,
    0x50, 0x0e, 0x00, 0x0a, 0x20, 0x20, 0x20, 0x20, 0x20, 0x20, 0x00, 0x00, 0x00, 0xfc, 0x00, 0x54,
    0x65, 0x73, 0x74, 0x01, 0x20, 0x20, 0x20, 0x20, 0x20, 0x20, 0x20, 0x20, 0x00, 0x00, 0x00, 0x10,
    0x00, 0x00, 0x00, 0x00, 0x00, 0x00, 0x00, 0x00, 0x00, 0x00, 0x00, 0x00, 0x00, 0x00, 0x00, 0x76 ]

/-- The static name buffer and the flag `name_descriptor_terminated`. -/
def name_view (s : State) : List Nat × Int := (s.name, s.name_descriptor_terminated)

/-- No newline has been accumulated in the name buffer and the name descriptor
has not been marked as terminated. -/
def name_unterminated (s : State) : Prop :=
  0x0a ∉ s.name ∧ s.name_descriptor_terminated = 0

/-- Everything that parsing the extension blocks leaves alone: all of the state
except the observed ranges, `did_detailed_timing`, `nonconformant_extension`,
the CEA and DisplayID flags and `last_block_was_hdmi_vsdb`. -/
def ext_frame (s : State) :
    (Int × Int × Int × Int) × (Int × Int × Int × Int × Int) ×
    (Int × Int × Int × Int × Int × Int × Int) × (Int × Int × Int × Int × Int × Int) ×
    (Int × Int × Int × Int × Int × Int) × (Int × Int × Int × Int × Int) × Int × List Nat :=
  ((s.claims_one_point_oh, s.claims_one_point_two, s.claims_one_point_three,
    s.claims_one_point_four),
   (s.nonconformant_digital_display, s.has_name_descriptor, s.name_descriptor_terminated,
    s.has_range_descriptor, s.has_preferred_timing),
   (s.has_valid_checksum, s.has_valid_cvt, s.has_valid_dummy_block, s.has_valid_serial_number,
    s.has_valid_serial_string, s.has_valid_week, s.has_valid_year),
   (s.has_valid_detailed_blocks, s.has_valid_descriptor_ordering, s.has_valid_descriptor_pad,
    s.has_valid_range_descriptor, s.has_valid_max_dotclock, s.has_valid_string_termination),
   (s.has_640x480p60_est_timing, s.manufacturer_name_well_formed,
    s.seen_non_detailed_descriptor, s.warning_excessive_dotclock_correction,
    s.warning_zero_preferred_refresh, s.nonconformant_srgb_chromaticity),
   (s.mon_min_hor_freq_hz, s.mon_max_hor_freq_hz, s.mon_min_vert_freq_hz,
    s.mon_max_vert_freq_hz, s.mon_max_pixclk_khz),
   s.conformant, s.name)

/-- The two variables behind the HDMI Forum position rule. -/
def hf_view (s : State) : Int × Int :=
  (s.last_block_was_hdmi_vsdb, s.nonconformant_hf_vsdb_position)


/-! ## Sequences of CEA data blocks -/

/-- The data block is a vendor-specific block (tag 3 in the top three bits). -/
def is_vendor_block (b : List Nat) : Prop := (rd b 0 &&& 0xe0) >>> 5 = 0x03

/-- The organizationally unique identifier of a vendor-specific block, bytes 1 to
3, least significant byte first. -/
def block_oui (b : List Nat) : Nat := (rd b 3 <<< 16) + (rd b 2 <<< 8) + rd b 1

/-- A vendor-specific block with the HDMI identifier 0x000C03. -/
def is_hdmi_vsdb (b : List Nat) : Prop := is_vendor_block b ∧ block_oui b = 0x000c03

/-- A vendor-specific block with the HDMI Forum identifier 0xC45DD8. -/
def is_hf_vsdb (b : List Nat) : Prop := is_vendor_block b ∧ block_oui b = 0xc45dd8

instance (b : List Nat) : Decidable (is_hdmi_vsdb b) := by
  unfold is_hdmi_vsdb is_vendor_block; infer_instance

instance (b : List Nat) : Decidable (is_hf_vsdb b) := by
  unfold is_hf_vsdb is_vendor_block; infer_instance

/-- The data blocks of a list handed to `cea_block` one after the other. -/
def cea_blocks (blocks : List (List Nat)) (s : State) : State :=
  blocks.foldl (fun s b => cea_block b s) s

/-- An audio block, an HDMI Forum block and an HDMI block, in this order. -/
def sample_cea_blocks : List (List Nat) :=
  [[0x23, 0x09, 0x07, 0x07],
   [0x68, 0xd8, 0x5d, 0xc4, 0x01, 0x78, 0x00, 0x00, 0x00],
   [0x65, 0x03, 0x0c, 0x00, 0x10, 0x00]]


/-! ## Bitfield decode framework -/

set_option linter.dupNamespace false in
/-- The C `struct value`. -/
structure value where
  value : Int
  description : String
deriving DecidableEq, Repr, Inhabited

/-- The C `struct field`; the array `values` carries its length `n_values`. -/
structure field where
  name : String
  start : Int
  end_ : Int
  values : List value
deriving DecidableEq, Repr, Inhabited

/-- One line printed by `decode_value`: `pre name: description (val)` when
`description` is present, `pre name: val` otherwise. -/
structure DecodeLine where
  pre : String
  name : String
  description : Option String
  val : Int
deriving DecidableEq, Repr

/-- The result of `int` arithmetic, reduced to 32 bits in two's complement. -/
def wrap32 (v : Int) : Int := (v + 2147483648) % 4294967296 - 2147483648

/-- The search loop of `decode_value`: the first entry whose value is `val`. -/
def decode_value_find : List value → Int → Option value
  | [], _ => none
  | v :: rest, val => if v.value = val then some v else decode_value_find rest val

/-- The function `decode_value(field, val, prefix)`. -/
def decode_value (f : field) (val : Int) (pre : String) : DecodeLine :=
  match decode_value_find f.values val with
  | none => { pre := pre, name := f.name, description := none, val := val }
  | some v => { pre := pre, name := f.name, description := some v.description, val := val }

/-- The body of the loop of `_decode` for one field.  The `int` results of
`1 << field_length` and of the subtraction are reduced to 32 bits (`wrap32`), and
`>>` on the signed `data` is the arithmetic shift. -/
def decode_field (f : field) (data : Int) (pre : String) : DecodeLine :=
  let field_length := f.end_ - f.start + 1
  let val : Int :=
    if field_length = 32 then data
    else Int.land (data >>> f.start.toNat) (wrap32 (wrap32 ((1 : Int) <<< field_length) - 1))
  decode_value f val pre

/-- The function `_decode(fields, n_fields, data, prefix)`: the lines printed, in order. -/
def _decode (fields : List field) (n_fields : Nat) (data : Int) (pre : String) :
    List DecodeLine :=
  (List.range n_fields).map (fun i => decode_field (fields.getD i default) data pre)

/-- The macro `decode(fields, data, prefix)`, which passes `ARRAY_SIZE(fields)`. -/
def decode (fields : List field) (data : Int) (pre : String) : List DecodeLine :=
  _decode fields fields.length data pre

/-- The table `vcdb_fields` of the video capability data block. -/
def vcdb_fields : List field :=
  [ field.mk "YCbCr quantization" 7 7
      [value.mk 0 "No Data", value.mk 1 "Selectable (via AVI YQ)"],
    field.mk "RGB quantization" 6 6
      [value.mk 0 "No Data", value.mk 1 "Selectable (via AVI Q)"],
    field.mk "PT scan behaviour" 4 5
      [value.mk 0 "No Data", value.mk 1 "Always Overscannned",
       value.mk 2 "Always Underscanned", value.mk 3 "Support both over- and underscan"],
    field.mk "IT scan behaviour" 2 3
      [value.mk 0 "IT video formats not supported", value.mk 1 "Always Overscannned",
       value.mk 2 "Always Underscanned", value.mk 3 "Support both over- and underscan"],
    field.mk "CE scan behaviour" 0 1
      [value.mk 0 "CE video formats not supported", value.mk 1 "Always Overscannned",
       value.mk 2 "Always Underscanned", value.mk 3 "Support both over- and underscan"] ]

/-- The line `cea_vcdb(x)` prints: `decode(vcdb_fields, x[2], "    ")`. -/
def cea_vcdb (x : List Nat) : List DecodeLine :=
  decode vcdb_fields (rd x 2 : Int) "    "

/-- The extraction the specification describes for one field: the whole word
when the field spans 32 bits, otherwise `(word >> start) & (2^(end-start+1) - 1)`. -/
def spec_raw (f : field) (word : Int) : Int :=
  if f.end_ - f.start + 1 = 32 then word
  else Int.land (word >>> f.start.toNat) (2 ^ (f.end_ - f.start + 1).toNat - 1)

/-- The entry the specification describes for one field: the raw value, labelled
with the description of the first table entry whose value equals it, if any. -/
def spec_line (f : field) (word : Int) (pre : String) : DecodeLine :=
  { pre := pre, name := f.name,
    description := (f.values.find? (fun v => decide (v.value = spec_raw f word))).map
      (fun v => v.description),
    val := spec_raw f word }


/-! ## Strings and stop points of `extract_string` -/

/-- The value of the loop index `i` when `extract_string` returns: the index of
the byte that makes it return early, or `len` when the loop runs to its end.
The arguments are the remaining indices and `seen_newline`. -/
def extract_string_stop (x : List Nat) (len : Nat) : List Nat → Int → Nat
  | [], _ => len
  | i :: rest, seen_newline =>
    if isgraph (rd x i) then extract_string_stop x len rest seen_newline
    else if seen_newline = 0 then
      if rd x i = 0x0a then extract_string_stop x len rest 1
      else if rd x i = 0x20 then extract_string_stop x len rest seen_newline
      else i
    else
      if rd x i ≠ 0x20 then i
      else extract_string_stop x len rest seen_newline

/-- The C string held in a buffer: the bytes before the first NUL. -/
def c_string (buf : List Nat) : List Nat := buf.takeWhile (fun b => b ≠ 0)

/-- The bytes `A`, newline, `B`: a graphic byte follows the newline. -/
def sample_string_after_newline : List Nat := [0x41, 0x0a, 0x42]

/-- The bytes `A`, space, `B`, newline: the first non-graphic byte is a space. -/
def sample_string_with_space : List Nat := [0x41, 0x20, 0x42, 0x0a]

/-- The bytes `A`, `B`, 0x01, `C`: the first non-graphic byte is 0x01. -/
def sample_string_control : List Nat := [0x41, 0x42, 0x01, 0x43]




/-- The flag `seen_non_detailed_descriptor`. -/
def seen_view (s : State) : Int := s.seen_non_detailed_descriptor

/-- The offsets of the four descriptor slots of the base block. -/
def descriptor_slots : List Nat := [0x36, 0x48, 0x5A, 0x6C]

/-- The descriptor slot at `off` is a monitor descriptor: bytes 0 and 1 are zero. -/
def is_monitor_slot (edid : List Nat) (off : Nat) : Prop :=
  rd edid off = 0 ∧ rd edid (off + 1) = 0

instance (edid : List Nat) (off : Nat) : Decidable (is_monitor_slot edid off) := by
  unfold is_monitor_slot; infer_instance

/-- The block `sample_edid` with revision byte 1 and the checksum recomputed. -/
def sample_edid_rev1 : List Nat :=
  [ 0x00, 0xff, 0xff, 0xff, 0xff, 0xff, 0xff, 0x00, 0x04, 0x43, 0x00, 0x00, 0x00, 0x00, 0x00, 0x00,
    0x01, 0x14, 0x01, 0x01, 0x00, 0x20, 0x18, 0x78, 0x0a, 0xee, 0x91, 0xa3, 0x54, 0x4c, 0x99, 0x26,
    0x0f, 0x50, 0x54, 0x20, 0x00, 0x00, 0x01, 0x01, 0x01, 0x01, 0x01, 0x01, 0x01, 0x01, 0x01, 0x01,
    0x01, 0x01, 0x01, 0x01, 0x01, 0x01, 0xd5, 0x09, 0x80, 0xa0, 0x20, 0xe0, 0x2d, 0x10, 0x10, 0x60,
    0xa2, 0x00, 0x40, 0xf0, 0x10, 0x00, 0x00, 0x18, 0x00, 0x00, 0x00, 0xfd, 0x00, 0x32, 0x4b, 0x1e,
    0x50, 0x0e, 0x00, 0x0a, 0x20, 0x20, 0x20, 0x20, 0x20, 0x20, 0x00, 0x00, 0x00, 0xfc, 0x00, 0x54,
    0x65, 0x73, 0x74, 0x0a, 0x20, 0x20, 0x20, 0x20, 0x20, 0x20, 0x20, 0x20, 0x00, 0x00, 0x00, 0x10,
    0x00, 0x00, 0x00, 0x00, 0x00, 0x00, 0x00, 0x00, 0x00, 0x00, 0x00, 0x00, 0x00, 0x00, 0x00, 0x6f ]

/-- The block `sample_edid` with revision byte 2 and the checksum recomputed. -/
def sample_edid_rev2 : List Nat :=
  [ 0x00, 0xff, 0xff, 0xff, 0xff, 0xff, 0xff, 0x00, 0x04, 0x43, 0x00, 0x00, 0x00, 0x00, 0x00, 0x00,
    0x01, 0x14, 0x01, 0x02, 0x00, 0x20, 0x18, 0x78, 0x0a, 0xee, 0x91, 0xa3, 0x54, 0x4c, 0x99, 0x26,
    0x0f, 0x50, 0x54, 0x20, 0x00, 0x00, 0x01, 0x01, 0x01, 0x01, 0x01, 0x01, 0x01, 0x01, 0x01, 0x01,
    0x01, 0x01, 0x01, 0x01, 0x01, 0x01, 0xd5, 0x09, 0x80, 0xa0, 0x20, 0xe0, 0x2d, 0x10, 0x10, 0x60,
    0xa2, 0x00, 0x40, 0xf0, 0x10, 0x00, 0x00, 0x18, 0x00, 0x00, 0x00, 0xfd, 0x00, 0x32, 0x4b, 0x1e,
    0x50, 0x0e, 0x00, 0x0a, 0x20, 0x20, 0x20, 0x20, 0x20, 0x20, 0x00, 0x00, 0x00, 0xfc, 0x00, 0x54,
    0x65, 0x73, 0x74, 0x0a, 0x20, 0x20, 0x20, 0x20, 0x20, 0x20, 0x20, 0x20, 0x00, 0x00, 0x00, 0x10,
    0x00, 0x00, 0x00, 0x00, 0x00, 0x00, 0x00, 0x00, 0x00, 0x00, 0x00, 0x00, 0x00, 0x00, 0x00, 0x6e ]




/-- The block `sample_edid` announcing one extension, followed by a CEA extension
block (tag 0x02, version 3, no data blocks, no detailed timings) whose checksum
byte is 0x00 where 0xf7 would make the block sum to zero. -/
def sample_edid_cea_bad_checksum : List Nat :=
  [ 0x00, 0xff, 0xff, 0xff, 0xff, 0xff, 0xff, 0x00, 0x04, 0x43, 0x00, 0x00, 0x00, 0x00, 0x00, 0x00,
    0x01, 0x14, 0x01, 0x03, 0x00, 0x20, 0x18, 0x78, 0x0a, 0xee, 0x91, 0xa3, 0x54, 0x4c, 0x99, 0x26,
    0x0f, 0x50, 0x54, 0x20, 0x00, 0x00, 0x01, 0x01, 0x01, 0x01, 0x01, 0x01, 0x01, 0x01, 0x01, 0x01,
    0x01, 0x01, 0x01, 0x01, 0x01, 0x01, 0xd5, 0x09, 0x80, 0xa0, 0x20, 0xe0, 0x2d, 0x10, 0x10, 0x60,
    0xa2, 0x00, 0x40, 0xf0, 0x10, 0x00, 0x00, 0x18, 0x00, 0x00, 0x00, 0xfd, 0x00, 0x32, 0x4b, 0x1e,
    0x50, 0x0e, 0x00, 0x0a, 0x20, 0x20, 0x20, 0x20, 0x20, 0x20, 0x00, 0x00, 0x00, 0xfc, 0x00, 0x54,
    0x65, 0x73, 0x74, 0x0a, 0x20, 0x20, 0x20, 0x20, 0x20, 0x20, 0x20, 0x20, 0x00, 0x00, 0x00, 0x10,
    0x00, 0x00, 0x00, 0x00, 0x00, 0x00, 0x00, 0x00, 0x00, 0x00, 0x00, 0x00, 0x00, 0x00, 0x01, 0x6c,
    0x02, 0x03, 0x04, 0x00, 0x00, 0x00, 0x00, 0x00, 0x00, 0x00, 0x00, 0x00, 0x00, 0x00, 0x00, 0x00,
    0x00, 0x00, 0x00, 0x00, 0x00, 0x00, 0x00, 0x00, 0x00, 0x00, 0x00, 0x00, 0x00, 0x00, 0x00, 0x00,
    0x00, 0x00, 0x00, 0x00, 0x00, 0x00, 0x00, 0x00, 0x00, 0x00, 0x00, 0x00, 0x00, 0x00, 0x00, 0x00,
    0x00, 0x00, 0x00, 0x00, 0x00, 0x00, 0x00, 0x00, 0x00, 0x00, 0x00, 0x00, 0x00, 0x00, 0x00, 0x00,
    0x00, 0x00, 0x00, 0x00, 0x00, 0x00, 0x00, 0x00, 0x00, 0x00, 0x00, 0x00, 0x00, 0x00, 0x00, 0x00,
    0x00, 0x00, 0x00, 0x00, 0x00, 0x00, 0x00, 0x00, 0x00, 0x00, 0x00, 0x00, 0x00, 0x00, 0x00, 0x00,
    0x00, 0x00, 0x00, 0x00, 0x00, 0x00, 0x00, 0x00, 0x00, 0x00, 0x00, 0x00, 0x00, 0x00, 0x00, 0x00,
    0x00, 0x00, 0x00, 0x00, 0x00, 0x00, 0x00, 0x00, 0x00, 0x00, 0x00, 0x00, 0x00, 0x00, 0x00, 0x00 ]

/-- An EDID 1.2 base block without a range descriptor: `sample_edid` with
revision byte 2 and a dummy descriptor in place of the range descriptor. -/
def sample_edid_no_range : List Nat :=
  [ 0x00, 0xff, 0xff, 0xff, 0xff, 0xff, 0xff, 0x00, 0x04, 0x43, 0x00, 0x00, 0x00, 0x00, 0x00, 0x00,
    0x01, 0x14, 0x01, 0x02, 0x00, 0x20, 0x18, 0x78, 0x0a, 0xee, 0x91, 0xa3, 0x54, 0x4c, 0x99, 0x26,
    0x0f, 0x50, 0x54, 0x20, 0x00, 0x00, 0x01, 0x01, 0x01, 0x01, 0x01, 0x01, 0x01, 0x01, 0x01, 0x01,
    0x01, 0x01, 0x01, 0x01, 0x01, 0x01, 0xd5, 0x09, 0x80, 0xa0, 0x20, 0xe0, 0x2d, 0x10, 0x10, 0x60,
    0xa2, 0x00, 0x40, 0xf0, 0x10, 0x00, 0x00, 0x18, 0x00, 0x00, 0x00, 0x10, 0x00, 0x00, 0x00, 0x00,
    0x00, 0x00, 0x00, 0x00, 0x00, 0x00, 0x00, 0x00, 0x00, 0x00, 0x00, 0x00, 0x00, 0xfc, 0x00, 0x54,
    0x65, 0x73, 0x74, 0x0a, 0x20, 0x20, 0x20, 0x20, 0x20, 0x20, 0x20, 0x20, 0x00, 0x00, 0x00, 0x10,
    0x00, 0x00, 0x00, 0x00, 0x00, 0x00, 0x00, 0x00, 0x00, 0x00, 0x00, 0x00, 0x00, 0x00, 0x00, 0x1e ]

/-- The block `sample_edid` with the first standard-timing pair (bytes 0x26 and
0x27) replaced by `(0x00, 0x40)` and the checksum recomputed. -/
def sample_edid_std_zero : List Nat :=
  [ 0x00, 0xff, 0xff, 0xff, 0xff, 0xff, 0xff, 0x00, 0x04, 0x43, 0x00, 0x00, 0x00, 0x00, 0x00, 0x00,
    0x01, 0x14, 0x01, 0x03, 0x00, 0x20, 0x18, 0x78, 0x0a, 0xee, 0x91, 0xa3, 0x54, 0x4c, 0x99, 0x26,
    0x0f, 0x50, 0x54, 0x20, 0x00, 0x00, 0x00, 0x40, 0x01, 0x01, 0x01, 0x01, 0x01, 0x01, 0x01, 0x01,
    0x01, 0x01, 0x01, 0x01, 0x01, 0x01, 0xd5, 0x09, 0x80, 0xa0, 0x20, 0xe0, 0x2d, 0x10, 0x10, 0x60,
    0xa2, 0x00, 0x40, 0xf0, 0x10, 0x00, 0x00, 0x18, 0x00, 0x00, 0x00, 0xfd, 0x00, 0x32, 0x4b, 0x1e,
    0x50, 0x0e, 0x00, 0x0a, 0x20, 0x20, 0x20, 0x20, 0x20, 0x20, 0x00, 0x00, 0x00, 0xfc, 0x00, 0x54,
    0x65, 0x73, 0x74, 0x0a, 0x20, 0x20, 0x20, 0x20, 0x20, 0x20, 0x20, 0x20, 0x00, 0x00, 0x00, 0x10,
    0x00, 0x00, 0x00, 0x00, 0x00, 0x00, 0x00, 0x00, 0x00, 0x00, 0x00, 0x00, 0x00, 0x00, 0x00, 0x2f ]


/-- The variables behind the maximum dot clock of the range descriptor. -/
def dot_view (s : State) : Int × Int × Int :=
  (s.claims_one_point_four, s.has_valid_max_dotclock, s.mon_max_pixclk_khz)

/-- A range descriptor 50-75 Hz, 30-80 kHz whose byte 9 (maximum dot clock) is 0. -/
def sample_range_no_dotclock : List Nat :=
  [0x00, 0x00, 0x00, 0xfd, 0x00, 50, 75, 30, 80, 0x00, 0x00, 0x0a, 0x20, 0x20, 0x20, 0x20,
   0x20, 0x20]

/-- The initial state with the four claimed-revision flags of EDID 1.4. -/
def state_one_point_four : State :=
  { State.init with claims_one_point_oh := 1, claims_one_point_two := 1,
                    claims_one_point_three := 1, claims_one_point_four := 1 }


/-- The flags set from the identification bytes of the base block: week, year and
manufacturer name. -/
def id_view (s : State) : Int × Int × Int :=
  (s.has_valid_week, s.has_valid_year, s.manufacturer_name_well_formed)

/-- The block `sample_edid` with week byte 55 and the checksum recomputed. -/
def sample_edid_week55 : List Nat :=
  [ 0x00, 0xff, 0xff, 0xff, 0xff, 0xff, 0xff, 0x00, 0x04, 0x43, 0x00, 0x00, 0x00, 0x00, 0x00, 0x00,
    0x37, 0x14, 0x01, 0x03, 0x00, 0x20, 0x18, 0x78, 0x0a, 0xee, 0x91, 0xa3, 0x54, 0x4c, 0x99, 0x26,
    0x0f, 0x50, 0x54, 0x20, 0x00, 0x00, 0x01, 0x01, 0x01, 0x01, 0x01, 0x01, 0x01, 0x01, 0x01, 0x01,
    0x01, 0x01, 0x01, 0x01, 0x01, 0x01, 0xd5, 0x09, 0x80, 0xa0, 0x20, 0xe0, 0x2d, 0x10, 0x10, 0x60,
    0xa2, 0x00, 0x40, 0xf0, 0x10, 0x00, 0x00, 0x18, 0x00, 0x00, 0x00, 0xfd, 0x00, 0x32, 0x4b, 0x1e,
    0x50, 0x0e, 0x00, 0x0a, 0x20, 0x20, 0x20, 0x20, 0x20, 0x20, 0x00, 0x00, 0x00, 0xfc, 0x00, 0x54,
    0x65, 0x73, 0x74, 0x0a, 0x20, 0x20, 0x20, 0x20, 0x20, 0x20, 0x20, 0x20, 0x00, 0x00, 0x00, 0x10,
    0x00, 0x00, 0x00, 0x00, 0x00, 0x00, 0x00, 0x00, 0x00, 0x00, 0x00, 0x00, 0x00, 0x00, 0x00, 0x37 ]

/-- The claimed-revision flags `(claims_one_point_oh, claims_one_point_two,
claims_one_point_three, claims_one_point_four)` written as ordered comparisons
of the revision byte `r`, for the major version byte `major`. -/
def claims_by_comparison (major r : Nat) : Int × Int × Int × Int :=
  if major = 1 then (1, b2i (decide (r ≥ 2)), b2i (decide (r ≥ 3)), b2i (decide (r ≥ 4)))
  else (0, 0, 0, 0)

/-- The four claimed-revision flags of a state. -/
def claims_view (s : State) : Int × Int × Int × Int :=
  (s.claims_one_point_oh, s.claims_one_point_two, s.claims_one_point_three,
   s.claims_one_point_four)

/-- The two vendor bytes that hold the letters numbered `a`, `b`, `c` (1 for `A`
to 26 for `Z`) in the packed layout: five bits each, `a` in bits 6-2 of the first
byte, `b` across the low two bits of the first byte and the top three bits of the
second, `c` in the low five bits of the second byte. -/
def pack_manufacturer (a b c : Nat) : List Nat :=
  [a * 4 + b / 8, (b % 8) * 32 + c]


/-- Bits 6-2 of the first vendor byte: the number of the first letter. -/
def letter1 (x0 : Nat) : Nat := x0 / 4 % 32

/-- The low two bits of the first vendor byte followed by the top three bits of
the second: the number of the second letter. -/
def letter2 (x0 x1 : Nat) : Nat := x0 % 4 * 8 + x1 / 32

/-- The low five bits of the second vendor byte: the number of the third letter. -/
def letter3 (x1 : Nat) : Nat := x1 % 32

/-- The three letter numbers of a pair of vendor bytes all lie in 1..26. -/
def letters_in_range (x0 x1 : Nat) : Prop :=
  (1 ≤ letter1 x0 ∧ letter1 x0 ≤ 26) ∧ (1 ≤ letter2 x0 x1 ∧ letter2 x0 x1 ≤ 26) ∧
  (1 ≤ letter3 x1 ∧ letter3 x1 ≤ 26)

instance (x0 x1 : Nat) : Decidable (letters_in_range x0 x1) := by
  unfold letters_in_range; infer_instance


/-- The offsets of the data blocks that a walk from offset `i` visits below the
detailed-descriptor offset `d`: `i`, then `i + (x[i] & 0x1f) + 1`, and so on while
the offset is below `d`; the first argument bounds the number of blocks. -/
def cea_walk (x : List Nat) (d : Nat) : Nat → Nat → List Nat
  | 0, _ => []
  | fuel + 1, i =>
    if i < d then i :: cea_walk x d fuel (i + ((rd x i &&& 0x1f) + 1)) else []

/-- A CEA extension block with revision byte 4, detailed-descriptor offset 6 and
one video data block at offset 4 that lists VIC 1. -/
def sample_cea_rev4 : List Nat :=
  [ 0x02, 0x04, 0x06, 0x00, 0x41, 0x01, 0x00, 0x00, 0x00, 0x00, 0x00, 0x00, 0x00, 0x00, 0x00, 0x00,
    0x00, 0x00, 0x00, 0x00, 0x00, 0x00, 0x00, 0x00, 0x00, 0x00, 0x00, 0x00, 0x00, 0x00, 0x00, 0x00,
    0x00, 0x00, 0x00, 0x00, 0x00, 0x00, 0x00, 0x00, 0x00, 0x00, 0x00, 0x00, 0x00, 0x00, 0x00, 0x00,
    0x00, 0x00, 0x00, 0x00, 0x00, 0x00, 0x00, 0x00, 0x00, 0x00, 0x00, 0x00, 0x00, 0x00, 0x00, 0x00,
    0x00, 0x00, 0x00, 0x00, 0x00, 0x00, 0x00, 0x00, 0x00, 0x00, 0x00, 0x00, 0x00, 0x00, 0x00, 0x00,
    0x00, 0x00, 0x00, 0x00, 0x00, 0x00, 0x00, 0x00, 0x00, 0x00, 0x00, 0x00, 0x00, 0x00, 0x00, 0x00,
    0x00, 0x00, 0x00, 0x00, 0x00, 0x00, 0x00, 0x00, 0x00, 0x00, 0x00, 0x00, 0x00, 0x00, 0x00, 0x00,
    0x00, 0x00, 0x00, 0x00, 0x00, 0x00, 0x00, 0x00, 0x00, 0x00, 0x00, 0x00, 0x00, 0x00, 0x00, 0xb2 ]

/-- The block `sample_cea_rev4` with revision byte 3. -/
def sample_cea_rev3 : List Nat :=
  [ 0x02, 0x03, 0x06, 0x00, 0x41, 0x01, 0x00, 0x00, 0x00, 0x00, 0x00, 0x00, 0x00, 0x00, 0x00, 0x00,
    0x00, 0x00, 0x00, 0x00, 0x00, 0x00, 0x00, 0x00, 0x00, 0x00, 0x00, 0x00, 0x00, 0x00, 0x00, 0x00,
    0x00, 0x00, 0x00, 0x00, 0x00, 0x00, 0x00, 0x00, 0x00, 0x00, 0x00, 0x00, 0x00, 0x00, 0x00, 0x00,
    0x00, 0x00, 0x00, 0x00, 0x00, 0x00, 0x00, 0x00, 0x00, 0x00, 0x00, 0x00, 0x00, 0x00, 0x00, 0x00,
    0x00, 0x00, 0x00, 0x00, 0x00, 0x00, 0x00, 0x00, 0x00, 0x00, 0x00, 0x00, 0x00, 0x00, 0x00, 0x00,
    0x00, 0x00, 0x00, 0x00, 0x00, 0x00, 0x00, 0x00, 0x00, 0x00, 0x00, 0x00, 0x00, 0x00, 0x00, 0x00,
    0x00, 0x00, 0x00, 0x00, 0x00, 0x00, 0x00, 0x00, 0x00, 0x00, 0x00, 0x00, 0x00, 0x00, 0x00, 0x00,
    0x00, 0x00, 0x00, 0x00, 0x00, 0x00, 0x00, 0x00, 0x00, 0x00, 0x00, 0x00, 0x00, 0x00, 0x00, 0xb3 ]

/-- The table `colorimetry_map`. -/
def colorimetry_map : List String :=
  ["xvYCC601", "xvYCC709", "sYCC601", "AdobeYCC601", "AdobeRGB", "BT2020cYCC", "BT2020YCC",
   "BT2020RGB"]

/-- The function `cea_colorimetry_block(x)`: the names printed, in order. -/
def cea_colorimetry_block (x : List Nat) : List String :=
  let length := rd x 0 &&& 0x1f
  if length ≥ 3 then
    (List.range colorimetry_map.length).filterMap (fun i =>
      if rd x 2 >>> i ≠ 0 then some (colorimetry_map.getD i "") else none)
  else []

/-- A colorimetry data block (extended tag 0x05, length 3) whose byte 2 is 0x02:
only bit 1 is set. -/
def sample_colorimetry_block : List Nat := [0xe3, 0x05, 0x02, 0x00]


/-- The native flag of a short video descriptor as the specification words it:
set exactly for the bytes 129 to 192. -/
def svd_native (svd : Nat) : Bool := decide (129 ≤ svd ∧ svd ≤ 192)

/-- The resolved VIC of a short video descriptor as the specification words it:
`svd - 128` for a native byte, `svd` itself for every other byte. -/
def svd_vic (svd : Nat) : Nat := if 129 ≤ svd ∧ svd ≤ 192 then svd - 128 else svd


/-- The condition under which the revision-gated stage assigns `conformant = 0`:
the rule of the newest claimed revision. -/
def fails_revision (s : State) : Bool :=
  if s.claims_one_point_three ≠ 0 then fails_one_point_three s
  else if s.claims_one_point_two ≠ 0 then fails_one_point_two s
  else if s.claims_one_point_oh ≠ 0 then decide (s.seen_non_detailed_descriptor ≠ 0)
  else false


/-- The variables `did_detailed_timing` and `has_valid_descriptor_ordering`, which
only the numeric-timing path of `detailed_block` writes. -/
def slot_view (s : State) : Int × Int :=
  (s.did_detailed_timing, s.has_valid_descriptor_ordering)

/-- The horizontal total `ha + hbl` of a detailed timing, from the 12-bit fields
in bytes 2 to 4. -/
def timing_h_total (x : List Nat) : Int :=
  ((rd x 2 + ((rd x 4 &&& 0xF0) <<< 4) : Nat) : Int) +
    ((rd x 3 + ((rd x 4 &&& 0x0F) <<< 8) : Nat) : Int)

/-- The vertical total `va + vbl` of a detailed timing, from the 12-bit fields in
bytes 5 to 7. -/
def timing_v_total (x : List Nat) : Int :=
  ((rd x 5 + ((rd x 7 &&& 0xF0) <<< 4) : Nat) : Int) +
    ((rd x 6 + ((rd x 7 &&& 0x0F) <<< 8) : Nat) : Int)

/-- The pixel clock `pixclk_khz = (x[0] + (x[1] << 8)) * 10` of a detailed timing. -/
def timing_pixclk_khz (x : List Nat) : Int := ((rd x 0 + (rd x 1 <<< 8)) * 10 : Nat)

/-- The condition under which `detailed_cvt_descriptor(x, first)` returns 1. -/
def cvt_code_valid (x : List Nat) (first : Int) : Prop :=
  (first = 0 ∧ rd x 0 = 0 ∧ rd x 1 = 0 ∧ rd x 2 = 0) ∨
  (rd x 1 &&& 0x03 = 0 ∧ rd x 2 &&& 0x80 = 0 ∧ rd x 2 &&& 0x1f ≠ 0)

instance (x : List Nat) (first : Int) : Decidable (cvt_code_valid x first) := by
  unfold cvt_code_valid; infer_instance

/-- A descriptor slot on the numeric-timing path (byte 0 is 1) whose bytes 2 to 7
are all zero, so that `ha + hbl` and `va + vbl` are both 0. -/
def sample_slot_zero_divisor : List Nat :=
  [0x01, 0x00, 0x00, 0x00, 0x00, 0x00, 0x00, 0x00, 0x00, 0x00, 0x00, 0x00, 0x00, 0x00, 0x00,
   0x00, 0x00, 0x00]

/-- The block `sample_edid` with `sample_slot_zero_divisor` as its first
descriptor slot and the checksum recomputed. -/
def sample_edid_zero_divisor : List Nat :=
  [ 0x00, 0xff, 0xff, 0xff, 0xff, 0xff, 0xff, 0x00, 0x04, 0x43, 0x00, 0x00, 0x00, 0x00, 0x00, 0x00,
    0x01, 0x14, 0x01, 0x03, 0x00, 0x20, 0x18, 0x78, 0x0a, 0xee, 0x91, 0xa3, 0x54, 0x4c, 0x99, 0x26,
    0x0f, 0x50, 0x54, 0x20, 0x00, 0x00, 0x01, 0x01, 0x01, 0x01, 0x01, 0x01, 0x01, 0x01, 0x01, 0x01,
    0x01, 0x01, 0x01, 0x01, 0x01, 0x01, 0x01, 0x00, 0x00, 0x00, 0x00, 0x00, 0x00, 0x00, 0x00, 0x00,
    0x00, 0x00, 0x00, 0x00, 0x00, 0x00, 0x00, 0x00, 0x00, 0x00, 0x00, 0xfd, 0x00, 0x32, 0x4b, 0x1e,
    0x50, 0x0e, 0x00, 0x0a, 0x20, 0x20, 0x20, 0x20, 0x20, 0x20, 0x00, 0x00, 0x00, 0xfc, 0x00, 0x54,
    0x65, 0x73, 0x74, 0x0a, 0x20, 0x20, 0x20, 0x20, 0x20, 0x20, 0x20, 0x20, 0x00, 0x00, 0x00, 0x10,
    0x00, 0x00, 0x00, 0x00, 0x00, 0x00, 0x00, 0x00, 0x00, 0x00, 0x00, 0x00, 0x00, 0x00, 0x00, 0x11 ]


/-- The pairs (earlier slot, later slot) of the four descriptor slots of the base
block. -/
def slot_pairs : List (Nat × Nat) :=
  [(0x36, 0x48), (0x36, 0x5A), (0x36, 0x6C), (0x48, 0x5A), (0x48, 0x6C), (0x5A, 0x6C)]

/-- The block `sample_edid` with its first two descriptor slots exchanged: the
range descriptor comes first and the numeric timing second. -/
def sample_edid_misordered : List Nat :=
  [ 0x00, 0xff, 0xff, 0xff, 0xff, 0xff, 0xff, 0x00, 0x04, 0x43, 0x00, 0x00, 0x00, 0x00, 0x00, 0x00,
    0x01, 0x14, 0x01, 0x03, 0x00, 0x20, 0x18, 0x78, 0x0a, 0xee, 0x91, 0xa3, 0x54, 0x4c, 0x99, 0x26,
    0x0f, 0x50, 0x54, 0x20, 0x00, 0x00, 0x01, 0x01, 0x01, 0x01, 0x01, 0x01, 0x01, 0x01, 0x01, 0x01,
    0x01, 0x01, 0x01, 0x01, 0x01, 0x01, 0x00, 0x00, 0x00, 0xfd, 0x00, 0x32, 0x4b, 0x1e, 0x50, 0x0e,
    0x00, 0x0a, 0x20, 0x20, 0x20, 0x20, 0x20, 0x20, 0xd5, 0x09, 0x80, 0xa0, 0x20, 0xe0, 0x2d, 0x10,
    0x10, 0x60, 0xa2, 0x00, 0x40, 0xf0, 0x10, 0x00, 0x00, 0x18, 0x00, 0x00, 0x00, 0xfc, 0x00, 0x54,
    0x65, 0x73, 0x74, 0x0a, 0x20, 0x20, 0x20, 0x20, 0x20, 0x20, 0x20, 0x20, 0x00, 0x00, 0x00, 0x10,
    0x00, 0x00, 0x00, 0x00, 0x00, 0x00, 0x00, 0x00, 0x00, 0x00, 0x00, 0x00, 0x00, 0x00, 0x00, 0x6d ]


/-- A DisplayID extension block with declared payload length 0 whose bytes 1 to 5
sum to 0 modulo 256. -/
def sample_displayid : List Nat :=
  [ 0x70, 0x12, 0x00, 0x00, 0x00, 0xee, 0x00, 0x00, 0x00, 0x00, 0x00, 0x00, 0x00, 0x00, 0x00, 0x00,
    0x00, 0x00, 0x00, 0x00, 0x00, 0x00, 0x00, 0x00, 0x00, 0x00, 0x00, 0x00, 0x00, 0x00, 0x00, 0x00,
    0x00, 0x00, 0x00, 0x00, 0x00, 0x00, 0x00, 0x00, 0x00, 0x00, 0x00, 0x00, 0x00, 0x00, 0x00, 0x00,
    0x00, 0x00, 0x00, 0x00, 0x00, 0x00, 0x00, 0x00, 0x00, 0x00, 0x00, 0x00, 0x00, 0x00, 0x00, 0x00,
    0x00, 0x00, 0x00, 0x00, 0x00, 0x00, 0x00, 0x00, 0x00, 0x00, 0x00, 0x00, 0x00, 0x00, 0x00, 0x00,
    0x00, 0x00, 0x00, 0x00, 0x00, 0x00, 0x00, 0x00, 0x00, 0x00, 0x00, 0x00, 0x00, 0x00, 0x00, 0x00,
    0x00, 0x00, 0x00, 0x00, 0x00, 0x00, 0x00, 0x00, 0x00, 0x00, 0x00, 0x00, 0x00, 0x00, 0x00, 0x00,
    0x00, 0x00, 0x00, 0x00, 0x00, 0x00, 0x00, 0x00, 0x00, 0x00, 0x00, 0x00, 0x00, 0x00, 0x00, 0x00 ]

/-- A DisplayID extension block with declared payload length 0 whose bytes 1 to 4
sum to 0 modulo 256 and whose byte 5 is 1. -/
def sample_displayid_short_sum : List Nat :=
  [ 0x70, 0x12, 0x00, 0x00, 0xee, 0x01, 0x00, 0x00, 0x00, 0x00, 0x00, 0x00, 0x00, 0x00, 0x00, 0x00,
    0x00, 0x00, 0x00, 0x00, 0x00, 0x00, 0x00, 0x00, 0x00, 0x00, 0x00, 0x00, 0x00, 0x00, 0x00, 0x00,
    0x00, 0x00, 0x00, 0x00, 0x00, 0x00, 0x00, 0x00, 0x00, 0x00, 0x00, 0x00, 0x00, 0x00, 0x00, 0x00,
    0x00, 0x00, 0x00, 0x00, 0x00, 0x00, 0x00, 0x00, 0x00, 0x00, 0x00, 0x00, 0x00, 0x00, 0x00, 0x00,
    0x00, 0x00, 0x00, 0x00, 0x00, 0x00, 0x00, 0x00, 0x00, 0x00, 0x00, 0x00, 0x00, 0x00, 0x00, 0x00,
    0x00, 0x00, 0x00, 0x00, 0x00, 0x00, 0x00, 0x00, 0x00, 0x00, 0x00, 0x00, 0x00, 0x00, 0x00, 0x00,
    0x00, 0x00, 0x00, 0x00, 0x00, 0x00, 0x00, 0x00, 0x00, 0x00, 0x00, 0x00, 0x00, 0x00, 0x00, 0x00,
    0x00, 0x00, 0x00, 0x00, 0x00, 0x00, 0x00, 0x00, 0x00, 0x00, 0x00, 0x00, 0x00, 0x00, 0x00, 0x00 ]

/-- One pass of the extension loop of `main` on block `k`, applied to the outcome
of the passes before it. -/
def ext_step (edid : List Nat) (junk : Nat → Int) (o : Option State) (k : Nat) :
    Option State :=
  o.bind (fun s =>
    match parse_extension (edid.drop (128 * k)) (junk k) s with
    | none => none
    | some r => some { r.2 with nonconformant_extension := r.2.nonconformant_extension + r.1 })

/-- The block `sample_edid`, whose byte 0x7E declares no extension, followed by the
CEA extension block `sample_cea_rev3`. -/
def sample_edid_undeclared_extension : List Nat := sample_edid ++ sample_cea_rev3


/-- The offsets of the 18-byte slots that the detailed-descriptor loop of
`parse_cea` hands to `detailed_block`, as the specification words them: the
offsets `d + 18 k` with `d + 18 k + 18 < 127` whose first byte is not zero. -/
def cea_detailed_slots (x : List Nat) (d : Nat) : List Nat :=
  ((List.range 8).map (fun k => d + 18 * k)).filter
    (fun o => decide (o + 18 < 127) && decide (rd x o ≠ 0))

/-- One call `detailed_block(x + o, 1)` of the detailed-descriptor loop, applied to
the outcome of the calls before it. -/
def cea_detailed_step (x : List Nat) (acc : Option State) (o : Nat) : Option State :=
  acc.bind (fun s =>
    match detailed_block (x.drop o) 1 s with
    | none => none
    | some r => some r.2)

/-- A CEA extension block with revision byte 3 and detailed-descriptor offset 4:
a detailed timing at offset 4, eighteen zero bytes at offset 22 and a detailed
timing at offset 40. -/
def sample_cea_detailed : List Nat :=
  [ 0x02, 0x03, 0x04, 0x00, 0xd5, 0x09, 0x80, 0xa0, 0x20, 0xe0, 0x2d, 0x10, 0x10, 0x60, 0xa2, 0x00,
    0x40, 0xf0, 0x10, 0x00, 0x00, 0x18, 0x00, 0x00, 0x00, 0x00, 0x00, 0x00, 0x00, 0x00, 0x00, 0x00,
    0x00, 0x00, 0x00, 0x00, 0x00, 0x00, 0x00, 0x00, 0xd5, 0x09, 0x80, 0xa0, 0x20, 0xe0, 0x2d, 0x10,
    0x10, 0x60, 0xa2, 0x00, 0x40, 0xf0, 0x10, 0x00, 0x00, 0x18, 0x00, 0x00, 0x00, 0x00, 0x00, 0x00,
    0x00, 0x00, 0x00, 0x00, 0x00, 0x00, 0x00, 0x00, 0x00, 0x00, 0x00, 0x00, 0x00, 0x00, 0x00, 0x00,
    0x00, 0x00, 0x00, 0x00, 0x00, 0x00, 0x00, 0x00, 0x00, 0x00, 0x00, 0x00, 0x00, 0x00, 0x00, 0x00,
    0x00, 0x00, 0x00, 0x00, 0x00, 0x00, 0x00, 0x00, 0x00, 0x00, 0x00, 0x00, 0x00, 0x00, 0x00, 0x00,
    0x00, 0x00, 0x00, 0x00, 0x00, 0x00, 0x00, 0x00, 0x00, 0x00, 0x00, 0x00, 0x00, 0x00, 0x00, 0xad ]


/-! ## Byte indices read by `parse_displayid` -/

/-- The indices that `do_checksum(x + base, len)` reads, relative to `x`, in the
order of the reads: the check byte, then the summed bytes. -/
def do_checksum_reads (base len : Nat) : List Nat :=
  (base + (len - 1)) :: (List.range (len - 1)).map (fun i => base + i)

/-- The indices that `parse_displayid_detailed_timing(x + base)` reads, relative to
`x`, in the order of the reads. -/
def parse_displayid_detailed_timing_reads (base : Nat) : List Nat :=
  [3, 3, 3, 0, 1, 2, 4, 5, 6, 7, 8, 9, 9, 10, 11, 12, 13, 14, 15, 16, 17, 18, 19, 17].map
    (fun i => base + i)

/-- The indices that the `switch (tag)` of `parse_displayid` reads for the
sub-block at `offset`. -/
def parse_displayid_block_reads (x : List Nat) (offset : Nat) : List Nat :=
  let tag := rd x offset
  let len := rd x (offset + 2)
  if tag = 3 then
    (List.range (len / 20)).flatMap
      (fun i => parse_displayid_detailed_timing_reads (offset + 3 + i * 20))
  else if tag = 0x12 then
    [3, 4, 6, 4, 6, 5, 6, 5, 6, 7, 8, 9, 10].map (fun i => offset + i)
  else []

/-- The indices read by the loop `while (length > 0)` of `parse_displayid`, from
the given `length` and `offset`, with a bound on the number of iterations;
`none` when the bound is reached before the loop ends.  A byte outside the
list reads as 0 here. -/
def parse_displayid_walk (x : List Nat) : Nat → Int → Nat → Option (List Nat)
  | 0, length, _ => if length > 0 then none else some []
  | fuel + 1, length, offset =>
    if length > 0 then
      let len := rd x (offset + 2)
      if len = 0 then some [offset, offset + 2]
      else
        (parse_displayid_walk x fuel (length - ((len : Int) + 3)) (offset + (len + 3))).map
          (fun l => [offset, offset + 2] ++ parse_displayid_block_reads x offset ++ l)
    else some []

/-- Every index that `parse_displayid(x)` reads, in the order of the reads. -/
def parse_displayid_reads (x : List Nat) (fuel : Nat) : Option (List Nat) :=
  (parse_displayid_walk x fuel (rd x 2) 5).map
    (fun l => [1, 2, 4] ++ do_checksum_reads 1 (rd x 2 + 5) ++ l)

/-- A 128-byte DisplayID block that declares 255 payload bytes and whose first
sub-block declares 120 bytes. -/
def sample_displayid_long : List Nat :=
  [ 0x70, 0x12, 0xff, 0x00, 0x00, 0x00, 0x00, 0x78, 0x00, 0x00, 0x00, 0x00, 0x00, 0x00, 0x00, 0x00,
    0x00, 0x00, 0x00, 0x00, 0x00, 0x00, 0x00, 0x00, 0x00, 0x00, 0x00, 0x00, 0x00, 0x00, 0x00, 0x00,
    0x00, 0x00, 0x00, 0x00, 0x00, 0x00, 0x00, 0x00, 0x00, 0x00, 0x00, 0x00, 0x00, 0x00, 0x00, 0x00,
    0x00, 0x00, 0x00, 0x00, 0x00, 0x00, 0x00, 0x00, 0x00, 0x00, 0x00, 0x00, 0x00, 0x00, 0x00, 0x00,
    0x00, 0x00, 0x00, 0x00, 0x00, 0x00, 0x00, 0x00, 0x00, 0x00, 0x00, 0x00, 0x00, 0x00, 0x00, 0x00,
    0x00, 0x00, 0x00, 0x00, 0x00, 0x00, 0x00, 0x00, 0x00, 0x00, 0x00, 0x00, 0x00, 0x00, 0x00, 0x00,
    0x00, 0x00, 0x00, 0x00, 0x00, 0x00, 0x00, 0x00, 0x00, 0x00, 0x00, 0x00, 0x00, 0x00, 0x00, 0x00,
    0x00, 0x00, 0x00, 0x00, 0x00, 0x00, 0x00, 0x00, 0x00, 0x00, 0x00, 0x00, 0x00, 0x00, 0x00, 0x00 ]

/-- A 128-byte DisplayID block that declares 122 payload bytes and whose first
sub-block declares 118 bytes. -/
def sample_displayid_edge : List Nat :=
  [ 0x70, 0x12, 0x7a, 0x00, 0x00, 0x00, 0x00, 0x76, 0x00, 0x00, 0x00, 0x00, 0x00, 0x00, 0x00, 0x00,
    0x00, 0x00, 0x00, 0x00, 0x00, 0x00, 0x00, 0x00, 0x00, 0x00, 0x00, 0x00, 0x00, 0x00, 0x00, 0x00,
    0x00, 0x00, 0x00, 0x00, 0x00, 0x00, 0x00, 0x00, 0x00, 0x00, 0x00, 0x00, 0x00, 0x00, 0x00, 0x00,
    0x00, 0x00, 0x00, 0x00, 0x00, 0x00, 0x00, 0x00, 0x00, 0x00, 0x00, 0x00, 0x00, 0x00, 0x00, 0x00,
    0x00, 0x00, 0x00, 0x00, 0x00, 0x00, 0x00, 0x00, 0x00, 0x00, 0x00, 0x00, 0x00, 0x00, 0x00, 0x00,
    0x00, 0x00, 0x00, 0x00, 0x00, 0x00, 0x00, 0x00, 0x00, 0x00, 0x00, 0x00, 0x00, 0x00, 0x00, 0x00,
    0x00, 0x00, 0x00, 0x00, 0x00, 0x00, 0x00, 0x00, 0x00, 0x00, 0x00, 0x00, 0x00, 0x00, 0x00, 0x00,
    0x00, 0x00, 0x00, 0x00, 0x00, 0x00, 0x00, 0x00, 0x00, 0x00, 0x00, 0x00, 0x00, 0x00, 0x00, 0x00 ]

/-! ## Video format preference block -/

/-- One line printed by `cea_vfpdb`: `    VIC %02d %s` or `    DTD number %02d`. -/
inductive VfpdbLine where
  | vic (vic : Nat) (mode : String)
  | dtd (n : Nat)
deriving DecidableEq, Repr

/-- One iteration of the loop of `cea_vfpdb` on the byte `svr`: the line printed,
if any; the outer `none` stands for a read of `edid_cea_modes` outside the
array. -/
def cea_vfpdb_entry (svr : Nat) : Option (Option VfpdbLine) :=
  if (svr > 0 ∧ svr < 128) ∨ (svr > 192 ∧ svr < 254) then
    let vic := svr
    let index := vic - 1
    if index < edid_cea_modes.length then
      match edid_cea_modes[vic]? with
      | some m => some (some (VfpdbLine.vic vic m.name))
      | none => none
    else some (some (VfpdbLine.vic vic "Unknown mode"))
  else if svr > 128 ∧ svr < 145 then some (some (VfpdbLine.dtd (svr - 128)))
  else some none

/-- The function `cea_vfpdb(x)`: the lines printed, in order. -/
def cea_vfpdb (x : List Nat) : Option (List VfpdbLine) :=
  (List.range ((rd x 0 &&& 0x1f) - 1)).foldl
    (fun acc i =>
      match acc, cea_vfpdb_entry (rd x (i + 2)) with
      | some l, some o => some (l ++ o.toList)
      | _, _ => none) (some [])


/-! ## Scenario A on the bytes of the base block -/

/-- The limits that the range descriptors of a block declare: whether a range
descriptor is present, and the bounds on the vertical rate (Hz), the horizontal
rate (Hz) and the pixel clock (kHz). -/
structure RangeLimits where
  present : Int
  min_vert : Int
  max_vert : Int
  min_hor : Int
  max_hor : Int
  max_pixclk : Int
deriving DecidableEq, Repr

/-- The limits after the descriptor slot `x`, read under EDID 1.3 (no offsets): a
range descriptor (bytes 0 and 1 zero, tag 0xFD) replaces the vertical and
horizontal bounds by its bytes 5 to 8 and, when byte 9 is not zero, the pixel
clock bound by ten thousand times byte 9; any other slot changes nothing. -/
def range_step (x : List Nat) (b : RangeLimits) : RangeLimits :=
  if rd x 0 = 0 ∧ rd x 1 = 0 ∧ rd x 3 = 0xFD then
    { present := 1
      min_vert := (rd x 5 : Int)
      max_vert := (rd x 6 : Int)
      min_hor := (rd x 7 : Int) * 1000
      max_hor := (rd x 8 : Int) * 1000
      max_pixclk := if rd x 9 ≠ 0 then (rd x 9 : Int) * 10000 else b.max_pixclk }
  else b

/-- The limits declared by the four descriptor slots of the base block, taken
in slot order. -/
def declared_range (edid : List Nat) : RangeLimits :=
  range_step (edid.drop 0x6C) (range_step (edid.drop 0x5A) (range_step (edid.drop 0x48)
    (range_step (edid.drop 0x36) ⟨0, 0, 0, 0, 0, 0⟩)))

/-- The monitor name after the descriptor slot `x`: a name descriptor (bytes 0 and
1 zero, tag 0xFC) met before any newline has been collected appends its payload
up to the first NUL; any other slot changes nothing. -/
def name_step (x : List Nat) (nm : List Nat) : List Nat :=
  if rd x 0 = 0 ∧ rd x 1 = 0 ∧ rd x 3 = 0xFC ∧ 0x0a ∉ nm then
    nm ++ ((x.drop 5).take 13).takeWhile (fun c => c != 0)
  else nm

/-- The monitor name collected from the four descriptor slots of the base block,
in slot order. -/
def decoded_name (edid : List Nat) : List Nat :=
  name_step (edid.drop 0x6C) (name_step (edid.drop 0x5A) (name_step (edid.drop 0x48)
    (name_step (edid.drop 0x36) [])))

/-- The first `len` bytes of `y` form a string that ends properly: every byte is
a graphic character, a space, or the first newline, and after the newline only
graphic characters and spaces follow. -/
def string_accepted (y : List Nat) (len : Nat) : Prop :=
  ∀ j, j < len →
    (isgraph (rd y j) = true ∨ rd y j = 0x20 ∨
      (rd y j = 0x0a ∧ ∀ k, k < j → rd y k ≠ 0x0a))

instance (y : List Nat) (len : Nat) : Decidable (string_accepted y len) := by
  unfold string_accepted; infer_instance

/-- A vertical rate, a horizontal rate and a pixel clock lie within the limits. -/
def timing_enclosed (B : RangeLimits) (refresh hor_freq_hz pixclk_khz : Int) : Prop :=
  B.min_vert ≤ refresh ∧ refresh ≤ B.max_vert ∧
  B.min_hor ≤ hor_freq_hz ∧ hor_freq_hz ≤ B.max_hor ∧ pixclk_khz ≤ B.max_pixclk

instance (B : RangeLimits) (a b c : Int) : Decidable (timing_enclosed B a b c) := by
  unfold timing_enclosed; infer_instance

/-- The pixel clock and horizontal rate that the catalogs give for a decoded
standard timing: the first matching row of `established_timings`, else of
`established_timings3`, else `(0, 0)`. -/
def standard_timing_catalog (t : StdTiming) : Int × Int :=
  let c : Int × Int :=
    match est_lookup established_timings t with
    | some e => (e.pixclk_khz, e.hor_freq_hz)
    | none => (0, 0)
  if c.1 = 0 then
    match est_lookup established_timings3 t with
    | some e => (e.pixclk_khz, e.hor_freq_hz)
    | none => c
  else c

/-- The standard timing in the byte pair `(b1, b2)`, read under EDID 1.3, lies
within the limits: an unused pair (`(1,1)` or `b1 = 0`) always does; otherwise
the refresh rate does and, when a catalog row matches, so do the horizontal rate
and the pixel clock of that row. -/
def standard_timing_enclosed (B : RangeLimits) (b1 b2 : Nat) : Prop :=
  ((b1 = 0x01 ∧ b2 = 0x01) ∨ b1 = 0) ∨
  ((B.min_vert ≤ (standard_timing_mode 1 b1 b2).refresh ∧
    (standard_timing_mode 1 b1 b2).refresh ≤ B.max_vert) ∧
   ((standard_timing_catalog (standard_timing_mode 1 b1 b2)).1 ≠ 0 →
    (B.min_hor ≤ (standard_timing_catalog (standard_timing_mode 1 b1 b2)).2 ∧
     (standard_timing_catalog (standard_timing_mode 1 b1 b2)).2 ≤ B.max_hor ∧
     (standard_timing_catalog (standard_timing_mode 1 b1 b2)).1 ≤ B.max_pixclk)))

instance (B : RangeLimits) (b1 b2 : Nat) : Decidable (standard_timing_enclosed B b1 b2) := by
  unfold standard_timing_enclosed; infer_instance

/-- The lowest refresh rate that a CVT 3-byte code offers (bits 4 to 1 of byte 2
stand for 50, 60, 75 and 85 Hz). -/
def cvt_min_refresh (x : List Nat) : Int :=
  if rd x 2 &&& 0x10 ≠ 0 then 50 else if rd x 2 &&& 0x08 ≠ 0 then 60
  else if rd x 2 &&& 0x04 ≠ 0 then 75 else if rd x 2 &&& 0x02 ≠ 0 then 85 else 0xfffffff

/-- The highest refresh rate that a CVT 3-byte code offers. -/
def cvt_max_refresh (x : List Nat) : Int :=
  if rd x 2 &&& 0x02 ≠ 0 then 85 else if rd x 2 &&& 0x04 ≠ 0 then 75
  else if rd x 2 &&& 0x08 ≠ 0 then 60 else if rd x 2 &&& 0x10 ≠ 0 then 50 else 0

/-- The refresh rates of a CVT 3-byte code lie within the limits; an unused
code (all zero, not the first) offers none. -/
def cvt_enclosed (B : RangeLimits) (x : List Nat) (first : Int) : Prop :=
  (first = 0 ∧ (rd x 0 = 0 ∧ rd x 1 = 0 ∧ rd x 2 = 0)) ∨
  (B.min_vert ≤ cvt_min_refresh x ∧ cvt_max_refresh x ≤ B.max_vert)

instance (B : RangeLimits) (x : List Nat) (first : Int) : Decidable (cvt_enclosed B x first) := by
  unfold cvt_enclosed; infer_instance

/-- Every timing that the descriptor slot `x` makes the decoder record lies
within the limits: the detailed timing of a numeric slot (refresh rate
`pixclk * 1000 / ((ha + hbl) * (va + vbl))`, horizontal rate
`pixclk * 1000 / (ha + hbl)`), the rows selected by an established-timings-III
descriptor (tag 0xF7), the refresh rates of a CVT descriptor (tag 0xF8) and the
six standard timings of a standard-timing descriptor (tag 0xFA). -/
def slot_enclosed (B : RangeLimits) (x : List Nat) : Prop :=
  if rd x 0 = 0 ∧ rd x 1 = 0 then
    (rd x 3 = 0xF7 → ∀ i, i < 44 → rd x (6 + i / 8) &&& (1 <<< (7 - i % 8)) ≠ 0 →
      timing_enclosed B (established_timings3.getD i default).refresh
        (established_timings3.getD i default).hor_freq_hz
        (established_timings3.getD i default).pixclk_khz) ∧
    (rd x 3 = 0xF8 → ∀ i, i < 4 → cvt_enclosed B (x.drop (6 + i * 3)) (b2i (i == 0))) ∧
    (rd x 3 = 0xFA → ∀ i, i < 6 →
      standard_timing_enclosed B (rd x (5 + i * 2)) (rd x (5 + i * 2 + 1)))
  else
    timing_enclosed B
      (Int.tdiv (timing_pixclk_khz x * 1000) (timing_h_total x * timing_v_total x))
      (Int.tdiv (timing_pixclk_khz x * 1000) (timing_h_total x))
      (timing_pixclk_khz x)

instance (B : RangeLimits) (x : List Nat) : Decidable (slot_enclosed B x) := by
  unfold slot_enclosed; infer_instance

/-- The descriptor slot `x` passes every per-descriptor check of the decoder under
EDID 1.3.  A numeric slot has non-zero totals `ha + hbl` and `va + vbl`.  A
monitor descriptor has byte 2 zero and byte 4 zero, a tag that the decoder
knows (not 0x11 to 0xF6), an all-zero payload if it is a dummy (0x10), byte 5
equal to 1 and four valid codes if it is a CVT descriptor (0xF8), class byte 0
or 2 and ordered bounds if it is a range descriptor (0xFD), and a well-ended
string if it is an ASCII or serial string (0xFE, 0xFF). -/
def slot_valid (x : List Nat) : Prop :=
  if rd x 0 = 0 ∧ rd x 1 = 0 then
    rd x 2 = 0 ∧ rd x 4 = 0 ∧ ¬ (0x11 ≤ rd x 3 ∧ rd x 3 ≤ 0xF6) ∧ rd x 3 ≤ 0xFF ∧
    (rd x 3 = 0x10 → ∀ i, i < 13 → rd x (5 + i) = 0) ∧
    (rd x 3 = 0xF8 →
      rd x 5 = 1 ∧ ∀ i, i < 4 → cvt_code_valid (x.drop (6 + i * 3)) (b2i (i == 0))) ∧
    (rd x 3 = 0xFD →
      (rd x 10 = 0 ∨ rd x 10 = 2) ∧ rd x 5 ≤ rd x 6 ∧ rd x 7 ≤ rd x 8) ∧
    ((rd x 3 = 0xFE ∨ rd x 3 = 0xFF) → string_accepted (x.drop 5) 13)
  else timing_h_total x * timing_v_total x ≠ 0

instance (x : List Nat) : Decidable (slot_valid x) := by
  unfold slot_valid; infer_instance

/-- The variables that no timing changes and that the verdict reads: the five
validity flags of the monitor descriptors, the declared limits, the monitor
name with its two flags, and the flags set from the header bytes. -/
def track_view (s : State) :
    (Int × Int × Int × Int × Int) × RangeLimits × (List Nat × Int × Int) ×
    (Int × Int × Int × Int × Int × Int) :=
  ((s.has_valid_string_termination, s.has_valid_descriptor_pad, s.has_valid_cvt,
    s.has_valid_dummy_block, s.has_valid_range_descriptor),
   ⟨s.has_range_descriptor, s.mon_min_vert_freq_hz, s.mon_max_vert_freq_hz,
    s.mon_min_hor_freq_hz, s.mon_max_hor_freq_hz, s.mon_max_pixclk_khz⟩,
   (s.name, s.has_name_descriptor, s.name_descriptor_terminated),
   (s.nonconformant_digital_display, s.nonconformant_srgb_chromaticity,
    s.has_preferred_timing, s.has_valid_detailed_blocks, s.claims_one_point_three,
    s.claims_one_point_four))

/-- The observed ranges of the state lie within the limits. -/
def observed_enclosed (B : RangeLimits) (s : State) : Prop :=
  B.min_vert ≤ s.min_vert_freq_hz ∧ s.max_vert_freq_hz ≤ B.max_vert ∧
  B.min_hor ≤ s.min_hor_freq_hz ∧ s.max_hor_freq_hz ≤ B.max_hor ∧
  s.max_pixclk_khz ≤ B.max_pixclk

/-- The name and its two flags after the descriptor slot `x`. -/
def name_track (x : List Nat) (n : List Nat × Int × Int) : List Nat × Int × Int :=
  if rd x 0 = 0 ∧ rd x 1 = 0 ∧ rd x 3 = 0xFC then
    (name_step x n.1, 1, if 0x0a ∉ n.1 ∧ 0x0a ∈ name_step x n.1 then 1 else n.2.2)
  else n

/-- The observed ranges. -/
def observed_view (s : State) : Int × Int × Int × Int × Int :=
  (s.min_vert_freq_hz, s.max_vert_freq_hz, s.min_hor_freq_hz, s.max_hor_freq_hz,
   s.max_pixclk_khz)

/-! # Theorems -/

/-! ## Helpers -/

theorem view_ite {α β : Type} (P : α → β) (c : Prop) [Decidable c] (a b : α) (v : β)
    (ha : P a = v) (hb : P b = v) : P (if c then a else b) = v := by
  split_ifs <;> assumption

theorem foldl_view {σ α β : Type} (P : σ → β) (f : σ → α → σ)
    (h : ∀ s a, P (f s a) = P s) (l : List α) (s : σ) : P (l.foldl f s) = P s := by
  induction l generalizing s with
  | nil => rfl
  | cons a t ih => rw [List.foldl_cons, ih, h]

/-! ## The checksum verifier -/

theorem sum_take_succ (x : List Nat) (n : Nat) :
    (x.take (n + 1)).sum = (x.take n).sum + rd x n := by
  induction x generalizing n with
  | nil => simp [rd]
  | cons a t ih =>
    cases n with
    | zero => simp [rd]
    | succ m =>
      have := ih m
      simp only [rd] at this ⊢
      simp only [List.take_succ_cons, List.sum_cons, List.getD_cons_succ]
      omega

theorem checksum_sum_eq (x : List Nat) (n : Nat) :
    checksum_sum x n = (x.take n).sum % 256 := by
  induction n with
  | zero => simp [checksum_sum]
  | succ m ih =>
    rw [checksum_sum, ih, sum_take_succ]
    omega

theorem do_checksum_total (B : List Nat) (hlen : B.length = 128) :
    (rd B 127 + checksum_sum B 127) % 256 = B.sum % 256 := by
  have h := sum_take_succ B 127
  have h2 : B.take 128 = B := by
    rw [← hlen]; exact List.take_length B
  rw [show 127 + 1 = 128 from rfl, h2] at h
  rw [checksum_sum_eq, h]
  omega

theorem do_checksum_ret (B : List Nat) (hlen : B.length = 128) :
    (do_checksum B 128).ret = if B.sum % 256 = 0 then 1 else 0 := by
  have h := do_checksum_total B hlen
  unfold do_checksum
  simp only [show 128 - 1 = 127 from rfl]
  rw [h]
  by_cases hz : B.sum % 256 = 0
  · simp [hz]
  · simp [hz]

/-- Claim C1: for every 128-byte block `B`, `do_checksum(B, 128)` returns 1 exactly
when the sum of all 128 bytes is 0 modulo 256, and returns 0 otherwise. -/
theorem do_checksum_iff (B : List Nat) (hlen : B.length = 128) :
    ((do_checksum B 128).ret = 1 ↔ B.sum % 256 = 0) ∧
    ((do_checksum B 128).ret = 0 ↔ B.sum % 256 ≠ 0) := by
  rw [do_checksum_ret B hlen]
  by_cases hz : B.sum % 256 = 0
  · simp [hz]
  · simp [hz]

theorem do_checksum_iff_witness :
    sample_edid.length = 128 ∧
    (((do_checksum sample_edid 128).ret = 1 ↔ sample_edid.sum % 256 = 0) ∧
     ((do_checksum sample_edid 128).ret = 0 ↔ sample_edid.sum % 256 ≠ 0)) :=
  ⟨by decide!, do_checksum_iff sample_edid (by decide!)⟩

theorem sum_set (B : List Nat) (i v : Nat) (hi : i < B.length) :
    (B.set i v).sum + rd B i = B.sum + v := by
  induction B generalizing i with
  | nil => simp at hi
  | cons a t ih =>
    cases i with
    | zero => simp [rd]; omega
    | succ m =>
      have := ih m (by simpa using hi)
      simp only [rd] at this ⊢
      simp only [List.set_cons_succ, List.sum_cons, List.getD_cons_succ]
      omega

theorem rd_lt (B : List Nat) (hB : is_bytes B) (i : Nat) : rd B i < 256 := by
  unfold rd
  by_cases h : i < B.length
  · rw [List.getD_eq_getElem _ _ h]; exact hB _ (List.getElem_mem h)
  · rw [List.getD_eq_default _ _ (by omega)]; decide

/-- Claim C2: in a 128-byte block that `do_checksum` accepts, replacing any single
byte (index 0 to 127) by a different byte value makes `do_checksum` return 0. -/
theorem do_checksum_mutation (B : List Nat) (hlen : B.length = 128) (hB : is_bytes B)
    (hvalid : (do_checksum B 128).ret = 1) (i : Nat) (hi : i < 128) (v : Nat) (hv : v < 256)
    (hne : v ≠ rd B i) : (do_checksum (B.set i v) 128).ret = 0 := by
  have hlen' : (B.set i v).length = 128 := by simp [hlen]
  rw [do_checksum_ret B hlen] at hvalid
  rw [do_checksum_ret (B.set i v) hlen']
  have h1 : B.sum % 256 = 0 := by
    by_contra h
    simp [h] at hvalid
  have hs := sum_set B i v (by omega)
  have hb := rd_lt B hB i
  have h2 : ¬ (B.set i v).sum % 256 = 0 := by omega
  simp [h2]

theorem do_checksum_mutation_witness :
    sample_edid.length = 128 ∧ is_bytes sample_edid ∧
    (do_checksum sample_edid 128).ret = 1 ∧ 0x12 < 128 ∧ 2 < 256 ∧ 2 ≠ rd sample_edid 0x12 ∧
    (do_checksum (sample_edid.set 0x12 2) 128).ret = 0 :=
  ⟨by decide!, by decide!, by decide!, by decide!, by decide!, by decide!,
   do_checksum_mutation sample_edid (by decide!) (by decide!) (by decide!) 0x12 (by decide!) 2
     (by decide!) (by decide!)⟩


theorem ldiff_mask (n m : Nat) : Nat.ldiff (2 ^ n - 1) m = 2 ^ n - 1 - m % 2 ^ n := by
  apply Nat.eq_of_testBit_eq
  intro i
  have hlt : m % 2 ^ n < 2 ^ n := Nat.mod_lt _ (by positivity)
  have e : 2 ^ n - 1 - m % 2 ^ n = 2 ^ n - (m % 2 ^ n + 1) := by omega
  rw [Nat.testBit_ldiff, Nat.testBit_two_pow_sub_one, e, Nat.testBit_two_pow_sub_succ hlt,
    Nat.testBit_mod_two_pow]
  by_cases h : i < n <;> simp [h]

theorem int_land_mask (x : Int) (n : Nat) : Int.land x (2 ^ n - 1) = x % 2 ^ n := by
  have hm : ((2 : Int) ^ n - 1) = ((2 ^ n - 1 : Nat) : Int) := by
    have : 1 ≤ 2 ^ n := Nat.one_le_two_pow
    push_cast [Nat.cast_sub this]
    rfl
  rw [hm]
  cases x with
  | ofNat m =>
    show ((m &&& (2 ^ n - 1) : Nat) : Int) = _
    rw [Nat.and_pow_two_sub_one_eq_mod]
    push_cast
    rfl
  | negSucc m =>
    show ((Nat.ldiff (2 ^ n - 1) m : Nat) : Int) = _
    rw [ldiff_mask]
    have hlt : m % 2 ^ n < 2 ^ n := Nat.mod_lt _ (by positivity)
    rw [Int.negSucc_emod m (by positivity)]
    have : 1 ≤ 2 ^ n := Nat.one_le_two_pow
    push_cast [Nat.cast_sub (show m % 2 ^ n ≤ 2 ^ n - 1 by omega), Nat.cast_sub this]
    ring

theorem checksum_sum_lt (x : List Nat) (n : Nat) : checksum_sum x n < 256 := by
  rw [checksum_sum_eq]; omega

theorem checksum_sum_set (B : List Nat) (n c : Nat) :
    checksum_sum (B.set n c) n = checksum_sum B n := by
  have e : (B.set n c).take n = B.take n := by
    apply List.ext_getElem?
    intro i
    rw [List.getElem?_take, List.getElem?_take]
    split
    · next h => rw [List.getElem?_set_ne (by omega)]
    · rfl
  rw [checksum_sum_eq, checksum_sum_eq, e]

theorem rd_set_self (B : List Nat) (i c : Nat) (hi : i < B.length) : rd (B.set i c) i = c := by
  unfold rd
  rw [List.getD_eq_getElem _ _ (by simpa using hi)]
  simp

/-- The value printed after `should be` is the one byte that, stored as the last
byte of the block, makes `do_checksum` accept it. -/
theorem do_checksum_should_be (B : List Nat) (hlen : B.length = 128)
    (h : (do_checksum B 128).ret = 0) :
    ∃ c : Nat, c < 256 ∧ (do_checksum B 128).should_be = some (c : Int) ∧
      (c + checksum_sum B 127) % 256 = 0 ∧
      (do_checksum (B.set 127 c) 128).ret = 1 ∧
      ∀ c', c' < 256 → (do_checksum (B.set 127 c') 128).ret = 1 → c' = c := by
  have hs := checksum_sum_lt B 127
  refine ⟨(256 - checksum_sum B 127) % 256, by omega, ?_, by omega, ?_, ?_⟩
  · unfold do_checksum at h ⊢
    simp only [show 128 - 1 = 127 from rfl] at h ⊢
    by_cases hz : (rd B 127 + checksum_sum B 127) % 256 ≠ 0
    · rw [if_pos hz]
      have e : (0xff : Int) = 2 ^ 8 - 1 := by norm_num
      simp only [e, int_land_mask]
      congr 1
      omega
    · rw [if_neg hz] at h
      simp at h
  · unfold do_checksum
    simp only [show 128 - 1 = 127 from rfl]
    rw [checksum_sum_set, rd_set_self B 127 _ (by omega)]
    have : ¬ ((256 - checksum_sum B 127) % 256 + checksum_sum B 127) % 256 ≠ 0 := by omega
    rw [if_neg this]
  · intro c' hc' h'
    unfold do_checksum at h'
    simp only [show 128 - 1 = 127 from rfl] at h'
    rw [checksum_sum_set, rd_set_self B 127 _ (by omega)] at h'
    by_cases hz : (c' + checksum_sum B 127) % 256 ≠ 0
    · rw [if_pos hz] at h'
      simp at h'
    · omega

theorem verdict_revision_cases (s : State) :
    verdict_revision s = s ∨ verdict_revision s = { s with conformant := 0 } := by
  unfold verdict_revision
  split_ifs <;> simp

theorem verdict_range_cases (s : State) :
    verdict_range s = s ∨ verdict_range s = { s with conformant := 0 } := by
  unfold verdict_range
  split_ifs <;> simp

theorem verdict_always_cases (s : State) :
    verdict_always s = s ∨ verdict_always s = { s with conformant := 0 } := by
  unfold verdict_always
  split_ifs <;> simp

/-- Once the stage that applies to every revision finds a violation, `main`
returns 1 whatever the earlier stages did. -/
theorem main_return_of_fails_always (s : State) (h : fails_always s = true) :
    (main_verdict s).conformant = 0 ∧ main_return (main_verdict s) = 1 := by
  have h2 : fails_always (verdict_range (verdict_revision s)) = true := by
    rcases verdict_revision_cases s with e1 | e1 <;> rw [e1] <;>
    [rcases verdict_range_cases s with e2 | e2;
     rcases verdict_range_cases { s with conformant := 0 } with e2 | e2] <;>
    rw [e2] <;> exact h
  unfold main_return main_verdict verdict_always
  rw [if_pos h2]
  simp [lnot]

/-- An invalid base-block checksum flag always gives exit status 1. -/
theorem main_return_of_invalid_checksum (s : State) (h : s.has_valid_checksum = 0) :
    (main_verdict s).conformant = 0 ∧ main_return (main_verdict s) = 1 := by
  apply main_return_of_fails_always
  unfold fails_always
  simp [h]

/-- Claim C3 at a failing input: on `sample_edid_rev5_off` the checksum byte is off
by one from the valid value and `do_checksum` rejects the block as it was read,
yet `main`, which overwrites the revision byte 5 with 4 before it runs
`do_checksum`, leaves `has_valid_checksum` at 1 and returns 0. -/
theorem checksum_off_by_one_accepted :
    sample_edid_rev5_off.length = 128 ∧ is_bytes sample_edid_rev5_off ∧
    (do_checksum (sample_edid_rev5_off.set 127 (rd sample_edid_rev5_off 127 - 1)) 128).ret = 1 ∧
    (do_checksum sample_edid_rev5_off 128).ret = 0 ∧
    (main_decode 126 sample_edid_rev5_off 8 junk_zero).map (fun s => s.has_valid_checksum)
      = some 1 ∧
    main 126 sample_edid_rev5_off 8 junk_zero = some 0 := by
  refine ⟨by decide!, by decide!, by decide!, by decide!, by decide!, by decide!⟩


/-! ## Catalog lookups -/

/-- Claim C4: resolving Video Identification Code 1 through `cea_svd`, as SVD byte
0x01 and as the native form 0x81, prints the catalog entry `640x480@60Hz 4:3`
(refresh 60, horizontal frequency 31469 Hz, pixel clock 25175 kHz), folds exactly
these three values into the observed ranges, sets `has_cea861_vic_1` and changes
nothing else. -/
theorem cea_svd_vic_1 (s : State) :
    edid_cea_modes.getD 0 default = CeaMode.mk "640x480@60Hz 4:3" 60 31469 25175 ∧
    cea_svd [0x01] 1 s =
      ([SvdLine.mk 1 "640x480@60Hz 4:3" false],
       { s with
         min_vert_freq_hz := min s.min_vert_freq_hz 60
         max_vert_freq_hz := max s.max_vert_freq_hz 60
         min_hor_freq_hz := min s.min_hor_freq_hz 31469
         max_hor_freq_hz := max s.max_hor_freq_hz 31469
         max_pixclk_khz := max s.max_pixclk_khz 25175
         has_cea861_vic_1 := 1 }) ∧
    cea_svd [0x81] 1 s =
      ([SvdLine.mk 1 "640x480@60Hz 4:3" true],
       { s with
         min_vert_freq_hz := min s.min_vert_freq_hz 60
         max_vert_freq_hz := max s.max_vert_freq_hz 60
         min_hor_freq_hz := min s.min_hor_freq_hz 31469
         max_hor_freq_hz := max s.max_hor_freq_hz 31469
         max_pixclk_khz := max s.max_pixclk_khz 25175
         has_cea861_vic_1 := 1 }) := by
  have hmin : ∀ a b : Int, cmin a b = min a b := by
    intro a b; unfold cmin; rw [min_def]; split_ifs <;> omega
  have hmax : ∀ a b : Int, cmax a b = max a b := by
    intro a b; unfold cmax; rw [max_def]; split_ifs <;> omega
  have r1 : List.range (1 : Int).toNat = [0] := rfl
  refine ⟨rfl, ?_, ?_⟩
  · have e : cea_svd_entry 0x01 s = (some (SvdLine.mk 1 "640x480@60Hz 4:3" false),
        { observe 60 31469 25175 s with has_cea861_vic_1 := 1 }) := rfl
    simp only [cea_svd, r1, List.foldl_cons, List.foldl_nil, rd,
      List.getD_cons_zero, e, List.nil_append, Option.toList, observe, hmin, hmax]
  · have e : cea_svd_entry 0x81 s = (some (SvdLine.mk 1 "640x480@60Hz 4:3" true),
        { observe 60 31469 25175 s with has_cea861_vic_1 := 1 }) := rfl
    simp only [cea_svd, r1, List.foldl_cons, List.foldl_nil, rd,
      List.getD_cons_zero, e, List.nil_append, Option.toList, observe, hmin, hmax]


/-! ## The mandatory 640x480@60 mode -/

theorem parse_cea_tail_flags (x : List Nat) (t : State) :
    (parse_cea_tail x t).has_640x480p60_est_timing = t.has_640x480p60_est_timing ∧
    (parse_cea_tail x t).has_cea861_vic_1 = t.has_cea861_vic_1 ∧
    ((parse_cea_tail x t).nonconformant_cea861_640x480 ≠ 0 ↔
      (t.has_640x480p60_est_timing = 0 ∧ t.has_cea861_vic_1 = 0)) := by
  unfold parse_cea_tail b2i
  refine ⟨rfl, rfl, ?_⟩
  by_cases h1 : t.has_cea861_vic_1 = 0 <;> by_cases h2 : t.has_640x480p60_est_timing = 0 <;>
    simp [h1, h2]

/-- Claim C5: for every base block, `has_640x480p60_est_timing` is non-zero exactly
when the established-timings loop reports entry 2 of `established_timings`, the
entry 640x480@60Hz: the mask `0x20` on byte 0x23 is the bit the loop tests for
index 2.  And `parse_cea` leaves `nonconformant_cea861_640x480` non-zero exactly
when neither this flag nor `has_cea861_vic_1` is set. -/
theorem est_640x480_flag (edid : List Nat) (s : State) (x : List Nat) (t : State) :
    established_timings.getD 2 default = EstTiming.mk 640 480 60 4 3 31469 25175 0 ∧
    ((main_established edid s).has_640x480p60_est_timing ≠ 0 ↔
      2 ∈ established_reported edid) ∧
    (2 ∈ established_reported edid ↔ rd edid 0x23 &&& (1 <<< 5) ≠ 0) ∧
    ((parse_cea_tail x t).nonconformant_cea861_640x480 ≠ 0 ↔
      (t.has_640x480p60_est_timing = 0 ∧ t.has_cea861_vic_1 = 0)) ∧
    (∀ r, parse_cea x t = some r →
      (r.2.nonconformant_cea861_640x480 ≠ 0 ↔
        (r.2.has_640x480p60_est_timing = 0 ∧ r.2.has_cea861_vic_1 = 0))) := by
  have hbit : (2 ∈ established_reported edid ↔ rd edid 0x23 &&& (1 <<< 5) ≠ 0) := by
    unfold established_reported established_bit
    simp [List.mem_filter]
  refine ⟨rfl, ?_, hbit, (parse_cea_tail_flags x t).2.2, ?_⟩
  · rw [hbit]
    unfold main_established
    simp
  · intro r hr
    unfold parse_cea at hr
    split at hr
    · simp at hr
    · next r0 _ =>
      simp only [Option.some.injEq] at hr
      subst hr
      have h := parse_cea_tail_flags x r0.2
      simp only []
      rw [h.1, h.2.1]
      exact h.2.2


/-! ## The range descriptor -/

theorem range_cvt_frame (x : List Nat) (s : State) :
    (detailed_block_range_cvt x s).mon_min_vert_freq_hz = s.mon_min_vert_freq_hz ∧
    (detailed_block_range_cvt x s).mon_max_vert_freq_hz = s.mon_max_vert_freq_hz ∧
    (detailed_block_range_cvt x s).mon_min_hor_freq_hz = s.mon_min_hor_freq_hz ∧
    (detailed_block_range_cvt x s).mon_max_hor_freq_hz = s.mon_max_hor_freq_hz ∧
    (s.has_valid_range_descriptor = 0 →
      (detailed_block_range_cvt x s).has_valid_range_descriptor = 0) := by
  unfold detailed_block_range_cvt
  dsimp only
  refine ⟨?_, ?_, ?_, ?_, ?_⟩
  · repeat' (first
      | refine view_ite (fun t : State => t.mon_min_vert_freq_hz) _ _ _ _ ?_ ?_
      | rfl)
  · repeat' (first
      | refine view_ite (fun t : State => t.mon_max_vert_freq_hz) _ _ _ _ ?_ ?_
      | rfl)
  · repeat' (first
      | refine view_ite (fun t : State => t.mon_min_hor_freq_hz) _ _ _ _ ?_ ?_
      | rfl)
  · repeat' (first
      | refine view_ite (fun t : State => t.mon_max_hor_freq_hz) _ _ _ _ ?_ ?_
      | rfl)
  · intro h
    repeat' (first
      | refine view_ite (fun t : State => t.has_valid_range_descriptor) _ _ _ _ ?_ ?_
      | rfl
      | exact h)

theorem range_dotclock_frame (x : List Nat) (s : State) :
    (detailed_block_range_dotclock x s).mon_min_vert_freq_hz = s.mon_min_vert_freq_hz ∧
    (detailed_block_range_dotclock x s).mon_max_vert_freq_hz = s.mon_max_vert_freq_hz ∧
    (detailed_block_range_dotclock x s).mon_min_hor_freq_hz = s.mon_min_hor_freq_hz ∧
    (detailed_block_range_dotclock x s).mon_max_hor_freq_hz = s.mon_max_hor_freq_hz ∧
    (detailed_block_range_dotclock x s).has_valid_range_descriptor =
      s.has_valid_range_descriptor := by
  unfold detailed_block_range_dotclock
  split_ifs <;> simp_all

theorem range_hor_frame (x : List Nat) (a b : Int) (s : State) :
    (detailed_block_range_hor x a b s).mon_min_vert_freq_hz = s.mon_min_vert_freq_hz ∧
    (detailed_block_range_hor x a b s).mon_max_vert_freq_hz = s.mon_max_vert_freq_hz ∧
    (detailed_block_range_hor x a b s).mon_min_hor_freq_hz = ((rd x 7 : Int) + a) * 1000 ∧
    (detailed_block_range_hor x a b s).mon_max_hor_freq_hz = ((rd x 8 : Int) + b) * 1000 ∧
    (detailed_block_range_hor x a b s).has_valid_range_descriptor =
      (if (rd x 7 : Int) + a > (rd x 8 : Int) + b then 0 else s.has_valid_range_descriptor) := by
  unfold detailed_block_range_hor
  split_ifs <;> simp_all

theorem range_vert_frame (x : List Nat) (a b : Int) (s : State) :
    (detailed_block_range_vert x a b s).mon_min_vert_freq_hz = (rd x 5 : Int) + a ∧
    (detailed_block_range_vert x a b s).mon_max_vert_freq_hz = (rd x 6 : Int) + b ∧
    (detailed_block_range_vert x a b s).has_valid_range_descriptor =
      (if (rd x 5 : Int) + a > (rd x 6 : Int) + b then 0 else s.has_valid_range_descriptor) := by
  unfold detailed_block_range_vert
  split_ifs <;> simp_all

theorem range_offsets_eq (x : List Nat) (s : State) :
    (detailed_block_range_offsets x s).1 =
      if s.claims_one_point_four ≠ 0 then range_offsets (rd x 4) else (0, 0, 0, 0) := by
  unfold detailed_block_range_offsets
  split_ifs <;> simp_all

/-- What `detailed_block_range` leaves in the declared bounds, its return value,
and the validity flag when the bounds are misordered. -/
theorem detailed_block_range_bounds (x : List Nat) (s : State) :
    (detailed_block_range x s).1 = (detailed_block_range x s).2.has_valid_range_descriptor ∧
    (detailed_block_range x s).2.mon_min_vert_freq_hz = (rd x 5 : Int) +
      (if s.claims_one_point_four ≠ 0 then (range_offsets (rd x 4)).2.2.2 else 0) ∧
    (detailed_block_range x s).2.mon_max_vert_freq_hz = (rd x 6 : Int) +
      (if s.claims_one_point_four ≠ 0 then (range_offsets (rd x 4)).2.2.1 else 0) ∧
    (detailed_block_range x s).2.mon_min_hor_freq_hz = ((rd x 7 : Int) +
      (if s.claims_one_point_four ≠ 0 then (range_offsets (rd x 4)).2.1 else 0)) * 1000 ∧
    (detailed_block_range x s).2.mon_max_hor_freq_hz = ((rd x 8 : Int) +
      (if s.claims_one_point_four ≠ 0 then (range_offsets (rd x 4)).1 else 0)) * 1000 ∧
    (((detailed_block_range x s).2.mon_min_vert_freq_hz >
        (detailed_block_range x s).2.mon_max_vert_freq_hz ∨
      (detailed_block_range x s).2.mon_min_hor_freq_hz >
        (detailed_block_range x s).2.mon_max_hor_freq_hz) →
      (detailed_block_range x s).2.has_valid_range_descriptor = 0) := by
  have hO := range_offsets_eq x { s with has_range_descriptor := 1 }
  have hc4 : ({ s with has_range_descriptor := 1 } : State).claims_one_point_four
      = s.claims_one_point_four := rfl
  rw [hc4] at hO
  unfold detailed_block_range
  dsimp only
  generalize detailed_block_range_offsets x { s with has_range_descriptor := 1 } = r at hO ⊢
  generalize detailed_block_range_class x r.2 = c
  have hV := range_vert_frame x r.1.2.2.2 r.1.2.2.1 c.2
  generalize detailed_block_range_vert x r.1.2.2.2 r.1.2.2.1 c.2 = sv at hV ⊢
  have hH := range_hor_frame x r.1.2.1 r.1.1 sv
  generalize detailed_block_range_hor x r.1.2.1 r.1.1 sv = sh at hH ⊢
  have hD := range_dotclock_frame x sh
  generalize detailed_block_range_dotclock x sh = sd at hD ⊢
  have hF : (if c.1 ≠ 0 then detailed_block_range_cvt x sd else sd).mon_min_vert_freq_hz
        = sd.mon_min_vert_freq_hz ∧
      (if c.1 ≠ 0 then detailed_block_range_cvt x sd else sd).mon_max_vert_freq_hz
        = sd.mon_max_vert_freq_hz ∧
      (if c.1 ≠ 0 then detailed_block_range_cvt x sd else sd).mon_min_hor_freq_hz
        = sd.mon_min_hor_freq_hz ∧
      (if c.1 ≠ 0 then detailed_block_range_cvt x sd else sd).mon_max_hor_freq_hz
        = sd.mon_max_hor_freq_hz ∧
      (sd.has_valid_range_descriptor = 0 →
        (if c.1 ≠ 0 then detailed_block_range_cvt x sd else sd).has_valid_range_descriptor
          = 0) := by
    have := range_cvt_frame x sd
    split_ifs
    · exact this
    · exact ⟨rfl, rfl, rfl, rfl, id⟩
  generalize (if c.1 ≠ 0 then detailed_block_range_cvt x sd else sd) = sf at hF ⊢
  obtain ⟨f1, f2, f3, f4, f5⟩ := hF
  obtain ⟨d1, d2, d3, d4, d5⟩ := hD
  obtain ⟨g1, g2, g3, g4, g5⟩ := hH
  obtain ⟨v1, v2, v3⟩ := hV
  have e1 : sf.mon_min_vert_freq_hz = (rd x 5 : Int) + r.1.2.2.2 := by
    rw [f1, d1, g1, v1]
  have e2 : sf.mon_max_vert_freq_hz = (rd x 6 : Int) + r.1.2.2.1 := by
    rw [f2, d2, g2, v2]
  have e3 : sf.mon_min_hor_freq_hz = ((rd x 7 : Int) + r.1.2.1) * 1000 := by
    rw [f3, d3, g3]
  have e4 : sf.mon_max_hor_freq_hz = ((rd x 8 : Int) + r.1.1) * 1000 := by
    rw [f4, d4, g4]
  refine ⟨rfl, ?_, ?_, ?_, ?_, ?_⟩
  · rw [e1, hO]; split_ifs <;> rfl
  · rw [e2, hO]; split_ifs <;> rfl
  · rw [e3, hO]; split_ifs <;> rfl
  · rw [e4, hO]; split_ifs <;> rfl
  · intro h
    apply f5
    rw [d5, g5]
    rw [e1, e2, e3, e4] at h
    by_cases hh : (rd x 7 : Int) + r.1.2.1 > (rd x 8 : Int) + r.1.1
    · rw [if_pos hh]
    · rw [if_neg hh, v3]
      have hv : (rd x 5 : Int) + r.1.2.2.2 > (rd x 6 : Int) + r.1.2.2.1 := by omega
      rw [if_pos hv]

theorem range_offsets_spec (x4 : Nat) (c : Int) :
    (if c ≠ 0 then (range_offsets x4).2.2.2 else 0) =
      (if c ≠ 0 ∧ x4 &&& 0x02 ≠ 0 ∧ x4 &&& 0x01 ≠ 0 then (255 : Int) else 0) ∧
    (if c ≠ 0 then (range_offsets x4).2.2.1 else 0) =
      (if c ≠ 0 ∧ x4 &&& 0x02 ≠ 0 then (255 : Int) else 0) ∧
    (if c ≠ 0 then (range_offsets x4).2.1 else 0) =
      (if c ≠ 0 ∧ x4 &&& 0x04 ≠ 0 ∧ x4 &&& 0x03 ≠ 0 then (255 : Int) else 0) ∧
    (if c ≠ 0 then (range_offsets x4).1 else 0) =
      (if c ≠ 0 ∧ x4 &&& 0x04 ≠ 0 then (255 : Int) else 0) := by
  unfold range_offsets
  dsimp only
  refine ⟨?_, ?_, ?_, ?_⟩ <;> split_ifs <;> simp_all

/-- Claim C6: for every 18-byte slot that is a range descriptor (bytes 0 and 1
zero, tag 0xFD), whatever revision the state declares, `detailed_block` stores the
declared bounds (bytes 5 to 8 plus the 255 offsets that EDID 1.4 selects through
byte 4), and if the minimum vertical bound exceeds the maximum vertical bound, or
the minimum horizontal bound exceeds the maximum horizontal bound, then
`has_valid_range_descriptor` is 0 after the call and the call returns 0. -/
theorem range_descriptor_misordered (x : List Nat) (in_extension : Int) (s : State)
    (h0 : rd x 0 = 0) (h1 : rd x 1 = 0) (h3 : rd x 3 = 0xFD) :
    ∃ r s', detailed_block x in_extension s = some (r, s') ∧
      s'.mon_min_vert_freq_hz = (rd x 5 : Int) +
        (if s.claims_one_point_four ≠ 0 ∧ rd x 4 &&& 0x02 ≠ 0 ∧ rd x 4 &&& 0x01 ≠ 0
          then 255 else 0) ∧
      s'.mon_max_vert_freq_hz = (rd x 6 : Int) +
        (if s.claims_one_point_four ≠ 0 ∧ rd x 4 &&& 0x02 ≠ 0 then 255 else 0) ∧
      s'.mon_min_hor_freq_hz = ((rd x 7 : Int) +
        (if s.claims_one_point_four ≠ 0 ∧ rd x 4 &&& 0x04 ≠ 0 ∧ rd x 4 &&& 0x03 ≠ 0
          then 255 else 0)) * 1000 ∧
      s'.mon_max_hor_freq_hz = ((rd x 8 : Int) +
        (if s.claims_one_point_four ≠ 0 ∧ rd x 4 &&& 0x04 ≠ 0 then 255 else 0)) * 1000 ∧
      ((s'.mon_min_vert_freq_hz > s'.mon_max_vert_freq_hz ∨
        s'.mon_min_hor_freq_hz > s'.mon_max_hor_freq_hz) →
        s'.has_valid_range_descriptor = 0 ∧ r = 0) := by
  have hm : ∃ t : State, t.claims_one_point_four = s.claims_one_point_four ∧
      detailed_block_monitor x s = detailed_block_range x t := by
    refine ⟨detailed_block_pad x s, ?_, ?_⟩
    · unfold detailed_block_pad
      dsimp only
      repeat' (first
        | refine view_ite (fun t : State => t.claims_one_point_four) _ _ _ _ ?_ ?_
        | rfl)
    · unfold detailed_block_monitor detailed_block_tag
      rw [h3]
      rfl
  obtain ⟨t, ht, hmt⟩ := hm
  have hb := detailed_block_range_bounds x t
  rw [ht] at hb
  obtain ⟨b0, b1, b2, b3, b4, b5⟩ := hb
  obtain ⟨o1, o2, o3, o4⟩ := range_offsets_spec (rd x 4) s.claims_one_point_four
  rw [o1] at b1
  rw [o2] at b2
  rw [o3] at b3
  rw [o4] at b4
  refine ⟨(detailed_block_range x t).1, (detailed_block_range x t).2, ?_, b1, b2, b3, b4, ?_⟩
  · unfold detailed_block
    rw [if_pos ⟨h0, h1⟩, hmt]
  · intro h
    have := b5 h
    exact ⟨this, by rw [b0, this]⟩

theorem range_descriptor_misordered_witness :
    rd sample_range_misordered 0 = 0 ∧ rd sample_range_misordered 1 = 0 ∧
    rd sample_range_misordered 3 = 0xFD ∧
    ∃ r s', detailed_block sample_range_misordered 0 State.init = some (r, s') ∧
      s'.mon_min_vert_freq_hz = 80 ∧ s'.mon_max_vert_freq_hz = 60 ∧
      s'.has_valid_range_descriptor = 0 ∧ r = 0 := by
  obtain ⟨r, s', h, e1, e2, _, _, h5⟩ :=
    range_descriptor_misordered sample_range_misordered 0 State.init
      (by decide) (by decide) (by decide)
  have e1' : s'.mon_min_vert_freq_hz = 80 := by rw [e1]; decide
  have e2' : s'.mon_max_vert_freq_hz = 60 := by rw [e2]; decide
  have h6 := h5 (Or.inl (by rw [e1', e2']; decide))
  exact ⟨by decide, by decide, by decide, r, s', h, e1', e2', h6.1, h6.2⟩


/-! ## What the base-block decode leaves alone -/

theorem main_vendor_base_view (edid : List Nat) (s : State) :
    base_view (main_vendor edid s) = base_view s := by
  unfold main_vendor manufacturer_name
  dsimp only
  show base_view (if _ then _ else _) = _
  repeat' (first | refine view_ite base_view _ _ _ _ ?_ ?_ | rfl)

theorem main_date_base_view (tm : Int) (edid : List Nat) (s : State) :
    base_view (main_date tm edid s) = base_view s := by
  unfold main_date
  dsimp only
  repeat' (first | refine view_ite base_view _ _ _ _ ?_ ?_ | rfl)

theorem main_display_base_view (edid : List Nat) (s : State) :
    base_view (main_display edid s) = base_view s := by
  unfold main_display main_digital_mask main_digital_14
  dsimp only
  repeat' (first | refine view_ite base_view _ _ _ _ ?_ ?_ | rfl)

theorem main_features_base_view (edid : List Nat) (s : State) :
    base_view (main_features edid s) = base_view s := by
  unfold main_features
  dsimp only
  repeat' (first | refine view_ite base_view _ _ _ _ ?_ ?_ | rfl)

theorem main_established_base_view (edid : List Nat) (s : State) :
    base_view (main_established edid s) = base_view s := by
  unfold main_established
  dsimp only
  show base_view (List.foldl _ s (List.range 17)) = base_view s
  apply foldl_view
  intro s a
  repeat' (first | refine view_ite base_view _ _ _ _ ?_ ?_ | rfl)

theorem print_standard_timing_base_view (b1 b2 : Nat) (s : State) :
    base_view (print_standard_timing b1 b2 s) = base_view s := by
  unfold print_standard_timing
  dsimp only
  repeat' (first | refine view_ite base_view _ _ _ _ ?_ ?_ | rfl)

theorem main_standard_base_view (edid : List Nat) (s : State) :
    base_view (main_standard edid s) = base_view s := by
  unfold main_standard
  apply foldl_view
  intro s a
  exact print_standard_timing_base_view _ _ s

theorem detailed_cvt_descriptor_base_view (x : List Nat) (first : Int) (s : State) :
    base_view (detailed_cvt_descriptor x first s).2 = base_view s := by
  unfold detailed_cvt_descriptor
  dsimp only
  repeat' (first | refine view_ite (fun r : Int × State => base_view r.2) _ _ _ _ ?_ ?_ | rfl)

theorem detailed_block_cvt_base_view (x : List Nat) (s : State) :
    base_view (detailed_block_cvt x s).2 = base_view s := by
  unfold detailed_block_cvt
  refine view_ite (fun r : Int × State => base_view r.2) _ _ _ _ rfl ?_
  show base_view (List.foldl _ ((1 : Int), s) (List.range 4)).2 = base_view s
  apply foldl_view (fun acc : Int × State => base_view acc.2)
  intro acc a
  exact detailed_cvt_descriptor_base_view _ _ _

theorem detailed_block_est3_base_view (x : List Nat) (s : State) :
    base_view (detailed_block_est3 x s) = base_view s := by
  unfold detailed_block_est3
  apply foldl_view
  intro s a
  repeat' (first | refine view_ite base_view _ _ _ _ ?_ ?_ | rfl)

theorem detailed_block_name_base_view (x : List Nat) (s : State) :
    base_view (detailed_block_name x s) = base_view s := by
  unfold detailed_block_name
  dsimp only
  repeat' (first | refine view_ite base_view _ _ _ _ ?_ ?_ | rfl)

theorem detailed_block_range_cvt_base_view (x : List Nat) (s : State) :
    base_view (detailed_block_range_cvt x s) = base_view s := by
  unfold detailed_block_range_cvt
  dsimp only
  repeat' (first | refine view_ite base_view _ _ _ _ ?_ ?_ | rfl)

theorem detailed_block_range_base_view (x : List Nat) (s : State) :
    base_view (detailed_block_range x s).2 = base_view s := by
  have h1 : ∀ t, base_view (detailed_block_range_offsets x t).2 = base_view t := by
    intro t; unfold detailed_block_range_offsets
    repeat' (first
      | refine view_ite (fun r : (Int × Int × Int × Int) × State => base_view r.2) _ _ _ _ ?_ ?_
      | rfl)
  have h2 : ∀ t, base_view (detailed_block_range_class x t).2 = base_view t := by
    intro t; unfold detailed_block_range_class
    repeat' (first
      | refine view_ite (fun r : Int × State => base_view r.2) _ _ _ _ ?_ ?_
      | refine view_ite base_view _ _ _ _ ?_ ?_
      | rfl)
  have h3 : ∀ a b t, base_view (detailed_block_range_vert x a b t) = base_view t := by
    intro a b t; unfold detailed_block_range_vert
    repeat' (first | refine view_ite base_view _ _ _ _ ?_ ?_ | rfl)
  have h4 : ∀ a b t, base_view (detailed_block_range_hor x a b t) = base_view t := by
    intro a b t; unfold detailed_block_range_hor
    repeat' (first | refine view_ite base_view _ _ _ _ ?_ ?_ | rfl)
  have h5 : ∀ t, base_view (detailed_block_range_dotclock x t) = base_view t := by
    intro t; unfold detailed_block_range_dotclock
    repeat' (first | refine view_ite base_view _ _ _ _ ?_ ?_ | rfl)
  unfold detailed_block_range
  dsimp only
  refine view_ite base_view _ _ _ _ ?_ ?_
  · rw [detailed_block_range_cvt_base_view, h5, h4, h3, h2, h1]; rfl
  · rw [h5, h4, h3, h2, h1]; rfl

theorem detailed_block_pad_base_view (x : List Nat) (s : State) :
    base_view (detailed_block_pad x s) = base_view s := by
  unfold detailed_block_pad
  repeat' (first | refine view_ite base_view _ _ _ _ ?_ ?_ | rfl)

theorem detailed_block_dummy_base_view (x : List Nat) (s : State) :
    base_view (detailed_block_dummy x s) = base_view s := by
  unfold detailed_block_dummy
  apply foldl_view
  intro s a
  repeat' (first | refine view_ite base_view _ _ _ _ ?_ ?_ | rfl)

theorem detailed_block_standard_base_view (x : List Nat) (s : State) :
    base_view (detailed_block_standard x s) = base_view s := by
  unfold detailed_block_standard
  apply foldl_view
  intro s a
  exact print_standard_timing_base_view _ _ s

theorem detailed_block_timing_base_view (x : List Nat) (e : Int) (s : State)
    (r : Int × State) (h : detailed_block_timing x e s = some r) :
    base_view r.2 = base_view s := by
  unfold detailed_block_timing at h
  dsimp only at h
  split at h
  · simp at h
  · split at h
    · simp at h
    · simp only [Option.some.injEq] at h
      subst h
      show base_view (if _ then _ else _) = _
      repeat' (first | refine view_ite base_view _ _ _ _ ?_ ?_ | rfl)

theorem detailed_block_tag_base_view (x : List Nat) (s : State) :
    base_view (detailed_block_tag x s).2 = base_view s := by
  unfold detailed_block_tag
  refine view_ite (fun r : Int × State => base_view r.2) _ _ _ _ rfl ?_
  refine view_ite (fun r : Int × State => base_view r.2) _ _ _ _
    (detailed_block_dummy_base_view x s) ?_
  refine view_ite (fun r : Int × State => base_view r.2) _ _ _ _
    (detailed_block_est3_base_view x s) ?_
  refine view_ite (fun r : Int × State => base_view r.2) _ _ _ _
    (detailed_block_cvt_base_view x s) ?_
  refine view_ite (fun r : Int × State => base_view r.2) _ _ _ _ rfl ?_
  refine view_ite (fun r : Int × State => base_view r.2) _ _ _ _
    (detailed_block_standard_base_view x s) ?_
  refine view_ite (fun r : Int × State => base_view r.2) _ _ _ _ rfl ?_
  refine view_ite (fun r : Int × State => base_view r.2) _ _ _ _
    (detailed_block_name_base_view x s) ?_
  refine view_ite (fun r : Int × State => base_view r.2) _ _ _ _
    (detailed_block_range_base_view x s) ?_
  refine view_ite (fun r : Int × State => base_view r.2) _ _ _ _ rfl ?_
  exact view_ite (fun r : Int × State => base_view r.2) _ _ _ _ rfl rfl

theorem detailed_block_monitor_base_view (x : List Nat) (s : State) :
    base_view (detailed_block_monitor x s).2 = base_view s := by
  unfold detailed_block_monitor
  rw [detailed_block_tag_base_view, detailed_block_pad_base_view]

theorem detailed_block_base_view (x : List Nat) (e : Int) (s : State)
    (r : Int × State) (h : detailed_block x e s = some r) :
    base_view r.2 = base_view s := by
  unfold detailed_block at h
  split_ifs at h
  · simp only [Option.some.injEq] at h
    subst h
    exact detailed_block_monitor_base_view x s
  · exact detailed_block_timing_base_view x e s r h

theorem main_detailed_first_base_view (edid : List Nat) (s t : State)
    (h : main_detailed_first edid s = some t) : base_view t = base_view s := by
  unfold main_detailed_first at h
  split at h
  · simp at h
  · next r hr =>
    simp only [Option.some.injEq] at h
    subst h
    have := detailed_block_base_view _ _ _ r hr
    rw [← this]
    repeat' (first | refine view_ite base_view _ _ _ _ ?_ ?_ | rfl)

theorem main_detailed_and_base_view (edid : List Nat) (off : Nat) (s t : State)
    (h : main_detailed_and edid off s = some t) : base_view t = base_view s := by
  unfold main_detailed_and at h
  split at h
  · simp at h
  · next r hr =>
    simp only [Option.some.injEq] at h
    subst h
    have := detailed_block_base_view _ _ _ r hr
    rw [← this]
    rfl

theorem main_detailed_base_view (edid : List Nat) (s t : State)
    (h : main_detailed edid s = some t) : base_view t = base_view s := by
  unfold main_detailed at h
  simp only [Option.bind_eq_some] at h
  obtain ⟨s3, ⟨s2, ⟨s1, h1, h2⟩, h3⟩, h4⟩ := h
  rw [main_detailed_and_base_view _ _ _ _ h4, main_detailed_and_base_view _ _ _ _ h3,
    main_detailed_and_base_view _ _ _ _ h2, main_detailed_first_base_view _ _ _ h1]

theorem main_revision_ext (rev : Nat) (s : State) :
    (base_view (main_revision rev s)).2 = (base_view s).2 := by
  unfold main_revision
  split <;> rfl

theorem main_version_ext (edid : List Nat) (s : State) :
    (base_view (main_version edid s).2).2 = (base_view s).2 := by
  unfold main_version
  split_ifs
  · exact main_revision_ext _ s
  · exact main_revision_ext _ s
  · rfl

theorem main_version_rev3 (edid : List Nat) (s : State)
    (h12 : rd edid 0x12 = 1) (h13 : rd edid 0x13 = 3) :
    (main_version edid s).1 = edid ∧ (main_version edid s).2.claims_one_point_three = 1 := by
  unfold main_version
  rw [if_pos h12]
  have hgt : ¬ rd edid 0x13 > 4 := by omega
  dsimp only
  rw [if_neg hgt, h13]
  exact ⟨rfl, rfl⟩

/-- With no extension block to parse, the decode ends with the claimed-revision
flags as `main_version` set them, with the flags that only extension blocks set
still 0, and with `conformant` still 1. -/
theorem main_decode_base_only (tm : Int) (edid : List Nat) (lines : Int) (junk : Nat → Int)
    (s : State) (hl : Int.tdiv lines 8 ≤ 1) (h : main_decode tm edid lines junk = some s) :
    base_view s =
      ((base_view (main_version edid (main_date tm edid (main_vendor edid State.init))).2).1,
       (0, 0, 0, 0), 1) := by
  unfold main_decode at h
  dsimp only at h
  split at h
  · simp at h
  · next t ht =>
    have hn : (Int.tdiv lines 8 - 1).toNat = 0 := by
      rw [Int.toNat_eq_zero]; omega
    rw [hn] at h
    simp only [main_extensions, Option.some.injEq] at h
    subst h
    have e := main_detailed_base_view _ _ _ ht
    rw [main_standard_base_view, main_established_base_view, main_features_base_view,
      main_display_base_view] at e
    have e2 := main_version_ext edid (main_date tm edid (main_vendor edid State.init))
    rw [main_date_base_view, main_vendor_base_view] at e2
    have e3 : (base_view (main_version edid (main_date tm edid
        (main_vendor edid State.init))).2).2 = ((0, 0, 0, 0), 1) := by rw [e2]; rfl
    show base_view t = _
    rw [e, ← e3]

/-! ## End-to-end scenario A -/

/-- Claim C7 fails as stated: `sample_edid_week60` declares revision 1.3, has a
valid checksum, a newline-terminated name descriptor, the preferred-timing flag
and a range descriptor that encloses every observed frequency and clock, and has
no extension block; yet `main` returns 1, because week 60 is not a valid week
of manufacture. -/
theorem scenario_A_bad_week_rejected :
    sample_edid_week60.length = 128 ∧ is_bytes sample_edid_week60 ∧
    rd sample_edid_week60 0x12 = 1 ∧ rd sample_edid_week60 0x13 = 3 ∧
    rd sample_edid_week60 0x7e = 0 ∧
    (do_checksum sample_edid_week60 128).ret = 1 ∧
    (main_decode 126 sample_edid_week60 8 junk_zero).map (fun s =>
      (s.has_valid_checksum, s.has_name_descriptor, s.name_descriptor_terminated,
       s.has_preferred_timing, s.has_range_descriptor,
       decide (s.mon_min_vert_freq_hz ≤ s.min_vert_freq_hz ∧
         s.max_vert_freq_hz ≤ s.mon_max_vert_freq_hz ∧
         s.mon_min_hor_freq_hz ≤ s.min_hor_freq_hz ∧
         s.max_hor_freq_hz ≤ s.mon_max_hor_freq_hz ∧
         s.max_pixclk_khz ≤ s.mon_max_pixclk_khz))) = some (1, 1, 1, 1, 1, true) ∧
    main 126 sample_edid_week60 8 junk_zero = some 1 := by
  refine ⟨by decide!, by decide!, by decide!, by decide!, by decide!, by decide!, by decide!,
    by decide!⟩



/-! ## What the base-block decode does to the monitor name -/

theorem main_vendor_name_view (edid : List Nat) (s : State) :
    name_view (main_vendor edid s) = name_view s := by
  unfold main_vendor manufacturer_name
  dsimp only
  show name_view (if _ then _ else _) = _
  repeat' (first | refine view_ite name_view _ _ _ _ ?_ ?_ | rfl)

theorem main_date_name_view (tm : Int) (edid : List Nat) (s : State) :
    name_view (main_date tm edid s) = name_view s := by
  unfold main_date
  dsimp only
  repeat' (first | refine view_ite name_view _ _ _ _ ?_ ?_ | rfl)

theorem main_display_name_view (edid : List Nat) (s : State) :
    name_view (main_display edid s) = name_view s := by
  unfold main_display main_digital_mask main_digital_14
  dsimp only
  repeat' (first | refine view_ite name_view _ _ _ _ ?_ ?_ | rfl)

theorem main_features_name_view (edid : List Nat) (s : State) :
    name_view (main_features edid s) = name_view s := by
  unfold main_features
  dsimp only
  repeat' (first | refine view_ite name_view _ _ _ _ ?_ ?_ | rfl)

theorem main_established_name_view (edid : List Nat) (s : State) :
    name_view (main_established edid s) = name_view s := by
  unfold main_established
  dsimp only
  show name_view (List.foldl _ s (List.range 17)) = name_view s
  apply foldl_view
  intro s a
  repeat' (first | refine view_ite name_view _ _ _ _ ?_ ?_ | rfl)

theorem print_standard_timing_name_view (b1 b2 : Nat) (s : State) :
    name_view (print_standard_timing b1 b2 s) = name_view s := by
  unfold print_standard_timing
  dsimp only
  repeat' (first | refine view_ite name_view _ _ _ _ ?_ ?_ | rfl)

theorem main_standard_name_view (edid : List Nat) (s : State) :
    name_view (main_standard edid s) = name_view s := by
  unfold main_standard
  apply foldl_view
  intro s a
  exact print_standard_timing_name_view _ _ s

theorem detailed_cvt_descriptor_name_view (x : List Nat) (first : Int) (s : State) :
    name_view (detailed_cvt_descriptor x first s).2 = name_view s := by
  unfold detailed_cvt_descriptor
  dsimp only
  repeat' (first | refine view_ite (fun r : Int × State => name_view r.2) _ _ _ _ ?_ ?_ | rfl)

theorem detailed_block_cvt_name_view (x : List Nat) (s : State) :
    name_view (detailed_block_cvt x s).2 = name_view s := by
  unfold detailed_block_cvt
  refine view_ite (fun r : Int × State => name_view r.2) _ _ _ _ rfl ?_
  show name_view (List.foldl _ ((1 : Int), s) (List.range 4)).2 = name_view s
  apply foldl_view (fun acc : Int × State => name_view acc.2)
  intro acc a
  exact detailed_cvt_descriptor_name_view _ _ _

theorem detailed_block_est3_name_view (x : List Nat) (s : State) :
    name_view (detailed_block_est3 x s) = name_view s := by
  unfold detailed_block_est3
  apply foldl_view
  intro s a
  repeat' (first | refine view_ite name_view _ _ _ _ ?_ ?_ | rfl)


theorem detailed_block_range_cvt_name_view (x : List Nat) (s : State) :
    name_view (detailed_block_range_cvt x s) = name_view s := by
  unfold detailed_block_range_cvt
  dsimp only
  repeat' (first | refine view_ite name_view _ _ _ _ ?_ ?_ | rfl)

theorem detailed_block_range_name_view (x : List Nat) (s : State) :
    name_view (detailed_block_range x s).2 = name_view s := by
  have h1 : ∀ t, name_view (detailed_block_range_offsets x t).2 = name_view t := by
    intro t; unfold detailed_block_range_offsets
    repeat' (first
      | refine view_ite (fun r : (Int × Int × Int × Int) × State => name_view r.2) _ _ _ _ ?_ ?_
      | rfl)
  have h2 : ∀ t, name_view (detailed_block_range_class x t).2 = name_view t := by
    intro t; unfold detailed_block_range_class
    repeat' (first
      | refine view_ite (fun r : Int × State => name_view r.2) _ _ _ _ ?_ ?_
      | refine view_ite name_view _ _ _ _ ?_ ?_
      | rfl)
  have h3 : ∀ a b t, name_view (detailed_block_range_vert x a b t) = name_view t := by
    intro a b t; unfold detailed_block_range_vert
    repeat' (first | refine view_ite name_view _ _ _ _ ?_ ?_ | rfl)
  have h4 : ∀ a b t, name_view (detailed_block_range_hor x a b t) = name_view t := by
    intro a b t; unfold detailed_block_range_hor
    repeat' (first | refine view_ite name_view _ _ _ _ ?_ ?_ | rfl)
  have h5 : ∀ t, name_view (detailed_block_range_dotclock x t) = name_view t := by
    intro t; unfold detailed_block_range_dotclock
    repeat' (first | refine view_ite name_view _ _ _ _ ?_ ?_ | rfl)
  unfold detailed_block_range
  dsimp only
  refine view_ite name_view _ _ _ _ ?_ ?_
  · rw [detailed_block_range_cvt_name_view, h5, h4, h3, h2, h1]; rfl
  · rw [h5, h4, h3, h2, h1]; rfl

theorem detailed_block_pad_name_view (x : List Nat) (s : State) :
    name_view (detailed_block_pad x s) = name_view s := by
  unfold detailed_block_pad
  repeat' (first | refine view_ite name_view _ _ _ _ ?_ ?_ | rfl)

theorem detailed_block_dummy_name_view (x : List Nat) (s : State) :
    name_view (detailed_block_dummy x s) = name_view s := by
  unfold detailed_block_dummy
  apply foldl_view
  intro s a
  repeat' (first | refine view_ite name_view _ _ _ _ ?_ ?_ | rfl)

theorem detailed_block_standard_name_view (x : List Nat) (s : State) :
    name_view (detailed_block_standard x s) = name_view s := by
  unfold detailed_block_standard
  apply foldl_view
  intro s a
  exact print_standard_timing_name_view _ _ s

theorem detailed_block_timing_name_view (x : List Nat) (e : Int) (s : State)
    (r : Int × State) (h : detailed_block_timing x e s = some r) :
    name_view r.2 = name_view s := by
  unfold detailed_block_timing at h
  dsimp only at h
  split at h
  · simp at h
  · split at h
    · simp at h
    · simp only [Option.some.injEq] at h
      subst h
      show name_view (if _ then _ else _) = _
      repeat' (first | refine view_ite name_view _ _ _ _ ?_ ?_ | rfl)

/-! ## What the extension blocks leave alone -/

theorem cea_svd_entry_ext_frame (svd : Nat) (s : State) :
    ext_frame (cea_svd_entry svd s).2 = ext_frame s := by
  unfold cea_svd_entry
  dsimp only
  refine view_ite (fun r : Option SvdLine × State => ext_frame r.2) _ _ _ _ rfl ?_
  show ext_frame (if _ then _ else _) = _
  repeat' (first | refine view_ite ext_frame _ _ _ _ ?_ ?_ | rfl)

theorem cea_svd_ext_frame (x : List Nat) (n : Int) (s : State) :
    ext_frame (cea_svd x n s).2 = ext_frame s := by
  unfold cea_svd
  apply foldl_view (fun acc : List SvdLine × State => ext_frame acc.2)
  intro acc a
  exact cea_svd_entry_ext_frame _ _

theorem cea_video_block_ext_frame (x : List Nat) (s : State) :
    ext_frame (cea_video_block x s) = ext_frame s := by
  unfold cea_video_block
  exact cea_svd_ext_frame _ _ s

theorem cea_y420vdb_ext_frame (x : List Nat) (s : State) :
    ext_frame (cea_y420vdb x s) = ext_frame s := by
  unfold cea_y420vdb
  exact cea_svd_ext_frame _ _ s

theorem cea_hdmi_vics_ext_frame (x : List Nat) (base len_vic : Nat) (s : State) :
    ext_frame (cea_hdmi_vics x base len_vic s) = ext_frame s := by
  unfold cea_hdmi_vics
  apply foldl_view
  intro s a
  repeat' (first | refine view_ite ext_frame _ _ _ _ ?_ ?_ | rfl)

theorem cea_hdmi_block_ext_frame (x : List Nat) (s : State) :
    ext_frame (cea_hdmi_block x s) = ext_frame s := by
  unfold cea_hdmi_block
  dsimp only
  repeat' (first
    | refine view_ite ext_frame _ _ _ _ ?_ ?_
    | exact cea_hdmi_vics_ext_frame _ _ _ s
    | rfl)

theorem cea_block_ext_frame (x : List Nat) (s : State) :
    ext_frame (cea_block x s) = ext_frame s := by
  have hv : ext_frame (cea_block_vendor x s) = ext_frame s := by
    unfold cea_block_vendor
    dsimp only
    refine view_ite ext_frame _ _ _ _ ?_ ?_
    · exact cea_hdmi_block_ext_frame x s
    · show ext_frame (if _ then _ else _) = _
      repeat' (first | refine view_ite ext_frame _ _ _ _ ?_ ?_ | rfl)
  unfold cea_block
  dsimp only
  refine view_ite ext_frame _ _ _ _ (cea_video_block_ext_frame x s) ?_
  refine view_ite ext_frame _ _ _ _ hv ?_
  refine view_ite ext_frame _ _ _ _ ?_ rfl
  exact view_ite ext_frame _ _ _ _ (cea_y420vdb_ext_frame x s) rfl

theorem parse_cea_blocks_ext_frame (x : List Nat) (offset fuel i : Nat) (s : State) :
    ext_frame (parse_cea_blocks x offset fuel i s) = ext_frame s := by
  induction fuel generalizing i s with
  | zero => rfl
  | succ n ih =>
    unfold parse_cea_blocks
    refine view_ite ext_frame _ _ _ _ ?_ rfl
    rw [ih, cea_block_ext_frame]

theorem detailed_block_timing_ext_frame (x : List Nat) (s : State)
    (r : Int × State) (h : detailed_block_timing x 1 s = some r) :
    ext_frame r.2 = ext_frame s := by
  unfold detailed_block_timing at h
  dsimp only at h
  split at h
  · simp at h
  · split at h
    · simp at h
    · simp only [Option.some.injEq] at h
      subst h
      have hc : ¬ (s.seen_non_detailed_descriptor ≠ 0 ∧ (1 : Int) = 0) := by
        intro hh; exact absurd hh.2 (by decide)
      rw [if_neg hc]
      rfl

theorem rd_drop (x : List Nat) (i j : Nat) : rd (x.drop i) j = rd x (i + j) := by
  unfold rd
  rw [List.getD_eq_getElem?_getD, List.getD_eq_getElem?_getD, List.getElem?_drop]

theorem parse_cea_detailed_ext_frame (x : List Nat) (fuel d : Nat) (s t : State)
    (h : parse_cea_detailed x fuel d s = some t) : ext_frame t = ext_frame s := by
  induction fuel generalizing d s with
  | zero =>
    simp only [parse_cea_detailed, Option.some.injEq] at h
    rw [h]
  | succ n ih =>
    unfold parse_cea_detailed at h
    split_ifs at h with h1 h2
    · split at h
      · simp at h
      · next r hr =>
        have hx : ¬ (rd (x.drop d) 0 = 0 ∧ rd (x.drop d) 1 = 0) := by
          rw [rd_drop]; intro hh; exact h2 hh.1
        unfold detailed_block at hr
        rw [if_neg hx] at hr
        rw [ih _ _ h, detailed_block_timing_ext_frame _ _ _ hr]
    · exact ih _ _ h
    · simp only [Option.some.injEq] at h
      rw [h]

theorem parse_cea_ext_frame (x : List Nat) (s : State) (r : Int × State)
    (h : parse_cea x s = some r) : ext_frame r.2 = ext_frame s := by
  have hb : ∀ r0, parse_cea_body x s = some r0 → ext_frame r0.2 = ext_frame s := by
    intro r0 h0
    unfold parse_cea_body at h0
    dsimp only at h0
    by_cases hoff : rd x 2 < 4
    · rw [if_pos hoff] at h0
      simp only [Option.some.injEq] at h0
      rw [← h0]
    · rw [if_neg hoff] at h0
      split at h0
      · simp at h0
      · next t ht =>
        simp only [Option.some.injEq] at h0
        rw [← h0]
        show ext_frame t = _
        rw [parse_cea_detailed_ext_frame _ _ _ _ _ ht]
        refine view_ite ext_frame _ _ _ _ rfl ?_
        exact view_ite ext_frame _ _ _ _ (parse_cea_blocks_ext_frame _ _ _ _ _) rfl
  unfold parse_cea at h
  split at h
  · simp at h
  · next r0 h0 =>
    simp only [Option.some.injEq] at h
    rw [← h]
    show ext_frame r0.2 = _
    split_ifs at h0
    · exact hb r0 h0
    · simp only [Option.some.injEq] at h0
      rw [← h0]

theorem parse_extension_ext_frame (x : List Nat) (j : Int) (s : State) (r : Int × State)
    (h : parse_extension x j s = some r) : ext_frame r.2 = ext_frame s := by
  unfold parse_extension at h
  split_ifs at h
  · exact parse_cea_ext_frame x s r h
  · simp only [Option.some.injEq] at h
    rw [← h]
    rfl
  · simp only [Option.some.injEq] at h
    rw [← h]

theorem main_extensions_ext_frame (edid : List Nat) (junk : Nat → Int) (n k : Nat)
    (s t : State) (h : main_extensions edid junk n k s = some t) :
    ext_frame t = ext_frame s := by
  induction n generalizing k s with
  | zero =>
    simp only [main_extensions, Option.some.injEq] at h
    rw [h]
  | succ m ih =>
    unfold main_extensions at h
    split at h
    · simp at h
    · next r hr =>
      rw [ih _ _ h, ← parse_extension_ext_frame _ _ _ _ hr]
      rfl

/-! ## End-to-end scenario C: a name descriptor without its newline -/

theorem name_unterminated_of_view (s t : State) (h : name_view t = name_view s)
    (hs : name_unterminated s) : name_unterminated t := by
  unfold name_view at h
  simp only [Prod.mk.injEq] at h
  unfold name_unterminated at hs ⊢
  rw [h.1, h.2]
  exact hs

/-- A name descriptor whose payload holds no newline, met while the name buffer
holds no newline, only appends to the buffer: `extract_string` is not run, so
neither `name_descriptor_terminated` nor `has_valid_string_termination` changes. -/
theorem detailed_block_name_unterminated (x : List Nat) (s : State)
    (hs : name_unterminated s) (hp : 0x0a ∉ (x.drop 5).take 13) :
    name_unterminated (detailed_block_name x s) ∧
    (detailed_block_name x s).has_valid_string_termination = s.has_valid_string_termination ∧
    (detailed_block_name x s).has_name_descriptor = 1 := by
  obtain ⟨h1, h2⟩ := hs
  have h3 : 0x0a ∉ s.name ++ ((x.drop 5).take 13).takeWhile (fun c => c != 0) := by
    intro h
    rcases List.mem_append.mp h with h | h
    · exact h1 h
    · exact hp ((List.takeWhile_sublist _).subset h)
  unfold detailed_block_name
  dsimp only
  rw [if_neg h1, if_neg h3]
  exact ⟨⟨h3, h2⟩, rfl, rfl⟩

theorem pred_ite {α : Type} (Q : α → Prop) (c : Prop) [Decidable c] (a b : α)
    (ha : c → Q a) (hb : ¬ c → Q b) : Q (if c then a else b) := by
  split_ifs with h
  · exact ha h
  · exact hb h

theorem detailed_block_tag_name (x : List Nat) (s : State) (hs : name_unterminated s)
    (hp : rd x 3 = 0xFC → 0x0a ∉ (x.drop 5).take 13) :
    name_unterminated (detailed_block_tag x s).2 := by
  unfold detailed_block_tag
  refine pred_ite (fun r : Int × State => name_unterminated r.2) _ _ _ (fun _ => hs) (fun _ => ?_)
  refine pred_ite (fun r : Int × State => name_unterminated r.2) _ _ _ (fun _ =>
    name_unterminated_of_view _ _ (detailed_block_dummy_name_view x s) hs) (fun _ => ?_)
  refine pred_ite (fun r : Int × State => name_unterminated r.2) _ _ _ (fun _ =>
    name_unterminated_of_view _ _ (detailed_block_est3_name_view x s) hs) (fun _ => ?_)
  refine pred_ite (fun r : Int × State => name_unterminated r.2) _ _ _ (fun _ =>
    name_unterminated_of_view _ _ (detailed_block_cvt_name_view x s) hs) (fun _ => ?_)
  refine pred_ite (fun r : Int × State => name_unterminated r.2) _ _ _ (fun _ => hs) (fun _ => ?_)
  refine pred_ite (fun r : Int × State => name_unterminated r.2) _ _ _ (fun _ =>
    name_unterminated_of_view _ _ (detailed_block_standard_name_view x s) hs) (fun _ => ?_)
  refine pred_ite (fun r : Int × State => name_unterminated r.2) _ _ _ (fun _ => hs) (fun _ => ?_)
  refine pred_ite (fun r : Int × State => name_unterminated r.2) _ _ _ (fun h =>
    (detailed_block_name_unterminated x s hs (hp h)).1) (fun _ => ?_)
  refine pred_ite (fun r : Int × State => name_unterminated r.2) _ _ _ (fun _ =>
    name_unterminated_of_view _ _ (detailed_block_range_name_view x s) hs) (fun _ => ?_)
  refine pred_ite (fun r : Int × State => name_unterminated r.2) _ _ _ (fun _ =>
    name_unterminated_of_view s _ rfl hs) (fun _ => ?_)
  exact pred_ite (fun r : Int × State => name_unterminated r.2) _ _ _ (fun _ =>
    name_unterminated_of_view s _ rfl hs) (fun _ => hs)

theorem detailed_block_name_inv (x : List Nat) (e : Int) (s : State) (r : Int × State)
    (hs : name_unterminated s)
    (hp : rd x 0 = 0 → rd x 1 = 0 → rd x 3 = 0xFC → 0x0a ∉ (x.drop 5).take 13)
    (h : detailed_block x e s = some r) : name_unterminated r.2 := by
  unfold detailed_block at h
  split_ifs at h with hm
  · simp only [Option.some.injEq] at h
    rw [← h]
    unfold detailed_block_monitor
    apply detailed_block_tag_name
    · exact name_unterminated_of_view _ _ (detailed_block_pad_name_view x s) hs
    · exact hp hm.1 hm.2
  · exact name_unterminated_of_view _ _ (detailed_block_timing_name_view x e s r h) hs

theorem main_detailed_name_inv (edid : List Nat) (s t : State) (hs : name_unterminated s)
    (hp : ∀ off ∈ [0x36, 0x48, 0x5A, 0x6C],
      rd (edid.drop off) 0 = 0 → rd (edid.drop off) 1 = 0 → rd (edid.drop off) 3 = 0xFC →
      0x0a ∉ ((edid.drop off).drop 5).take 13)
    (h : main_detailed edid s = some t) : name_unterminated t := by
  have hand : ∀ off ∈ [0x36, 0x48, 0x5A, 0x6C], ∀ a b : State, name_unterminated a →
      main_detailed_and edid off a = some b → name_unterminated b := by
    intro off hoff a b ha hab
    unfold main_detailed_and at hab
    split at hab
    · simp at hab
    · next r hr =>
      simp only [Option.some.injEq] at hab
      rw [← hab]
      exact name_unterminated_of_view _ _ rfl
        (detailed_block_name_inv _ _ _ r ha (hp off hoff) hr)
  unfold main_detailed at h
  simp only [Option.bind_eq_some] at h
  obtain ⟨s3, ⟨s2, ⟨s1, h1, h2⟩, h3⟩, h4⟩ := h
  have i1 : name_unterminated s1 := by
    unfold main_detailed_first at h1
    split at h1
    · simp at h1
    · next r hr =>
      simp only [Option.some.injEq] at h1
      rw [← h1]
      have hr2 := detailed_block_name_inv _ _ _ r hs (hp 0x36 (by simp)) hr
      refine name_unterminated_of_view _ _ ?_ hr2
      repeat' (first | refine view_ite name_view _ _ _ _ ?_ ?_ | rfl)
  have i2 := hand 0x48 (by simp) _ _ i1 h2
  have i3 := hand 0x5A (by simp) _ _ i2 h3
  exact hand 0x6C (by simp) _ _ i3 h4

/-- The decode in two parts: the base block up to its checksum, then the
extension loop. -/
theorem main_decode_split (tm : Int) (edid : List Nat) (lines : Int) (junk : Nat → Int)
    (s : State) (h : main_decode tm edid lines junk = some s) :
    ∃ t, main_detailed (main_version edid (main_date tm edid (main_vendor edid State.init))).1
        (main_standard (main_version edid (main_date tm edid (main_vendor edid State.init))).1
          (main_established (main_version edid (main_date tm edid
              (main_vendor edid State.init))).1
            (main_features (main_version edid (main_date tm edid
                (main_vendor edid State.init))).1
              (main_display (main_version edid (main_date tm edid
                  (main_vendor edid State.init))).1
                (main_version edid (main_date tm edid (main_vendor edid State.init))).2))))
        = some t ∧
      ext_frame s = ext_frame { t with has_valid_checksum :=
        (do_checksum (main_version edid (main_date tm edid (main_vendor edid State.init))).1
          128).ret } := by
  unfold main_decode at h
  dsimp only at h
  split at h
  · simp at h
  · next t ht =>
    exact ⟨t, ht, main_extensions_ext_frame _ _ _ _ _ _ h⟩

theorem main_return_of_fails_revision (s : State) (h3 : s.claims_one_point_three ≠ 0)
    (h : fails_one_point_three s = true) :
    (main_verdict s).conformant = 0 ∧ main_return (main_verdict s) = 1 := by
  have e1 : verdict_revision s = { s with conformant := 0 } := by
    unfold verdict_revision
    rw [if_pos h3, if_pos h]
  have e2 : (verdict_range (verdict_revision s)).conformant = 0 := by
    rw [e1]
    rcases verdict_range_cases { s with conformant := 0 } with e | e <;> rw [e]
  have e3 : (main_verdict s).conformant = 0 := by
    unfold main_verdict
    rcases verdict_always_cases (verdict_range (verdict_revision s)) with e | e <;> rw [e]
    exact e2
  exact ⟨e3, by unfold main_return lnot; rw [e3]; rfl⟩

/-- Claim C8 fails as stated: in `sample_edid_name_unterminated` the newline of the
name descriptor is replaced by 0x01; after the decode `name_descriptor_terminated`
is 0 and `main` returns 1, but `has_valid_string_termination` is still 1. -/
theorem scenario_C_string_flag_untouched :
    sample_edid_name_unterminated.length = 128 ∧ is_bytes sample_edid_name_unterminated ∧
    rd sample_edid_name_unterminated 0x12 = 1 ∧ rd sample_edid_name_unterminated 0x13 = 3 ∧
    (sample_edid_name_unterminated.drop 0x5A).take 18 =
      [0, 0, 0, 0xFC, 0, 0x54, 0x65, 0x73, 0x74, 0x01, 0x20, 0x20, 0x20, 0x20, 0x20, 0x20,
       0x20, 0x20] ∧
    (main_decode 126 sample_edid_name_unterminated 8 junk_zero).map (fun s =>
      (s.has_valid_string_termination, s.name_descriptor_terminated)) = some (1, 0) ∧
    main 126 sample_edid_name_unterminated 8 junk_zero = some 1 := by
  refine ⟨by decide!, by decide!, by decide!, by decide!, by decide!, by decide!, by decide!⟩

/-- Claim C8 as amended: for every base block that declares revision 1.3 and in
which no name descriptor (tag 0xFC) among the four descriptor slots holds a
newline in its 13-byte payload, whatever extension blocks follow, a decode that
completes ends with `name_descriptor_terminated` equal to 0 and `main` returns 1;
and such a name descriptor leaves `has_valid_string_termination` as it was. -/
theorem scenario_C_name_unterminated (tm : Int) (edid : List Nat) (lines : Int)
    (junk : Nat → Int) (s : State)
    (h12 : rd edid 0x12 = 1) (h13 : rd edid 0x13 = 3)
    (hp : ∀ off ∈ [0x36, 0x48, 0x5A, 0x6C],
      rd (edid.drop off) 0 = 0 → rd (edid.drop off) 1 = 0 → rd (edid.drop off) 3 = 0xFC →
      0x0a ∉ ((edid.drop off).drop 5).take 13)
    (hdec : main_decode tm edid lines junk = some s) :
    s.name_descriptor_terminated = 0 ∧ main tm edid lines junk = some 1 ∧
    (∀ (x : List Nat) (t : State), name_unterminated t → 0x0a ∉ (x.drop 5).take 13 →
      (detailed_block_name x t).has_valid_string_termination =
        t.has_valid_string_termination ∧
      (detailed_block_name x t).name_descriptor_terminated = 0) := by
  obtain ⟨t, ht, hf⟩ := main_decode_split tm edid lines junk s hdec
  obtain ⟨hv1, hv3⟩ := main_version_rev3 edid (main_date tm edid (main_vendor edid State.init))
    h12 h13
  rw [hv1] at ht
  have hinit : name_unterminated
      (main_standard edid (main_established edid (main_features edid (main_display edid
        (main_version edid (main_date tm edid (main_vendor edid State.init))).2)))) := by
    apply name_unterminated_of_view State.init _
    · rw [main_standard_name_view, main_established_name_view, main_features_name_view,
        main_display_name_view]
      have : name_view (main_version edid (main_date tm edid (main_vendor edid State.init))).2
          = name_view (main_date tm edid (main_vendor edid State.init)) := by
        unfold main_version
        refine view_ite (fun r : List Nat × State => name_view r.2) _ _ _ _ ?_ rfl
        show name_view (main_revision _ _) = _
        unfold main_revision
        split <;> rfl
      rw [this, main_date_name_view, main_vendor_name_view]
    · exact ⟨by simp [State.init], rfl⟩
  have ht2 := main_detailed_name_inv edid _ t hinit hp ht
  have hb := main_detailed_base_view _ _ _ ht
  rw [main_standard_base_view, main_established_base_view, main_features_base_view,
    main_display_base_view] at hb
  have hc3 : t.claims_one_point_three = 1 := by
    simp only [base_view, Prod.mk.injEq] at hb
    rw [hb.1.2.2.1, hv3]
  simp only [ext_frame, Prod.mk.injEq] at hf
  have hs3 : s.claims_one_point_three ≠ 0 := by
    rw [hf.1.2.2.1, hc3]; decide
  have hsn : s.name_descriptor_terminated = 0 := by
    rw [hf.2.1.2.2.1]; exact ht2.2
  refine ⟨hsn, ?_, ?_⟩
  · unfold main
    rw [hdec]
    have := main_return_of_fails_revision s hs3 (by unfold fails_one_point_three; simp [hsn])
    simp only [Option.map, this.2]
  · intro x u hu hx
    have := detailed_block_name_unterminated x u hu hx
    exact ⟨this.2.1, this.1.2⟩

theorem scenario_C_name_unterminated_witness :
    (rd sample_edid_name_unterminated 0x12 = 1 ∧ rd sample_edid_name_unterminated 0x13 = 3 ∧
      (main_decode 126 sample_edid_name_unterminated 8 junk_zero).isSome = true) ∧
    main 126 sample_edid_name_unterminated 8 junk_zero = some 1 := by
  have hsome : (main_decode 126 sample_edid_name_unterminated 8 junk_zero).isSome = true := by
    decide!
  refine ⟨⟨by decide!, by decide!, hsome⟩, ?_⟩
  cases hs : main_decode 126 sample_edid_name_unterminated 8 junk_zero with
  | none =>
    rw [hs] at hsome
    simp at hsome
  | some s =>
    exact (scenario_C_name_unterminated 126 sample_edid_name_unterminated 8 junk_zero s
      (by decide!) (by decide!) (by decide!) hs).2.1


/-! ## The position of the HDMI Forum block -/

theorem cea_svd_entry_hf_view (svd : Nat) (s : State) :
    hf_view (cea_svd_entry svd s).2 = hf_view s := by
  unfold cea_svd_entry
  dsimp only
  refine view_ite (fun r : Option SvdLine × State => hf_view r.2) _ _ _ _ rfl ?_
  show hf_view (if _ then _ else _) = _
  repeat' (first | refine view_ite hf_view _ _ _ _ ?_ ?_ | rfl)

theorem cea_svd_hf_view (x : List Nat) (n : Int) (s : State) :
    hf_view (cea_svd x n s).2 = hf_view s := by
  unfold cea_svd
  apply foldl_view (fun acc : List SvdLine × State => hf_view acc.2)
  intro acc a
  exact cea_svd_entry_hf_view _ _

theorem cea_video_block_hf_view (x : List Nat) (s : State) :
    hf_view (cea_video_block x s) = hf_view s := by
  unfold cea_video_block
  exact cea_svd_hf_view _ _ s

theorem cea_y420vdb_hf_view (x : List Nat) (s : State) :
    hf_view (cea_y420vdb x s) = hf_view s := by
  unfold cea_y420vdb
  exact cea_svd_hf_view _ _ s

theorem cea_hdmi_vics_hf_view (x : List Nat) (base len_vic : Nat) (s : State) :
    hf_view (cea_hdmi_vics x base len_vic s) = hf_view s := by
  unfold cea_hdmi_vics
  apply foldl_view
  intro s a
  repeat' (first | refine view_ite hf_view _ _ _ _ ?_ ?_ | rfl)

theorem cea_hdmi_block_hf_view (x : List Nat) (s : State) :
    hf_view (cea_hdmi_block x s) = hf_view s := by
  unfold cea_hdmi_block
  dsimp only
  repeat' (first
    | refine view_ite hf_view _ _ _ _ ?_ ?_
    | exact cea_hdmi_vics_hf_view _ _ _ s
    | rfl)

/-- What `cea_block` does to `last_block_was_hdmi_vsdb` and to
`nonconformant_hf_vsdb_position`. -/
theorem cea_block_hf (b : List Nat) (s : State) :
    (cea_block b s).last_block_was_hdmi_vsdb = (if is_hdmi_vsdb b then 1 else 0) ∧
    (cea_block b s).nonconformant_hf_vsdb_position =
      (if is_hf_vsdb b ∧ s.last_block_was_hdmi_vsdb = 0 then 1
       else s.nonconformant_hf_vsdb_position) := by
  have hvid := cea_video_block_hf_view b s
  have hy := cea_y420vdb_hf_view b s
  have hh := cea_hdmi_block_hf_view b s
  simp only [hf_view, Prod.mk.injEq] at hvid hy hh
  unfold cea_block is_hdmi_vsdb is_hf_vsdb is_vendor_block
  dsimp only
  by_cases t2 : (rd b 0 &&& 0xe0) >>> 5 = 0x02
  · rw [if_pos t2]
    have n3 : ¬ (rd b 0 &&& 0xe0) >>> 5 = 0x03 := by omega
    simp only [n3, false_and, if_false]
    exact ⟨trivial, hvid.2⟩
  · rw [if_neg t2]
    by_cases t3 : (rd b 0 &&& 0xe0) >>> 5 = 0x03
    · rw [if_pos t3]
      simp only [t3, true_and]
      unfold cea_block_vendor block_oui
      dsimp only
      by_cases o1 : (rd b 3 <<< 16) + (rd b 2 <<< 8) + rd b 1 = 0x000c03
      · rw [if_pos o1, if_pos o1]
        have o2 : ¬ (rd b 3 <<< 16) + (rd b 2 <<< 8) + rd b 1 = 0xc45dd8 := by omega
        simp only [o2, false_and, if_false]
        exact ⟨trivial, hh.2⟩
      · rw [if_neg o1, if_neg o1]
        refine ⟨rfl, ?_⟩
        by_cases o2 : (rd b 3 <<< 16) + (rd b 2 <<< 8) + rd b 1 = 0xc45dd8
        · by_cases l0 : s.last_block_was_hdmi_vsdb = 0
          · simp only [o2, l0, and_self, if_true]
          · simp only [o2, l0, and_false, if_false, if_true]
        · simp only [o2, false_and, if_false]
    · rw [if_neg t3]
      simp only [t3, false_and, if_false]
      by_cases t7 : (rd b 0 &&& 0xe0) >>> 5 = 0x07
      · rw [if_pos t7]
        by_cases e : rd b 1 = 0x0e
        · rw [if_pos e]
          exact ⟨rfl, hy.2⟩
        · rw [if_neg e]
          exact ⟨rfl, rfl⟩
      · rw [if_neg t7]
        exact ⟨rfl, rfl⟩

theorem cea_blocks_flag (blocks : List (List Nat)) (s : State) :
    (cea_blocks blocks s).nonconformant_hf_vsdb_position ≠ 0 ↔
      (s.nonconformant_hf_vsdb_position ≠ 0 ∨
       ∃ k, k < blocks.length ∧ is_hf_vsdb (blocks.getD k []) ∧
         (if k = 0 then s.last_block_was_hdmi_vsdb = 0
          else ¬ is_hdmi_vsdb (blocks.getD (k - 1) []))) := by
  induction blocks generalizing s with
  | nil => simp [cea_blocks]
  | cons b bs ih =>
    have hb := cea_block_hf b s
    have e : cea_blocks (b :: bs) s = cea_blocks bs (cea_block b s) := rfl
    rw [e, ih (cea_block b s), hb.1, hb.2]
    constructor
    · rintro (h | ⟨k, hk, hhf, hprev⟩)
      · by_cases c : is_hf_vsdb b ∧ s.last_block_was_hdmi_vsdb = 0
        · exact Or.inr ⟨0, by simp, by simpa using c.1, by simpa using c.2⟩
        · rw [if_neg c] at h
          exact Or.inl h
      · refine Or.inr ⟨k + 1, by simpa using hk, by simpa using hhf, ?_⟩
        rw [if_neg (by omega)]
        cases k with
        | zero =>
          rw [if_pos rfl] at hprev
          by_cases c : is_hdmi_vsdb b
          · rw [if_pos c] at hprev
            exact absurd hprev (by decide)
          · simpa using c
        | succ j =>
          rw [if_neg (by omega)] at hprev
          simpa using hprev
    · rintro (h | ⟨k, hk, hhf, hprev⟩)
      · left
        by_cases c : is_hf_vsdb b ∧ s.last_block_was_hdmi_vsdb = 0
        · rw [if_pos c]; decide
        · rw [if_neg c]; exact h
      · cases k with
        | zero =>
          left
          rw [if_pos rfl] at hprev
          have : is_hf_vsdb b ∧ s.last_block_was_hdmi_vsdb = 0 := ⟨by simpa using hhf, hprev⟩
          rw [if_pos this]; decide
        | succ j =>
          right
          refine ⟨j, by simpa using hk, by simpa using hhf, ?_⟩
          rw [if_neg (by omega)] at hprev
          cases j with
          | zero =>
            rw [if_pos rfl]
            have : ¬ is_hdmi_vsdb b := by simpa using hprev
            rw [if_neg this]
          | succ i =>
            rw [if_neg (by omega)]
            simpa using hprev

/-- Claim C9: for every sequence of CEA data blocks handed in order to `cea_block`,
starting with no previous block and the flag clear,
`nonconformant_hf_vsdb_position` is set exactly when some vendor-specific block
with OUI 0xC45DD8 is not immediately preceded by a vendor-specific block with OUI
0x000C03; and a state with this flag set and a claimed revision of 1.3 or newer
gets a non-conformant verdict (`main` returns 1). -/
theorem hf_vsdb_position (blocks : List (List Nat)) (s : State)
    (hlast : s.last_block_was_hdmi_vsdb = 0) (hflag : s.nonconformant_hf_vsdb_position = 0) :
    ((cea_blocks blocks s).nonconformant_hf_vsdb_position ≠ 0 ↔
      ∃ k, k < blocks.length ∧ is_hf_vsdb (blocks.getD k []) ∧
        (k = 0 ∨ ¬ is_hdmi_vsdb (blocks.getD (k - 1) []))) ∧
    (∀ t : State, t.claims_one_point_three ≠ 0 → t.nonconformant_hf_vsdb_position ≠ 0 →
      (main_verdict t).conformant = 0 ∧ main_return (main_verdict t) = 1) := by
  constructor
  · rw [cea_blocks_flag]
    constructor
    · rintro (h | ⟨k, hk, hhf, hprev⟩)
      · exact absurd hflag h
      · refine ⟨k, hk, hhf, ?_⟩
        by_cases k0 : k = 0
        · exact Or.inl k0
        · rw [if_neg k0] at hprev
          exact Or.inr hprev
    · rintro ⟨k, hk, hhf, hprev⟩
      refine Or.inr ⟨k, hk, hhf, ?_⟩
      by_cases k0 : k = 0
      · rw [if_pos k0]; exact hlast
      · rw [if_neg k0]
        rcases hprev with h | h
        · exact absurd h k0
        · exact h
  · intro t h3 hf
    apply main_return_of_fails_revision t h3
    unfold fails_one_point_three
    simp [hf]

theorem hf_vsdb_position_witness :
    (State.init.last_block_was_hdmi_vsdb = 0 ∧ State.init.nonconformant_hf_vsdb_position = 0) ∧
    (cea_blocks sample_cea_blocks State.init).nonconformant_hf_vsdb_position ≠ 0 := by
  refine ⟨⟨rfl, rfl⟩, ?_⟩
  rw [(hf_vsdb_position sample_cea_blocks State.init rfl rfl).1]
  exact ⟨1, by decide, by decide, Or.inr (by decide)⟩


/-! ## The bitfield decode framework -/

theorem decode_value_find_eq (vs : List value) (val : Int) :
    decode_value_find vs val = vs.find? (fun v => decide (v.value = val)) := by
  induction vs with
  | nil => rfl
  | cons v rest ih =>
    unfold decode_value_find
    rw [List.find?_cons]
    by_cases h : v.value = val
    · simp [h]
    · simp [h, ih]

theorem decode_value_eq (f : field) (val : Int) (pre : String) :
    decode_value f val pre =
      { pre := pre, name := f.name,
        description := (f.values.find? (fun v => decide (v.value = val))).map
          (fun v => v.description),
        val := val } := by
  unfold decode_value
  rw [decode_value_find_eq]
  cases h : List.find? (fun v => decide (v.value = val)) f.values <;> rfl

theorem wrap32_mask (len : Nat) (h1 : 1 ≤ len) (h2 : len ≤ 31) :
    wrap32 (wrap32 ((1 : Int) <<< (len : Int)) - 1) = 2 ^ len - 1 := by
  have hs : (1 : Int) <<< (len : Int) = 2 ^ len := by
    rw [Int.one_shiftLeft]; push_cast; rfl
  rw [hs]
  unfold wrap32
  interval_cases len <;> norm_num

theorem bits_of_word (d : Int) (s l : Nat) (h : s + l ≤ 32) :
    (d % 2 ^ 32 / 2 ^ s) % 2 ^ l = (d / 2 ^ s) % 2 ^ l := by
  have e32 : (2 : Int) ^ 32 = 2 ^ s * (2 ^ l * 2 ^ (32 - s - l)) := by
    rw [← pow_add, ← pow_add]
    congr 1
    omega
  have hpos : (2 : Int) ^ s ≠ 0 := by positivity
  have hd : d / 2 ^ s = d % 2 ^ 32 / 2 ^ s + 2 ^ l * (2 ^ (32 - s - l) * (d / 2 ^ 32)) := by
    conv_lhs => rw [← Int.emod_add_ediv d (2 ^ 32)]
    rw [show (2 : Int) ^ 32 * (d / 2 ^ 32) = 2 ^ s * (2 ^ l * (2 ^ (32 - s - l) * (d / 2 ^ 32)))
      by rw [e32]; ring]
    rw [Int.add_mul_ediv_left _ _ hpos]
  rw [hd, Int.add_mul_emod_self_left]

/-- Claim C10: for every list of field specifications with `0 <= start <= end <= 31`
and every data word (any `int`, so every 32-bit word), `_decode` (called with the
length of the list, as the macro `decode` does) emits exactly one entry per field,
in table order; the raw
value of a field is the whole word when the field spans 32 bits and otherwise
`(word >> start) & (2^(end-start+1) - 1)`, which is the number made of bits
`start` to `end` of the word; the entry carries the description of the first
table entry whose value equals the raw value, and none when no entry matches. -/
theorem decode_table_order (fields : List field) (data : Int) (pre : String)
    (hf : ∀ f ∈ fields, 0 ≤ f.start ∧ f.start ≤ f.end_ ∧ f.end_ ≤ 31) :
    _decode fields fields.length data pre = fields.map (fun f => spec_line f data pre) ∧
    (_decode fields fields.length data pre).length = fields.length ∧
    (∀ f ∈ fields, f.end_ - f.start + 1 ≠ 32 →
      spec_raw f data =
        (data % 2 ^ 32 / 2 ^ f.start.toNat) % 2 ^ (f.end_ - f.start + 1).toNat) ∧
    (∀ f ∈ fields, f.end_ - f.start + 1 = 32 → spec_raw f data = data) := by
  have hfield : ∀ f ∈ fields, decode_field f data pre = spec_line f data pre := by
    intro f hfm
    obtain ⟨h0, h1, h2⟩ := hf f hfm
    unfold decode_field spec_line spec_raw
    dsimp only
    rw [decode_value_eq]
    by_cases h32 : f.end_ - f.start + 1 = 32
    · simp only [if_pos h32]
    · simp only [if_neg h32]
      have hlen1 : 1 ≤ (f.end_ - f.start + 1).toNat := by omega
      have hlen2 : (f.end_ - f.start + 1).toNat ≤ 31 := by omega
      have hcast : f.end_ - f.start + 1 = (((f.end_ - f.start + 1).toNat : Nat) : Int) := by
        omega
      have hm := wrap32_mask _ hlen1 hlen2
      rw [← hcast] at hm
      rw [hm]
  have hlist : _decode fields fields.length data pre
      = fields.map (fun f => spec_line f data pre) := by
    unfold _decode
    apply List.ext_getElem
    · simp
    · intro i h1 h2
      simp only [List.getElem_map, List.getElem_range]
      have hi : i < fields.length := by simpa using h2
      rw [List.getD_eq_getElem _ _ hi]
      exact hfield _ (List.getElem_mem hi)
  refine ⟨hlist, by rw [hlist]; simp, ?_, ?_⟩
  · intro f hfm h32
    obtain ⟨h0, h1, h2⟩ := hf f hfm
    unfold spec_raw
    rw [if_neg h32, int_land_mask, Int.shiftRight_eq_div_pow]
    simp only [Nat.cast_pow, Nat.cast_ofNat]
    rw [bits_of_word]
    omega
  · intro f _ h32
    unfold spec_raw
    rw [if_pos h32]

theorem decode_table_order_witness :
    (∀ f ∈ vcdb_fields, 0 ≤ f.start ∧ f.start ≤ f.end_ ∧ f.end_ ≤ 31) ∧
    _decode vcdb_fields vcdb_fields.length 0x96 "    " =
      [ DecodeLine.mk "    " "YCbCr quantization" (some "Selectable (via AVI YQ)") 1,
        DecodeLine.mk "    " "RGB quantization" (some "No Data") 0,
        DecodeLine.mk "    " "PT scan behaviour" (some "Always Overscannned") 1,
        DecodeLine.mk "    " "IT scan behaviour" (some "Always Overscannned") 1,
        DecodeLine.mk "    " "CE scan behaviour" (some "Always Underscanned") 2 ] := by
  have h := (decode_table_order vcdb_fields 0x96 "    " (by decide)).1
  refine ⟨by decide, ?_⟩
  rw [h]
  decide


/-! ## `extract_string` -/

theorem rd_set (l : List Nat) (i j v : Nat) :
    rd (l.set i v) j = if i = j ∧ i < l.length then v else rd l j := by
  unfold rd
  by_cases hj : j < l.length
  · rw [List.getD_eq_getElem _ _ (by simpa using hj), List.getD_eq_getElem _ _ hj,
      List.getElem_set]
    by_cases hij : i = j
    · subst hij; simp [hj]
    · simp [hij]
  · have h1 : (l.set i v).length ≤ j := by simpa using Nat.le_of_not_lt hj
    rw [List.getD_eq_default _ _ h1, List.getD_eq_default _ _ (Nat.le_of_not_lt hj)]
    have : ¬ (i = j ∧ i < l.length) := by omega
    rw [if_neg this]

theorem rd_replicate_zero (n j : Nat) : rd (List.replicate n 0) j = 0 := by
  unfold rd
  by_cases hj : j < n
  · rw [List.getD_eq_getElem _ _ (by simpa using hj)]; simp
  · rw [List.getD_eq_default _ _ (by simpa using hj)]

/-- The loop keeps the length of the buffer, and every position of the buffer it
returns holds what it held before or, at an index the loop ran over, the byte of
`x` at that index. -/
theorem extract_string_loop_buffer (x : List Nat) (idxs : List Nat) :
    ∀ (seen : Int) (ret : List Nat) (v : Int),
      (extract_string_loop x idxs seen ret v).1.length = ret.length ∧
      ∀ j, rd (extract_string_loop x idxs seen ret v).1 j = rd ret j ∨
        (j ∈ idxs ∧ rd (extract_string_loop x idxs seen ret v).1 j = rd x j) := by
  induction idxs with
  | nil => intro seen ret v; exact ⟨rfl, fun j => Or.inl rfl⟩
  | cons i rest ih =>
    intro seen ret v
    have hset : ∀ (seen : Int),
        (extract_string_loop x rest seen (ret.set i (rd x i)) v).1.length = ret.length ∧
        ∀ j, rd (extract_string_loop x rest seen (ret.set i (rd x i)) v).1 j = rd ret j ∨
          (j ∈ i :: rest ∧
            rd (extract_string_loop x rest seen (ret.set i (rd x i)) v).1 j = rd x j) := by
      intro seen
      obtain ⟨hl, hj⟩ := ih seen (ret.set i (rd x i)) v
      refine ⟨by rw [hl]; simp, fun j => ?_⟩
      rcases hj j with h | ⟨hm, h⟩
      · rw [rd_set] at h
        by_cases hc : i = j ∧ i < ret.length
        · rw [if_pos hc] at h
          right
          exact ⟨by rw [hc.1]; exact List.mem_cons_self _ _, by rw [h, hc.1]⟩
        · rw [if_neg hc] at h
          exact Or.inl h
      · exact Or.inr ⟨List.mem_cons_of_mem _ hm, h⟩
    have hkeep : ∀ (seen : Int),
        (extract_string_loop x rest seen ret v).1.length = ret.length ∧
        ∀ j, rd (extract_string_loop x rest seen ret v).1 j = rd ret j ∨
          (j ∈ i :: rest ∧ rd (extract_string_loop x rest seen ret v).1 j = rd x j) := by
      intro seen
      obtain ⟨hl, hj⟩ := ih seen ret v
      refine ⟨hl, fun j => ?_⟩
      rcases hj j with h | ⟨hm, h⟩
      · exact Or.inl h
      · exact Or.inr ⟨List.mem_cons_of_mem _ hm, h⟩
    unfold extract_string_loop
    split_ifs
    · exact hset seen
    · exact hkeep 1
    · exact hset seen
    · exact ⟨rfl, fun j => Or.inl rfl⟩
    · exact ⟨rfl, fun j => Or.inl rfl⟩
    · exact hkeep seen

/-- The stop index of the loop over the indices `i, i+1, ..., i+n-1 = len-1`
lies between `i` and `len`. -/
theorem extract_string_stop_bounds (x : List Nat) (len : Nat) :
    ∀ (n i : Nat) (seen : Int), i + n = len →
      i ≤ extract_string_stop x len (List.range' i n) seen ∧
      extract_string_stop x len (List.range' i n) seen ≤ len := by
  intro n
  induction n with
  | zero =>
    intro i seen h
    simp only [List.range'_zero, extract_string_stop]
    omega
  | succ n ih =>
    intro i seen h
    have h1 := ih (i + 1) seen (by omega)
    have h2 := ih (i + 1) 1 (by omega)
    rw [List.range'_succ]
    unfold extract_string_stop
    split_ifs <;> omega

/-- The loop writes nothing at or after its stop index. -/
theorem extract_string_loop_stop (x : List Nat) (len : Nat) :
    ∀ (n i : Nat) (seen : Int) (ret : List Nat) (v : Int), i + n = len →
      ∀ j, extract_string_stop x len (List.range' i n) seen ≤ j →
        rd (extract_string_loop x (List.range' i n) seen ret v).1 j = rd ret j := by
  intro n
  induction n with
  | zero =>
    intro i seen ret v _ j _
    simp only [List.range'_zero, extract_string_loop]
  | succ n ih =>
    intro i seen ret v h j hj
    have b1 := extract_string_stop_bounds x len n (i + 1) seen (by omega)
    have b2 := extract_string_stop_bounds x len n (i + 1) 1 (by omega)
    rw [List.range'_succ] at hj ⊢
    unfold extract_string_stop at hj
    unfold extract_string_loop
    have hne : ∀ w, i < j → rd (ret.set i w) j = rd ret j := by
      intro w hij
      rw [rd_set, if_neg (by omega)]
    split_ifs at hj ⊢
    · rw [ih (i + 1) seen _ v (by omega) j hj]; exact hne _ (by omega)
    · exact ih (i + 1) 1 ret v (by omega) j hj
    · rw [ih (i + 1) seen _ v (by omega) j hj]; exact hne _ (by omega)
    · rfl
    · rfl
    · exact ih (i + 1) seen ret v (by omega) j hj


theorem list_ext_rd (l1 l2 : List Nat) (hl : l1.length = l2.length)
    (h : ∀ j, rd l1 j = rd l2 j) : l1 = l2 := by
  apply List.ext_getElem hl
  intro j h1 h2
  have := h j
  unfold rd at this
  rwa [List.getD_eq_getElem _ _ h1, List.getD_eq_getElem _ _ h2] at this

theorem foldl_set_length (x : List Nat) (idxs : List Nat) :
    ∀ ret : List Nat, (idxs.foldl (fun r j => r.set j (rd x j)) ret).length = ret.length := by
  induction idxs with
  | nil => intro ret; rfl
  | cons i rest ih => intro ret; rw [List.foldl_cons, ih]; simp

theorem rd_foldl_set (x : List Nat) :
    ∀ (m i : Nat) (ret : List Nat) (j : Nat),
      rd ((List.range' i m).foldl (fun r j => r.set j (rd x j)) ret) j =
        if i ≤ j ∧ j < i + m ∧ j < ret.length then rd x j else rd ret j := by
  intro m
  induction m with
  | zero =>
    intro i ret j
    have : ¬ (i ≤ j ∧ j < i + 0 ∧ j < ret.length) := by omega
    rw [if_neg this]; rfl
  | succ m ih =>
    intro i ret j
    rw [List.range'_succ, List.foldl_cons, ih, rd_set, List.length_set]
    by_cases h1 : i + 1 ≤ j ∧ j < i + 1 + m ∧ j < ret.length
    · rw [if_pos h1, if_pos (by omega)]
    · rw [if_neg h1]
      by_cases h2 : i = j ∧ i < ret.length
      · rw [if_pos h2, if_pos (by omega), h2.1]
      · rw [if_neg h2, if_neg (by omega)]

theorem rd_prefix_buffer (x : List Nat) (p j : Nat) :
    rd ((List.range p).map (rd x) ++ List.replicate (128 - p) 0) j =
      if j < p then rd x j else 0 := by
  unfold rd
  by_cases hj : j < p
  · rw [if_pos hj, List.getD_eq_getElem?_getD, List.getElem?_append_left (by simpa using hj)]
    simp [hj]
  · rw [if_neg hj, List.getD_eq_getElem?_getD,
      List.getElem?_append_right (by simpa using Nat.le_of_not_lt hj)]
    by_cases h2 : j - p < 128 - p
    · simp [List.getElem?_replicate, h2]
    · simp [List.getElem?_replicate, h2]

/-- The loop over `i, ..., i+n-1` when bytes `i` to `p-1` are graphic and byte
`p`, inside the range, is neither graphic nor newline nor space: the graphic
bytes are copied and the flag is cleared at `p`. -/
theorem extract_string_loop_bad (x : List Nat) (p : Nat)
    (hg : ∀ i, i < p → isgraph (rd x i) = true) (hn : isgraph (rd x p) = false)
    (h0a : rd x p ≠ 0x0a) (h20 : rd x p ≠ 0x20) :
    ∀ (n i : Nat) (ret : List Nat) (v : Int), i ≤ p → p < i + n →
      extract_string_loop x (List.range' i n) 0 ret v =
        ((List.range' i (p - i)).foldl (fun r j => r.set j (rd x j)) ret, 0) := by
  intro n
  induction n with
  | zero => intro i ret v h1 h2; omega
  | succ n ih =>
    intro i ret v h1 h2
    rw [List.range'_succ]
    unfold extract_string_loop
    by_cases hip : i = p
    · subst hip
      rw [if_neg (by rw [hn]; decide), if_pos rfl, if_neg h0a, if_neg h20]
      simp
    · have hlt : i < p := by omega
      rw [if_pos (hg i hlt), ih (i + 1) _ v (by omega) (by omega)]
      have : p - i = (p - (i + 1)) + 1 := by omega
      rw [this, List.range'_succ, List.foldl_cons]

theorem takeWhile_prefix (a : List Nat) (b : List Nat) (ha : ∀ c ∈ a, c ≠ 0) :
    (a ++ 0 :: b).takeWhile (fun c => c ≠ 0) = a := by
  induction a with
  | nil => simp
  | cons c rest ih =>
    have hc : c ≠ 0 := ha c (List.mem_cons_self _ _)
    rw [List.cons_append, List.takeWhile_cons]
    simp only [hc, ne_eq, not_false_eq_true, decide_True, if_true]
    rw [ih (fun d hd => ha d (List.mem_cons_of_mem _ hd))]

theorem isgraph_ne_zero (c : Nat) (h : isgraph c = true) : c ≠ 0 := by
  unfold isgraph at h
  simp only [decide_eq_true_eq] at h
  omega

/-- Claim C11 at a failing input: in the three bytes `A`, newline, `B` a newline
occurs at position 1 and the later position 2, within `len = 3`, holds a byte
other than space, yet `extract_string` leaves the valid-termination flag at 1
(and copies `B` behind the gap the newline leaves in the buffer). -/
theorem extract_string_graphic_after_newline :
    rd sample_string_after_newline 1 = 0x0a ∧ rd sample_string_after_newline 2 ≠ 0x20 ∧
    (extract_string sample_string_after_newline 1 3).2 = 1 ∧
    (extract_string sample_string_after_newline 1 3).1 =
      [0x41, 0, 0x42] ++ List.replicate 125 0 := by
  refine ⟨by decide, by decide, ?_, ?_⟩ <;> rfl

/-- Claim C12 fails as stated: in the four bytes `A`, space, `B`, newline the
first non-graphic byte is the space at position 1, which is not 0x0A, yet the
flag stays 1 and the returned string is `A B`, not the graphic prefix `A`. -/
theorem extract_string_space_kept :
    isgraph (rd sample_string_with_space 0) = true ∧
    isgraph (rd sample_string_with_space 1) = false ∧
    rd sample_string_with_space 1 ≠ 0x0a ∧
    (extract_string sample_string_with_space 1 4).2 = 1 ∧
    c_string (extract_string sample_string_with_space 1 4).1 = [0x41, 0x20, 0x42] := by
  refine ⟨by decide, by decide, by decide, ?_, ?_⟩ <;> rfl

/-- Claim C12, amended: for every `x` and `len <= 128`, if the first non-graphic
byte of `x` is at a position `p < len` and is neither 0x0A nor 0x20, then
`extract_string` clears the valid-termination flag to 0 and returns the buffer
that holds the graphic prefix `x[0..p)` followed by zeros, so the returned C
string is exactly that prefix. -/
theorem extract_string_bad_terminator (x : List Nat) (v : Int) (len p : Nat)
    (hlen : len ≤ 128) (hp : p < len)
    (hg : ∀ i, i < p → isgraph (rd x i) = true) (hn : isgraph (rd x p) = false)
    (h0a : rd x p ≠ 0x0a) (h20 : rd x p ≠ 0x20) :
    (extract_string x v len).2 = 0 ∧
    (extract_string x v len).1 = (List.range p).map (rd x) ++ List.replicate (128 - p) 0 ∧
    c_string (extract_string x v len).1 = (List.range p).map (rd x) := by
  have hloop := extract_string_loop_bad x p hg hn h0a h20 len 0 (List.replicate 128 0) v
    (Nat.zero_le _) (by omega)
  have hbuf : (extract_string x v len).1
      = (List.range p).map (rd x) ++ List.replicate (128 - p) 0 := by
    unfold extract_string
    rw [List.range_eq_range', hloop]
    apply list_ext_rd
    · rw [foldl_set_length]; simp; omega
    · intro j
      rw [rd_foldl_set, rd_prefix_buffer, rd_replicate_zero]
      by_cases hj : j < p
      · rw [if_pos hj, if_pos (by simp; omega)]
      · rw [if_neg hj, if_neg (by omega)]
  refine ⟨?_, hbuf, ?_⟩
  · unfold extract_string
    rw [List.range_eq_range', hloop]
  · rw [hbuf]
    unfold c_string
    have hrep : List.replicate (128 - p) 0 = 0 :: List.replicate (128 - p - 1) 0 := by
      have : 128 - p = (128 - p - 1) + 1 := by omega
      rw [this, List.replicate_succ]; simp
    rw [hrep]
    apply takeWhile_prefix
    intro c hc
    rw [List.mem_map] at hc
    obtain ⟨i, hi, rfl⟩ := hc
    exact isgraph_ne_zero _ (hg i (by simpa using hi))

theorem extract_string_bad_terminator_witness :
    (4 ≤ 128 ∧ 2 < 4 ∧ (∀ i, i < 2 → isgraph (rd sample_string_control i) = true) ∧
      isgraph (rd sample_string_control 2) = false ∧
      rd sample_string_control 2 ≠ 0x0a ∧ rd sample_string_control 2 ≠ 0x20) ∧
    (extract_string sample_string_control 1 4).2 = 0 ∧
    c_string (extract_string sample_string_control 1 4).1 = [0x41, 0x42] := by
  have hg : ∀ i, i < 2 → isgraph (rd sample_string_control i) = true := by decide
  have h := extract_string_bad_terminator sample_string_control 1 4 2 (by decide) (by decide)
    hg (by decide) (by decide) (by decide)
  exact ⟨⟨by decide, by decide, hg, by decide, by decide, by decide⟩, h.1, h.2.2⟩

/-- Claim C13: for every `x` and `len <= 128` the buffer `extract_string` returns
has 128 bytes, of which the loop only touches the first `len`; every position
`i >= len` is zero, every position `i < len` holds `x[i]` or zero, and every
position at or after the index where the loop stopped (the index of the byte that
made it return early, or `len`) is zero. -/
theorem extract_string_buffer (x : List Nat) (v : Int) (len : Nat) (hlen : len ≤ 128) :
    (extract_string x v len).1.length = 128 ∧
    len ≤ (extract_string x v len).1.length ∧
    (∀ i, len ≤ i → rd (extract_string x v len).1 i = 0) ∧
    (∀ i, i < len →
      rd (extract_string x v len).1 i = rd x i ∨ rd (extract_string x v len).1 i = 0) ∧
    extract_string_stop x len (List.range len) 0 ≤ len ∧
    (∀ i, extract_string_stop x len (List.range len) 0 ≤ i →
      rd (extract_string x v len).1 i = 0) := by
  have hb := extract_string_loop_buffer x (List.range len) 0 (List.replicate 128 0) v
  have hl : (extract_string x v len).1.length = 128 := by
    unfold extract_string; rw [hb.1]; simp
  have hstop : ∀ i, extract_string_stop x len (List.range len) 0 ≤ i →
      rd (extract_string x v len).1 i = 0 := by
    intro i hi
    unfold extract_string
    rw [List.range_eq_range'] at hi ⊢
    rw [extract_string_loop_stop x len len 0 0 _ v (by omega) i hi, rd_replicate_zero]
  have hbound := extract_string_stop_bounds x len len 0 0 (by omega)
  rw [← List.range_eq_range'] at hbound
  refine ⟨hl, by rw [hl]; exact hlen, ?_, ?_, hbound.2, hstop⟩
  · intro i hi
    exact hstop i (le_trans hbound.2 hi)
  · intro i _
    rcases hb.2 i with h | ⟨_, h⟩
    · right
      unfold extract_string
      rw [h, rd_replicate_zero]
    · left
      unfold extract_string
      exact h

theorem extract_string_buffer_witness :
    4 ≤ 128 ∧ (extract_string sample_string_control 1 4).1.length = 128 ∧
    extract_string_stop sample_string_control 4 (List.range 4) 0 = 2 ∧
    rd (extract_string sample_string_control 1 4).1 3 = 0 :=
  ⟨by decide, (extract_string_buffer sample_string_control 1 4 (by decide)).1, by decide,
    (extract_string_buffer sample_string_control 1 4 (by decide)).2.2.2.2.2 3 (by decide)⟩


/-! ## The verdict stages -/

theorem verdict_revision_conformant (s : State) :
    (verdict_revision s).conformant =
      if s.claims_one_point_three ≠ 0 then
        (if fails_one_point_three s then 0 else s.conformant)
      else if s.claims_one_point_two ≠ 0 then
        (if fails_one_point_two s then 0 else s.conformant)
      else if s.claims_one_point_oh ≠ 0 then
        (if s.seen_non_detailed_descriptor ≠ 0 then 0 else s.conformant)
      else s.conformant := by
  unfold verdict_revision
  split_ifs <;> rfl

theorem main_verdict_conformant (s : State) :
    (main_verdict s).conformant =
      if fails_always s then 0 else if fails_range s then 0
      else (verdict_revision s).conformant := by
  have h1 : ∀ t : State, (verdict_always t).conformant
      = if fails_always t then 0 else t.conformant := by
    intro t; unfold verdict_always; split_ifs <;> rfl
  have h2 : ∀ t : State, (verdict_range t).conformant
      = if fails_range t then 0 else t.conformant := by
    intro t; unfold verdict_range; split_ifs <;> rfl
  have h3 : ∀ t : State, fails_always (verdict_range t) = fails_always t := by
    intro t
    rcases verdict_range_cases t with h | h
    · rw [h]
    · rw [h]; rfl
  have h4 : ∀ t : State, fails_always (verdict_revision t) = fails_always t := by
    intro t
    rcases verdict_revision_cases t with h | h
    · rw [h]
    · rw [h]; rfl
  have h5 : ∀ t : State, fails_range (verdict_revision t) = fails_range t := by
    intro t
    rcases verdict_revision_cases t with h | h
    · rw [h]
    · rw [h]; rfl
  unfold main_verdict
  rw [h1, h2, h3, h4, h5]

/-- The claimed-revision flags after `main_version`, from a state in which they
are still 0. -/
theorem main_version_claims (edid : List Nat) (s : State)
    (h0 : s.claims_one_point_oh = 0) (h2 : s.claims_one_point_two = 0)
    (h3 : s.claims_one_point_three = 0) :
    ((main_version edid s).2.claims_one_point_oh = if rd edid 0x12 = 1 then 1 else 0) ∧
    ((main_version edid s).2.claims_one_point_two =
      if rd edid 0x12 = 1 ∧ 2 ≤ rd edid 0x13 then 1 else 0) ∧
    ((main_version edid s).2.claims_one_point_three =
      if rd edid 0x12 = 1 ∧ 3 ≤ rd edid 0x13 then 1 else 0) := by
  unfold main_version
  by_cases h12 : rd edid 0x12 = 1
  · rw [if_pos h12]
    dsimp only
    by_cases hgt : rd edid 0x13 > 4
    · have hlen : 0x13 < edid.length := by
        by_contra hc
        have : rd edid 0x13 = 0 := by
          unfold rd; exact List.getD_eq_default _ _ (Nat.le_of_not_lt hc)
        omega
      have e : rd (edid.set 0x13 4) 0x13 = 4 := by
        rw [rd_set, if_pos ⟨rfl, hlen⟩]
      rw [if_pos hgt, e, if_pos h12, if_pos ⟨h12, by omega⟩, if_pos ⟨h12, by omega⟩]
      exact ⟨rfl, rfl, rfl⟩
    · rw [if_neg hgt, if_pos h12]
      have hr : rd edid 0x13 = 0 ∨ rd edid 0x13 = 1 ∨ rd edid 0x13 = 2 ∨ rd edid 0x13 = 3 ∨
          rd edid 0x13 = 4 := by omega
      rcases hr with hr | hr | hr | hr | hr <;> rw [hr] <;>
        simp [main_revision, h12, h2, h3]
  · rw [if_neg h12, if_neg h12, if_neg (fun h => h12 h.1), if_neg (fun h => h12 h.1)]
    exact ⟨h0, h2, h3⟩

/-- The bytes of the buffer that `main_version` hands on, away from the revision
byte. -/
theorem main_version_buffer (edid : List Nat) (s : State) (i : Nat) (hi : i ≠ 0x13) :
    rd (main_version edid s).1 i = rd edid i := by
  unfold main_version
  split_ifs
  · show rd (edid.set 0x13 4) i = rd edid i
    rw [rd_set, if_neg (fun h => hi h.1.symm)]
  · rfl
  · rfl

/-- What the decode hands to the verdict: `conformant` is still 1 and the
claimed-revision flags are those of the version bytes. -/
theorem main_decode_claims (tm : Int) (edid : List Nat) (lines : Int) (junk : Nat → Int)
    (s : State) (h : main_decode tm edid lines junk = some s) :
    s.conformant = 1 ∧
    (s.claims_one_point_oh = if rd edid 0x12 = 1 then 1 else 0) ∧
    (s.claims_one_point_two = if rd edid 0x12 = 1 ∧ 2 ≤ rd edid 0x13 then 1 else 0) ∧
    (s.claims_one_point_three = if rd edid 0x12 = 1 ∧ 3 ≤ rd edid 0x13 then 1 else 0) := by
  obtain ⟨t, ht, hf⟩ := main_decode_split tm edid lines junk s h
  have hb := main_detailed_base_view _ _ _ ht
  rw [main_standard_base_view, main_established_base_view, main_features_base_view,
    main_display_base_view] at hb
  have e2 := main_version_ext edid (main_date tm edid (main_vendor edid State.init))
  rw [main_date_base_view, main_vendor_base_view] at e2
  have e0 : base_view (main_date tm edid (main_vendor edid State.init))
      = base_view State.init := by
    rw [main_date_base_view, main_vendor_base_view]
  simp only [base_view, Prod.mk.injEq] at e0
  obtain ⟨c0, c2, c3⟩ := main_version_claims edid
    (main_date tm edid (main_vendor edid State.init)) e0.1.1 e0.1.2.1 e0.1.2.2.1
  simp only [ext_frame, Prod.mk.injEq] at hf
  simp only [base_view, Prod.mk.injEq] at hb e2
  refine ⟨?_, ?_, ?_, ?_⟩
  · rw [hf.2.2.2.2.2.2.1]
    show t.conformant = 1
    rw [hb.2.2, e2.2]; rfl
  · rw [hf.1.1]
    show t.claims_one_point_oh = _
    rw [hb.1.1, c0]
  · rw [hf.1.2.1]
    show t.claims_one_point_two = _
    rw [hb.1.2.1, c2]
  · rw [hf.1.2.2.1]
    show t.claims_one_point_three = _
    rw [hb.1.2.2.1, c3]


/-! ## The flag `seen_non_detailed_descriptor` -/

theorem main_vendor_seen_view (edid : List Nat) (s : State) :
    seen_view (main_vendor edid s) = seen_view s := by
  unfold main_vendor manufacturer_name
  dsimp only
  show seen_view (if _ then _ else _) = _
  repeat' (first | refine view_ite seen_view _ _ _ _ ?_ ?_ | rfl)

theorem main_date_seen_view (tm : Int) (edid : List Nat) (s : State) :
    seen_view (main_date tm edid s) = seen_view s := by
  unfold main_date
  dsimp only
  repeat' (first | refine view_ite seen_view _ _ _ _ ?_ ?_ | rfl)

theorem main_display_seen_view (edid : List Nat) (s : State) :
    seen_view (main_display edid s) = seen_view s := by
  unfold main_display main_digital_mask main_digital_14
  dsimp only
  repeat' (first | refine view_ite seen_view _ _ _ _ ?_ ?_ | rfl)

theorem main_features_seen_view (edid : List Nat) (s : State) :
    seen_view (main_features edid s) = seen_view s := by
  unfold main_features
  dsimp only
  repeat' (first | refine view_ite seen_view _ _ _ _ ?_ ?_ | rfl)

theorem main_established_seen_view (edid : List Nat) (s : State) :
    seen_view (main_established edid s) = seen_view s := by
  unfold main_established
  dsimp only
  show seen_view (List.foldl _ s (List.range 17)) = seen_view s
  apply foldl_view
  intro s a
  repeat' (first | refine view_ite seen_view _ _ _ _ ?_ ?_ | rfl)

theorem print_standard_timing_seen_view (b1 b2 : Nat) (s : State) :
    seen_view (print_standard_timing b1 b2 s) = seen_view s := by
  unfold print_standard_timing
  dsimp only
  repeat' (first | refine view_ite seen_view _ _ _ _ ?_ ?_ | rfl)

theorem main_standard_seen_view (edid : List Nat) (s : State) :
    seen_view (main_standard edid s) = seen_view s := by
  unfold main_standard
  apply foldl_view
  intro s a
  exact print_standard_timing_seen_view _ _ s

theorem detailed_cvt_descriptor_seen_view (x : List Nat) (first : Int) (s : State) :
    seen_view (detailed_cvt_descriptor x first s).2 = seen_view s := by
  unfold detailed_cvt_descriptor
  dsimp only
  repeat' (first | refine view_ite (fun r : Int × State => seen_view r.2) _ _ _ _ ?_ ?_ | rfl)

theorem detailed_block_cvt_seen_view (x : List Nat) (s : State) :
    seen_view (detailed_block_cvt x s).2 = seen_view s := by
  unfold detailed_block_cvt
  refine view_ite (fun r : Int × State => seen_view r.2) _ _ _ _ rfl ?_
  show seen_view (List.foldl _ ((1 : Int), s) (List.range 4)).2 = seen_view s
  apply foldl_view (fun acc : Int × State => seen_view acc.2)
  intro acc a
  exact detailed_cvt_descriptor_seen_view _ _ _

theorem detailed_block_est3_seen_view (x : List Nat) (s : State) :
    seen_view (detailed_block_est3 x s) = seen_view s := by
  unfold detailed_block_est3
  apply foldl_view
  intro s a
  repeat' (first | refine view_ite seen_view _ _ _ _ ?_ ?_ | rfl)

theorem detailed_block_name_seen_view (x : List Nat) (s : State) :
    seen_view (detailed_block_name x s) = seen_view s := by
  unfold detailed_block_name
  dsimp only
  repeat' (first | refine view_ite seen_view _ _ _ _ ?_ ?_ | rfl)

theorem detailed_block_range_cvt_seen_view (x : List Nat) (s : State) :
    seen_view (detailed_block_range_cvt x s) = seen_view s := by
  unfold detailed_block_range_cvt
  dsimp only
  repeat' (first | refine view_ite seen_view _ _ _ _ ?_ ?_ | rfl)

theorem detailed_block_range_seen_view (x : List Nat) (s : State) :
    seen_view (detailed_block_range x s).2 = seen_view s := by
  have h1 : ∀ t, seen_view (detailed_block_range_offsets x t).2 = seen_view t := by
    intro t; unfold detailed_block_range_offsets
    repeat' (first
      | refine view_ite (fun r : (Int × Int × Int × Int) × State => seen_view r.2) _ _ _ _ ?_ ?_
      | rfl)
  have h2 : ∀ t, seen_view (detailed_block_range_class x t).2 = seen_view t := by
    intro t; unfold detailed_block_range_class
    repeat' (first
      | refine view_ite (fun r : Int × State => seen_view r.2) _ _ _ _ ?_ ?_
      | refine view_ite seen_view _ _ _ _ ?_ ?_
      | rfl)
  have h3 : ∀ a b t, seen_view (detailed_block_range_vert x a b t) = seen_view t := by
    intro a b t; unfold detailed_block_range_vert
    repeat' (first | refine view_ite seen_view _ _ _ _ ?_ ?_ | rfl)
  have h4 : ∀ a b t, seen_view (detailed_block_range_hor x a b t) = seen_view t := by
    intro a b t; unfold detailed_block_range_hor
    repeat' (first | refine view_ite seen_view _ _ _ _ ?_ ?_ | rfl)
  have h5 : ∀ t, seen_view (detailed_block_range_dotclock x t) = seen_view t := by
    intro t; unfold detailed_block_range_dotclock
    repeat' (first | refine view_ite seen_view _ _ _ _ ?_ ?_ | rfl)
  unfold detailed_block_range
  dsimp only
  refine view_ite seen_view _ _ _ _ ?_ ?_
  · rw [detailed_block_range_cvt_seen_view, h5, h4, h3, h2, h1]; rfl
  · rw [h5, h4, h3, h2, h1]; rfl

theorem detailed_block_dummy_seen_view (x : List Nat) (s : State) :
    seen_view (detailed_block_dummy x s) = seen_view s := by
  unfold detailed_block_dummy
  apply foldl_view
  intro s a
  repeat' (first | refine view_ite seen_view _ _ _ _ ?_ ?_ | rfl)

theorem detailed_block_standard_seen_view (x : List Nat) (s : State) :
    seen_view (detailed_block_standard x s) = seen_view s := by
  unfold detailed_block_standard
  apply foldl_view
  intro s a
  exact print_standard_timing_seen_view _ _ s

theorem detailed_block_timing_seen_view (x : List Nat) (e : Int) (s : State)
    (r : Int × State) (h : detailed_block_timing x e s = some r) :
    seen_view r.2 = seen_view s := by
  unfold detailed_block_timing at h
  dsimp only at h
  split at h
  · simp at h
  · split at h
    · simp at h
    · simp only [Option.some.injEq] at h
      subst h
      show seen_view (if _ then _ else _) = _
      repeat' (first | refine view_ite seen_view _ _ _ _ ?_ ?_ | rfl)

theorem detailed_block_tag_seen_view (x : List Nat) (s : State) :
    seen_view (detailed_block_tag x s).2 = seen_view s := by
  unfold detailed_block_tag
  refine view_ite (fun r : Int × State => seen_view r.2) _ _ _ _ rfl ?_
  refine view_ite (fun r : Int × State => seen_view r.2) _ _ _ _
    (detailed_block_dummy_seen_view x s) ?_
  refine view_ite (fun r : Int × State => seen_view r.2) _ _ _ _
    (detailed_block_est3_seen_view x s) ?_
  refine view_ite (fun r : Int × State => seen_view r.2) _ _ _ _
    (detailed_block_cvt_seen_view x s) ?_
  refine view_ite (fun r : Int × State => seen_view r.2) _ _ _ _ rfl ?_
  refine view_ite (fun r : Int × State => seen_view r.2) _ _ _ _
    (detailed_block_standard_seen_view x s) ?_
  refine view_ite (fun r : Int × State => seen_view r.2) _ _ _ _ rfl ?_
  refine view_ite (fun r : Int × State => seen_view r.2) _ _ _ _
    (detailed_block_name_seen_view x s) ?_
  refine view_ite (fun r : Int × State => seen_view r.2) _ _ _ _
    (detailed_block_range_seen_view x s) ?_
  refine view_ite (fun r : Int × State => seen_view r.2) _ _ _ _ rfl ?_
  exact view_ite (fun r : Int × State => seen_view r.2) _ _ _ _ rfl rfl

theorem detailed_block_seen (x : List Nat) (e : Int) (s : State) (r : Int × State)
    (h : detailed_block x e s = some r) :
    r.2.seen_non_detailed_descriptor =
      if rd x 0 = 0 ∧ rd x 1 = 0 then 1 else s.seen_non_detailed_descriptor := by
  unfold detailed_block at h
  by_cases hm : rd x 0 = 0 ∧ rd x 1 = 0
  · rw [if_pos hm] at h
    simp only [Option.some.injEq] at h
    subst h
    rw [if_pos hm]
    show seen_view (detailed_block_monitor x s).2 = 1
    unfold detailed_block_monitor
    rw [detailed_block_tag_seen_view]
    rfl
  · rw [if_neg hm] at h
    rw [if_neg hm]
    exact detailed_block_timing_seen_view x e s r h

theorem monitor_slot_drop (edid : List Nat) (off : Nat) :
    (rd (edid.drop off) 0 = 0 ∧ rd (edid.drop off) 1 = 0) ↔ is_monitor_slot edid off := by
  unfold is_monitor_slot
  rw [rd_drop, rd_drop, Nat.add_zero]

theorem main_detailed_first_seen (edid : List Nat) (s t : State)
    (h : main_detailed_first edid s = some t) :
    t.seen_non_detailed_descriptor =
      if is_monitor_slot edid 0x36 then 1 else s.seen_non_detailed_descriptor := by
  unfold main_detailed_first at h
  split at h
  · simp at h
  · next r hr =>
    simp only [Option.some.injEq] at h
    subst h
    have e := detailed_block_seen _ _ _ r hr
    simp only [monitor_slot_drop] at e
    rw [← e]
    show seen_view _ = seen_view _
    repeat' (first | refine view_ite seen_view _ _ _ _ ?_ ?_ | rfl)

theorem main_detailed_and_seen (edid : List Nat) (off : Nat) (s t : State)
    (h : main_detailed_and edid off s = some t) :
    t.seen_non_detailed_descriptor =
      if is_monitor_slot edid off then 1 else s.seen_non_detailed_descriptor := by
  unfold main_detailed_and at h
  split at h
  · simp at h
  · next r hr =>
    simp only [Option.some.injEq] at h
    subst h
    have e := detailed_block_seen _ _ _ r hr
    simp only [monitor_slot_drop] at e
    rw [← e]

/-- The four descriptor slots of the base block leave
`seen_non_detailed_descriptor` non-zero exactly when it was so before or one of
the slots is a monitor descriptor. -/
theorem main_detailed_seen (edid : List Nat) (s t : State) (hs : s.seen_non_detailed_descriptor = 0)
    (h : main_detailed edid s = some t) :
    t.seen_non_detailed_descriptor ≠ 0 ↔ ∃ off ∈ descriptor_slots, is_monitor_slot edid off := by
  unfold main_detailed at h
  simp only [Option.bind_eq_some] at h
  obtain ⟨s3, ⟨s2, ⟨s1, h1, h2⟩, h3⟩, h4⟩ := h
  rw [main_detailed_and_seen _ _ _ _ h4, main_detailed_and_seen _ _ _ _ h3,
    main_detailed_and_seen _ _ _ _ h2, main_detailed_first_seen _ _ _ h1, hs]
  unfold descriptor_slots
  by_cases a1 : is_monitor_slot edid 0x36 <;> by_cases a2 : is_monitor_slot edid 0x48 <;>
    by_cases a3 : is_monitor_slot edid 0x5A <;> by_cases a4 : is_monitor_slot edid 0x6C <;>
    simp [a1, a2, a3, a4]

/-- The flag `seen_non_detailed_descriptor` that the decode hands to the verdict
is non-zero exactly when one of the four descriptor slots of the base block has
bytes 0 and 1 both zero. -/
theorem main_decode_seen (tm : Int) (edid : List Nat) (lines : Int) (junk : Nat → Int)
    (s : State) (h : main_decode tm edid lines junk = some s) :
    s.seen_non_detailed_descriptor ≠ 0 ↔
      ∃ off ∈ descriptor_slots, is_monitor_slot edid off := by
  obtain ⟨t, ht, hf⟩ := main_decode_split tm edid lines junk s h
  have hv : seen_view (main_version edid (main_date tm edid (main_vendor edid State.init))).2
      = seen_view (main_date tm edid (main_vendor edid State.init)) := by
    unfold main_version
    refine view_ite (fun r : List Nat × State => seen_view r.2) _ _ _ _ ?_ rfl
    show seen_view (main_revision _ _) = _
    unfold main_revision
    split <;> rfl
  have h0 : seen_view
      (main_standard (main_version edid (main_date tm edid (main_vendor edid State.init))).1
        (main_established (main_version edid (main_date tm edid
            (main_vendor edid State.init))).1
          (main_features (main_version edid (main_date tm edid
              (main_vendor edid State.init))).1
            (main_display (main_version edid (main_date tm edid
                (main_vendor edid State.init))).1
              (main_version edid (main_date tm edid (main_vendor edid State.init))).2))))
      = 0 := by
    rw [main_standard_seen_view, main_established_seen_view, main_features_seen_view,
      main_display_seen_view, hv, main_date_seen_view, main_vendor_seen_view]
    rfl
  have key := main_detailed_seen _ _ t h0 ht
  simp only [ext_frame, Prod.mk.injEq] at hf
  rw [hf.2.2.2.2.1.2.2.1]
  show t.seen_non_detailed_descriptor ≠ 0 ↔ _
  rw [key]
  have hslot : ∀ off ∈ descriptor_slots,
      (is_monitor_slot (main_version edid (main_date tm edid
        (main_vendor edid State.init))).1 off ↔ is_monitor_slot edid off) := by
    intro off hoff
    unfold is_monitor_slot
    unfold descriptor_slots at hoff
    simp only [List.mem_cons, List.mem_singleton, List.not_mem_nil, or_false] at hoff
    rw [main_version_buffer _ _ off (by omega), main_version_buffer _ _ (off + 1) (by omega)]
  constructor
  · rintro ⟨off, hoff, hm⟩
    exact ⟨off, hoff, (hslot off hoff).mp hm⟩
  · rintro ⟨off, hoff, hm⟩
    exact ⟨off, hoff, (hslot off hoff).mpr hm⟩

/-! ## The revision-gated stage of the verdict -/

/-- Claim C14: for every EDID that claims version 1 with revision 3 or newer and
whose decode completes, the verdict starts from `conformant = 1` with
`claims_one_point_three` set, and the revision-gated stage sets `conformant` to 0
if and only if at least one of these holds: the digital-display field is
nonconformant, the sRGB chromaticities do not match, the HDMI Forum block is
misplaced, the mandatory 640x480@60 mode is missing (CEA rule), a string is not
validly terminated, the descriptor padding is invalid, there is no name
descriptor, the name descriptor is not terminated, there is no preferred timing,
or there is no range descriptor. -/
theorem verdict_one_point_three (tm : Int) (edid : List Nat) (lines : Int)
    (junk : Nat → Int) (s : State)
    (hdec : main_decode tm edid lines junk = some s)
    (h12 : rd edid 0x12 = 1) (h13 : 3 ≤ rd edid 0x13) :
    s.claims_one_point_three ≠ 0 ∧ s.conformant = 1 ∧
    ((verdict_revision s).conformant = 0 ↔
      (s.nonconformant_digital_display ≠ 0 ∨ s.nonconformant_srgb_chromaticity ≠ 0 ∨
       s.nonconformant_hf_vsdb_position ≠ 0 ∨ s.nonconformant_cea861_640x480 ≠ 0 ∨
       s.has_valid_string_termination = 0 ∨ s.has_valid_descriptor_pad = 0 ∨
       s.has_name_descriptor = 0 ∨ s.name_descriptor_terminated = 0 ∨
       s.has_preferred_timing = 0 ∨ s.has_range_descriptor = 0)) := by
  obtain ⟨hc, _, _, c3⟩ := main_decode_claims tm edid lines junk s hdec
  rw [if_pos ⟨h12, h13⟩] at c3
  have h3 : s.claims_one_point_three ≠ 0 := by rw [c3]; decide
  have hb : fails_one_point_three s = true ↔
      (s.nonconformant_digital_display ≠ 0 ∨ s.nonconformant_srgb_chromaticity ≠ 0 ∨
       s.nonconformant_hf_vsdb_position ≠ 0 ∨ s.nonconformant_cea861_640x480 ≠ 0 ∨
       s.has_valid_string_termination = 0 ∨ s.has_valid_descriptor_pad = 0 ∨
       s.has_name_descriptor = 0 ∨ s.name_descriptor_terminated = 0 ∨
       s.has_preferred_timing = 0 ∨ s.has_range_descriptor = 0) := by
    unfold fails_one_point_three
    simp only [Bool.or_eq_true, decide_eq_true_eq]
    tauto
  refine ⟨h3, hc, ?_⟩
  rw [verdict_revision_conformant, if_pos h3, ← hb, hc]
  by_cases hf : fails_one_point_three s = true
  · simp [hf]
  · simp [hf]

theorem verdict_one_point_three_witness :
    (rd sample_edid 0x12 = 1 ∧ 3 ≤ rd sample_edid 0x13 ∧
      (main_decode 126 sample_edid 8 junk_zero).isSome = true) ∧
    (main_decode 126 sample_edid 8 junk_zero).map (fun s =>
      decide (s.claims_one_point_three ≠ 0 ∧ s.conformant = 1)) = some true := by
  have hsome : (main_decode 126 sample_edid 8 junk_zero).isSome = true := by decide!
  refine ⟨⟨by decide!, by decide!, hsome⟩, ?_⟩
  cases hs : main_decode 126 sample_edid 8 junk_zero with
  | none => rw [hs] at hsome; simp at hsome
  | some s =>
    have h := verdict_one_point_three 126 sample_edid 8 junk_zero s hs (by decide!) (by decide!)
    simp only [Option.map, Option.some.injEq, decide_eq_true_eq]
    exact ⟨h.1, h.2.1⟩

/-- Claim C15: for every EDID whose decode completes, (a) when it claims version 1
revision 2 the revision-gated stage sets `conformant` to 0 iff the
digital-display field is nonconformant or a name descriptor is present but not
terminated by a newline; (b) when it claims version 1 revision 0 or 1 the stage
sets `conformant` to 0 iff one of the four descriptor slots of the base block is
a monitor descriptor (bytes 0 and 1 both zero), which is exactly when
`seen_non_detailed_descriptor` is set; (c) when the major version is not 1 the
stage leaves the state, and so `conformant = 1`, as it is. -/
theorem verdict_older_revisions (tm : Int) (edid : List Nat) (lines : Int)
    (junk : Nat → Int) (s : State)
    (hdec : main_decode tm edid lines junk = some s) :
    (rd edid 0x12 = 1 → rd edid 0x13 = 2 →
      ((verdict_revision s).conformant = 0 ↔
        (s.nonconformant_digital_display ≠ 0 ∨
          (s.has_name_descriptor ≠ 0 ∧ s.name_descriptor_terminated = 0)))) ∧
    (rd edid 0x12 = 1 → rd edid 0x13 ≤ 1 →
      ((verdict_revision s).conformant = 0 ↔
        ∃ off ∈ descriptor_slots, is_monitor_slot edid off) ∧
      (s.seen_non_detailed_descriptor ≠ 0 ↔
        ∃ off ∈ descriptor_slots, is_monitor_slot edid off)) ∧
    (rd edid 0x12 ≠ 1 → verdict_revision s = s ∧ (verdict_revision s).conformant = 1) := by
  obtain ⟨hc, c0, c2, c3⟩ := main_decode_claims tm edid lines junk s hdec
  have hseen := main_decode_seen tm edid lines junk s hdec
  refine ⟨?_, ?_, ?_⟩
  · intro h12 h13
    rw [if_neg (by omega)] at c3
    rw [if_pos ⟨h12, by omega⟩] at c2
    have hb : fails_one_point_two s = true ↔
        (s.nonconformant_digital_display ≠ 0 ∨
          (s.has_name_descriptor ≠ 0 ∧ s.name_descriptor_terminated = 0)) := by
      unfold fails_one_point_two
      simp only [Bool.or_eq_true, Bool.and_eq_true, decide_eq_true_eq]
    rw [verdict_revision_conformant, if_neg (by rw [c3]; decide), if_pos (by rw [c2]; decide),
      ← hb, hc]
    by_cases hf : fails_one_point_two s = true
    · simp [hf]
    · simp [hf]
  · intro h12 h13
    rw [if_neg (by omega)] at c3
    rw [if_neg (by omega)] at c2
    rw [if_pos h12] at c0
    refine ⟨?_, hseen⟩
    rw [verdict_revision_conformant, if_neg (by rw [c3]; decide), if_neg (by rw [c2]; decide),
      if_pos (by rw [c0]; decide), ← hseen, hc]
    by_cases hf : s.seen_non_detailed_descriptor ≠ 0
    · simp [hf]
    · simp [hf]
  · intro h12
    rw [if_neg (fun h => h12 h.1)] at c3
    rw [if_neg (fun h => h12 h.1)] at c2
    rw [if_neg h12] at c0
    have e : verdict_revision s = s := by
      unfold verdict_revision
      rw [if_neg (by rw [c3]; decide), if_neg (by rw [c2]; decide),
        if_neg (by rw [c0]; decide)]
    exact ⟨e, by rw [e]; exact hc⟩

theorem verdict_older_revisions_witness :
    (main_decode 126 sample_edid_rev1 8 junk_zero).isSome = true ∧
    (main_decode 126 sample_edid_rev1 8 junk_zero).map (fun s =>
      (verdict_revision s).conformant) = some 0 := by
  have hsome : (main_decode 126 sample_edid_rev1 8 junk_zero).isSome = true := by decide!
  refine ⟨hsome, ?_⟩
  cases hs : main_decode 126 sample_edid_rev1 8 junk_zero with
  | none => rw [hs] at hsome; simp at hsome
  | some s =>
    have h := (verdict_older_revisions 126 sample_edid_rev1 8 junk_zero s hs).2.1
      (by decide!) (by decide!)
    simp only [Option.map, Option.some.injEq]
    exact h.1.mpr ⟨0x48, by decide, by decide!⟩

/-- Claim C18: the verdict does not read the warning flags.  For every state and
every pair of values written to `warning_excessive_dotclock_correction` and
`warning_zero_preferred_refresh`, the three verdict stages yield the same
`conformant` and `main` returns the same exit status as for the state itself. -/
theorem verdict_ignores_warnings (s : State) (a b : Int) :
    (main_verdict { s with warning_excessive_dotclock_correction := a,
                           warning_zero_preferred_refresh := b }).conformant
      = (main_verdict s).conformant ∧
    main_return (main_verdict { s with warning_excessive_dotclock_correction := a,
                                       warning_zero_preferred_refresh := b })
      = main_return (main_verdict s) := by
  have h : (main_verdict { s with warning_excessive_dotclock_correction := a,
                                  warning_zero_preferred_refresh := b }).conformant
      = (main_verdict s).conformant := by
    rw [main_verdict_conformant, main_verdict_conformant, verdict_revision_conformant,
      verdict_revision_conformant]
    rfl
  refine ⟨h, ?_⟩
  unfold main_return
  rw [h]


/-! ## Extension checksum and observed ranges in the verdict -/

/-- Claim C16 at a failing input: `sample_edid_cea_bad_checksum` chains a CEA
extension block (tag 0x02) whose own 128-byte checksum is invalid, so that
`do_checksum` returns 0 for it and the decode ends with
`has_valid_cea_checksum = 0`; yet `main` returns 0, the exit status of a
conformant EDID, because the verdict never reads that flag. -/
theorem cea_checksum_not_in_verdict :
    rd (sample_edid_cea_bad_checksum.drop 128) 0 = 0x02 ∧
    (do_checksum (sample_edid_cea_bad_checksum.drop 128) 128).ret = 0 ∧
    (main_decode 126 sample_edid_cea_bad_checksum 16 junk_zero).map
      (fun s => (s.has_cea861, s.has_valid_cea_checksum, s.nonconformant_extension))
      = some (1, 0, 0) ∧
    main 126 sample_edid_cea_bad_checksum 16 junk_zero = some 0 := by
  refine ⟨by decide!, by decide!, by decide!, by decide!⟩

/-- The observed-range stage on a state that reaches it with `conformant` set and
with `has_valid_range_descriptor` set: `conformant` becomes 0 exactly when an
observed extreme lies outside the bounds held in the `mon_` variables. -/
theorem verdict_range_iff (s : State) (hv : s.has_valid_range_descriptor ≠ 0)
    (hc : s.conformant ≠ 0) :
    (verdict_range s).conformant = 0 ↔
      (s.min_vert_freq_hz < s.mon_min_vert_freq_hz ∨
       s.max_vert_freq_hz > s.mon_max_vert_freq_hz ∨
       s.min_hor_freq_hz < s.mon_min_hor_freq_hz ∨
       s.max_hor_freq_hz > s.mon_max_hor_freq_hz ∨
       s.max_pixclk_khz > s.mon_max_pixclk_khz) := by
  have hb : fails_range s = true ↔
      (s.min_vert_freq_hz < s.mon_min_vert_freq_hz ∨
       s.max_vert_freq_hz > s.mon_max_vert_freq_hz ∨
       s.min_hor_freq_hz < s.mon_min_hor_freq_hz ∨
       s.max_hor_freq_hz > s.mon_max_hor_freq_hz ∨
       s.max_pixclk_khz > s.mon_max_pixclk_khz) := by
    unfold fails_range
    simp only [Bool.and_eq_true, Bool.or_eq_true, decide_eq_true_eq]
    tauto
  rw [← hb]
  unfold verdict_range
  by_cases hf : fails_range s = true
  · rw [if_pos hf]; simp [hf]
  · rw [if_neg hf]; simp [hf, hc]

/-- Claim C17 at a failing input: `sample_edid_no_range` claims EDID 1.2 and has
no range descriptor (no slot with tag 0xFD, `has_range_descriptor = 0`, all
`mon_` bounds still 0).  The revision-gated stage leaves `conformant` at 1 and no
check of the last stage fails, yet the observed-range stage sets `conformant` to
0 and `main` returns 1: the observed 60 Hz is compared with the bound 0 that no
descriptor declared. -/
theorem range_check_without_descriptor :
    descriptor_slots.map (fun off => decide (is_monitor_slot sample_edid_no_range off ∧
      rd sample_edid_no_range (off + 3) = 0xFD)) = [false, false, false, false] ∧
    (main_decode 126 sample_edid_no_range 8 junk_zero).map (fun s =>
      (s.has_range_descriptor, s.has_valid_range_descriptor,
       s.max_vert_freq_hz, s.mon_max_vert_freq_hz)) = some (0, 1, 60, 0) ∧
    (main_decode 126 sample_edid_no_range 8 junk_zero).map (fun s =>
      ((verdict_revision s).conformant, fails_range (verdict_revision s),
       (verdict_range (verdict_revision s)).conformant, fails_always s))
      = some (1, true, 0, false) ∧
    main 126 sample_edid_no_range 8 junk_zero = some 1 := by
  refine ⟨by decide!, by decide!, by decide!, by decide!⟩

/-! ## CVT codes and standard timings -/

/-- Claim C19: for every 3-byte CVT code `x` and every `first`,
`detailed_cvt_descriptor` returns 1 if and only if `first` is false and the three
bytes are zero, or `(x[1] & 0x03) = 0`, `(x[2] & 0x80) = 0` and
`(x[2] & 0x1f) != 0`; it returns 0 otherwise, in particular for an all-zero code
when `first` is true. -/
theorem detailed_cvt_descriptor_valid (x : List Nat) (first : Int) (s : State) :
    ((detailed_cvt_descriptor x first s).1 = 1 ↔
      ((first = 0 ∧ rd x 0 = 0 ∧ rd x 1 = 0 ∧ rd x 2 = 0) ∨
       (rd x 1 &&& 0x03 = 0 ∧ rd x 2 &&& 0x80 = 0 ∧ rd x 2 &&& 0x1f ≠ 0))) ∧
    ((detailed_cvt_descriptor x first s).1 = 1 ∨ (detailed_cvt_descriptor x first s).1 = 0) ∧
    (first ≠ 0 → rd x 0 = 0 → rd x 1 = 0 → rd x 2 = 0 →
      (detailed_cvt_descriptor x first s).1 = 0) := by
  have key : (detailed_cvt_descriptor x first s).1 =
      if (first = 0 ∧ rd x 0 = 0 ∧ rd x 1 = 0 ∧ rd x 2 = 0) ∨
        (rd x 1 &&& 0x03 = 0 ∧ rd x 2 &&& 0x80 = 0 ∧ rd x 2 &&& 0x1f ≠ 0) then 1 else 0 := by
    unfold detailed_cvt_descriptor
    by_cases he : first = 0 ∧ rd x 0 = 0 ∧ rd x 1 = 0 ∧ rd x 2 = 0
    · rw [if_pos he, if_pos (Or.inl he)]
    · rw [if_neg he]
      dsimp only
      by_cases a : rd x 1 &&& 0x03 = 0 <;> by_cases b : rd x 2 &&& 0x80 = 0 <;>
        by_cases c : rd x 2 &&& 0x1f = 0 <;> simp [he, a, b, c]
  refine ⟨?_, ?_, ?_⟩
  · rw [key]
    constructor
    · intro h
      by_contra hn
      rw [if_neg hn] at h
      exact absurd h (by decide)
    · intro h
      rw [if_pos h]
  · rw [key]
    split_ifs
    · exact Or.inl rfl
    · exact Or.inr rfl
  · intro hf _ _ h2
    rw [key, if_neg]
    rintro (h | h)
    · exact hf h.1
    · rw [h2] at h
      exact h.2.2 (by decide)

/-- Claim C21 at a failing input: `print_standard_timing(0, b2)` prints
`non-conformant standard timing (0 horiz)` and returns with every variable of
the conformance state unchanged; the base block `sample_edid_std_zero`, whose
first standard-timing pair is `(0x00, 0x40)`, gets the exit status 0 of a
conformant EDID. -/
theorem standard_timing_zero_not_recorded :
    (∀ (b2 : Nat) (s : State), print_standard_timing 0 b2 s = s) ∧
    rd sample_edid_std_zero 0x26 = 0 ∧ rd sample_edid_std_zero 0x27 = 0x40 ∧
    (do_checksum sample_edid_std_zero 128).ret = 1 ∧
    main 126 sample_edid_std_zero 8 junk_zero = some 0 := by
  refine ⟨?_, by decide!, by decide!, by decide!, by decide!⟩
  intro b2 s
  unfold print_standard_timing
  rw [if_neg (by omega), if_pos rfl]

/-- Claim C22 fails as stated: the pair `(0x81, 0xff)` decodes to 1280x720 at
123 Hz, 16:9, which is in neither catalog, yet `print_standard_timing` moves the
observed vertical range of the initial state from `0xfffffff..0` to `123..123`. -/
theorem standard_timing_unmatched_moves_vertical :
    standard_timing_mode 0 0x81 0xff = ⟨1280, 720, 123, 16, 9⟩ ∧
    est_lookup established_timings (standard_timing_mode 0 0x81 0xff) = none ∧
    est_lookup established_timings3 (standard_timing_mode 0 0x81 0xff) = none ∧
    (State.init.min_vert_freq_hz = 0xfffffff ∧ State.init.max_vert_freq_hz = 0) ∧
    (print_standard_timing 0x81 0xff State.init).min_vert_freq_hz = 123 ∧
    (print_standard_timing 0x81 0xff State.init).max_vert_freq_hz = 123 := by
  refine ⟨by decide!, by decide!, by decide!, ⟨rfl, rfl⟩, by decide!, by decide!⟩

/-- Claim C22, amended: for every standard-timing pair whose decoded tuple matches
no entry of `established_timings` and no entry of `established_timings3`,
`print_standard_timing` leaves the observed minimum and maximum horizontal
frequency and the observed maximum pixel clock unchanged; the observed vertical
range is still widened by the decoded refresh rate (the `min`/`max` of lines 413
and 414, which compare as `unsigned int`), unless the pair is `(1,1)` or has
`b1 = 0`, for which nothing changes. -/
theorem print_standard_timing_unmatched (b1 b2 : Nat) (s : State)
    (h1 : est_lookup established_timings
      (standard_timing_mode s.claims_one_point_three b1 b2) = none)
    (h3 : est_lookup established_timings3
      (standard_timing_mode s.claims_one_point_three b1 b2) = none) :
    (print_standard_timing b1 b2 s).min_hor_freq_hz = s.min_hor_freq_hz ∧
    (print_standard_timing b1 b2 s).max_hor_freq_hz = s.max_hor_freq_hz ∧
    (print_standard_timing b1 b2 s).max_pixclk_khz = s.max_pixclk_khz ∧
    (¬ (b1 = 1 ∧ b2 = 1) → b1 ≠ 0 →
      (print_standard_timing b1 b2 s).min_vert_freq_hz =
        cmin_u s.min_vert_freq_hz
          (standard_timing_mode s.claims_one_point_three b1 b2).refresh ∧
      (print_standard_timing b1 b2 s).max_vert_freq_hz =
        cmax_u s.max_vert_freq_hz
          (standard_timing_mode s.claims_one_point_three b1 b2).refresh) ∧
    ((b1 = 1 ∧ b2 = 1) ∨ b1 = 0 → print_standard_timing b1 b2 s = s) := by
  by_cases h11 : b1 = 0x01 ∧ b2 = 0x01
  · have e : print_standard_timing b1 b2 s = s := by
      unfold print_standard_timing; rw [if_pos h11]
    rw [e]
    exact ⟨rfl, rfl, rfl, fun h => absurd h11 h, fun _ => rfl⟩
  · by_cases h0 : b1 = 0
    · have e : print_standard_timing b1 b2 s = s := by
        unfold print_standard_timing; rw [if_neg h11, if_pos h0]
      rw [e]
      exact ⟨rfl, rfl, rfl, fun _ h => absurd h0 h, fun _ => rfl⟩
    · have e : print_standard_timing b1 b2 s = { s with
          min_vert_freq_hz := cmin_u s.min_vert_freq_hz
            (standard_timing_mode s.claims_one_point_three b1 b2).refresh
          max_vert_freq_hz := cmax_u s.max_vert_freq_hz
            (standard_timing_mode s.claims_one_point_three b1 b2).refresh } := by
        unfold print_standard_timing
        rw [if_neg h11, if_neg h0]
        simp only [h1, h3, ne_eq, not_true_eq_false, if_true, if_false]
      rw [e]
      refine ⟨rfl, rfl, rfl, fun _ _ => ⟨rfl, rfl⟩, ?_⟩
      rintro (h | h)
      · exact absurd h h11
      · exact absurd h h0

theorem print_standard_timing_unmatched_witness :
    (est_lookup established_timings
        (standard_timing_mode State.init.claims_one_point_three 0x81 0xff) = none ∧
      est_lookup established_timings3
        (standard_timing_mode State.init.claims_one_point_three 0x81 0xff) = none) ∧
    (print_standard_timing 0x81 0xff State.init).max_pixclk_khz = 0 :=
  ⟨⟨by decide!, by decide!⟩,
    (print_standard_timing_unmatched 0x81 0xff State.init (by decide!) (by decide!)).2.2.1⟩


/-! ## The range descriptor: maximum dot clock and bound offsets -/

theorem range_offsets_dot (x : List Nat) (s : State) :
    dot_view (detailed_block_range_offsets x s).2 = dot_view s := by
  unfold detailed_block_range_offsets
  repeat' (first
    | refine view_ite (fun r : (Int × Int × Int × Int) × State => dot_view r.2) _ _ _ _ ?_ ?_
    | rfl)

theorem range_class_dot (x : List Nat) (s : State) :
    dot_view (detailed_block_range_class x s).2 = dot_view s := by
  unfold detailed_block_range_class
  repeat' (first
    | refine view_ite (fun r : Int × State => dot_view r.2) _ _ _ _ ?_ ?_
    | refine view_ite dot_view _ _ _ _ ?_ ?_
    | rfl)

theorem range_vert_dot (x : List Nat) (a b : Int) (s : State) :
    dot_view (detailed_block_range_vert x a b s) = dot_view s := by
  unfold detailed_block_range_vert
  repeat' (first | refine view_ite dot_view _ _ _ _ ?_ ?_ | rfl)

theorem range_hor_dot (x : List Nat) (a b : Int) (s : State) :
    dot_view (detailed_block_range_hor x a b s) = dot_view s := by
  unfold detailed_block_range_hor
  repeat' (first | refine view_ite dot_view _ _ _ _ ?_ ?_ | rfl)

theorem range_cvt_dot (x : List Nat) (s : State) :
    dot_view (detailed_block_range_cvt x s) = dot_view s := by
  unfold detailed_block_range_cvt
  dsimp only
  repeat' (first | refine view_ite dot_view _ _ _ _ ?_ ?_ | rfl)

theorem range_pad_dot (x : List Nat) (s : State) :
    dot_view (detailed_block_pad x s) = dot_view s ∧
    (detailed_block_pad x s).has_valid_range_descriptor = s.has_valid_range_descriptor := by
  unfold detailed_block_pad
  dsimp only
  constructor
  · repeat' (first | refine view_ite dot_view _ _ _ _ ?_ ?_ | rfl)
  · repeat' (first
      | refine view_ite (fun t : State => t.has_valid_range_descriptor) _ _ _ _ ?_ ?_
      | rfl)

theorem range_class_zero (x : List Nat) (s : State) (h : s.has_valid_range_descriptor = 0) :
    (detailed_block_range_class x s).2.has_valid_range_descriptor = 0 := by
  unfold detailed_block_range_class
  repeat' (first
    | refine view_ite (fun r : Int × State => r.2.has_valid_range_descriptor) _ _ _ _ ?_ ?_
    | refine view_ite (fun t : State => t.has_valid_range_descriptor) _ _ _ _ ?_ ?_
    | rfl
    | exact h)

theorem range_offsets_zero (x : List Nat) (s : State) (h4 : s.claims_one_point_four = 0)
    (hx : rd x 4 ≠ 0) :
    (detailed_block_range_offsets x s).2.has_valid_range_descriptor = 0 := by
  unfold detailed_block_range_offsets
  rw [if_neg (by rw [h4]; decide), if_pos hx]

/-- What `detailed_block_range` leaves in `has_valid_max_dotclock` and in
`mon_max_pixclk_khz`, and the validity flag under a revision older than 1.4 when
byte 4 is not zero. -/
theorem detailed_block_range_dotclock_fields (x : List Nat) (s : State) :
    (detailed_block_range x s).2.has_valid_max_dotclock =
      (if rd x 9 ≠ 0 then s.has_valid_max_dotclock
       else if s.claims_one_point_four ≠ 0 then 0 else s.has_valid_max_dotclock) ∧
    (detailed_block_range x s).2.mon_max_pixclk_khz =
      (if rd x 9 ≠ 0 then (rd x 9 : Int) * 10000 else s.mon_max_pixclk_khz) ∧
    (s.claims_one_point_four = 0 → rd x 4 ≠ 0 →
      (detailed_block_range x s).2.has_valid_range_descriptor = 0) := by
  have hO := range_offsets_dot x { s with has_range_descriptor := 1 }
  have hOz := range_offsets_zero x { s with has_range_descriptor := 1 }
  have hs : dot_view ({ s with has_range_descriptor := 1 } : State) = dot_view s := rfl
  have hs4 : ({ s with has_range_descriptor := 1 } : State).claims_one_point_four
      = s.claims_one_point_four := rfl
  rw [hs] at hO
  rw [hs4] at hOz
  unfold detailed_block_range
  dsimp only
  generalize detailed_block_range_offsets x { s with has_range_descriptor := 1 } = r
    at hO hOz ⊢
  have hC := range_class_dot x r.2
  have hCz := range_class_zero x r.2
  generalize detailed_block_range_class x r.2 = c at hC hCz ⊢
  have hV := range_vert_dot x r.1.2.2.2 r.1.2.2.1 c.2
  have hVz := (range_vert_frame x r.1.2.2.2 r.1.2.2.1 c.2).2.2
  generalize detailed_block_range_vert x r.1.2.2.2 r.1.2.2.1 c.2 = sv at hV hVz ⊢
  have hH := range_hor_dot x r.1.2.1 r.1.1 sv
  have hHz := (range_hor_frame x r.1.2.1 r.1.1 sv).2.2.2.2
  generalize detailed_block_range_hor x r.1.2.1 r.1.1 sv = sh at hH hHz ⊢
  have hsh : dot_view sh = dot_view s := by rw [hH, hV, hC, hO]
  have hDz := (range_dotclock_frame x sh).2.2.2.2
  have hD : dot_view (detailed_block_range_dotclock x sh) =
      (s.claims_one_point_four,
       (if rd x 9 ≠ 0 then s.has_valid_max_dotclock
        else if s.claims_one_point_four ≠ 0 then 0 else s.has_valid_max_dotclock),
       (if rd x 9 ≠ 0 then (rd x 9 : Int) * 10000 else s.mon_max_pixclk_khz)) := by
    simp only [dot_view, Prod.mk.injEq] at hsh
    obtain ⟨a1, a2, a3⟩ := hsh
    unfold detailed_block_range_dotclock
    by_cases h9 : rd x 9 ≠ 0
    · rw [if_pos h9, if_pos h9, if_pos h9]
      show (sh.claims_one_point_four, sh.has_valid_max_dotclock, (rd x 9 : Int) * 10000) = _
      rw [a1, a2]
    · rw [if_neg h9, if_neg h9, if_neg h9]
      by_cases h4 : s.claims_one_point_four ≠ 0
      · rw [if_pos (by rw [a1]; exact h4), if_pos h4]
        show (sh.claims_one_point_four, (0 : Int), sh.mon_max_pixclk_khz) = _
        rw [a1, a3]
      · rw [if_neg (by rw [a1]; exact h4), if_neg h4]
        show (sh.claims_one_point_four, sh.has_valid_max_dotclock, sh.mon_max_pixclk_khz) = _
        rw [a1, a2, a3]
  generalize detailed_block_range_dotclock x sh = sd at hD hDz ⊢
  have hF : dot_view (if c.1 ≠ 0 then detailed_block_range_cvt x sd else sd) = dot_view sd ∧
      (sd.has_valid_range_descriptor = 0 →
        (if c.1 ≠ 0 then detailed_block_range_cvt x sd else sd).has_valid_range_descriptor
          = 0) := by
    split_ifs
    · exact ⟨range_cvt_dot x sd, (range_cvt_frame x sd).2.2.2.2⟩
    · exact ⟨rfl, id⟩
  generalize (if c.1 ≠ 0 then detailed_block_range_cvt x sd else sd) = sf at hF ⊢
  obtain ⟨f1, f2⟩ := hF
  rw [hD] at f1
  simp only [dot_view, Prod.mk.injEq] at f1
  refine ⟨f1.2.1, f1.2.2, ?_⟩
  intro h4 hx
  apply f2
  rw [hDz, hHz]
  split_ifs
  · rfl
  · rw [hVz]
    split_ifs
    · rfl
    · exact hCz (hOz h4 hx)

/-- A slot with bytes 0 and 1 zero and tag 0xFD is decoded by `detailed_block` as
the padding checks followed by `detailed_block_range`. -/
theorem detailed_block_range_slot (x : List Nat) (e : Int) (s : State)
    (h0 : rd x 0 = 0) (h1 : rd x 1 = 0) (h3 : rd x 3 = 0xFD) :
    detailed_block x e s = some (detailed_block_range x (detailed_block_pad x s)) := by
  unfold detailed_block
  rw [if_pos ⟨h0, h1⟩]
  unfold detailed_block_monitor detailed_block_tag
  rw [h3]
  rfl

/-- Claim C23 fails as stated: on the range descriptor `sample_range_no_dotclock`,
whose byte 9 is zero, `detailed_block` clears `has_valid_max_dotclock` when the
state declares EDID 1.4 and leaves it at 1 when the state declares no revision
(the same holds for every older revision): the reverse of the claim. -/
theorem range_zero_dotclock_reversed :
    rd sample_range_no_dotclock 3 = 0xFD ∧ rd sample_range_no_dotclock 9 = 0 ∧
    (state_one_point_four.claims_one_point_four = 1 ∧
      state_one_point_four.has_valid_max_dotclock = 1) ∧
    (detailed_block sample_range_no_dotclock 0 state_one_point_four).map
      (fun r => r.2.has_valid_max_dotclock) = some 0 ∧
    (State.init.claims_one_point_four = 0 ∧ State.init.has_valid_max_dotclock = 1) ∧
    (detailed_block sample_range_no_dotclock 0 State.init).map
      (fun r => r.2.has_valid_max_dotclock) = some 1 := by
  refine ⟨by decide, by decide, ⟨rfl, rfl⟩, by decide!, ⟨rfl, rfl⟩, by decide!⟩

/-- Claim C23, amended: for every range descriptor (bytes 0 and 1 zero, tag 0xFD)
with byte 9 equal to zero, `detailed_block` clears `has_valid_max_dotclock` to 0
when the state declares EDID 1.4 and leaves the flag and the declared maximum
pixel clock as they are when it declares an older revision; when byte 9 is not
zero the declared maximum pixel clock becomes `byte9 * 10000` kHz and the flag is
left as it is. -/
theorem range_descriptor_max_dotclock (x : List Nat) (in_extension : Int) (s : State)
    (h0 : rd x 0 = 0) (h1 : rd x 1 = 0) (h3 : rd x 3 = 0xFD) :
    ∃ r, detailed_block x in_extension s = some r ∧
      (rd x 9 = 0 → s.claims_one_point_four ≠ 0 → r.2.has_valid_max_dotclock = 0) ∧
      (rd x 9 = 0 → s.claims_one_point_four = 0 →
        r.2.has_valid_max_dotclock = s.has_valid_max_dotclock) ∧
      (rd x 9 = 0 → r.2.mon_max_pixclk_khz = s.mon_max_pixclk_khz) ∧
      (rd x 9 ≠ 0 → r.2.mon_max_pixclk_khz = (rd x 9 : Int) * 10000 ∧
        r.2.has_valid_max_dotclock = s.has_valid_max_dotclock) := by
  refine ⟨_, detailed_block_range_slot x in_extension s h0 h1 h3, ?_⟩
  obtain ⟨d1, d2, _⟩ := detailed_block_range_dotclock_fields x (detailed_block_pad x s)
  have hp := (range_pad_dot x s).1
  simp only [dot_view, Prod.mk.injEq] at hp
  obtain ⟨p1, p2, p3⟩ := hp
  rw [p1, p2] at d1
  rw [p3] at d2
  refine ⟨?_, ?_, ?_, ?_⟩
  · intro h9 h4
    rw [d1, if_neg (by rw [h9]; decide), if_pos h4]
  · intro h9 h4
    rw [d1, if_neg (by rw [h9]; decide), if_neg (by rw [h4]; decide)]
  · intro h9
    rw [d2, if_neg (by rw [h9]; decide)]
  · intro h9
    rw [d1, d2, if_pos h9, if_pos h9]
    exact ⟨rfl, rfl⟩

theorem range_descriptor_max_dotclock_witness :
    (rd sample_range_no_dotclock 0 = 0 ∧ rd sample_range_no_dotclock 1 = 0 ∧
      rd sample_range_no_dotclock 3 = 0xFD) ∧
    (detailed_block sample_range_no_dotclock 0 state_one_point_four).map
      (fun r => r.2.has_valid_max_dotclock) = some 0 := by
  obtain ⟨r, hr, h14, _, _, _⟩ := range_descriptor_max_dotclock sample_range_no_dotclock 0
    state_one_point_four (by decide) (by decide) (by decide)
  refine ⟨⟨by decide, by decide, by decide⟩, ?_⟩
  rw [hr]
  simp only [Option.map, Option.some.injEq]
  exact h14 (by decide) (by decide)

theorem range_offsets_low_bits (x4 : Nat) : range_offsets x4 = range_offsets (x4 &&& 0x07) := by
  have e1 : (x4 &&& 0x07) &&& 0x01 = x4 &&& 0x01 := by rw [Nat.and_assoc]; rfl
  have e2 : (x4 &&& 0x07) &&& 0x02 = x4 &&& 0x02 := by rw [Nat.and_assoc]; rfl
  have e3 : (x4 &&& 0x07) &&& 0x03 = x4 &&& 0x03 := by rw [Nat.and_assoc]; rfl
  have e4 : (x4 &&& 0x07) &&& 0x04 = x4 &&& 0x04 := by rw [Nat.and_assoc]; rfl
  unfold range_offsets
  rw [e1, e2, e3, e4]

/-- Claim C24: for every range descriptor (bytes 0 and 1 zero, tag 0xFD).  Under a
revision other than 1.4 the declared bounds are bytes 5 and 6 (vertical) and
bytes 7 and 8 times 1000 (horizontal), with no offset, and a non-zero byte 4
clears `has_valid_range_descriptor`.  Under revision 1.4 each bound is its byte
plus an offset that is 0 or 255; the four offsets are a function of the low three
bits of byte 4; the maximum vertical bound is widened exactly when bit 1 is set,
the maximum horizontal bound exactly when bit 2 is set, the minimum vertical
bound exactly when bits 1 and 0 are set, and the minimum horizontal bound exactly
when bit 2 and one of bits 1 and 0 are set, so that a minimum is widened only if
its maximum is. -/
theorem range_descriptor_offsets (x : List Nat) (in_extension : Int) (s : State)
    (h0 : rd x 0 = 0) (h1 : rd x 1 = 0) (h3 : rd x 3 = 0xFD) :
    ∃ r, detailed_block x in_extension s = some r ∧
      (s.claims_one_point_four = 0 →
        r.2.mon_min_vert_freq_hz = (rd x 5 : Int) ∧
        r.2.mon_max_vert_freq_hz = (rd x 6 : Int) ∧
        r.2.mon_min_hor_freq_hz = (rd x 7 : Int) * 1000 ∧
        r.2.mon_max_hor_freq_hz = (rd x 8 : Int) * 1000 ∧
        (rd x 4 ≠ 0 → r.2.has_valid_range_descriptor = 0 ∧ r.1 = 0)) ∧
      (s.claims_one_point_four ≠ 0 →
        ∃ h_max h_min v_max v_min : Int,
          (h_max, h_min, v_max, v_min) = range_offsets (rd x 4 &&& 0x07) ∧
          r.2.mon_min_vert_freq_hz = (rd x 5 : Int) + v_min ∧
          r.2.mon_max_vert_freq_hz = (rd x 6 : Int) + v_max ∧
          r.2.mon_min_hor_freq_hz = ((rd x 7 : Int) + h_min) * 1000 ∧
          r.2.mon_max_hor_freq_hz = ((rd x 8 : Int) + h_max) * 1000 ∧
          (v_max = 0 ∨ v_max = 255) ∧ (v_min = 0 ∨ v_min = 255) ∧
          (h_max = 0 ∨ h_max = 255) ∧ (h_min = 0 ∨ h_min = 255) ∧
          (v_max = 255 ↔ rd x 4 &&& 0x02 ≠ 0) ∧
          (h_max = 255 ↔ rd x 4 &&& 0x04 ≠ 0) ∧
          (v_min = 255 ↔ rd x 4 &&& 0x02 ≠ 0 ∧ rd x 4 &&& 0x01 ≠ 0) ∧
          (h_min = 255 ↔ rd x 4 &&& 0x04 ≠ 0 ∧ rd x 4 &&& 0x03 ≠ 0) ∧
          (v_min = 255 → v_max = 255) ∧ (h_min = 255 → h_max = 255)) := by
  refine ⟨_, detailed_block_range_slot x in_extension s h0 h1 h3, ?_, ?_⟩
  · intro h4
    obtain ⟨b0, b1, b2, b3, b4, _⟩ := detailed_block_range_bounds x (detailed_block_pad x s)
    obtain ⟨_, _, dz⟩ := detailed_block_range_dotclock_fields x (detailed_block_pad x s)
    have hp := (range_pad_dot x s).1
    simp only [dot_view, Prod.mk.injEq] at hp
    have p4 : (detailed_block_pad x s).claims_one_point_four = 0 := by rw [hp.1, h4]
    rw [p4] at b1 b2 b3 b4
    simp only [ne_eq, not_true_eq_false, if_false, add_zero] at b1 b2 b3 b4
    refine ⟨b1, b2, b3, b4, ?_⟩
    intro hx
    have := dz p4 hx
    exact ⟨this, by rw [b0, this]⟩
  · intro h4
    obtain ⟨_, b1, b2, b3, b4, _⟩ := detailed_block_range_bounds x (detailed_block_pad x s)
    have hp := (range_pad_dot x s).1
    simp only [dot_view, Prod.mk.injEq] at hp
    have p4 : (detailed_block_pad x s).claims_one_point_four ≠ 0 := by rw [hp.1]; exact h4
    rw [if_pos p4] at b1 b2 b3 b4
    refine ⟨(range_offsets (rd x 4)).1, (range_offsets (rd x 4)).2.1,
      (range_offsets (rd x 4)).2.2.1, (range_offsets (rd x 4)).2.2.2,
      by rw [← range_offsets_low_bits], b1, b2, b3, b4, ?_⟩
    unfold range_offsets
    dsimp only
    generalize rd x 4 &&& 0x01 = k1
    generalize rd x 4 &&& 0x02 = k2
    generalize rd x 4 &&& 0x03 = k3
    generalize rd x 4 &&& 0x04 = k4
    by_cases a1 : k1 ≠ 0 <;> by_cases a2 : k2 ≠ 0 <;>
      by_cases a3 : k3 ≠ 0 <;> by_cases a4 : k4 ≠ 0 <;>
      simp [a1, a2, a3, a4]

theorem range_descriptor_offsets_witness :
    (rd sample_range_no_dotclock 0 = 0 ∧ rd sample_range_no_dotclock 1 = 0 ∧
      rd sample_range_no_dotclock 3 = 0xFD) ∧
    (detailed_block sample_range_no_dotclock 0 State.init).map
      (fun r => (r.2.mon_min_vert_freq_hz, r.2.mon_max_vert_freq_hz,
        r.2.mon_min_hor_freq_hz, r.2.mon_max_hor_freq_hz)) = some (50, 75, 30000, 80000) := by
  obtain ⟨r, hr, h, _⟩ := range_descriptor_offsets sample_range_no_dotclock 0
    State.init (by decide) (by decide) (by decide)
  refine ⟨⟨by decide, by decide, by decide⟩, ?_⟩
  rw [hr]
  obtain ⟨e1, e2, e3, e4, _⟩ := h rfl
  simp only [Option.map, Option.some.injEq, Prod.mk.injEq]
  exact ⟨by rw [e1]; rfl, by rw [e2]; rfl, by rw [e3]; rfl, by rw [e4]; rfl⟩


/-! ## Week, claimed revision and manufacturer name -/

theorem main_display_id_view (edid : List Nat) (s : State) :
    id_view (main_display edid s) = id_view s := by
  unfold main_display main_digital_mask main_digital_14
  dsimp only
  repeat' (first | refine view_ite id_view _ _ _ _ ?_ ?_ | rfl)

theorem main_features_id_view (edid : List Nat) (s : State) :
    id_view (main_features edid s) = id_view s := by
  unfold main_features
  dsimp only
  repeat' (first | refine view_ite id_view _ _ _ _ ?_ ?_ | rfl)

theorem main_established_id_view (edid : List Nat) (s : State) :
    id_view (main_established edid s) = id_view s := by
  unfold main_established
  dsimp only
  show id_view (List.foldl _ s (List.range 17)) = id_view s
  apply foldl_view
  intro s a
  repeat' (first | refine view_ite id_view _ _ _ _ ?_ ?_ | rfl)

theorem print_standard_timing_id_view (b1 b2 : Nat) (s : State) :
    id_view (print_standard_timing b1 b2 s) = id_view s := by
  unfold print_standard_timing
  dsimp only
  repeat' (first | refine view_ite id_view _ _ _ _ ?_ ?_ | rfl)

theorem main_standard_id_view (edid : List Nat) (s : State) :
    id_view (main_standard edid s) = id_view s := by
  unfold main_standard
  apply foldl_view
  intro s a
  exact print_standard_timing_id_view _ _ s

theorem detailed_cvt_descriptor_id_view (x : List Nat) (first : Int) (s : State) :
    id_view (detailed_cvt_descriptor x first s).2 = id_view s := by
  unfold detailed_cvt_descriptor
  dsimp only
  repeat' (first | refine view_ite (fun r : Int × State => id_view r.2) _ _ _ _ ?_ ?_ | rfl)

theorem detailed_block_cvt_id_view (x : List Nat) (s : State) :
    id_view (detailed_block_cvt x s).2 = id_view s := by
  unfold detailed_block_cvt
  refine view_ite (fun r : Int × State => id_view r.2) _ _ _ _ rfl ?_
  show id_view (List.foldl _ ((1 : Int), s) (List.range 4)).2 = id_view s
  apply foldl_view (fun acc : Int × State => id_view acc.2)
  intro acc a
  exact detailed_cvt_descriptor_id_view _ _ _

theorem detailed_block_est3_id_view (x : List Nat) (s : State) :
    id_view (detailed_block_est3 x s) = id_view s := by
  unfold detailed_block_est3
  apply foldl_view
  intro s a
  repeat' (first | refine view_ite id_view _ _ _ _ ?_ ?_ | rfl)

theorem detailed_block_name_id_view (x : List Nat) (s : State) :
    id_view (detailed_block_name x s) = id_view s := by
  unfold detailed_block_name
  dsimp only
  repeat' (first | refine view_ite id_view _ _ _ _ ?_ ?_ | rfl)

theorem detailed_block_range_cvt_id_view (x : List Nat) (s : State) :
    id_view (detailed_block_range_cvt x s) = id_view s := by
  unfold detailed_block_range_cvt
  dsimp only
  repeat' (first | refine view_ite id_view _ _ _ _ ?_ ?_ | rfl)

theorem detailed_block_range_id_view (x : List Nat) (s : State) :
    id_view (detailed_block_range x s).2 = id_view s := by
  have h1 : ∀ t, id_view (detailed_block_range_offsets x t).2 = id_view t := by
    intro t; unfold detailed_block_range_offsets
    repeat' (first
      | refine view_ite (fun r : (Int × Int × Int × Int) × State => id_view r.2) _ _ _ _ ?_ ?_
      | rfl)
  have h2 : ∀ t, id_view (detailed_block_range_class x t).2 = id_view t := by
    intro t; unfold detailed_block_range_class
    repeat' (first
      | refine view_ite (fun r : Int × State => id_view r.2) _ _ _ _ ?_ ?_
      | refine view_ite id_view _ _ _ _ ?_ ?_
      | rfl)
  have h3 : ∀ a b t, id_view (detailed_block_range_vert x a b t) = id_view t := by
    intro a b t; unfold detailed_block_range_vert
    repeat' (first | refine view_ite id_view _ _ _ _ ?_ ?_ | rfl)
  have h4 : ∀ a b t, id_view (detailed_block_range_hor x a b t) = id_view t := by
    intro a b t; unfold detailed_block_range_hor
    repeat' (first | refine view_ite id_view _ _ _ _ ?_ ?_ | rfl)
  have h5 : ∀ t, id_view (detailed_block_range_dotclock x t) = id_view t := by
    intro t; unfold detailed_block_range_dotclock
    repeat' (first | refine view_ite id_view _ _ _ _ ?_ ?_ | rfl)
  unfold detailed_block_range
  dsimp only
  refine view_ite id_view _ _ _ _ ?_ ?_
  · rw [detailed_block_range_cvt_id_view, h5, h4, h3, h2, h1]; rfl
  · rw [h5, h4, h3, h2, h1]; rfl

theorem detailed_block_pad_id_view (x : List Nat) (s : State) :
    id_view (detailed_block_pad x s) = id_view s := by
  unfold detailed_block_pad
  repeat' (first | refine view_ite id_view _ _ _ _ ?_ ?_ | rfl)

theorem detailed_block_dummy_id_view (x : List Nat) (s : State) :
    id_view (detailed_block_dummy x s) = id_view s := by
  unfold detailed_block_dummy
  apply foldl_view
  intro s a
  repeat' (first | refine view_ite id_view _ _ _ _ ?_ ?_ | rfl)

theorem detailed_block_standard_id_view (x : List Nat) (s : State) :
    id_view (detailed_block_standard x s) = id_view s := by
  unfold detailed_block_standard
  apply foldl_view
  intro s a
  exact print_standard_timing_id_view _ _ s

theorem detailed_block_timing_id_view (x : List Nat) (e : Int) (s : State)
    (r : Int × State) (h : detailed_block_timing x e s = some r) :
    id_view r.2 = id_view s := by
  unfold detailed_block_timing at h
  dsimp only at h
  split at h
  · simp at h
  · split at h
    · simp at h
    · simp only [Option.some.injEq] at h
      subst h
      show id_view (if _ then _ else _) = _
      repeat' (first | refine view_ite id_view _ _ _ _ ?_ ?_ | rfl)

theorem detailed_block_tag_id_view (x : List Nat) (s : State) :
    id_view (detailed_block_tag x s).2 = id_view s := by
  unfold detailed_block_tag
  refine view_ite (fun r : Int × State => id_view r.2) _ _ _ _ rfl ?_
  refine view_ite (fun r : Int × State => id_view r.2) _ _ _ _
    (detailed_block_dummy_id_view x s) ?_
  refine view_ite (fun r : Int × State => id_view r.2) _ _ _ _
    (detailed_block_est3_id_view x s) ?_
  refine view_ite (fun r : Int × State => id_view r.2) _ _ _ _
    (detailed_block_cvt_id_view x s) ?_
  refine view_ite (fun r : Int × State => id_view r.2) _ _ _ _ rfl ?_
  refine view_ite (fun r : Int × State => id_view r.2) _ _ _ _
    (detailed_block_standard_id_view x s) ?_
  refine view_ite (fun r : Int × State => id_view r.2) _ _ _ _ rfl ?_
  refine view_ite (fun r : Int × State => id_view r.2) _ _ _ _
    (detailed_block_name_id_view x s) ?_
  refine view_ite (fun r : Int × State => id_view r.2) _ _ _ _
    (detailed_block_range_id_view x s) ?_
  refine view_ite (fun r : Int × State => id_view r.2) _ _ _ _ rfl ?_
  exact view_ite (fun r : Int × State => id_view r.2) _ _ _ _ rfl rfl

theorem detailed_block_monitor_id_view (x : List Nat) (s : State) :
    id_view (detailed_block_monitor x s).2 = id_view s := by
  unfold detailed_block_monitor
  rw [detailed_block_tag_id_view, detailed_block_pad_id_view]

theorem detailed_block_id_view (x : List Nat) (e : Int) (s : State)
    (r : Int × State) (h : detailed_block x e s = some r) :
    id_view r.2 = id_view s := by
  unfold detailed_block at h
  split_ifs at h
  · simp only [Option.some.injEq] at h
    subst h
    exact detailed_block_monitor_id_view x s
  · exact detailed_block_timing_id_view x e s r h

theorem main_detailed_first_id_view (edid : List Nat) (s t : State)
    (h : main_detailed_first edid s = some t) : id_view t = id_view s := by
  unfold main_detailed_first at h
  split at h
  · simp at h
  · next r hr =>
    simp only [Option.some.injEq] at h
    subst h
    have := detailed_block_id_view _ _ _ r hr
    rw [← this]
    repeat' (first | refine view_ite id_view _ _ _ _ ?_ ?_ | rfl)

theorem main_detailed_and_id_view (edid : List Nat) (off : Nat) (s t : State)
    (h : main_detailed_and edid off s = some t) : id_view t = id_view s := by
  unfold main_detailed_and at h
  split at h
  · simp at h
  · next r hr =>
    simp only [Option.some.injEq] at h
    subst h
    have := detailed_block_id_view _ _ _ r hr
    rw [← this]
    rfl

theorem main_detailed_id_view (edid : List Nat) (s t : State)
    (h : main_detailed edid s = some t) : id_view t = id_view s := by
  unfold main_detailed at h
  simp only [Option.bind_eq_some] at h
  obtain ⟨s3, ⟨s2, ⟨s1, h1, h2⟩, h3⟩, h4⟩ := h
  rw [main_detailed_and_id_view _ _ _ _ h4, main_detailed_and_id_view _ _ _ _ h3,
    main_detailed_and_id_view _ _ _ _ h2, main_detailed_first_id_view _ _ _ h1]

theorem main_version_id_view (edid : List Nat) (s : State) :
    id_view (main_version edid s).2 = id_view s := by
  unfold main_version
  refine view_ite (fun r : List Nat × State => id_view r.2) _ _ _ _ ?_ rfl
  show id_view (main_revision _ _) = _
  unfold main_revision
  split <;> rfl

/-- The decode leaves in `has_valid_week`, `has_valid_year` and
`manufacturer_name_well_formed` what `main_vendor` and `main_date` put there. -/
theorem main_decode_id_view (tm : Int) (edid : List Nat) (lines : Int) (junk : Nat → Int)
    (s : State) (h : main_decode tm edid lines junk = some s) :
    id_view s = id_view (main_date tm edid (main_vendor edid State.init)) := by
  obtain ⟨t, ht, hf⟩ := main_decode_split tm edid lines junk s h
  have hb := main_detailed_id_view _ _ _ ht
  rw [main_standard_id_view, main_established_id_view, main_features_id_view,
    main_display_id_view, main_version_id_view] at hb
  rw [← hb]
  simp only [ext_frame, Prod.mk.injEq] at hf
  unfold id_view
  rw [hf.2.2.1.2.2.2.2.2.1, hf.2.2.1.2.2.2.2.2.2, hf.2.2.2.2.1.2.1]

theorem main_date_week (tm : Int) (edid : List Nat) (s : State) :
    (main_date tm edid s).has_valid_week =
      if rd edid 0x10 < 55 ∨ rd edid 0x10 = 0xff then 1 else s.has_valid_week := by
  unfold main_date
  by_cases h : rd edid 0x10 < 55 ∨ rd edid 0x10 = 0xff
  · rw [if_pos h, if_pos h]
    dsimp only
    repeat' (first
      | refine view_ite (fun t : State => t.has_valid_week) _ _ _ _ ?_ ?_
      | rfl)
  · rw [if_neg h, if_neg h]

theorem main_vendor_week (edid : List Nat) (s : State) :
    (main_vendor edid s).has_valid_week = s.has_valid_week := by
  unfold main_vendor manufacturer_name
  dsimp only
  show (fun t : State => t.has_valid_week) (if _ then _ else _) = _
  repeat' (first
    | refine view_ite (fun t : State => t.has_valid_week) _ _ _ _ ?_ ?_
    | rfl)

/-- Claim C25 fails as stated: `sample_edid_week55` has week byte 55, which is
`<= 55`, yet the decode ends with `has_valid_week = 0` and `main` returns 1. -/
theorem week_55_invalid :
    rd sample_edid_week55 0x10 = 55 ∧
    (main_decode 126 sample_edid_week55 8 junk_zero).map (fun s => s.has_valid_week)
      = some 0 ∧
    main 126 sample_edid_week55 8 junk_zero = some 1 := by
  refine ⟨by decide!, by decide!, by decide!⟩

/-- Claim C25, amended: for every EDID whose decode completes, with week byte `w`
at offset 0x10, `has_valid_week` is 1 at the verdict if and only if `w < 55` or
`w = 0xFF`, and it is 0 otherwise: a week is invalid exactly when it is at least
55 and not 0xFF. -/
theorem week_valid (tm : Int) (edid : List Nat) (lines : Int) (junk : Nat → Int)
    (s : State) (hdec : main_decode tm edid lines junk = some s) :
    (s.has_valid_week = 1 ↔ (rd edid 0x10 < 55 ∨ rd edid 0x10 = 0xff)) ∧
    (s.has_valid_week = 0 ↔ (55 ≤ rd edid 0x10 ∧ rd edid 0x10 ≠ 0xff)) := by
  have hv := main_decode_id_view tm edid lines junk s hdec
  simp only [id_view, Prod.mk.injEq] at hv
  have hw : s.has_valid_week =
      if rd edid 0x10 < 55 ∨ rd edid 0x10 = 0xff then 1 else 0 := by
    rw [hv.1, main_date_week, main_vendor_week]
    rfl
  rw [hw]
  by_cases h : rd edid 0x10 < 55 ∨ rd edid 0x10 = 0xff
  · rw [if_pos h]
    refine ⟨⟨fun _ => h, fun _ => rfl⟩, ⟨fun h1 => absurd h1 (by decide), fun h1 => ?_⟩⟩
    omega
  · rw [if_neg h]
    refine ⟨⟨fun h1 => absurd h1 (by decide), fun h1 => absurd h1 h⟩,
      ⟨fun _ => by omega, fun _ => rfl⟩⟩

theorem week_valid_witness :
    (main_decode 126 sample_edid 8 junk_zero).isSome = true ∧
    (main_decode 126 sample_edid 8 junk_zero).map (fun s => s.has_valid_week) = some 1 := by
  have hsome : (main_decode 126 sample_edid 8 junk_zero).isSome = true := by decide!
  refine ⟨hsome, ?_⟩
  cases hs : main_decode 126 sample_edid 8 junk_zero with
  | none => rw [hs] at hsome; simp at hsome
  | some s =>
    simp only [Option.map, Option.some.injEq]
    exact (week_valid 126 sample_edid 8 junk_zero s hs).1.mpr (Or.inl (by decide!))

theorem main_version_claims_four (edid : List Nat) (s : State)
    (h4 : s.claims_one_point_four = 0) :
    (main_version edid s).2.claims_one_point_four =
      if rd edid 0x12 = 1 ∧ 4 ≤ rd edid 0x13 then 1 else 0 := by
  unfold main_version
  by_cases h12 : rd edid 0x12 = 1
  · rw [if_pos h12]
    dsimp only
    by_cases hgt : rd edid 0x13 > 4
    · have hlen : 0x13 < edid.length := by
        by_contra hc
        have : rd edid 0x13 = 0 := by
          unfold rd; exact List.getD_eq_default _ _ (Nat.le_of_not_lt hc)
        omega
      have e : rd (edid.set 0x13 4) 0x13 = 4 := by
        rw [rd_set, if_pos ⟨rfl, hlen⟩]
      rw [if_pos hgt, e, if_pos ⟨h12, by omega⟩]
      rfl
    · rw [if_neg hgt]
      have hr : rd edid 0x13 = 0 ∨ rd edid 0x13 = 1 ∨ rd edid 0x13 = 2 ∨ rd edid 0x13 = 3 ∨
          rd edid 0x13 = 4 := by omega
      rcases hr with hr | hr | hr | hr | hr <;> rw [hr] <;>
        simp [main_revision, h12, h4]
  · rw [if_neg h12, if_neg (fun h => h12 h.1)]
    exact h4

/-- Claim C26: the claimed-revision flags that the fall-through `switch` leaves,
both right after `main_version` on the initial state and at the verdict of every
EDID whose decode completes, equal the ordered comparisons
`claims_by_comparison`: for major version 1, `claims_one_point_oh = 1`,
`claims_one_point_two = (r >= 2)`, `claims_one_point_three = (r >= 3)`,
`claims_one_point_four = (r >= 4)`, so that every `r > 4` gives the flags of
`r = 4`; for every other major version all four flags are 0. -/
theorem claims_flags_are_comparisons (tm : Int) (edid : List Nat) (lines : Int)
    (junk : Nat → Int) (s : State) (hdec : main_decode tm edid lines junk = some s) :
    claims_view (main_version edid State.init).2 =
      claims_by_comparison (rd edid 0x12) (rd edid 0x13) ∧
    claims_view s = claims_by_comparison (rd edid 0x12) (rd edid 0x13) ∧
    (∀ r, r > 4 → claims_by_comparison 1 r = claims_by_comparison 1 4) ∧
    (∀ r, claims_by_comparison 1 r =
      (1, b2i (decide (r ≥ 2)), b2i (decide (r ≥ 3)), b2i (decide (r ≥ 4)))) ∧
    (∀ major r, major ≠ 1 → claims_by_comparison major r = (0, 0, 0, 0)) := by
  have key : ∀ t : State, t.claims_one_point_oh = 0 → t.claims_one_point_two = 0 →
      t.claims_one_point_three = 0 → t.claims_one_point_four = 0 →
      claims_view (main_version edid t).2 =
        claims_by_comparison (rd edid 0x12) (rd edid 0x13) := by
    intro t t0 t2 t3 t4
    obtain ⟨c0, c2, c3⟩ := main_version_claims edid t t0 t2 t3
    have c4 := main_version_claims_four edid t t4
    unfold claims_view claims_by_comparison
    rw [c0, c2, c3, c4]
    by_cases h12 : rd edid 0x12 = 1
    · simp only [h12, true_and, if_true, b2i]
      by_cases a2 : 2 ≤ rd edid 0x13 <;> by_cases a3 : 3 ≤ rd edid 0x13 <;>
        by_cases a4 : 4 ≤ rd edid 0x13 <;> simp [a2, a3, a4]
    · simp [h12]
  refine ⟨key State.init rfl rfl rfl rfl, ?_, ?_, ?_, ?_⟩
  · obtain ⟨t, ht, hf⟩ := main_decode_split tm edid lines junk s hdec
    have hb := main_detailed_base_view _ _ _ ht
    rw [main_standard_base_view, main_established_base_view, main_features_base_view,
      main_display_base_view] at hb
    have e0 : base_view (main_date tm edid (main_vendor edid State.init))
        = base_view State.init := by
      rw [main_date_base_view, main_vendor_base_view]
    simp only [base_view, Prod.mk.injEq] at e0
    have k := key (main_date tm edid (main_vendor edid State.init))
      e0.1.1 e0.1.2.1 e0.1.2.2.1 e0.1.2.2.2
    rw [← k]
    simp only [ext_frame, Prod.mk.injEq] at hf
    simp only [base_view, Prod.mk.injEq] at hb
    unfold claims_view
    rw [hf.1.1, hf.1.2.1, hf.1.2.2.1, hf.1.2.2.2]
    show (t.claims_one_point_oh, t.claims_one_point_two, t.claims_one_point_three,
      t.claims_one_point_four) = _
    rw [hb.1.1, hb.1.2.1, hb.1.2.2.1, hb.1.2.2.2]
  · intro r hr
    unfold claims_by_comparison
    have a2 : r ≥ 2 := by omega
    have a3 : r ≥ 3 := by omega
    have a4 : r ≥ 4 := by omega
    simp [a2, a3, a4]
  · intro r
    unfold claims_by_comparison
    rw [if_pos rfl]
  · intro major r hm
    unfold claims_by_comparison
    rw [if_neg hm]

theorem claims_flags_are_comparisons_witness :
    (main_decode 126 sample_edid_rev5_off 8 junk_zero).isSome = true ∧
    (main_decode 126 sample_edid_rev5_off 8 junk_zero).map claims_view
      = some (1, 1, 1, 1) := by
  have hsome : (main_decode 126 sample_edid_rev5_off 8 junk_zero).isSome = true := by decide!
  refine ⟨hsome, ?_⟩
  cases hs : main_decode 126 sample_edid_rev5_off 8 junk_zero with
  | none => rw [hs] at hsome; simp at hsome
  | some s =>
    simp only [Option.map, Option.some.injEq]
    rw [(claims_flags_are_comparisons 126 sample_edid_rev5_off 8 junk_zero s hs).2.1]
    decide!


/-! ## The manufacturer name -/

theorem byte_letter_fields : ∀ v : Fin 256,
    (v.val &&& 0x7C) >>> 2 = v.val / 4 % 32 ∧ (v.val &&& 0x03) <<< 3 = v.val % 4 * 8 ∧
    (v.val &&& 0xE0) >>> 5 = v.val / 32 ∧ v.val &&& 0x1F = v.val % 32 := by
  decide!

/-- The characters that `manufacturer_name` unpacks from two bytes and the flag it
leaves. -/
theorem manufacturer_name_unpacked (x : List Nat) (s : State)
    (h0 : rd x 0 < 256) (h1 : rd x 1 < 256) :
    (manufacturer_name x s).1 =
      [letter1 (rd x 0) + 0x40, letter2 (rd x 0) (rd x 1) + 0x40, letter3 (rd x 1) + 0x40, 0] ∧
    (manufacturer_name x s).2.manufacturer_name_well_formed =
      if letters_in_range (rd x 0) (rd x 1) then 1 else s.manufacturer_name_well_formed := by
  obtain ⟨a1, a2, _, _⟩ := byte_letter_fields ⟨rd x 0, h0⟩
  obtain ⟨_, _, b3, b4⟩ := byte_letter_fields ⟨rd x 1, h1⟩
  simp only at a1 a2 b3 b4
  unfold manufacturer_name letters_in_range letter1 letter2 letter3
  dsimp only
  rw [a1, a2, b3, b4]
  refine ⟨rfl, ?_⟩
  by_cases hc : (1 ≤ rd x 0 / 4 % 32 ∧ rd x 0 / 4 % 32 ≤ 26) ∧
      (1 ≤ rd x 0 % 4 * 8 + rd x 1 / 32 ∧ rd x 0 % 4 * 8 + rd x 1 / 32 ≤ 26) ∧
      (1 ≤ rd x 1 % 32 ∧ rd x 1 % 32 ≤ 26)
  · rw [if_pos hc, if_pos]
    unfold isupper
    simp only [Bool.and_eq_true, decide_eq_true_eq]
    omega
  · rw [if_neg hc, if_neg]
    unfold isupper
    simp only [Bool.and_eq_true, decide_eq_true_eq]
    omega

theorem main_date_manufacturer (tm : Int) (edid : List Nat) (s : State) :
    (main_date tm edid s).manufacturer_name_well_formed = s.manufacturer_name_well_formed := by
  unfold main_date
  dsimp only
  repeat' (first
    | refine view_ite (fun u : State => u.manufacturer_name_well_formed) _ _ _ _ ?_ ?_
    | rfl)

theorem main_vendor_manufacturer (edid : List Nat) (s : State) :
    (main_vendor edid s).manufacturer_name_well_formed =
      (manufacturer_name (edid.drop 0x08) s).2.manufacturer_name_well_formed := by
  unfold main_vendor
  rfl

/-- The value of `manufacturer_name_well_formed` that reaches the verdict. -/
theorem main_decode_manufacturer (tm : Int) (edid : List Nat) (lines : Int)
    (junk : Nat → Int) (s : State) (h8 : rd edid 8 < 256) (h9 : rd edid 9 < 256)
    (hdec : main_decode tm edid lines junk = some s) :
    s.manufacturer_name_well_formed =
      if letters_in_range (rd edid 8) (rd edid 9) then 1 else 0 := by
  have hv := main_decode_id_view tm edid lines junk s hdec
  simp only [id_view, Prod.mk.injEq] at hv
  have d0 : rd (edid.drop 0x08) 0 = rd edid 8 := rd_drop edid 8 0
  have d1 : rd (edid.drop 0x08) 1 = rd edid 9 := rd_drop edid 8 1
  have hu := (manufacturer_name_unpacked (edid.drop 0x08) State.init
    (by rw [d0]; exact h8) (by rw [d1]; exact h9)).2
  rw [d0, d1] at hu
  have i0 : State.init.manufacturer_name_well_formed = 0 := rfl
  rw [i0] at hu
  rw [hv.2.2, main_date_manufacturer, main_vendor_manufacturer, hu]

theorem main_return_of_bad_manufacturer (s : State)
    (h : s.manufacturer_name_well_formed = 0) :
    (main_verdict s).conformant = 0 ∧ main_return (main_verdict s) = 1 := by
  apply main_return_of_fails_always
  unfold fails_always
  simp [h]

/-- Claim C27: for every pair of vendor bytes `(x0, x1)`, `manufacturer_name`
yields the characters `'@' + c1`, `'@' + c2`, `'@' + c3` and a NUL, where `c1` is
bits 6-2 of `x0`, `c2` is the low two bits of `x0` followed by the top three bits
of `x1`, and `c3` is the low five bits of `x1`; starting from the initial value 0,
`manufacturer_name_well_formed` is set if and only if every `c_k` lies in 1..26,
that is every character is an uppercase letter, and this is the value the verdict
of every EDID with these vendor bytes sees (a clear flag makes `main` return 1);
packing any three letters into the five-bit layout decodes back to the same three
letters and sets the flag. -/
theorem manufacturer_name_letters (x : List Nat) (s : State)
    (h0 : rd x 0 < 256) (h1 : rd x 1 < 256) :
    (manufacturer_name x s).1 =
      [0x40 + letter1 (rd x 0), 0x40 + letter2 (rd x 0) (rd x 1), 0x40 + letter3 (rd x 1), 0] ∧
    (s.manufacturer_name_well_formed = 0 →
      ((manufacturer_name x s).2.manufacturer_name_well_formed = 1 ↔
        letters_in_range (rd x 0) (rd x 1)) ∧
      ((manufacturer_name x s).2.manufacturer_name_well_formed = 1 ↔
        ∀ c ∈ (manufacturer_name x s).1.take 3, isupper c = true)) ∧
    (∀ (tm : Int) (edid : List Nat) (lines : Int) (junk : Nat → Int) (t : State),
      rd edid 8 = rd x 0 → rd edid 9 = rd x 1 → main_decode tm edid lines junk = some t →
      (t.manufacturer_name_well_formed ≠ 0 ↔ letters_in_range (rd x 0) (rd x 1)) ∧
      (¬ letters_in_range (rd x 0) (rd x 1) → main tm edid lines junk = some 1)) ∧
    (∀ a b c : Nat, 1 ≤ a → a ≤ 26 → 1 ≤ b → b ≤ 26 → 1 ≤ c → c ≤ 26 →
      (manufacturer_name (pack_manufacturer a b c) s).1 = [0x40 + a, 0x40 + b, 0x40 + c, 0] ∧
      (manufacturer_name (pack_manufacturer a b c) s).2.manufacturer_name_well_formed = 1) := by
  obtain ⟨hn, hf⟩ := manufacturer_name_unpacked x s h0 h1
  refine ⟨?_, ?_, ?_, ?_⟩
  · rw [hn]
    simp only [Nat.add_comm]
  · intro hs
    have hiff : (manufacturer_name x s).2.manufacturer_name_well_formed = 1 ↔
        letters_in_range (rd x 0) (rd x 1) := by
      rw [hf]
      constructor
      · intro h
        by_contra hc
        rw [if_neg hc, hs] at h
        exact absurd h (by decide)
      · intro h
        rw [if_pos h]
    refine ⟨hiff, ?_⟩
    rw [hiff, hn]
    unfold isupper letters_in_range
    generalize letter1 (rd x 0) = c1
    generalize letter2 (rd x 0) (rd x 1) = c2
    generalize letter3 (rd x 1) = c3
    simp only [List.take, List.mem_cons, List.mem_singleton, List.not_mem_nil, or_false,
      forall_eq_or_imp, forall_eq, decide_eq_true_eq]
    omega
  · intro tm edid lines junk t e8 e9 hdec
    have hm := main_decode_manufacturer tm edid lines junk t (by rw [e8]; exact h0)
      (by rw [e9]; exact h1) hdec
    rw [e8, e9] at hm
    refine ⟨?_, ?_⟩
    · rw [hm]
      by_cases hc : letters_in_range (rd x 0) (rd x 1)
      · rw [if_pos hc]
        exact ⟨fun _ => hc, fun _ => by decide⟩
      · rw [if_neg hc]
        exact ⟨fun h => absurd rfl h, fun h => absurd h hc⟩
    · intro hc
      rw [if_neg hc] at hm
      have hr := (main_return_of_bad_manufacturer t hm).2
      unfold main
      rw [hdec]
      show some (main_return (main_verdict t)) = some 1
      rw [hr]
  · intro a b c a1 a2 b1 b2 c1 c2
    have p0 : rd (pack_manufacturer a b c) 0 = a * 4 + b / 8 := rfl
    have p1 : rd (pack_manufacturer a b c) 1 = b % 8 * 32 + c := rfl
    obtain ⟨gn, gf⟩ := manufacturer_name_unpacked (pack_manufacturer a b c) s
      (by rw [p0]; omega) (by rw [p1]; omega)
    rw [p0, p1] at gn gf
    have k1 : letter1 (a * 4 + b / 8) = a := by unfold letter1; omega
    have k2 : letter2 (a * 4 + b / 8) (b % 8 * 32 + c) = b := by unfold letter2; omega
    have k3 : letter3 (b % 8 * 32 + c) = c := by unfold letter3; omega
    have kr : letters_in_range (a * 4 + b / 8) (b % 8 * 32 + c) := by
      unfold letters_in_range
      rw [k1, k2, k3]
      exact ⟨⟨a1, a2⟩, ⟨b1, b2⟩, ⟨c1, c2⟩⟩
    rw [k1, k2, k3] at gn
    refine ⟨?_, ?_⟩
    · rw [gn]
      simp only [Nat.add_comm]
    · rw [gf, if_pos kr]

theorem manufacturer_name_letters_witness :
    (rd [0x04, 0x43] 0 < 256 ∧ rd [0x04, 0x43] 1 < 256) ∧
    (manufacturer_name [0x04, 0x43] State.init).1 = [0x41, 0x42, 0x43, 0] ∧
    pack_manufacturer 1 2 3 = [0x04, 0x43] := by
  have h := (manufacturer_name_letters [0x04, 0x43] State.init (by decide) (by decide)).1
  refine ⟨⟨by decide, by decide⟩, ?_, by decide⟩
  rw [h]
  decide


/-! ## The walk over the CEA data blocks -/

/-- The data-block loop of `parse_cea` applies `cea_block` at the offsets of
`cea_walk`, in order. -/
theorem parse_cea_blocks_walk (x : List Nat) (d : Nat) :
    ∀ (fuel i : Nat) (s : State),
      parse_cea_blocks x d fuel i s =
        (cea_walk x d fuel i).foldl (fun s i => cea_block (x.drop i) s) s := by
  intro fuel
  induction fuel with
  | zero => intro i s; rfl
  | succ n ih =>
    intro i s
    unfold parse_cea_blocks cea_walk
    by_cases h : i < d
    · rw [if_pos h, if_pos h, List.foldl_cons, ih]
    · rw [if_neg h, if_neg h]; rfl

/-- Every offset of the walk lies between its start and `d`. -/
theorem cea_walk_bounds (x : List Nat) (d : Nat) :
    ∀ (fuel i : Nat), ∀ j ∈ cea_walk x d fuel i, i ≤ j ∧ j < d := by
  intro fuel
  induction fuel with
  | zero => intro i j hj; simp [cea_walk] at hj
  | succ n ih =>
    intro i j hj
    unfold cea_walk at hj
    by_cases h : i < d
    · rw [if_pos h, List.mem_cons] at hj
      rcases hj with hj | hj
      · subst hj; exact ⟨le_refl _, h⟩
      · have := ih _ j hj
        omega
    · rw [if_neg h] at hj; simp at hj

/-- Each offset of the walk is the previous one plus the length field of the
block there plus one. -/
theorem cea_walk_chain (x : List Nat) (d : Nat) :
    ∀ (fuel i : Nat),
      List.Chain (fun a b => b = a + ((rd x a &&& 0x1f) + 1)) i
        (cea_walk x d fuel (i + ((rd x i &&& 0x1f) + 1))) := by
  intro fuel
  induction fuel with
  | zero => intro i; exact List.Chain.nil
  | succ n ih =>
    intro i
    unfold cea_walk
    split_ifs
    · exact List.Chain.cons rfl (ih _)
    · exact List.Chain.nil

/-- A walk with enough fuel to reach `d` is not cut short: more fuel visits the
same offsets. -/
theorem cea_walk_fuel (x : List Nat) (d : Nat) :
    ∀ (fuel i : Nat), d ≤ i + fuel → cea_walk x d (fuel + 1) i = cea_walk x d fuel i := by
  intro fuel
  induction fuel with
  | zero =>
    intro i h
    unfold cea_walk
    rw [if_neg (by omega)]
  | succ n ih =>
    intro i h
    rw [cea_walk]
    conv_rhs => rw [cea_walk]
    by_cases hi : i < d
    · rw [if_pos hi, if_pos hi, ih _ (by omega)]
    · rw [if_neg hi, if_neg hi]

/-- Claim C28 fails as stated: `sample_cea_rev4` has revision byte 4 and
detailed-descriptor offset 6, and a video data block with VIC 1 lies at offset 4,
the one offset of the walk; yet `parse_cea` does not visit it:
`has_cea861_vic_1` stays 0, while `cea_block` on that block sets it, and so does
`parse_cea` on the same block with revision byte 3. -/
theorem parse_cea_rev4_no_walk :
    rd sample_cea_rev4 1 = 4 ∧ rd sample_cea_rev4 2 = 6 ∧
    cea_walk sample_cea_rev4 6 6 4 = [4] ∧
    (cea_block (sample_cea_rev4.drop 4) State.init).has_cea861_vic_1 = 1 ∧
    (parse_cea sample_cea_rev4 State.init).map (fun r => r.2.has_cea861_vic_1) = some 0 ∧
    (parse_cea sample_cea_rev3 State.init).map (fun r => r.2.has_cea861_vic_1) = some 1 := by
  refine ⟨by decide!, by decide!, by decide!, by decide!, by decide!, by decide!⟩

/-- Claim C28, amended: for every CEA extension block with revision byte at least
1 and detailed-descriptor offset `d >= 4`.  When the revision byte is 3,
`parse_cea` applies `cea_block` (which dispatches on the tag in the top three
bits of the first byte) to the block at each offset of the walk `i_0 = 4`,
`i_(k+1) = i_k + (x[i_k] & 0x1f) + 1` while `i_k < d`, in order, before the
detailed descriptors; the walk starts at 4 when `4 < d`, stays below `d`, and is
not cut short.  For every other revision byte no data block is visited. -/
theorem parse_cea_data_blocks (x : List Nat) (s : State)
    (hv : 1 ≤ rd x 1) (hd : 4 ≤ rd x 2) :
    parse_cea x s =
      (parse_cea_detailed x 8 (rd x 2)
        (if rd x 1 = 3 then
          (cea_walk x (rd x 2) (rd x 2) 4).foldl (fun s i => cea_block (x.drop i) s) s
         else s)).map
        (fun t => ((if rd x 1 = 1 ∧ rd x 3 ≠ 0 then 1 else 0), parse_cea_tail x t)) ∧
    (4 < rd x 2 → (cea_walk x (rd x 2) (rd x 2) 4).head? = some 4) ∧
    (rd x 2 = 4 → cea_walk x (rd x 2) (rd x 2) 4 = []) ∧
    List.Chain' (fun a b => b = a + ((rd x a &&& 0x1f) + 1)) (cea_walk x (rd x 2) (rd x 2) 4) ∧
    (∀ j ∈ cea_walk x (rd x 2) (rd x 2) 4, 4 ≤ j ∧ j < rd x 2) ∧
    cea_walk x (rd x 2) (rd x 2 + 1) 4 = cea_walk x (rd x 2) (rd x 2) 4 := by
  refine ⟨?_, ?_, ?_, ?_, cea_walk_bounds x _ _ 4, cea_walk_fuel x _ _ 4 (by omega)⟩
  · unfold parse_cea parse_cea_body
    rw [if_pos (show rd x 1 ≥ 1 from hv)]
    dsimp only
    rw [if_neg (by omega)]
    by_cases h3 : rd x 1 = 3
    · rw [if_pos h3, h3, if_neg (by decide), if_pos rfl, parse_cea_blocks_walk]
      cases parse_cea_detailed x 8 (rd x 2)
        ((cea_walk x (rd x 2) (rd x 2) 4).foldl (fun s i => cea_block (x.drop i) s) s) <;> rfl
    · simp only [if_neg h3, ite_self]
      cases parse_cea_detailed x 8 (rd x 2) s <;> rfl
  · intro h
    obtain ⟨n, hn⟩ : ∃ n, rd x 2 = n + 1 := ⟨rd x 2 - 1, by omega⟩
    rw [hn, cea_walk, if_pos (by omega)]
    rfl
  · intro h
    rw [h]
    rfl
  · obtain ⟨n, hn⟩ : ∃ n, rd x 2 = n + 1 := ⟨rd x 2 - 1, by omega⟩
    rw [hn, cea_walk]
    split_ifs
    · exact cea_walk_chain x _ n 4
    · exact List.chain'_nil

theorem parse_cea_data_blocks_witness :
    (1 ≤ rd sample_cea_rev3 1 ∧ 4 ≤ rd sample_cea_rev3 2) ∧
    cea_walk sample_cea_rev3 6 6 4 = [4] ∧
    (parse_cea sample_cea_rev3 State.init).map (fun r => r.2.has_cea861_vic_1) = some 1 := by
  have h := (parse_cea_data_blocks sample_cea_rev3 State.init (by decide!) (by decide!)).1
  refine ⟨⟨by decide!, by decide!⟩, by decide!, ?_⟩
  rw [h]
  decide!


/-! ## Short video descriptors and the colorimetry block -/

theorem svd_byte_fields : ∀ v : Fin 256,
    (v.val &&& 0x7f = 0 ↔ (v.val = 0 ∨ v.val = 128)) ∧
    (if (v.val - 1) &&& 0x40 ≠ 0 then v.val else v.val &&& 0x7f) = svd_vic v.val ∧
    decide ((if (v.val - 1) &&& 0x40 ≠ 0 then 0 else v.val &&& 0x80) ≠ 0) = svd_native v.val := by
  decide!

theorem edid_cea_modes_length : edid_cea_modes.length = 107 := by decide

/-- One iteration of `cea_svd` on a byte that is not skipped, in terms of the
resolved VIC and the native flag. -/
theorem cea_svd_entry_eq (svd : Nat) (s : State) (h : svd < 256) (hz : svd &&& 0x7f ≠ 0) :
    cea_svd_entry svd s =
      (if 1 ≤ svd_vic svd ∧ svd_vic svd ≤ 107 then
        (some ⟨svd_vic svd, (edid_cea_modes.getD (svd_vic svd - 1) default).name,
            svd_native svd⟩,
         if svd_vic svd = 1 then
           { observe (edid_cea_modes.getD (svd_vic svd - 1) default).refresh
               (edid_cea_modes.getD (svd_vic svd - 1) default).hor_freq_hz
               (edid_cea_modes.getD (svd_vic svd - 1) default).pixclk_khz s with
             has_cea861_vic_1 := 1 }
         else observe (edid_cea_modes.getD (svd_vic svd - 1) default).refresh
               (edid_cea_modes.getD (svd_vic svd - 1) default).hor_freq_hz
               (edid_cea_modes.getD (svd_vic svd - 1) default).pixclk_khz s)
       else (some ⟨svd_vic svd, "Unknown mode", svd_native svd⟩, s)) := by
  obtain ⟨_, f1, f2⟩ := svd_byte_fields ⟨svd, h⟩
  simp only at f1 f2
  unfold cea_svd_entry
  rw [if_neg hz]
  dsimp only
  rw [f1, f2, edid_cea_modes_length]
  generalize svd_vic svd = vic
  generalize svd_native svd = native
  by_cases hv : 1 ≤ vic ∧ vic ≤ 107
  · have hd : decide (vic > 0 ∧ vic ≤ 107) = true := decide_eq_true (by omega)
    rw [if_pos hv, hd]
    simp only [if_true]
  · have hd : decide (vic > 0 ∧ vic ≤ 107) = false := decide_eq_false (by omega)
    have h1 : vic ≠ 1 := by omega
    rw [if_neg hv, hd]
    simp only [Bool.false_eq_true, if_false, if_neg h1]

/-- Claim C29: for every byte `svd` that `cea_svd` processes.  The byte is skipped
exactly when `(svd & 0x7f) = 0`, that is for 0 and 128.  Otherwise a line is
printed with the resolved VIC and the native flag: the native flag is set exactly
when `129 <= svd <= 192`, and then the VIC is `svd - 128`, a code in 1..64; for
every other byte the VIC is `svd` itself and native is clear.  The catalog of 107
modes is consulted (its entry `VIC - 1` names the mode and widens the observed
ranges) exactly when `1 <= VIC <= 107`; otherwise the mode is unknown and the
state is left as it is.  `has_cea861_vic_1` is set exactly when the VIC is 1 and
keeps its value otherwise. -/
theorem cea_svd_entry_decode (svd : Nat) (s : State) (h : svd < 256) :
    (svd &&& 0x7f = 0 ↔ (svd = 0 ∨ svd = 128)) ∧
    (svd &&& 0x7f = 0 → cea_svd_entry svd s = (none, s)) ∧
    (svd &&& 0x7f ≠ 0 →
      ∃ (mode : String) (s' : State),
        cea_svd_entry svd s = (some ⟨svd_vic svd, mode, svd_native svd⟩, s') ∧
        ((1 ≤ svd_vic svd ∧ svd_vic svd ≤ 107) →
          mode = (edid_cea_modes.getD (svd_vic svd - 1) default).name ∧
          s' = (if svd_vic svd = 1 then
                { observe (edid_cea_modes.getD (svd_vic svd - 1) default).refresh
                    (edid_cea_modes.getD (svd_vic svd - 1) default).hor_freq_hz
                    (edid_cea_modes.getD (svd_vic svd - 1) default).pixclk_khz s with
                  has_cea861_vic_1 := 1 }
               else observe (edid_cea_modes.getD (svd_vic svd - 1) default).refresh
                    (edid_cea_modes.getD (svd_vic svd - 1) default).hor_freq_hz
                    (edid_cea_modes.getD (svd_vic svd - 1) default).pixclk_khz s)) ∧
        (¬ (1 ≤ svd_vic svd ∧ svd_vic svd ≤ 107) → mode = "Unknown mode" ∧ s' = s) ∧
        s'.has_cea861_vic_1 = (if svd_vic svd = 1 then 1 else s.has_cea861_vic_1)) ∧
    (svd_native svd = true ↔ (129 ≤ svd ∧ svd ≤ 192)) ∧
    (svd_native svd = true → svd_vic svd = svd - 128 ∧ 1 ≤ svd_vic svd ∧ svd_vic svd ≤ 64) ∧
    (svd_native svd = false → svd_vic svd = svd) ∧
    edid_cea_modes.length = 107 := by
  obtain ⟨f0, _, _⟩ := svd_byte_fields ⟨svd, h⟩
  simp only at f0
  refine ⟨f0, ?_, ?_, ?_, ?_, ?_, edid_cea_modes_length⟩
  · intro hz
    unfold cea_svd_entry
    rw [if_pos hz]
  · intro hz
    have he := cea_svd_entry_eq svd s h hz
    by_cases hv : 1 ≤ svd_vic svd ∧ svd_vic svd ≤ 107
    · rw [if_pos hv] at he
      refine ⟨_, _, he, fun _ => ⟨rfl, rfl⟩, fun hn => absurd hv hn, ?_⟩
      by_cases h1 : svd_vic svd = 1
      · rw [if_pos h1, if_pos h1]
      · rw [if_neg h1, if_neg h1]
        rfl
    · rw [if_neg hv] at he
      refine ⟨_, _, he, fun hp => absurd hp hv, fun _ => ⟨rfl, rfl⟩, ?_⟩
      have h1 : svd_vic svd ≠ 1 := by omega
      rw [if_neg h1]
  · unfold svd_native
    rw [decide_eq_true_eq]
  · intro hn
    unfold svd_native at hn
    rw [decide_eq_true_eq] at hn
    unfold svd_vic
    rw [if_pos hn]
    omega
  · intro hn
    unfold svd_native at hn
    rw [decide_eq_false_iff_not] at hn
    unfold svd_vic
    rw [if_neg hn]

theorem cea_svd_entry_decode_witness :
    (0x90 : Nat) < 256 ∧
    (cea_svd_entry 0x90 State.init).1 = some ⟨16, "1920x1080@60Hz 16:9", true⟩ := by
  refine ⟨by decide, ?_⟩
  obtain ⟨_, _, h, _⟩ := cea_svd_entry_decode 0x90 State.init (by decide)
  obtain ⟨mode, s', he, hm, _, _⟩ := h (by decide)
  obtain ⟨m1, _⟩ := hm (by decide)
  rw [he, m1]
  show some (SvdLine.mk (svd_vic 0x90) (edid_cea_modes.getD (svd_vic 0x90 - 1) default).name
    (svd_native 0x90)) = _
  decide

/-- Claim C30 at a failing input: in the colorimetry block `e3 05 02 00` (payload
length 3) byte 2 is 0x02, so only bit 1 is set; `cea_colorimetry_block` reports
entry 0 (`xvYCC601`) as well as entry 1, because it tests `x[2] >> i` and not bit
`i`: an entry is reported whenever some bit at or above `i` is set.  With byte 2
equal to 0x80 all eight entries are reported. -/
theorem colorimetry_reports_lower_entries :
    rd sample_colorimetry_block 0 &&& 0x1f = 3 ∧
    (rd sample_colorimetry_block 2).testBit 0 = false ∧
    (rd sample_colorimetry_block 2).testBit 1 = true ∧
    cea_colorimetry_block sample_colorimetry_block = ["xvYCC601", "xvYCC709"] ∧
    cea_colorimetry_block [0xe3, 0x05, 0x80, 0x00] = colorimetry_map := by
  refine ⟨by decide, by decide, by decide, by decide, by decide⟩


/-! ## The verdict is monotone -/

theorem verdict_revision_eq (s : State) :
    verdict_revision s = if fails_revision s then { s with conformant := 0 } else s := by
  unfold verdict_revision fails_revision
  split_ifs <;> simp_all

/-- Claim C39: no stage of the verdict changes `conformant` from 0 to another
value; each stage either leaves the state as it is or assigns `conformant = 0`,
and it assigns exactly when its condition holds.  Starting from `conformant = 1`,
which is what every completed decode hands over, the final `conformant` is 1 if
and only if none of the three stages (revision-gated, observed range, always) found
a violation, and it is 0 otherwise; `main` returns 0 exactly in the first case
and 1 in the second. -/
theorem verdict_monotone (s : State) :
    ((s.conformant = 0 → (verdict_revision s).conformant = 0) ∧
      (s.conformant = 0 → (verdict_range s).conformant = 0) ∧
      (s.conformant = 0 → (verdict_always s).conformant = 0) ∧
      (s.conformant = 0 → (main_verdict s).conformant = 0)) ∧
    (verdict_revision s = (if fails_revision s then { s with conformant := 0 } else s) ∧
      verdict_range s = (if fails_range s then { s with conformant := 0 } else s) ∧
      verdict_always s = (if fails_always s then { s with conformant := 0 } else s)) ∧
    (s.conformant = 1 →
      ((main_verdict s).conformant = 1 ↔
        (fails_revision s = false ∧ fails_range s = false ∧ fails_always s = false)) ∧
      ((main_verdict s).conformant = 0 ↔
        ¬ (fails_revision s = false ∧ fails_range s = false ∧ fails_always s = false)) ∧
      (main_return (main_verdict s) = 0 ↔
        (fails_revision s = false ∧ fails_range s = false ∧ fails_always s = false)) ∧
      (main_return (main_verdict s) = 1 ↔
        ¬ (fails_revision s = false ∧ fails_range s = false ∧ fails_always s = false))) ∧
    (∀ (tm : Int) (edid : List Nat) (lines : Int) (junk : Nat → Int) (t : State),
      main_decode tm edid lines junk = some t →
      t.conformant = 1 ∧
      (main tm edid lines junk = some 0 ↔
        (fails_revision t = false ∧ fails_range t = false ∧ fails_always t = false)) ∧
      (main tm edid lines junk = some 1 ↔
        ¬ (fails_revision t = false ∧ fails_range t = false ∧ fails_always t = false))) := by
  have key : ∀ u : State, (main_verdict u).conformant =
      if fails_always u then 0 else if fails_range u then 0
      else if fails_revision u then 0 else u.conformant := by
    intro u
    rw [main_verdict_conformant, verdict_revision_eq]
    by_cases h : fails_revision u = true
    · rw [if_pos h, if_pos h]
    · rw [if_neg h, if_neg h]
  have hfinal : ∀ u : State, u.conformant = 1 →
      ((main_verdict u).conformant = 1 ↔
        (fails_revision u = false ∧ fails_range u = false ∧ fails_always u = false)) ∧
      ((main_verdict u).conformant = 0 ↔
        ¬ (fails_revision u = false ∧ fails_range u = false ∧ fails_always u = false)) := by
    intro u hc
    rw [key u, hc]
    cases fails_always u <;> cases fails_range u <;> cases fails_revision u <;> simp
  have hret : ∀ u : State, u.conformant = 1 →
      (main_return (main_verdict u) = 0 ↔
        (fails_revision u = false ∧ fails_range u = false ∧ fails_always u = false)) ∧
      (main_return (main_verdict u) = 1 ↔
        ¬ (fails_revision u = false ∧ fails_range u = false ∧ fails_always u = false)) := by
    intro u hc
    unfold main_return
    rw [key u, hc]
    cases fails_always u <;> cases fails_range u <;> cases fails_revision u <;> simp [lnot]
  refine ⟨⟨?_, ?_, ?_, ?_⟩, ⟨verdict_revision_eq s, rfl, rfl⟩, ?_, ?_⟩
  · intro h
    rcases verdict_revision_cases s with e | e <;> rw [e]
    exact h
  · intro h
    rcases verdict_range_cases s with e | e <;> rw [e]
    exact h
  · intro h
    rcases verdict_always_cases s with e | e <;> rw [e]
    exact h
  · intro h
    rw [key s, h]
    split_ifs <;> rfl
  · intro hc
    exact ⟨(hfinal s hc).1, (hfinal s hc).2, (hret s hc).1, (hret s hc).2⟩
  · intro tm edid lines junk t hdec
    have hc := (main_decode_claims tm edid lines junk t hdec).1
    refine ⟨hc, ?_, ?_⟩
    · unfold main
      rw [hdec]
      show some (main_return (main_verdict t)) = some 0 ↔ _
      rw [Option.some.injEq]
      exact (hret t hc).1
    · unfold main
      rw [hdec]
      show some (main_return (main_verdict t)) = some 1 ↔ _
      rw [Option.some.injEq]
      exact (hret t hc).2


/-! ## The two paths of `detailed_block` -/

theorem main_vendor_slot_view (edid : List Nat) (s : State) :
    slot_view (main_vendor edid s) = slot_view s := by
  unfold main_vendor manufacturer_name
  dsimp only
  show slot_view (if _ then _ else _) = _
  repeat' (first | refine view_ite slot_view _ _ _ _ ?_ ?_ | rfl)

theorem main_date_slot_view (tm : Int) (edid : List Nat) (s : State) :
    slot_view (main_date tm edid s) = slot_view s := by
  unfold main_date
  dsimp only
  repeat' (first | refine view_ite slot_view _ _ _ _ ?_ ?_ | rfl)

theorem main_display_slot_view (edid : List Nat) (s : State) :
    slot_view (main_display edid s) = slot_view s := by
  unfold main_display main_digital_mask main_digital_14
  dsimp only
  repeat' (first | refine view_ite slot_view _ _ _ _ ?_ ?_ | rfl)

theorem main_features_slot_view (edid : List Nat) (s : State) :
    slot_view (main_features edid s) = slot_view s := by
  unfold main_features
  dsimp only
  repeat' (first | refine view_ite slot_view _ _ _ _ ?_ ?_ | rfl)

theorem main_established_slot_view (edid : List Nat) (s : State) :
    slot_view (main_established edid s) = slot_view s := by
  unfold main_established
  dsimp only
  show slot_view (List.foldl _ s (List.range 17)) = slot_view s
  apply foldl_view
  intro s a
  repeat' (first | refine view_ite slot_view _ _ _ _ ?_ ?_ | rfl)

theorem print_standard_timing_slot_view (b1 b2 : Nat) (s : State) :
    slot_view (print_standard_timing b1 b2 s) = slot_view s := by
  unfold print_standard_timing
  dsimp only
  repeat' (first | refine view_ite slot_view _ _ _ _ ?_ ?_ | rfl)

theorem main_standard_slot_view (edid : List Nat) (s : State) :
    slot_view (main_standard edid s) = slot_view s := by
  unfold main_standard
  apply foldl_view
  intro s a
  exact print_standard_timing_slot_view _ _ s

theorem detailed_cvt_descriptor_slot_view (x : List Nat) (first : Int) (s : State) :
    slot_view (detailed_cvt_descriptor x first s).2 = slot_view s := by
  unfold detailed_cvt_descriptor
  dsimp only
  repeat' (first | refine view_ite (fun r : Int × State => slot_view r.2) _ _ _ _ ?_ ?_ | rfl)

theorem detailed_block_cvt_slot_view (x : List Nat) (s : State) :
    slot_view (detailed_block_cvt x s).2 = slot_view s := by
  unfold detailed_block_cvt
  refine view_ite (fun r : Int × State => slot_view r.2) _ _ _ _ rfl ?_
  show slot_view (List.foldl _ ((1 : Int), s) (List.range 4)).2 = slot_view s
  apply foldl_view (fun acc : Int × State => slot_view acc.2)
  intro acc a
  exact detailed_cvt_descriptor_slot_view _ _ _

theorem detailed_block_est3_slot_view (x : List Nat) (s : State) :
    slot_view (detailed_block_est3 x s) = slot_view s := by
  unfold detailed_block_est3
  apply foldl_view
  intro s a
  repeat' (first | refine view_ite slot_view _ _ _ _ ?_ ?_ | rfl)

theorem detailed_block_name_slot_view (x : List Nat) (s : State) :
    slot_view (detailed_block_name x s) = slot_view s := by
  unfold detailed_block_name
  dsimp only
  repeat' (first | refine view_ite slot_view _ _ _ _ ?_ ?_ | rfl)

theorem detailed_block_range_cvt_slot_view (x : List Nat) (s : State) :
    slot_view (detailed_block_range_cvt x s) = slot_view s := by
  unfold detailed_block_range_cvt
  dsimp only
  repeat' (first | refine view_ite slot_view _ _ _ _ ?_ ?_ | rfl)

theorem detailed_block_range_slot_view (x : List Nat) (s : State) :
    slot_view (detailed_block_range x s).2 = slot_view s := by
  have h1 : ∀ t, slot_view (detailed_block_range_offsets x t).2 = slot_view t := by
    intro t; unfold detailed_block_range_offsets
    repeat' (first
      | refine view_ite (fun r : (Int × Int × Int × Int) × State => slot_view r.2) _ _ _ _ ?_ ?_
      | rfl)
  have h2 : ∀ t, slot_view (detailed_block_range_class x t).2 = slot_view t := by
    intro t; unfold detailed_block_range_class
    repeat' (first
      | refine view_ite (fun r : Int × State => slot_view r.2) _ _ _ _ ?_ ?_
      | refine view_ite slot_view _ _ _ _ ?_ ?_
      | rfl)
  have h3 : ∀ a b t, slot_view (detailed_block_range_vert x a b t) = slot_view t := by
    intro a b t; unfold detailed_block_range_vert
    repeat' (first | refine view_ite slot_view _ _ _ _ ?_ ?_ | rfl)
  have h4 : ∀ a b t, slot_view (detailed_block_range_hor x a b t) = slot_view t := by
    intro a b t; unfold detailed_block_range_hor
    repeat' (first | refine view_ite slot_view _ _ _ _ ?_ ?_ | rfl)
  have h5 : ∀ t, slot_view (detailed_block_range_dotclock x t) = slot_view t := by
    intro t; unfold detailed_block_range_dotclock
    repeat' (first | refine view_ite slot_view _ _ _ _ ?_ ?_ | rfl)
  unfold detailed_block_range
  dsimp only
  refine view_ite slot_view _ _ _ _ ?_ ?_
  · rw [detailed_block_range_cvt_slot_view, h5, h4, h3, h2, h1]; rfl
  · rw [h5, h4, h3, h2, h1]; rfl

theorem detailed_block_pad_slot_view (x : List Nat) (s : State) :
    slot_view (detailed_block_pad x s) = slot_view s := by
  unfold detailed_block_pad
  repeat' (first | refine view_ite slot_view _ _ _ _ ?_ ?_ | rfl)

theorem detailed_block_dummy_slot_view (x : List Nat) (s : State) :
    slot_view (detailed_block_dummy x s) = slot_view s := by
  unfold detailed_block_dummy
  apply foldl_view
  intro s a
  repeat' (first | refine view_ite slot_view _ _ _ _ ?_ ?_ | rfl)

theorem detailed_block_standard_slot_view (x : List Nat) (s : State) :
    slot_view (detailed_block_standard x s) = slot_view s := by
  unfold detailed_block_standard
  apply foldl_view
  intro s a
  exact print_standard_timing_slot_view _ _ s

theorem detailed_block_tag_slot_view (x : List Nat) (s : State) :
    slot_view (detailed_block_tag x s).2 = slot_view s := by
  unfold detailed_block_tag
  refine view_ite (fun r : Int × State => slot_view r.2) _ _ _ _ rfl ?_
  refine view_ite (fun r : Int × State => slot_view r.2) _ _ _ _
    (detailed_block_dummy_slot_view x s) ?_
  refine view_ite (fun r : Int × State => slot_view r.2) _ _ _ _
    (detailed_block_est3_slot_view x s) ?_
  refine view_ite (fun r : Int × State => slot_view r.2) _ _ _ _
    (detailed_block_cvt_slot_view x s) ?_
  refine view_ite (fun r : Int × State => slot_view r.2) _ _ _ _ rfl ?_
  refine view_ite (fun r : Int × State => slot_view r.2) _ _ _ _
    (detailed_block_standard_slot_view x s) ?_
  refine view_ite (fun r : Int × State => slot_view r.2) _ _ _ _ rfl ?_
  refine view_ite (fun r : Int × State => slot_view r.2) _ _ _ _
    (detailed_block_name_slot_view x s) ?_
  refine view_ite (fun r : Int × State => slot_view r.2) _ _ _ _
    (detailed_block_range_slot_view x s) ?_
  refine view_ite (fun r : Int × State => slot_view r.2) _ _ _ _ rfl ?_
  exact view_ite (fun r : Int × State => slot_view r.2) _ _ _ _ rfl rfl

theorem detailed_block_monitor_slot_view (x : List Nat) (s : State) :
    slot_view (detailed_block_monitor x s).2 = slot_view s := by
  unfold detailed_block_monitor
  rw [detailed_block_tag_slot_view, detailed_block_pad_slot_view]

theorem detailed_cvt_descriptor_ret (x : List Nat) (first : Int) (s : State) :
    (detailed_cvt_descriptor x first s).1 = if cvt_code_valid x first then 1 else 0 := by
  unfold detailed_cvt_descriptor cvt_code_valid
  by_cases he : first = 0 ∧ rd x 0 = 0 ∧ rd x 1 = 0 ∧ rd x 2 = 0
  · rw [if_pos he, if_pos (Or.inl he)]
  · rw [if_neg he]
    dsimp only
    by_cases a : rd x 1 &&& 0x03 = 0 <;> by_cases b : rd x 2 &&& 0x80 = 0 <;>
      by_cases c : rd x 2 &&& 0x1f = 0 <;> simp [he, a, b, c]

theorem land_bit (a b : Int) (ha : a = 1 ∨ a = 0) (hb : b = 1 ∨ b = 0) :
    (Int.land a b = 1 ↔ (a = 1 ∧ b = 1)) ∧ (Int.land a b = 1 ∨ Int.land a b = 0) := by
  rcases ha with ha | ha <;> rcases hb with hb | hb <;> subst ha <;> subst hb <;> decide

/-- The accumulation `valid_cvt &= detailed_cvt_descriptor(...)` over a list of
sub-record indices. -/
theorem cvt_fold_ret (x : List Nat) (idxs : List Nat) :
    ∀ (v : Int) (s : State), (v = 1 ∨ v = 0) →
      ((idxs.foldl (fun (acc : Int × State) i =>
          (Int.land acc.1 (detailed_cvt_descriptor (x.drop (6 + i * 3)) (b2i (i == 0)) acc.2).1,
           (detailed_cvt_descriptor (x.drop (6 + i * 3)) (b2i (i == 0)) acc.2).2)) (v, s)).1 = 1 ↔
        (v = 1 ∧ ∀ i ∈ idxs, cvt_code_valid (x.drop (6 + i * 3)) (b2i (i == 0)))) ∧
      ((idxs.foldl (fun (acc : Int × State) i =>
          (Int.land acc.1 (detailed_cvt_descriptor (x.drop (6 + i * 3)) (b2i (i == 0)) acc.2).1,
           (detailed_cvt_descriptor (x.drop (6 + i * 3)) (b2i (i == 0)) acc.2).2)) (v, s)).1 = 1 ∨
       (idxs.foldl (fun (acc : Int × State) i =>
          (Int.land acc.1 (detailed_cvt_descriptor (x.drop (6 + i * 3)) (b2i (i == 0)) acc.2).1,
           (detailed_cvt_descriptor (x.drop (6 + i * 3)) (b2i (i == 0)) acc.2).2)) (v, s)).1 = 0) := by
  induction idxs with
  | nil =>
    intro v s hv
    exact ⟨⟨fun h => ⟨h, fun _ hm => absurd hm (List.not_mem_nil _)⟩, fun h => h.1⟩, hv⟩
  | cons i rest ih =>
    intro v s hv
    rw [List.foldl_cons]
    have hr : (detailed_cvt_descriptor (x.drop (6 + i * 3)) (b2i (i == 0)) s).1 = 1 ∨
        (detailed_cvt_descriptor (x.drop (6 + i * 3)) (b2i (i == 0)) s).1 = 0 := by
      rw [detailed_cvt_descriptor_ret]
      split_ifs
      · exact Or.inl rfl
      · exact Or.inr rfl
    have hi : (detailed_cvt_descriptor (x.drop (6 + i * 3)) (b2i (i == 0)) s).1 = 1 ↔
        cvt_code_valid (x.drop (6 + i * 3)) (b2i (i == 0)) := by
      rw [detailed_cvt_descriptor_ret]
      split_ifs with hc
      · exact ⟨fun _ => hc, fun _ => rfl⟩
      · exact ⟨fun h => absurd h (by decide), fun h => absurd h hc⟩
    obtain ⟨l1, l2⟩ := land_bit v _ hv hr
    obtain ⟨k1, k2⟩ := ih _ (detailed_cvt_descriptor (x.drop (6 + i * 3)) (b2i (i == 0)) s).2 l2
    refine ⟨?_, k2⟩
    rw [k1, l1, hi]
    simp only [List.mem_cons, forall_eq_or_imp]
    tauto

/-- The return value of the CVT descriptor (tag 0xF8). -/
theorem detailed_block_cvt_ret (x : List Nat) (s : State) :
    ((detailed_block_cvt x s).1 = 1 ↔
      (rd x 5 = 1 ∧ ∀ i, i < 4 → cvt_code_valid (x.drop (6 + i * 3)) (b2i (i == 0)))) ∧
    ((detailed_block_cvt x s).1 = 1 ∨ (detailed_block_cvt x s).1 = 0) := by
  unfold detailed_block_cvt
  by_cases h5 : rd x 5 = 1
  · rw [if_neg (by rw [h5]; decide)]
    obtain ⟨k1, k2⟩ := cvt_fold_ret x (List.range 4) 1 s (Or.inl rfl)
    simp only [List.mem_range, true_and] at k1
    exact ⟨by rw [← k1]; simp only [h5, true_and], k2⟩
  · rw [if_pos h5]
    refine ⟨⟨fun h => ?_, fun h => absurd h.1 h5⟩, Or.inr rfl⟩
    have h' : (0 : Int) = 1 := h
    exact absurd h' (by decide)

/-- The return value of the monitor-descriptor path for every tag other than
0xF8 and 0xFD. -/
theorem detailed_block_tag_ret (x : List Nat) (s : State) :
    ((rd x 3 ≤ 0x0F ∨ rd x 3 = 0x10 ∨ rd x 3 = 0xF7 ∨ rd x 3 = 0xF9 ∨ rd x 3 = 0xFA ∨
      rd x 3 = 0xFB ∨ rd x 3 = 0xFC ∨ rd x 3 = 0xFE ∨ rd x 3 = 0xFF) →
      (detailed_block_tag x s).1 = 1) ∧
    ((0x11 ≤ rd x 3 ∧ rd x 3 ≤ 0xF6) → (detailed_block_tag x s).1 = 0) ∧
    (rd x 3 = 0xF8 → (detailed_block_tag x s).1 = (detailed_block_cvt x s).1) ∧
    (rd x 3 = 0xFD → detailed_block_tag x s = detailed_block_range x s) := by
  refine ⟨?_, ?_, ?_, ?_⟩
  · intro h
    unfold detailed_block_tag
    by_cases h1 : rd x 3 ≤ 0xF
    · rw [if_pos h1]
    · rw [if_neg h1]
      rcases h with h | h | h | h | h | h | h | h | h
      · exact absurd h h1
      all_goals (rw [h]; rfl)
  · intro h
    unfold detailed_block_tag
    iterate 11 rw [if_neg (by omega)]
  · intro h
    unfold detailed_block_tag
    rw [h]
    rfl
  · intro h
    unfold detailed_block_tag
    rw [h]
    rfl

/-- The numeric-timing path has no result exactly when `(ha + hbl) * (va + vbl)`
is zero; otherwise it returns 1 and sets `did_detailed_timing`. -/
theorem detailed_block_timing_result (x : List Nat) (e : Int) (s : State) :
    (detailed_block_timing x e s = none ↔ timing_h_total x * timing_v_total x = 0) ∧
    (timing_h_total x * timing_v_total x ≠ 0 →
      ∃ t, detailed_block_timing x e s = some (1, t) ∧ t.did_detailed_timing = 1 ∧
        t.seen_non_detailed_descriptor = s.seen_non_detailed_descriptor ∧
        t.has_valid_descriptor_ordering =
          (if s.seen_non_detailed_descriptor ≠ 0 ∧ e = 0 then 0
           else s.has_valid_descriptor_ordering)) := by
  unfold detailed_block_timing timing_h_total timing_v_total
  dsimp only
  generalize ((rd x 2 + ((rd x 4 &&& 0xF0) <<< 4) : Nat) : Int) +
    ((rd x 3 + ((rd x 4 &&& 0x0F) <<< 8) : Nat) : Int) = h
  generalize ((rd x 5 + ((rd x 7 &&& 0xF0) <<< 4) : Nat) : Int) +
    ((rd x 6 + ((rd x 7 &&& 0x0F) <<< 8) : Nat) : Int) = v
  by_cases hz : h * v = 0
  · have e1 : cdiv (((((rd x 0 + (rd x 1 <<< 8)) * 10 : Nat) : Int)) * 1000) (h * v) = none := by
      unfold cdiv; rw [if_pos hz]
    rw [e1]
    exact ⟨⟨fun _ => hz, fun _ => rfl⟩, fun hn => absurd hz hn⟩
  · have hh : h ≠ 0 := fun h0 => hz (by rw [h0, zero_mul])
    have e1 : cdiv (((((rd x 0 + (rd x 1 <<< 8)) * 10 : Nat) : Int)) * 1000) (h * v)
        = some (Int.tdiv (((((rd x 0 + (rd x 1 <<< 8)) * 10 : Nat) : Int)) * 1000) (h * v)) := by
      unfold cdiv; rw [if_neg hz]
    have e2 : cdiv (((((rd x 0 + (rd x 1 <<< 8)) * 10 : Nat) : Int)) * 1000) h
        = some (Int.tdiv (((((rd x 0 + (rd x 1 <<< 8)) * 10 : Nat) : Int)) * 1000) h) := by
      unfold cdiv; rw [if_neg hh]
    rw [e1, e2]
    refine ⟨⟨fun hn => by simp at hn, fun h0 => absurd h0 hz⟩, fun _ => ⟨_, rfl, rfl, ?_, ?_⟩⟩
    · show (fun t : State => t.seen_non_detailed_descriptor) (if _ then _ else _) = _
      repeat' (first
        | refine view_ite (fun t : State => t.seen_non_detailed_descriptor) _ _ _ _ ?_ ?_
        | rfl)
    · by_cases hc : s.seen_non_detailed_descriptor ≠ 0 ∧ e = 0
      · simp only [if_pos hc]
      · simp only [if_neg hc]


/-! ## Return values of `detailed_block` and the division in the timing path -/

/-- Claim C31, with the input at which it fails.  For every slot with bytes 0 and
1 zero, `detailed_block` returns, sets `seen_non_detailed_descriptor`, leaves
`did_detailed_timing` alone, and returns 1 for tags up to 0x0F and for tags 0x10,
0xF7, 0xF9, 0xFA, 0xFB, 0xFC, 0xFE, 0xFF, 0 for tags 0x11 to 0xF6, for tag 0xF8
the value 1 exactly when byte 5 is 1 and the four CVT codes are valid, and for
tag 0xFD the value of `has_valid_range_descriptor` after the call.  For every
other slot it takes the numeric-timing path and returns 1, provided
`(ha + hbl) * (va + vbl)` is not zero.  On `sample_slot_zero_divisor`, a slot on
the numeric-timing path with `ha + hbl = 0`, there is no return value at all:
the division by zero ends the program. -/
theorem detailed_block_return_values :
    (∀ (x : List Nat) (e : Int) (s : State), rd x 0 = 0 → rd x 1 = 0 →
      ∃ r, detailed_block x e s = some r ∧
        r.2.seen_non_detailed_descriptor = 1 ∧
        r.2.did_detailed_timing = s.did_detailed_timing ∧
        ((rd x 3 ≤ 0x0F ∨ rd x 3 = 0x10 ∨ rd x 3 = 0xF7 ∨ rd x 3 = 0xF9 ∨ rd x 3 = 0xFA ∨
          rd x 3 = 0xFB ∨ rd x 3 = 0xFC ∨ rd x 3 = 0xFE ∨ rd x 3 = 0xFF) → r.1 = 1) ∧
        ((0x11 ≤ rd x 3 ∧ rd x 3 ≤ 0xF6) → r.1 = 0) ∧
        (rd x 3 = 0xF8 →
          (r.1 = 1 ↔ (rd x 5 = 1 ∧
            ∀ i, i < 4 → cvt_code_valid (x.drop (6 + i * 3)) (b2i (i == 0))))) ∧
        (rd x 3 = 0xFD → r.1 = r.2.has_valid_range_descriptor)) ∧
    (∀ (x : List Nat) (e : Int) (s : State), ¬ (rd x 0 = 0 ∧ rd x 1 = 0) →
      timing_h_total x * timing_v_total x ≠ 0 →
      ∃ t, detailed_block x e s = some (1, t) ∧ t.did_detailed_timing = 1) ∧
    (¬ (rd sample_slot_zero_divisor 0 = 0 ∧ rd sample_slot_zero_divisor 1 = 0) ∧
      timing_h_total sample_slot_zero_divisor = 0 ∧
      ∀ (e : Int) (s : State), detailed_block sample_slot_zero_divisor e s = none) := by
  refine ⟨?_, ?_, ?_⟩
  · intro x e s h0 h1
    have hd : detailed_block x e s = some (detailed_block_monitor x s) := by
      unfold detailed_block
      rw [if_pos ⟨h0, h1⟩]
    have hseen := detailed_block_seen x e s _ hd
    rw [if_pos ⟨h0, h1⟩] at hseen
    have hview := detailed_block_monitor_slot_view x s
    simp only [slot_view, Prod.mk.injEq] at hview
    obtain ⟨t1, t0, t8, tD⟩ := detailed_block_tag_ret x (detailed_block_pad x s)
    refine ⟨_, hd, hseen, hview.1, ?_, ?_, ?_, ?_⟩
    · intro h
      exact t1 h
    · intro h
      exact t0 h
    · intro h
      show (detailed_block_tag x (detailed_block_pad x s)).1 = 1 ↔ _
      rw [t8 h]
      exact (detailed_block_cvt_ret x (detailed_block_pad x s)).1
    · intro h
      show (detailed_block_tag x (detailed_block_pad x s)).1
        = (detailed_block_tag x (detailed_block_pad x s)).2.has_valid_range_descriptor
      rw [tD h]
      exact (detailed_block_range_bounds x (detailed_block_pad x s)).1
  · intro x e s hm hz
    obtain ⟨t, ht, hdid, _, _⟩ := (detailed_block_timing_result x e s).2 hz
    refine ⟨t, ?_, hdid⟩
    unfold detailed_block
    rw [if_neg hm]
    exact ht
  · refine ⟨by decide, by decide, ?_⟩
    intro e s
    unfold detailed_block
    rw [if_neg (by decide)]
    exact (detailed_block_timing_result sample_slot_zero_divisor e s).1.mpr (by decide)

/-- Claim C35 at a failing input.  The product `pixclk_khz * 1000` always fits in
a signed 32-bit integer, but the divisors can be zero: the numeric-timing path
has no result exactly when `(ha + hbl) * (va + vbl) = 0`.  The slot
`sample_slot_zero_divisor` is on the numeric-timing path (byte 0 is 1) and has
`ha + hbl = 0` and `va + vbl = 0`; `detailed_block` divides by zero on it, and
`main` has no exit status on `sample_edid_zero_divisor`, the base block that
carries this slot. -/
theorem timing_division_by_zero :
    (∀ x : List Nat, rd x 0 < 256 → rd x 1 < 256 →
      0 ≤ timing_pixclk_khz x * 1000 ∧ timing_pixclk_khz x * 1000 < 2 ^ 31) ∧
    (∀ (x : List Nat) (e : Int) (s : State),
      detailed_block_timing x e s = none ↔ timing_h_total x * timing_v_total x = 0) ∧
    (rd sample_slot_zero_divisor 0 ≠ 0 ∧ timing_h_total sample_slot_zero_divisor = 0 ∧
      timing_v_total sample_slot_zero_divisor = 0) ∧
    (detailed_block sample_slot_zero_divisor 0 State.init).isNone = true ∧
    (sample_edid_zero_divisor.drop 0x36).take 18 = sample_slot_zero_divisor ∧
    main 126 sample_edid_zero_divisor 8 junk_zero = none := by
  refine ⟨?_, fun x e s => (detailed_block_timing_result x e s).1,
    ⟨by decide, by decide, by decide⟩, by decide!, by decide!, by decide!⟩
  intro x h0 h1
  unfold timing_pixclk_khz
  have hb : (rd x 0 + (rd x 1 <<< 8)) * 10 ≤ 655350 := by
    rw [Nat.shiftLeft_eq]
    omega
  constructor
  · positivity
  · have : (((rd x 0 + (rd x 1 <<< 8)) * 10 : Nat) : Int) ≤ 655350 := by exact_mod_cast hb
    omega

/-! ## Descriptor ordering -/

theorem detailed_block_order (x : List Nat) (e : Int) (s : State) (r : Int × State)
    (h : detailed_block x e s = some r) :
    r.2.has_valid_descriptor_ordering =
      if rd x 0 = 0 ∧ rd x 1 = 0 then s.has_valid_descriptor_ordering
      else if s.seen_non_detailed_descriptor ≠ 0 ∧ e = 0 then 0
      else s.has_valid_descriptor_ordering := by
  unfold detailed_block at h
  by_cases hm : rd x 0 = 0 ∧ rd x 1 = 0
  · rw [if_pos hm] at h
    simp only [Option.some.injEq] at h
    subst h
    rw [if_pos hm]
    have hview := detailed_block_monitor_slot_view x s
    simp only [slot_view, Prod.mk.injEq] at hview
    exact hview.2
  · rw [if_neg hm] at h
    rw [if_neg hm]
    have hz : timing_h_total x * timing_v_total x ≠ 0 := by
      intro hz
      rw [(detailed_block_timing_result x e s).1.mpr hz] at h
      simp at h
    obtain ⟨t, ht, _, _, ho⟩ := (detailed_block_timing_result x e s).2 hz
    rw [ht] at h
    simp only [Option.some.injEq] at h
    subst h
    exact ho

theorem main_detailed_first_order (edid : List Nat) (s t : State)
    (h : main_detailed_first edid s = some t) :
    t.has_valid_descriptor_ordering =
      if is_monitor_slot edid 0x36 then s.has_valid_descriptor_ordering
      else if s.seen_non_detailed_descriptor ≠ 0 then 0
      else s.has_valid_descriptor_ordering := by
  unfold main_detailed_first at h
  split at h
  · simp at h
  · next r hr =>
    simp only [Option.some.injEq] at h
    subst h
    have e := detailed_block_order _ _ _ r hr
    simp only [monitor_slot_drop, and_true] at e
    rw [← e]
    show (fun u : State => u.has_valid_descriptor_ordering) _ = _
    repeat' (first
      | refine view_ite (fun u : State => u.has_valid_descriptor_ordering) _ _ _ _ ?_ ?_
      | rfl)

theorem main_detailed_and_order (edid : List Nat) (off : Nat) (s t : State)
    (h : main_detailed_and edid off s = some t) :
    t.has_valid_descriptor_ordering =
      if is_monitor_slot edid off then s.has_valid_descriptor_ordering
      else if s.seen_non_detailed_descriptor ≠ 0 then 0
      else s.has_valid_descriptor_ordering := by
  unfold main_detailed_and at h
  split at h
  · simp at h
  · next r hr =>
    simp only [Option.some.injEq] at h
    subst h
    have e := detailed_block_order _ _ _ r hr
    simp only [monitor_slot_drop, and_true] at e
    rw [← e]

/-- The four descriptor slots of the base block, from a state in which no monitor
descriptor has been seen and the ordering flag is 1. -/
theorem main_detailed_order (edid : List Nat) (s t : State)
    (hs : s.seen_non_detailed_descriptor = 0) (ho : s.has_valid_descriptor_ordering = 1)
    (h : main_detailed edid s = some t) :
    (t.has_valid_descriptor_ordering = 0 ↔
      ∃ p ∈ slot_pairs, is_monitor_slot edid p.1 ∧ ¬ is_monitor_slot edid p.2) ∧
    (t.has_valid_descriptor_ordering = 0 ∨ t.has_valid_descriptor_ordering = 1) := by
  unfold main_detailed at h
  simp only [Option.bind_eq_some] at h
  obtain ⟨s3, ⟨s2, ⟨s1, h1, h2⟩, h3⟩, h4⟩ := h
  have o1 := main_detailed_first_order _ _ _ h1
  have o2 := main_detailed_and_order _ _ _ _ h2
  have o3 := main_detailed_and_order _ _ _ _ h3
  have o4 := main_detailed_and_order _ _ _ _ h4
  have n1 := main_detailed_first_seen _ _ _ h1
  have n2 := main_detailed_and_seen _ _ _ _ h2
  have n3 := main_detailed_and_seen _ _ _ _ h3
  rw [hs, ho] at o1
  rw [hs] at n1
  rw [n1, o1] at o2
  rw [n1] at n2
  rw [n2, o2] at o3
  rw [n2] at n3
  rw [n3, o3] at o4
  rw [o4]
  unfold slot_pairs
  by_cases a1 : is_monitor_slot edid 0x36 <;> by_cases a2 : is_monitor_slot edid 0x48 <;>
    by_cases a3 : is_monitor_slot edid 0x5A <;> by_cases a4 : is_monitor_slot edid 0x6C <;>
    simp [a1, a2, a3, a4]

theorem main_decode_order (tm : Int) (edid : List Nat) (lines : Int) (junk : Nat → Int)
    (s : State) (h : main_decode tm edid lines junk = some s) :
    (s.has_valid_descriptor_ordering = 0 ↔
      ∃ p ∈ slot_pairs, is_monitor_slot edid p.1 ∧ ¬ is_monitor_slot edid p.2) ∧
    (s.has_valid_descriptor_ordering = 0 ∨ s.has_valid_descriptor_ordering = 1) := by
  obtain ⟨t, ht, hf⟩ := main_decode_split tm edid lines junk s h
  have hv : seen_view (main_version edid (main_date tm edid (main_vendor edid State.init))).2
      = seen_view (main_date tm edid (main_vendor edid State.init)) := by
    unfold main_version
    refine view_ite (fun r : List Nat × State => seen_view r.2) _ _ _ _ ?_ rfl
    show seen_view (main_revision _ _) = _
    unfold main_revision
    split <;> rfl
  have hw : slot_view (main_version edid (main_date tm edid (main_vendor edid State.init))).2
      = slot_view (main_date tm edid (main_vendor edid State.init)) := by
    unfold main_version
    refine view_ite (fun r : List Nat × State => slot_view r.2) _ _ _ _ ?_ rfl
    show slot_view (main_revision _ _) = _
    unfold main_revision
    split <;> rfl
  have h0 : seen_view
      (main_standard (main_version edid (main_date tm edid (main_vendor edid State.init))).1
        (main_established (main_version edid (main_date tm edid
            (main_vendor edid State.init))).1
          (main_features (main_version edid (main_date tm edid
              (main_vendor edid State.init))).1
            (main_display (main_version edid (main_date tm edid
                (main_vendor edid State.init))).1
              (main_version edid (main_date tm edid (main_vendor edid State.init))).2))))
      = 0 := by
    rw [main_standard_seen_view, main_established_seen_view, main_features_seen_view,
      main_display_seen_view, hv, main_date_seen_view, main_vendor_seen_view]
    rfl
  have h1 : slot_view
      (main_standard (main_version edid (main_date tm edid (main_vendor edid State.init))).1
        (main_established (main_version edid (main_date tm edid
            (main_vendor edid State.init))).1
          (main_features (main_version edid (main_date tm edid
              (main_vendor edid State.init))).1
            (main_display (main_version edid (main_date tm edid
                (main_vendor edid State.init))).1
              (main_version edid (main_date tm edid (main_vendor edid State.init))).2))))
      = (0, 1) := by
    rw [main_standard_slot_view, main_established_slot_view, main_features_slot_view,
      main_display_slot_view, hw, main_date_slot_view, main_vendor_slot_view]
    rfl
  simp only [slot_view, Prod.mk.injEq] at h1
  have key := main_detailed_order _ _ t h0 h1.2 ht
  simp only [ext_frame, Prod.mk.injEq] at hf
  rw [hf.2.2.2.1.2.1]
  show (t.has_valid_descriptor_ordering = 0 ↔ _) ∧
    (t.has_valid_descriptor_ordering = 0 ∨ t.has_valid_descriptor_ordering = 1)
  refine ⟨?_, key.2⟩
  rw [key.1]
  have hslot : ∀ off, off ≠ 0x13 → off + 1 ≠ 0x13 →
      (is_monitor_slot (main_version edid (main_date tm edid
        (main_vendor edid State.init))).1 off ↔ is_monitor_slot edid off) := by
    intro off h1 h2
    unfold is_monitor_slot
    rw [main_version_buffer _ _ off h1, main_version_buffer _ _ (off + 1) h2]
  have hp : ∀ p ∈ slot_pairs, p.1 ≠ 0x13 ∧ p.1 + 1 ≠ 0x13 ∧ p.2 ≠ 0x13 ∧ p.2 + 1 ≠ 0x13 := by
    decide
  constructor
  · rintro ⟨p, hmem, hm, hn⟩
    obtain ⟨a, b, c, d⟩ := hp p hmem
    exact ⟨p, hmem, (hslot _ a b).mp hm, fun hc => hn ((hslot _ c d).mpr hc)⟩
  · rintro ⟨p, hmem, hm, hn⟩
    obtain ⟨a, b, c, d⟩ := hp p hmem
    exact ⟨p, hmem, (hslot _ a b).mpr hm, fun hc => hn ((hslot _ c d).mp hc)⟩

/-- Claim C33: when the decode of the base block and the extension blocks ends,
`has_valid_descriptor_ordering` is 0 exactly when, among the four descriptor
slots of the base block, some slot that is not a monitor descriptor (bytes 0 and
1 not both zero) comes after a slot that is one (bytes 0 and 1 both zero), and it
is 1 otherwise.  A call `detailed_block(x, 1)`, the only form used inside
extension blocks, leaves the flag as it was, and so does `parse_extension`. -/
theorem descriptor_ordering_flag (tm : Int) (edid : List Nat) (lines : Int)
    (junk : Nat → Int) (s : State) (h : main_decode tm edid lines junk = some s) :
    (s.has_valid_descriptor_ordering = 0 ↔
      ∃ p ∈ slot_pairs, is_monitor_slot edid p.1 ∧ ¬ is_monitor_slot edid p.2) ∧
    (s.has_valid_descriptor_ordering = 0 ∨ s.has_valid_descriptor_ordering = 1) ∧
    (∀ (x : List Nat) (t : State) (r : Int × State), detailed_block x 1 t = some r →
      r.2.has_valid_descriptor_ordering = t.has_valid_descriptor_ordering) ∧
    (∀ (x : List Nat) (j : Int) (t : State) (r : Int × State),
      parse_extension x j t = some r →
      r.2.has_valid_descriptor_ordering = t.has_valid_descriptor_ordering) := by
  obtain ⟨a, b⟩ := main_decode_order tm edid lines junk s h
  refine ⟨a, b, ?_, ?_⟩
  · intro x t r hr
    rw [detailed_block_order x 1 t r hr]
    simp
  · intro x j t r hr
    have hf := parse_extension_ext_frame x j t r hr
    simp only [ext_frame, Prod.mk.injEq] at hf
    exact hf.2.2.2.1.2.1

theorem descriptor_ordering_flag_witness :
    ((main_decode 126 sample_edid 8 junk_zero).isSome = true ∧
      (main_decode 126 sample_edid 8 junk_zero).map
        (fun s => s.has_valid_descriptor_ordering) = some 1) ∧
    ((main_decode 126 sample_edid_misordered 8 junk_zero).isSome = true ∧
      (main_decode 126 sample_edid_misordered 8 junk_zero).map
        (fun s => s.has_valid_descriptor_ordering) = some 0) := by
  have hsome : (main_decode 126 sample_edid 8 junk_zero).isSome = true := by decide!
  have hsome2 : (main_decode 126 sample_edid_misordered 8 junk_zero).isSome = true := by
    decide!
  refine ⟨⟨hsome, ?_⟩, ⟨hsome2, ?_⟩⟩
  · cases hs : main_decode 126 sample_edid 8 junk_zero with
    | none => rw [hs] at hsome; simp at hsome
    | some s =>
      simp only [Option.map, Option.some.injEq]
      have k := descriptor_ordering_flag 126 sample_edid 8 junk_zero s hs
      rcases k.2.1 with h0 | h1
      · exact absurd (k.1.mp h0) (by decide)
      · exact h1
  · cases hs : main_decode 126 sample_edid_misordered 8 junk_zero with
    | none => rw [hs] at hsome2; simp at hsome2
    | some s =>
      simp only [Option.map, Option.some.injEq]
      exact (descriptor_ordering_flag 126 sample_edid_misordered 8 junk_zero s hs).1.mpr
        (by decide)


/-! ## The DisplayID checksum range -/

theorem do_checksum_ret_take (y : List Nat) (n : Nat) :
    (do_checksum y (n + 1)).ret = if (y.take (n + 1)).sum % 256 = 0 then 1 else 0 := by
  have h : (rd y n + checksum_sum y n) % 256 = (y.take (n + 1)).sum % 256 := by
    rw [checksum_sum_eq, sum_take_succ]
    omega
  unfold do_checksum
  simp only [Nat.add_sub_cancel]
  rw [h]
  by_cases hz : (y.take (n + 1)).sum % 256 = 0
  · simp [hz]
  · simp [hz]

/-- Claim C32 fails as stated: in `sample_displayid_short_sum` the declared length
is 0 and bytes 1 to 4, the range of the claim, sum to 0 modulo 256, yet
`parse_displayid` leaves `has_valid_displayid_checksum` at 0, because byte 5 is
part of the sum; `sample_displayid`, whose bytes 1 to 5 sum to 0 modulo 256 while
bytes 1 to 4 do not, is accepted. -/
theorem displayid_checksum_one_byte_further :
    rd sample_displayid_short_sum 2 = 0 ∧
    ((sample_displayid_short_sum.drop 1).take
      (rd sample_displayid_short_sum 2 + 4)).sum % 256 = 0 ∧
    (parse_displayid sample_displayid_short_sum State.init).has_valid_displayid_checksum = 0 ∧
    rd sample_displayid 2 = 0 ∧
    ((sample_displayid.drop 1).take (rd sample_displayid 2 + 4)).sum % 256 ≠ 0 ∧
    (parse_displayid sample_displayid State.init).has_valid_displayid_checksum = 1 := by
  refine ⟨by decide!, by decide!, by decide!, by decide!, by decide!, by decide!⟩

/-- Claim C32, amended: for every DisplayID extension block `x` with declared
payload length `L = x[2]` whose bytes up to index `L + 5` are in the buffer,
`parse_displayid` validates the checksum over exactly the `L + 5` bytes
`x[1] .. x[L+5]` (the half-open index range `[1, L+6)`):
`has_valid_displayid_checksum` is 1 iff the sum of those bytes is 0 modulo 256,
and 0 otherwise. -/
theorem displayid_checksum_range (x : List Nat) (s : State)
    (h : rd x 2 + 5 < x.length) :
    ((x.drop 1).take (rd x 2 + 5)).length = rd x 2 + 5 ∧
    (∀ i, i < rd x 2 + 5 → rd ((x.drop 1).take (rd x 2 + 5)) i = rd x (1 + i)) ∧
    ((parse_displayid x s).has_valid_displayid_checksum = 1 ↔
      ((x.drop 1).take (rd x 2 + 5)).sum % 256 = 0) ∧
    ((parse_displayid x s).has_valid_displayid_checksum = 0 ↔
      ((x.drop 1).take (rd x 2 + 5)).sum % 256 ≠ 0) := by
  have hr : (parse_displayid x s).has_valid_displayid_checksum
      = if ((x.drop 1).take (rd x 2 + 5)).sum % 256 = 0 then 1 else 0 :=
    do_checksum_ret_take (x.drop 1) (rd x 2 + 4)
  refine ⟨?_, ?_, ?_, ?_⟩
  · rw [List.length_take, List.length_drop]
    omega
  · intro i hi
    generalize rd x 2 + 5 = n at hi ⊢
    unfold rd
    rw [List.getD_eq_getElem?_getD, List.getD_eq_getElem?_getD, List.getElem?_take,
      if_pos hi, List.getElem?_drop]
  · rw [hr]
    by_cases hz : ((x.drop 1).take (rd x 2 + 5)).sum % 256 = 0
    · simp [hz]
    · simp [hz]
  · rw [hr]
    by_cases hz : ((x.drop 1).take (rd x 2 + 5)).sum % 256 = 0
    · simp [hz]
    · simp [hz]

theorem displayid_checksum_range_witness :
    rd sample_displayid 2 + 5 < sample_displayid.length ∧
    ((sample_displayid.drop 1).take (rd sample_displayid 2 + 5)) = [0x12, 0, 0, 0, 0xee] ∧
    (parse_displayid sample_displayid State.init).has_valid_displayid_checksum = 1 :=
  ⟨by decide!, by decide!,
    (displayid_checksum_range sample_displayid State.init (by decide!)).2.2.1.mpr (by decide!)⟩

/-! ## The extension loop of `main` -/

theorem ext_step_none (edid : List Nat) (junk : Nat → Int) (l : List Nat) :
    l.foldl (ext_step edid junk) none = none := by
  induction l with
  | nil => rfl
  | cons a t ih => rw [List.foldl_cons]; exact ih

/-- The extension loop parses the blocks `k`, `k + 1`, ..., `k + n - 1`. -/
theorem main_extensions_fold (edid : List Nat) (junk : Nat → Int) (n k : Nat) (s : State) :
    main_extensions edid junk n k s = (List.range' k n).foldl (ext_step edid junk) (some s) := by
  induction n generalizing k s with
  | zero => rfl
  | succ m ih =>
    rw [List.range'_succ, List.foldl_cons]
    unfold main_extensions
    cases hp : parse_extension (edid.drop (128 * k)) (junk k) s with
    | none =>
      have e : ext_step edid junk (some s) k = none := by
        unfold ext_step
        simp only [Option.some_bind, hp]
      rw [e, ext_step_none]
    | some r =>
      have e : ext_step edid junk (some s) k
          = some { r.2 with nonconformant_extension := r.2.nonconformant_extension + r.1 } := by
        unfold ext_step
        simp only [Option.some_bind, hp]
      rw [e]
      exact ih _ _

theorem main_version_drop (edid : List Nat) (s : State) (k : Nat) (hk : 1 ≤ k) :
    (main_version edid s).1.drop (128 * k) = edid.drop (128 * k) := by
  unfold main_version
  split_ifs
  · exact List.drop_set_of_lt _ _ (by omega)
  · rfl
  · rfl

theorem ext_step_buffer (edid : List Nat) (t : State) (junk : Nat → Int) (l : List Nat)
    (hl : ∀ k ∈ l, 1 ≤ k) (o : Option State) :
    l.foldl (ext_step (main_version edid t).1 junk) o = l.foldl (ext_step edid junk) o := by
  induction l generalizing o with
  | nil => rfl
  | cons a r ih =>
    rw [List.foldl_cons, List.foldl_cons]
    have e : ext_step (main_version edid t).1 junk o a = ext_step edid junk o a := by
      unfold ext_step
      rw [main_version_drop edid t a (hl a (List.mem_cons_self _ _))]
    rw [e]
    exact ih (fun k hk => hl k (List.mem_cons_of_mem _ hk)) _

/-- Claim C34 fails as stated: byte 0x7E of `sample_edid_undeclared_extension`
declares no extension block and the buffer holds two blocks (16 lines), so the
smaller of declared and available is 0; yet `main` decodes the CEA block that
follows the base block: `has_cea861`, which only `parse_cea` sets, ends as 1,
while on the base block alone it ends as 0. -/
theorem undeclared_extension_decoded :
    rd sample_edid_undeclared_extension 0x7e = 0 ∧
    sample_edid_undeclared_extension.length = 2 * 128 ∧
    sample_edid_undeclared_extension.take 128 = sample_edid ∧
    (main_decode 126 sample_edid_undeclared_extension 16 junk_zero).map
      (fun s => s.has_cea861) = some 1 ∧
    (main_decode 126 sample_edid 8 junk_zero).map (fun s => s.has_cea861) = some 0 := by
  refine ⟨by decide!, by decide!, by decide!, by decide!, by decide!⟩

/-- Claim C34, amended: for every input buffer of `A` available 128-byte blocks
(`edid_lines / 8 = A`), whatever number of extension blocks byte 0x7E of the base
block declares, the driver decodes the base block and then exactly the `A - 1`
blocks with indices 1 to `A - 1`, in order, each at byte offset 128 times its
index. -/
theorem extension_blocks_decoded (tm : Int) (edid : List Nat) (lines : Int)
    (junk : Nat → Int) (A : Nat) (hA : Int.tdiv lines 8 = (A : Int)) :
    main_decode tm edid lines junk =
      (main_decode tm edid 8 junk).bind
        (fun s => (List.range' 1 (A - 1)).foldl (ext_step edid junk) (some s)) ∧
    (List.range' 1 (A - 1)).length = A - 1 ∧
    (∀ k, k ∈ List.range' 1 (A - 1) ↔ 1 ≤ k ∧ k < A) := by
  refine ⟨?_, List.length_range' _ _ _, ?_⟩
  · unfold main_decode
    dsimp only
    rw [hA]
    generalize main_detailed _ _ = o
    cases o with
    | none => rfl
    | some s =>
      have e : ((A : Int) - 1).toNat = A - 1 := by omega
      simp only [e, show (Int.tdiv 8 8 - 1).toNat = 0 from rfl, main_extensions,
        Option.some_bind]
      rw [main_extensions_fold]
      apply ext_step_buffer
      intro k hk
      rw [List.mem_range'_1] at hk
      exact hk.1
  · intro k
    rw [List.mem_range'_1]
    omega

theorem extension_blocks_decoded_witness :
    Int.tdiv 16 8 = ((2 : Nat) : Int) ∧
    (main_decode 126 sample_edid_undeclared_extension 16 junk_zero =
      (main_decode 126 sample_edid_undeclared_extension 8 junk_zero).bind
        (fun s => (List.range' 1 (2 - 1)).foldl
          (ext_step sample_edid_undeclared_extension junk_zero) (some s))) ∧
    List.range' 1 (2 - 1) = [1] :=
  ⟨by decide,
    (extension_blocks_decoded 126 sample_edid_undeclared_extension 16 junk_zero 2
      (by decide)).1, by decide⟩


/-! ## Termination of the data-block walk -/

theorem cea_walk_length (x : List Nat) (d : Nat) :
    ∀ (fuel i : Nat), (cea_walk x d fuel i).length ≤ fuel := by
  intro fuel
  induction fuel with
  | zero => intro i; simp [cea_walk]
  | succ n ih =>
    intro i
    unfold cea_walk
    split_ifs
    · rw [List.length_cons]
      exact Nat.succ_le_succ (ih _)
    · simp

theorem cea_walk_fuel_add (x : List Nat) (d : Nat) (fuel i : Nat) (h : d ≤ i + fuel) :
    ∀ n, cea_walk x d (fuel + n) i = cea_walk x d fuel i := by
  intro n
  induction n with
  | zero => rfl
  | succ m ih =>
    rw [← Nat.add_assoc, cea_walk_fuel x d (fuel + m) i (by omega), ih]

/-- Claim C36: for every CEA block with revision byte 3 and detailed-descriptor
offset `d >= 4`, the data-block walk of `parse_cea` visits at most `d - 4` block
headers and then stops: a bound of `d - 4` iterations or any larger bound gives
the same walk, and `parse_cea` is the detailed-descriptor loop run after that
walk.  Each step advances the offset by `(x[i] & 0x1f) + 1`, which is at least 1,
and every offset `i` at which a header is read satisfies `4 <= i < d`. -/
theorem cea_walk_terminates (x : List Nat) (s : State)
    (hrev : rd x 1 = 3) (hd : 4 ≤ rd x 2) :
    (cea_walk x (rd x 2) (rd x 2 - 4) 4).length ≤ rd x 2 - 4 ∧
    (∀ n, cea_walk x (rd x 2) (rd x 2 - 4 + n) 4 = cea_walk x (rd x 2) (rd x 2 - 4) 4) ∧
    (∀ n, parse_cea_blocks x (rd x 2) (rd x 2 - 4 + n) 4 s =
      (cea_walk x (rd x 2) (rd x 2 - 4) 4).foldl (fun s i => cea_block (x.drop i) s) s) ∧
    parse_cea x s =
      (parse_cea_detailed x 8 (rd x 2)
        ((cea_walk x (rd x 2) (rd x 2 - 4) 4).foldl
          (fun s i => cea_block (x.drop i) s) s)).map
        (fun t => (0, parse_cea_tail x t)) ∧
    List.Chain' (fun a b => b = a + ((rd x a &&& 0x1f) + 1) ∧ a < b)
      (cea_walk x (rd x 2) (rd x 2 - 4) 4) ∧
    (∀ i ∈ cea_walk x (rd x 2) (rd x 2 - 4) 4, 4 ≤ i ∧ i < rd x 2) := by
  have hf := cea_walk_fuel_add x (rd x 2) (rd x 2 - 4) 4 (by omega)
  refine ⟨cea_walk_length x _ _ 4, hf, ?_, ?_, ?_, cea_walk_bounds x _ _ 4⟩
  · intro n
    rw [parse_cea_blocks_walk, hf]
  · unfold parse_cea parse_cea_body
    rw [if_pos (show rd x 1 ≥ 1 by omega)]
    dsimp only
    rw [if_neg (show ¬ rd x 2 < 4 by omega), if_neg (show ¬ rd x 1 < 3 by omega),
      if_pos hrev, if_neg (show ¬ (rd x 1 = 1 ∧ rd x 3 ≠ 0) by omega), parse_cea_blocks_walk]
    have e : cea_walk x (rd x 2) (rd x 2) 4 = cea_walk x (rd x 2) (rd x 2 - 4) 4 := by
      have := hf 4
      rwa [show rd x 2 - 4 + 4 = rd x 2 by omega] at this
    rw [e]
    cases parse_cea_detailed x 8 (rd x 2)
      ((cea_walk x (rd x 2) (rd x 2 - 4) 4).foldl (fun s i => cea_block (x.drop i) s) s) <;> rfl
  · generalize rd x 2 - 4 = m
    cases m with
    | zero => exact List.chain'_nil
    | succ n =>
      rw [cea_walk]
      split_ifs
      · exact List.Chain.imp (fun a b hab => ⟨hab, by omega⟩) (cea_walk_chain x _ n 4)
      · exact List.chain'_nil

theorem cea_walk_terminates_witness :
    (rd sample_cea_rev3 1 = 3 ∧ 4 ≤ rd sample_cea_rev3 2) ∧
    cea_walk sample_cea_rev3 (rd sample_cea_rev3 2) (rd sample_cea_rev3 2 - 4) 4 = [4] ∧
    (cea_walk sample_cea_rev3 (rd sample_cea_rev3 2) (rd sample_cea_rev3 2 - 4) 4).length
      ≤ rd sample_cea_rev3 2 - 4 :=
  ⟨⟨by decide!, by decide!⟩, by decide!,
    (cea_walk_terminates sample_cea_rev3 State.init (by decide!) (by decide!)).1⟩

/-! ## The detailed-descriptor loop of `parse_cea` -/

theorem cea_detailed_step_none (x : List Nat) (l : List Nat) :
    l.foldl (cea_detailed_step x) none = none := by
  induction l with
  | nil => rfl
  | cons a t ih => rw [List.foldl_cons]; exact ih

/-- The loop with a bound of `fuel` iterations, as a fold over the slots it
selects. -/
theorem parse_cea_detailed_fold (x : List Nat) :
    ∀ (fuel d : Nat) (s : State),
      parse_cea_detailed x fuel d s =
        (((List.range fuel).map (fun k => d + 18 * k)).filter
          (fun o => decide (o + 18 < 127) && decide (rd x o ≠ 0))).foldl
          (cea_detailed_step x) (some s) := by
  intro fuel
  induction fuel with
  | zero => intro d s; rfl
  | succ n ih =>
    intro d s
    have hr : (List.range (n + 1)).map (fun k => d + 18 * k)
        = d :: (List.range n).map (fun k => d + 18 + 18 * k) := by
      rw [List.range_succ_eq_map, List.map_cons, List.map_map]
      congr 1
      apply List.map_congr_left
      intro k _
      simp only [Function.comp]
      omega
    rw [hr]
    unfold parse_cea_detailed
    by_cases h1 : d + 18 < 127
    · rw [if_pos h1]
      by_cases h2 : rd x d ≠ 0
      · rw [if_pos h2, List.filter_cons_of_pos (by simp [h1, h2]), List.foldl_cons]
        cases hb : detailed_block (x.drop d) 1 s with
        | none =>
          have e : cea_detailed_step x (some s) d = none := by
            unfold cea_detailed_step
            simp only [Option.some_bind, hb]
          rw [e, cea_detailed_step_none]
        | some r =>
          have e : cea_detailed_step x (some s) d = some r.2 := by
            unfold cea_detailed_step
            simp only [Option.some_bind, hb]
          rw [e]
          exact ih _ _
      · rw [if_neg h2, List.filter_cons_of_neg (by simp [h1]; simpa using h2)]
        exact ih _ _
    · rw [if_neg h1]
      have e : (d :: (List.range n).map (fun k => d + 18 + 18 * k)).filter
          (fun o => decide (o + 18 < 127) && decide (rd x o ≠ 0)) = [] := by
        rw [List.filter_eq_nil_iff]
        intro o ho
        have : d ≤ o := by
          rcases List.mem_cons.mp ho with h | h
          · omega
          · obtain ⟨k, _, hk⟩ := List.mem_map.mp h
            omega
        simp only [Bool.and_eq_true, decide_eq_true_eq, not_and]
        intro hc
        omega
      rw [e]
      rfl

theorem cea_detailed_slots_fuel (x : List Nat) (d n : Nat) :
    ((List.range (8 + n)).map (fun k => d + 18 * k)).filter
        (fun o => decide (o + 18 < 127) && decide (rd x o ≠ 0))
      = cea_detailed_slots x d := by
  unfold cea_detailed_slots
  rw [List.range_add, List.map_append, List.filter_append]
  have e : (((List.range n).map (fun k => 8 + k)).map (fun k => d + 18 * k)).filter
      (fun o => decide (o + 18 < 127) && decide (rd x o ≠ 0)) = [] := by
    rw [List.filter_eq_nil_iff]
    intro o ho
    obtain ⟨k, hk, hko⟩ := List.mem_map.mp ho
    obtain ⟨j, _, hj⟩ := List.mem_map.mp hk
    simp only [Bool.and_eq_true, decide_eq_true_eq, not_and]
    intro hc
    omega
  rw [e, List.append_nil]

theorem cea_detailed_slots_mem (x : List Nat) (d o : Nat) :
    o ∈ cea_detailed_slots x d ↔ ∃ k, o = d + 18 * k ∧ o + 18 < 127 ∧ rd x o ≠ 0 := by
  unfold cea_detailed_slots
  rw [List.mem_filter, List.mem_map]
  simp only [Bool.and_eq_true, decide_eq_true_eq, List.mem_range]
  constructor
  · rintro ⟨⟨k, _, hk⟩, h1, h2⟩
    exact ⟨k, hk.symm, h1, h2⟩
  · rintro ⟨k, hk, h1, h2⟩
    exact ⟨⟨k, by omega, hk.symm⟩, h1, h2⟩

theorem cea_detailed_slots_sorted (x : List Nat) (d : Nat) :
    (cea_detailed_slots x d).Pairwise (fun a b => a < b) := by
  unfold cea_detailed_slots
  apply List.Pairwise.filter
  rw [List.pairwise_map]
  exact List.Pairwise.imp (fun {a b} (h : a < b) => by omega) (List.pairwise_lt_range 8)

/-- Claim C40: for every CEA block with revision byte at least 1 and
detailed-descriptor offset `d >= 4`, `parse_cea` calls `detailed_block(x + o, 1)`
at exactly the offsets `o = d + 18 k` with `o + 18 < 127` and `x[o]` non-zero, in
increasing order, each call working on the state the one before it left (a call
that divides by zero ends the run); a bound of 8 iterations or more gives the
same loop.  Every such slot lies within bytes 4 to 125 of the block, is not a
monitor descriptor, and is decoded on the numeric-timing path, which leaves
`seen_non_detailed_descriptor` unchanged. -/
theorem cea_detailed_slots_decoded (x : List Nat) (s : State)
    (hv : 1 ≤ rd x 1) (hd : 4 ≤ rd x 2) :
    parse_cea x s =
      ((cea_detailed_slots x (rd x 2)).foldl (cea_detailed_step x)
        (some (if rd x 1 = 3 then parse_cea_blocks x (rd x 2) (rd x 2) 4 s else s))).map
        (fun t => ((if rd x 1 = 1 ∧ rd x 3 ≠ 0 then 1 else 0), parse_cea_tail x t)) ∧
    (∀ (n : Nat) (t : State), parse_cea_detailed x (8 + n) (rd x 2) t =
      (cea_detailed_slots x (rd x 2)).foldl (cea_detailed_step x) (some t)) ∧
    (∀ o, o ∈ cea_detailed_slots x (rd x 2) ↔
      ∃ k, o = rd x 2 + 18 * k ∧ o + 18 < 127 ∧ rd x o ≠ 0) ∧
    (cea_detailed_slots x (rd x 2)).Pairwise (fun a b => a < b) ∧
    (∀ o ∈ cea_detailed_slots x (rd x 2),
      4 ≤ o ∧ o + 17 ≤ 125 ∧ ¬ is_monitor_slot x o ∧
      ∀ t : State, detailed_block (x.drop o) 1 t = detailed_block_timing (x.drop o) 1 t ∧
        ∀ r, detailed_block (x.drop o) 1 t = some r →
          r.2.seen_non_detailed_descriptor = t.seen_non_detailed_descriptor) := by
  have hfold : ∀ (n : Nat) (t : State), parse_cea_detailed x (8 + n) (rd x 2) t =
      (cea_detailed_slots x (rd x 2)).foldl (cea_detailed_step x) (some t) := by
    intro n t
    rw [parse_cea_detailed_fold, cea_detailed_slots_fuel]
  refine ⟨?_, hfold, cea_detailed_slots_mem x _, cea_detailed_slots_sorted x _, ?_⟩
  · unfold parse_cea parse_cea_body
    rw [if_pos (show rd x 1 ≥ 1 from hv)]
    dsimp only
    rw [if_neg (show ¬ rd x 2 < 4 by omega)]
    have h8 := hfold 0
    simp only [Nat.add_zero] at h8
    by_cases h3 : rd x 1 = 3
    · rw [if_neg (show ¬ rd x 1 < 3 by omega), if_pos h3, h8]
      cases (cea_detailed_slots x (rd x 2)).foldl (cea_detailed_step x)
        (some (parse_cea_blocks x (rd x 2) (rd x 2) 4 s)) <;> rfl
    · simp only [if_neg h3, ite_self]
      rw [h8]
      cases (cea_detailed_slots x (rd x 2)).foldl (cea_detailed_step x) (some s) <;> rfl
  · intro o ho
    obtain ⟨k, hk, h1, h2⟩ := (cea_detailed_slots_mem x _ o).mp ho
    have hm : ¬ (rd (x.drop o) 0 = 0 ∧ rd (x.drop o) 1 = 0) := by
      rw [rd_drop]
      intro hc
      exact h2 hc.1
    refine ⟨by omega, by omega, ?_, ?_⟩
    · unfold is_monitor_slot
      intro hc
      exact h2 hc.1
    · intro t
      have e : detailed_block (x.drop o) 1 t = detailed_block_timing (x.drop o) 1 t := by
        unfold detailed_block
        rw [if_neg hm]
      refine ⟨e, ?_⟩
      intro r hr
      have hs := detailed_block_seen _ _ _ r hr
      rw [if_neg hm] at hs
      exact hs

theorem cea_detailed_slots_decoded_witness :
    (1 ≤ rd sample_cea_detailed 1 ∧ 4 ≤ rd sample_cea_detailed 2) ∧
    cea_detailed_slots sample_cea_detailed (rd sample_cea_detailed 2) = [4, 40] ∧
    (parse_cea sample_cea_detailed State.init).map (fun r => r.2.did_detailed_timing)
      = some 1 := by
  have h := (cea_detailed_slots_decoded sample_cea_detailed State.init
    (by decide!) (by decide!)).1
  refine ⟨⟨by decide!, by decide!⟩, by decide!, ?_⟩
  rw [h]
  decide!


/-! ## Reads of `parse_displayid` -/

theorem parse_displayid_walk_terminates (x : List Nat) :
    ∀ (fuel : Nat) (length : Int) (offset : Nat), length ≤ 4 * (fuel : Int) →
      (parse_displayid_walk x fuel length offset).isSome = true := by
  intro fuel
  induction fuel with
  | zero =>
    intro length offset h
    unfold parse_displayid_walk
    rw [if_neg (by omega)]
    rfl
  | succ n ih =>
    intro length offset h
    unfold parse_displayid_walk
    dsimp only
    split_ifs with h1 h2
    · rfl
    · rw [Option.isSome_map']
      apply ih
      have : 1 ≤ rd x (offset + 2) := Nat.pos_of_ne_zero h2
      push_cast at h
      omega
    · rfl

/-- Claim C37 at two failing inputs.  The walk over the sub-blocks ends within 64
iterations whatever the bytes are, because `length` starts at no more than 255
and every iteration that does not leave the loop takes at least 4 from it.  But
the indices read are not confined to the block: on `sample_displayid_long`
(declared length 255, first sub-block of 120 bytes) the checksum reads up to
index 260 and the walk reads a sub-block header at indices 128 and 130; on
`sample_displayid_edge` (declared length 122, first sub-block of 118 bytes) the
checksum stays within the block, and the walk reads the length byte of a
sub-block header at index 128. -/
theorem displayid_reads_beyond_block :
    (∀ x : List Nat, rd x 2 < 256 → (parse_displayid_reads x 64).isSome = true) ∧
    (sample_displayid_long.length = 128 ∧ rd sample_displayid_long 0 = 0x70 ∧
      (parse_displayid_reads sample_displayid_long 64).map
        (fun l => (decide (128 ∈ l), decide (130 ∈ l), l.foldl max 0))
        = some (true, true, 260)) ∧
    (sample_displayid_edge.length = 128 ∧ rd sample_displayid_edge 0 = 0x70 ∧
      (do_checksum_reads 1 (rd sample_displayid_edge 2 + 5)).foldl max 0 = 127 ∧
      (parse_displayid_reads sample_displayid_edge 64).map
        (fun l => l.filter (fun i => decide (128 ≤ i))) = some [128]) := by
  refine ⟨?_, ⟨by decide!, by decide!, by decide!⟩,
    ⟨by decide!, by decide!, by decide!, by decide!⟩⟩
  intro x hx
  unfold parse_displayid_reads
  rw [Option.isSome_map']
  apply parse_displayid_walk_terminates
  omega

/-! ## The catalog index of `cea_vfpdb` -/

/-- Claim C38 at two failing inputs.  For every `svr` in 1..127 or 193..253,
`cea_svd` resolves VIC `svr` to `edid_cea_modes[svr - 1]` (to `Unknown mode` when
`svr > 107`), but `cea_vfpdb` tests the bound on `svr - 1` and then reads
`edid_cea_modes[svr]`: for `svr <= 106` it prints the name of the entry that
follows the right one, for `svr = 107` it reads entry 107 of an array of 107
entries, and only for `svr > 107` do the two agree.  So `svr = 1` is printed as
`720x480@60Hz 4:3`, the mode of VIC 2, and `svr = 107` is read out of bounds. -/
theorem cea_vfpdb_index_off_by_one :
    edid_cea_modes.length = 107 ∧
    (∀ (svr : Nat) (s : State), (1 ≤ svr ∧ svr ≤ 127) ∨ (193 ≤ svr ∧ svr ≤ 253) →
      (cea_svd_entry svr s).1.map (fun l => (l.vic, l.mode)) =
        some (svr, if svr ≤ 107 then (edid_cea_modes.getD (svr - 1) default).name
          else "Unknown mode")) ∧
    (∀ svr : Nat, (1 ≤ svr ∧ svr ≤ 127) ∨ (193 ≤ svr ∧ svr ≤ 253) →
      cea_vfpdb_entry svr =
        if svr ≤ 106 then
          some (some (VfpdbLine.vic svr (edid_cea_modes.getD svr default).name))
        else if svr = 107 then none
        else some (some (VfpdbLine.vic svr "Unknown mode"))) ∧
    (cea_vfpdb_entry 1 = some (some (VfpdbLine.vic 1 "720x480@60Hz 4:3")) ∧
      (cea_svd_entry 1 State.init).1 = some ⟨1, "640x480@60Hz 4:3", false⟩ ∧
      cea_vfpdb [0xe2, 0x0d, 0x01] = some [VfpdbLine.vic 1 "720x480@60Hz 4:3"]) ∧
    (cea_vfpdb_entry 107 = none ∧
      (cea_svd_entry 107 State.init).1 = some ⟨107, "3840x2160@60Hz 64:27", false⟩ ∧
      cea_vfpdb [0xe2, 0x0d, 0x6b] = none) := by
  refine ⟨edid_cea_modes_length, ?_, ?_, ⟨by decide, by decide!, by decide⟩,
    ⟨by decide, by decide!, by decide⟩⟩
  · intro svr s hdom
    have hlt : svr < 256 := by omega
    obtain ⟨f0, _, _⟩ := svd_byte_fields ⟨svr, hlt⟩
    simp only at f0
    have hz : svr &&& 0x7f ≠ 0 := by
      intro hc
      have := f0.mp hc
      omega
    have hvic : svd_vic svr = svr := by
      unfold svd_vic
      rw [if_neg (by omega)]
    rw [cea_svd_entry_eq svr s hlt hz, hvic]
    by_cases h : svr ≤ 107
    · rw [if_pos ⟨by omega, h⟩, if_pos h]
      rfl
    · rw [if_neg (by omega), if_neg h]
      rfl
  · intro svr hdom
    unfold cea_vfpdb_entry
    rw [if_pos (by omega)]
    dsimp only
    rw [edid_cea_modes_length]
    by_cases h1 : svr ≤ 106
    · have hlt : svr < edid_cea_modes.length := by rw [edid_cea_modes_length]; omega
      rw [if_pos (by omega), if_pos h1, List.getElem?_eq_getElem hlt,
        List.getD_eq_getElem _ _ hlt]
    · rw [if_neg h1]
      by_cases h2 : svr = 107
      · rw [if_pos h2, h2]
        rfl
      · rw [if_neg h2, if_neg (by omega)]


/-! ## Scenario A on the bytes of the base block -/

theorem main_vendor_track_view (edid : List Nat) (s : State) :
    track_view (main_vendor edid s) = track_view s := by
  unfold main_vendor manufacturer_name
  dsimp only
  show track_view (if _ then _ else _) = _
  repeat' (first | refine view_ite track_view _ _ _ _ ?_ ?_ | rfl)

theorem main_date_track_view (tm : Int) (edid : List Nat) (s : State) :
    track_view (main_date tm edid s) = track_view s := by
  unfold main_date
  dsimp only
  repeat' (first | refine view_ite track_view _ _ _ _ ?_ ?_ | rfl)

theorem main_established_track_view (edid : List Nat) (s : State) :
    track_view (main_established edid s) = track_view s := by
  unfold main_established
  dsimp only
  show track_view (List.foldl _ s (List.range 17)) = track_view s
  apply foldl_view
  intro s a
  repeat' (first | refine view_ite track_view _ _ _ _ ?_ ?_ | rfl)

theorem print_standard_timing_track_view (b1 b2 : Nat) (s : State) :
    track_view (print_standard_timing b1 b2 s) = track_view s := by
  unfold print_standard_timing
  dsimp only
  repeat' (first | refine view_ite track_view _ _ _ _ ?_ ?_ | rfl)

theorem main_standard_track_view (edid : List Nat) (s : State) :
    track_view (main_standard edid s) = track_view s := by
  unfold main_standard
  apply foldl_view
  intro s a
  exact print_standard_timing_track_view _ _ s

theorem detailed_cvt_descriptor_track_view (x : List Nat) (first : Int) (s : State) :
    track_view (detailed_cvt_descriptor x first s).2 = track_view s := by
  unfold detailed_cvt_descriptor
  dsimp only
  repeat' (first | refine view_ite (fun r : Int × State => track_view r.2) _ _ _ _ ?_ ?_ | rfl)

theorem detailed_block_est3_track_view (x : List Nat) (s : State) :
    track_view (detailed_block_est3 x s) = track_view s := by
  unfold detailed_block_est3
  apply foldl_view
  intro s a
  repeat' (first | refine view_ite track_view _ _ _ _ ?_ ?_ | rfl)

theorem detailed_block_standard_track_view (x : List Nat) (s : State) :
    track_view (detailed_block_standard x s) = track_view s := by
  unfold detailed_block_standard
  apply foldl_view
  intro s a
  exact print_standard_timing_track_view _ _ s

theorem detailed_block_timing_track_view (x : List Nat) (e : Int) (s : State)
    (r : Int × State) (h : detailed_block_timing x e s = some r) :
    track_view r.2 = track_view s := by
  unfold detailed_block_timing at h
  dsimp only at h
  split at h
  · simp at h
  · split at h
    · simp at h
    · simp only [Option.some.injEq] at h
      subst h
      show track_view (if _ then _ else _) = _
      repeat' (first | refine view_ite track_view _ _ _ _ ?_ ?_ | rfl)

theorem main_vendor_observed_view (edid : List Nat) (s : State) :
    observed_view (main_vendor edid s) = observed_view s := by
  unfold main_vendor manufacturer_name
  dsimp only
  show observed_view (if _ then _ else _) = _
  repeat' (first | refine view_ite observed_view _ _ _ _ ?_ ?_ | rfl)

theorem main_date_observed_view (tm : Int) (edid : List Nat) (s : State) :
    observed_view (main_date tm edid s) = observed_view s := by
  unfold main_date
  dsimp only
  repeat' (first | refine view_ite observed_view _ _ _ _ ?_ ?_ | rfl)

theorem cmin_ge (B a b : Int) (ha : B ≤ a) (hb : B ≤ b) : B ≤ cmin a b := by
  unfold cmin; split_ifs <;> assumption

theorem cmax_le (B a b : Int) (ha : a ≤ B) (hb : b ≤ B) : cmax a b ≤ B := by
  unfold cmax; split_ifs <;> assumption

theorem cmin_u_ge (B a b : Int) (ha : B ≤ a) (hb : B ≤ b) : B ≤ cmin_u a b := by
  unfold cmin_u; split_ifs <;> assumption

theorem cmax_u_le (B a b : Int) (ha : a ≤ B) (hb : b ≤ B) : cmax_u a b ≤ B := by
  unfold cmax_u; split_ifs <;> assumption

theorem foldl_invariant {σ α : Type} (P : σ → Prop) (f : σ → α → σ) (l : List α)
    (h : ∀ s a, a ∈ l → P s → P (f s a)) (s : σ) (hs : P s) : P (l.foldl f s) := by
  induction l generalizing s with
  | nil => exact hs
  | cons a t ih =>
    rw [List.foldl_cons]
    exact ih (fun s b hb => h s b (List.mem_cons_of_mem _ hb)) _
      (h s a (List.mem_cons_self _ _) hs)

theorem foldl_fixed {σ α : Type} (f : σ → α → σ) (l : List α) (s : σ)
    (h : ∀ a, a ∈ l → f s a = s) : l.foldl f s = s := by
  induction l with
  | nil => rfl
  | cons a t ih =>
    rw [List.foldl_cons, h a (List.mem_cons_self _ _)]
    exact ih (fun b hb => h b (List.mem_cons_of_mem _ hb))

theorem observe_enclosed (B : RangeLimits) (r h p : Int) (s : State)
    (hs : observed_enclosed B s) (ht : timing_enclosed B r h p) :
    observed_enclosed B (observe r h p s) := by
  obtain ⟨a1, a2, a3, a4, a5⟩ := hs
  obtain ⟨b1, b2, b3, b4, b5⟩ := ht
  exact ⟨cmin_ge _ _ _ a1 b1, cmax_le _ _ _ a2 b2, cmin_ge _ _ _ a3 b3, cmax_le _ _ _ a4 b4,
    cmax_le _ _ _ a5 b5⟩

theorem main_established_enclosed (B : RangeLimits) (edid : List Nat) (s : State)
    (hs : observed_enclosed B s)
    (he : ∀ i, i < 17 → established_bit edid i = true →
      timing_enclosed B (established_timings.getD i default).refresh
        (established_timings.getD i default).hor_freq_hz
        (established_timings.getD i default).pixclk_khz) :
    observed_enclosed B (main_established edid s) := by
  unfold main_established
  dsimp only
  show observed_enclosed B (List.foldl _ s (List.range 17))
  apply foldl_invariant (observed_enclosed B)
  · intro t i hi ht
    by_cases hb : established_bit edid i = true
    · rw [if_pos hb]
      exact observe_enclosed B _ _ _ t ht (he i (List.mem_range.mp hi) hb)
    · rw [if_neg hb]
      exact ht
  · exact hs

theorem detailed_block_est3_enclosed (B : RangeLimits) (x : List Nat) (s : State)
    (hs : observed_enclosed B s)
    (he : ∀ i, i < 44 → rd x (6 + i / 8) &&& (1 <<< (7 - i % 8)) ≠ 0 →
      timing_enclosed B (established_timings3.getD i default).refresh
        (established_timings3.getD i default).hor_freq_hz
        (established_timings3.getD i default).pixclk_khz) :
    observed_enclosed B (detailed_block_est3 x s) := by
  unfold detailed_block_est3
  apply foldl_invariant (observed_enclosed B)
  · intro t i hi ht
    by_cases hb : rd x (6 + i / 8) &&& (1 <<< (7 - i % 8)) ≠ 0
    · rw [if_pos hb]
      exact observe_enclosed B _ _ _ t ht (he i (List.mem_range.mp hi) hb)
    · rw [if_neg hb]
      exact ht
  · exact hs

theorem print_standard_timing_enclosed (B : RangeLimits) (b1 b2 : Nat) (s : State)
    (hc : s.claims_one_point_three = 1) (hs : observed_enclosed B s)
    (he : standard_timing_enclosed B b1 b2) :
    observed_enclosed B (print_standard_timing b1 b2 s) := by
  unfold print_standard_timing
  by_cases h11 : b1 = 0x01 ∧ b2 = 0x01
  · rw [if_pos h11]; exact hs
  rw [if_neg h11]
  by_cases h0 : b1 = 0
  · rw [if_pos h0]; exact hs
  rw [if_neg h0, hc]
  rcases he with he | ⟨⟨v1, v2⟩, hcat⟩
  · rcases he with he | he
    · exact absurd he h11
    · exact absurd he h0
  obtain ⟨a1, a2, a3, a4, a5⟩ := hs
  unfold standard_timing_catalog at hcat
  dsimp only at hcat ⊢
  cases h1 : est_lookup established_timings (standard_timing_mode 1 b1 b2) with
  | none =>
    rw [h1] at hcat
    simp only [if_true] at hcat ⊢
    cases h3 : est_lookup established_timings3 (standard_timing_mode 1 b1 b2) with
    | none =>
      simp only [ne_eq, not_true_eq_false, if_false]
      exact ⟨cmin_u_ge _ _ _ a1 v1, cmax_u_le _ _ _ a2 v2, a3, a4, a5⟩
    | some e3 =>
      rw [h3] at hcat
      simp only at hcat ⊢
      by_cases hp : e3.pixclk_khz ≠ 0
      · rw [if_pos hp]
        obtain ⟨c1, c2, c3⟩ := hcat hp
        exact ⟨cmin_u_ge _ _ _ a1 v1, cmax_u_le _ _ _ a2 v2, cmin_ge _ _ _ a3 c1,
          cmax_le _ _ _ a4 c2, cmax_le _ _ _ a5 c3⟩
      · rw [if_neg hp]
        exact ⟨cmin_u_ge _ _ _ a1 v1, cmax_u_le _ _ _ a2 v2, a3, a4, a5⟩
  | some e1 =>
    rw [h1] at hcat
    simp only at hcat ⊢
    by_cases hz : e1.pixclk_khz = 0
    · simp only [hz, if_true] at hcat ⊢
      cases h3 : est_lookup established_timings3 (standard_timing_mode 1 b1 b2) with
      | none =>
        simp only [hz, ne_eq, not_true_eq_false, if_false]
        exact ⟨cmin_u_ge _ _ _ a1 v1, cmax_u_le _ _ _ a2 v2, a3, a4, a5⟩
      | some e3 =>
        rw [h3] at hcat
        simp only at hcat ⊢
        by_cases hp : e3.pixclk_khz ≠ 0
        · rw [if_pos hp]
          obtain ⟨c1, c2, c3⟩ := hcat hp
          exact ⟨cmin_u_ge _ _ _ a1 v1, cmax_u_le _ _ _ a2 v2, cmin_ge _ _ _ a3 c1,
            cmax_le _ _ _ a4 c2, cmax_le _ _ _ a5 c3⟩
        · rw [if_neg hp]
          exact ⟨cmin_u_ge _ _ _ a1 v1, cmax_u_le _ _ _ a2 v2, a3, a4, a5⟩
    · simp only [hz, if_false] at hcat ⊢
      rw [if_pos hz]
      obtain ⟨c1, c2, c3⟩ := hcat hz
      exact ⟨cmin_u_ge _ _ _ a1 v1, cmax_u_le _ _ _ a2 v2, cmin_ge _ _ _ a3 c1,
        cmax_le _ _ _ a4 c2, cmax_le _ _ _ a5 c3⟩

theorem main_standard_enclosed (B : RangeLimits) (edid : List Nat) (s : State)
    (hc : s.claims_one_point_three = 1) (hs : observed_enclosed B s)
    (he : ∀ i, i < 8 →
      standard_timing_enclosed B (rd edid (0x26 + i * 2)) (rd edid (0x26 + i * 2 + 1))) :
    observed_enclosed B (main_standard edid s) := by
  unfold main_standard
  refine (foldl_invariant
    (fun t : State => t.claims_one_point_three = 1 ∧ observed_enclosed B t) _ _ ?_ s
    ⟨hc, hs⟩).2
  intro t i hi ht
  have hv := print_standard_timing_track_view (rd edid (0x26 + i * 2))
    (rd edid (0x26 + i * 2 + 1)) t
  simp only [track_view, Prod.mk.injEq] at hv
  exact ⟨by rw [hv.2.2.2.2.2.2.2.1]; exact ht.1,
    print_standard_timing_enclosed B _ _ t ht.1 ht.2 (he i (List.mem_range.mp hi))⟩

theorem detailed_block_standard_enclosed (B : RangeLimits) (x : List Nat) (s : State)
    (hc : s.claims_one_point_three = 1) (hs : observed_enclosed B s)
    (he : ∀ i, i < 6 →
      standard_timing_enclosed B (rd x (5 + i * 2)) (rd x (5 + i * 2 + 1))) :
    observed_enclosed B (detailed_block_standard x s) := by
  unfold detailed_block_standard
  refine (foldl_invariant
    (fun t : State => t.claims_one_point_three = 1 ∧ observed_enclosed B t) _ _ ?_ s
    ⟨hc, hs⟩).2
  intro t i hi ht
  have hv := print_standard_timing_track_view (rd x (5 + i * 2)) (rd x (5 + i * 2 + 1)) t
  simp only [track_view, Prod.mk.injEq] at hv
  exact ⟨by rw [hv.2.2.2.2.2.2.2.1]; exact ht.1,
    print_standard_timing_enclosed B _ _ t ht.1 ht.2 (he i (List.mem_range.mp hi))⟩

theorem detailed_cvt_descriptor_enclosed (B : RangeLimits) (x : List Nat) (first : Int)
    (s : State) (hs : observed_enclosed B s) (he : cvt_enclosed B x first) :
    observed_enclosed B (detailed_cvt_descriptor x first s).2 := by
  unfold detailed_cvt_descriptor
  by_cases hu : first = 0 ∧ (rd x 0 = 0 ∧ rd x 1 = 0 ∧ rd x 2 = 0)
  · rw [if_pos hu]; exact hs
  rw [if_neg hu]
  dsimp only
  rcases he with he | ⟨b1, b2⟩
  · exact absurd he hu
  refine pred_ite (fun r : Int × State => observed_enclosed B r.2) _ _ _ (fun _ => hs) ?_
  intro _
  obtain ⟨a1, a2, a3, a4, a5⟩ := hs
  exact ⟨cmin_ge _ _ _ a1 b1, cmax_le _ _ _ a2 b2, a3, a4, a5⟩

/-- A CVT descriptor with byte 5 equal to 1: the result and the state in terms of
the fold over its four codes. -/
theorem detailed_block_cvt_fold (B : RangeLimits) (x : List Nat) (s : State)
    (h5 : rd x 5 = 1) :
    ∃ p : Int × State,
      detailed_block_cvt x s =
        (p.1, { p.2 with has_valid_cvt := Int.land p.2.has_valid_cvt p.1 }) ∧
      track_view p.2 = track_view s ∧
      (observed_enclosed B s →
        (∀ i, i < 4 → cvt_enclosed B (x.drop (6 + i * 3)) (b2i (i == 0))) →
        observed_enclosed B p.2) := by
  refine ⟨(List.range 4).foldl (fun (acc : Int × State) i =>
      (Int.land acc.1 (detailed_cvt_descriptor (x.drop (6 + i * 3)) (b2i (i == 0)) acc.2).1,
       (detailed_cvt_descriptor (x.drop (6 + i * 3)) (b2i (i == 0)) acc.2).2))
      ((1 : Int), s), ?_, ?_, ?_⟩
  · unfold detailed_block_cvt
    rw [if_neg (show ¬ rd x 5 ≠ 0x01 from not_not.mpr h5)]
  · apply foldl_view (fun acc : Int × State => track_view acc.2)
    intro acc a
    exact detailed_cvt_descriptor_track_view _ _ _
  · intro hs he
    apply foldl_invariant (fun acc : Int × State => observed_enclosed B acc.2)
    · intro acc i hi hacc
      exact detailed_cvt_descriptor_enclosed B _ _ _ hacc (he i (List.mem_range.mp hi))
    · exact hs

theorem detailed_block_timing_enclosed (B : RangeLimits) (x : List Nat) (e : Int)
    (s : State) (r : Int × State) (h : detailed_block_timing x e s = some r)
    (hs : observed_enclosed B s)
    (he : timing_enclosed B
      (Int.tdiv (timing_pixclk_khz x * 1000) (timing_h_total x * timing_v_total x))
      (Int.tdiv (timing_pixclk_khz x * 1000) (timing_h_total x))
      (timing_pixclk_khz x)) :
    observed_enclosed B r.2 := by
  unfold detailed_block_timing at h
  unfold timing_pixclk_khz timing_h_total timing_v_total at he
  dsimp only at h
  generalize ((rd x 2 + ((rd x 4 &&& 0xF0) <<< 4) : Nat) : Int) +
    ((rd x 3 + ((rd x 4 &&& 0x0F) <<< 8) : Nat) : Int) = ht at h he
  generalize ((rd x 5 + ((rd x 7 &&& 0xF0) <<< 4) : Nat) : Int) +
    ((rd x 6 + ((rd x 7 &&& 0x0F) <<< 8) : Nat) : Int) = vt at h he
  generalize ((((rd x 0 + (rd x 1 <<< 8)) * 10 : Nat) : Int)) = pc at h he
  unfold cdiv at h
  by_cases hz : ht * vt = 0
  · rw [if_pos hz] at h
    simp at h
  rw [if_neg hz] at h
  have hh : ht ≠ 0 := fun h0 => hz (by rw [h0, zero_mul])
  rw [if_neg hh] at h
  simp only [Option.some.injEq] at h
  subst h
  obtain ⟨a1, a2, a3, a4, a5⟩ := hs
  obtain ⟨b1, b2, b3, b4, b5⟩ := he
  have hv : observed_view
      { (if s.seen_non_detailed_descriptor ≠ 0 ∧ e = 0 then
          { s with has_valid_descriptor_ordering := 0 } else s) with
        did_detailed_timing := 1 } = observed_view s := by
    show observed_view (if _ then _ else _) = _
    exact view_ite observed_view _ _ _ _ rfl rfl
  simp only [observed_view, Prod.mk.injEq] at hv
  obtain ⟨v1, v2, v3, v4, v5⟩ := hv
  refine ⟨cmin_ge _ _ _ ?_ b1, cmax_le _ _ _ ?_ b2, cmin_ge _ _ _ ?_ b3, cmax_le _ _ _ ?_ b4,
    cmax_le _ _ _ ?_ b5⟩
  · show B.min_vert ≤ _; rw [v1]; exact a1
  · show _ ≤ B.max_vert; rw [v2]; exact a2
  · show B.min_hor ≤ _; rw [v3]; exact a3
  · show _ ≤ B.max_hor; rw [v4]; exact a4
  · show _ ≤ B.max_pixclk; rw [v5]; exact a5

/-- A well-ended string leaves `*valid_termination` as it was. -/
theorem extract_string_loop_accepted (y : List Nat) (len : Nat)
    (hacc : string_accepted y len) :
    ∀ (n i : Nat) (seen : Int) (ret : List Nat) (v : Int), i + n = len →
      (seen ≠ 0 → ∃ k, k < i ∧ rd y k = 0x0a) →
      (extract_string_loop y (List.range' i n) seen ret v).2 = v := by
  intro n
  induction n with
  | zero => intro i seen ret v _ _; rfl
  | succ m ih =>
    intro i seen ret v hlen hinv
    rw [List.range'_succ]
    unfold extract_string_loop
    have hi := hacc i (by omega)
    by_cases hg : isgraph (rd y i) = true
    · rw [if_pos hg]
      exact ih (i + 1) seen _ v (by omega) (fun hs => by
        obtain ⟨k, hk, e⟩ := hinv hs
        exact ⟨k, by omega, e⟩)
    rw [if_neg hg]
    by_cases hs : seen = 0
    · rw [if_pos hs]
      rcases hi with g | sp | ⟨nl, _⟩
      · exact absurd g hg
      · rw [if_neg (by rw [sp]; decide), if_pos sp]
        exact ih (i + 1) seen _ v (by omega) (fun h => absurd hs h)
      · rw [if_pos nl]
        exact ih (i + 1) 1 _ v (by omega) (fun _ => ⟨i, by omega, nl⟩)
    · rw [if_neg hs]
      rcases hi with g | sp | ⟨nl, hno⟩
      · exact absurd g hg
      · rw [if_neg (not_not.mpr sp)]
        exact ih (i + 1) seen _ v (by omega) (fun h => by
          obtain ⟨k, hk, e⟩ := hinv h
          exact ⟨k, by omega, e⟩)
      · obtain ⟨k, hk, e⟩ := hinv hs
        exact absurd e (hno k hk)

theorem extract_string_accepted (y : List Nat) (v : Int) (len : Nat)
    (hacc : string_accepted y len) : (extract_string y v len).2 = v := by
  unfold extract_string
  rw [List.range_eq_range']
  exact extract_string_loop_accepted y len hacc len 0 0 _ v (by omega) (fun h => absurd rfl h)

theorem detailed_block_pad_exact (x : List Nat) (s : State) (h2 : rd x 2 = 0)
    (h4 : rd x 4 = 0) :
    detailed_block_pad x s = { s with seen_non_detailed_descriptor := 1 } := by
  unfold detailed_block_pad
  rw [if_neg (show ¬ rd x 2 ≠ 0 from not_not.mpr h2)]
  dsimp only
  rw [if_neg (show ¬ (rd x 3 ≠ 0xfd ∧ rd x 4 ≠ 0x00) from fun h => h.2 h4)]

theorem detailed_block_dummy_exact (x : List Nat) (s : State)
    (h : ∀ i, i < 13 → rd x (5 + i) = 0) : detailed_block_dummy x s = s := by
  unfold detailed_block_dummy
  apply foldl_fixed
  intro a ha
  rw [List.mem_range'_1] at ha
  have e : rd x a = 0 := by
    have := h (a - 5) (by omega)
    rwa [show 5 + (a - 5) = a by omega] at this
  rw [if_neg (show ¬ rd x a ≠ 0x00 from not_not.mpr e)]

theorem detailed_block_ascii_exact (x : List Nat) (s : State)
    (h : string_accepted (x.drop 5) 13) : detailed_block_ascii x s = s := by
  unfold detailed_block_ascii
  rw [extract_string_accepted _ _ _ h]

theorem detailed_block_serial_exact (x : List Nat) (s : State)
    (h : string_accepted (x.drop 5) 13) :
    detailed_block_serial x s = { s with has_valid_serial_string := 1 } := by
  unfold detailed_block_serial
  rw [extract_string_accepted _ _ _ h]

theorem range_step_other (x : List Nat) (b : RangeLimits)
    (h : ¬ (rd x 0 = 0 ∧ rd x 1 = 0 ∧ rd x 3 = 0xFD)) : range_step x b = b := by
  unfold range_step
  rw [if_neg h]

theorem name_track_other (x : List Nat) (n : List Nat × Int × Int)
    (h : ¬ (rd x 0 = 0 ∧ rd x 1 = 0 ∧ rd x 3 = 0xFC)) : name_track x n = n := by
  unfold name_track
  rw [if_neg h]

theorem name_step_other (x : List Nat) (nm : List Nat)
    (h : ¬ (rd x 0 = 0 ∧ rd x 1 = 0 ∧ rd x 3 = 0xFC)) : name_step x nm = nm := by
  unfold name_step
  rw [if_neg (fun hc => h ⟨hc.1, hc.2.1, hc.2.2.1⟩)]

/-- A range descriptor that is well formed under EDID 1.3. -/
theorem detailed_block_range_exact (x : List Nat) (s : State)
    (h0 : rd x 0 = 0) (h1 : rd x 1 = 0) (h3 : rd x 3 = 0xFD)
    (hc4 : s.claims_one_point_four = 0) (h4 : rd x 4 = 0)
    (h10 : rd x 10 = 0 ∨ rd x 10 = 2) (h56 : rd x 5 ≤ rd x 6) (h78 : rd x 7 ≤ rd x 8) :
    (detailed_block_range x s).1 = s.has_valid_range_descriptor ∧
    track_view (detailed_block_range x s).2 =
      ((track_view s).1, range_step x (track_view s).2.1, (track_view s).2.2) ∧
    observed_view (detailed_block_range x s).2 = observed_view s := by
  have hoff : detailed_block_range_offsets x { s with has_range_descriptor := 1 }
      = ((0, 0, 0, 0), { s with has_range_descriptor := 1 }) := by
    unfold detailed_block_range_offsets
    rw [if_neg (show ¬ ({ s with has_range_descriptor := 1 } : State).claims_one_point_four ≠ 0
      from not_not.mpr hc4), if_neg (show ¬ rd x 4 ≠ 0 from not_not.mpr h4)]
  have hcls : detailed_block_range_class x { s with has_range_descriptor := 1 }
      = (0, { s with has_range_descriptor := 1 }) := by
    unfold detailed_block_range_class
    rcases h10 with h | h
    · rw [if_pos h]
    · rw [if_neg (by omega), if_neg (by omega), if_pos h]
  have hv : ¬ ((rd x 5 : Int) + 0 > (rd x 6 : Int) + 0) := by omega
  have hh : ¬ ((rd x 7 : Int) + 0 > (rd x 8 : Int) + 0) := by omega
  have hstep : range_step x (track_view s).2.1 =
      { present := 1, min_vert := (rd x 5 : Int), max_vert := (rd x 6 : Int),
        min_hor := (rd x 7 : Int) * 1000, max_hor := (rd x 8 : Int) * 1000,
        max_pixclk := if rd x 9 ≠ 0 then (rd x 9 : Int) * 10000
          else s.mon_max_pixclk_khz } := by
    unfold range_step
    rw [if_pos ⟨h0, h1, h3⟩]
    rfl
  unfold detailed_block_range
  dsimp only
  rw [hoff]
  dsimp only
  rw [hcls]
  unfold detailed_block_range_vert detailed_block_range_hor detailed_block_range_dotclock
  dsimp only
  rw [if_neg hv, if_neg hh, hstep]
  simp only [ne_eq, not_true_eq_false, if_false]
  by_cases h9 : rd x 9 ≠ 0
  · rw [if_pos h9, if_pos h9]
    refine ⟨rfl, ?_, rfl⟩
    simp only [track_view, Int.add_zero]
  · rw [if_neg h9, if_neg h9]
    rw [if_neg (show ¬ s.claims_one_point_four ≠ 0 from not_not.mpr hc4)]
    refine ⟨rfl, ?_, rfl⟩
    simp only [track_view, Int.add_zero]

/-- A name descriptor whose collected name, once it holds a newline, is well
ended. -/
theorem detailed_block_name_exact (x : List Nat) (s : State)
    (h0 : rd x 0 = 0) (h1 : rd x 1 = 0) (h3 : rd x 3 = 0xFC)
    (hn : 0x0a ∈ name_step x s.name →
      string_accepted (name_step x s.name) (name_step x s.name).length) :
    track_view (detailed_block_name x s) =
      ((track_view s).1, (track_view s).2.1, name_track x (track_view s).2.2.1,
       (track_view s).2.2.2) ∧
    observed_view (detailed_block_name x s) = observed_view s := by
  unfold detailed_block_name
  dsimp only
  by_cases hin : 0x0a ∈ s.name
  · rw [if_pos hin]
    refine ⟨?_, rfl⟩
    have e1 : name_step x s.name = s.name := by
      unfold name_step
      rw [if_neg (fun hc => hc.2.2.2 hin)]
    have e2 : name_track x (track_view s).2.2.1 = (s.name, 1, s.name_descriptor_terminated) := by
      unfold name_track
      rw [if_pos ⟨h0, h1, h3⟩]
      show (name_step x s.name, (1 : Int),
        if 0x0a ∉ s.name ∧ 0x0a ∈ name_step x s.name then 1
        else s.name_descriptor_terminated) = _
      rw [e1, if_neg (fun hc => hc.1 hin)]
    rw [e2]
    rfl
  · rw [if_neg hin]
    have e1 : name_step x s.name
        = s.name ++ ((x.drop 5).take 13).takeWhile (fun c => c != 0) := by
      unfold name_step
      rw [if_pos ⟨h0, h1, h3, hin⟩]
    rw [e1] at hn
    by_cases hnew : 0x0a ∈ s.name ++ ((x.drop 5).take 13).takeWhile (fun c => c != 0)
    · rw [if_pos hnew]
      have e2 : name_track x (track_view s).2.2.1
          = (s.name ++ ((x.drop 5).take 13).takeWhile (fun c => c != 0), 1, 1) := by
        unfold name_track
        rw [if_pos ⟨h0, h1, h3⟩]
        show (name_step x s.name, (1 : Int),
          if 0x0a ∉ s.name ∧ 0x0a ∈ name_step x s.name then 1
          else s.name_descriptor_terminated) = _
        rw [e1, if_pos ⟨hin, hnew⟩]
      rw [e2, extract_string_accepted _ _ _ (hn hnew)]
      exact ⟨rfl, rfl⟩
    · rw [if_neg hnew]
      have e2 : name_track x (track_view s).2.2.1
          = (s.name ++ ((x.drop 5).take 13).takeWhile (fun c => c != 0), 1,
             s.name_descriptor_terminated) := by
        unfold name_track
        rw [if_pos ⟨h0, h1, h3⟩]
        show (name_step x s.name, (1 : Int),
          if 0x0a ∉ s.name ∧ 0x0a ∈ name_step x s.name then 1
          else s.name_descriptor_terminated) = _
        rw [e1, if_neg (fun hc => hnew hc.2)]
      rw [e2]
      exact ⟨rfl, rfl⟩

/-- The dispatch of `detailed_block_tag` on each tag that the decoder knows. -/
theorem detailed_block_tag_cases (x : List Nat) (s : State) :
    ((rd x 3 ≤ 0x0F ∨ rd x 3 = 0xF9 ∨ rd x 3 = 0xFB) → detailed_block_tag x s = (1, s)) ∧
    (rd x 3 = 0x10 → detailed_block_tag x s = (1, detailed_block_dummy x s)) ∧
    (rd x 3 = 0xF7 → detailed_block_tag x s = (1, detailed_block_est3 x s)) ∧
    (rd x 3 = 0xF8 → detailed_block_tag x s = detailed_block_cvt x s) ∧
    (rd x 3 = 0xFA → detailed_block_tag x s = (1, detailed_block_standard x s)) ∧
    (rd x 3 = 0xFC → detailed_block_tag x s = (1, detailed_block_name x s)) ∧
    (rd x 3 = 0xFD → detailed_block_tag x s = detailed_block_range x s) ∧
    (rd x 3 = 0xFE → detailed_block_tag x s = (1, detailed_block_ascii x s)) ∧
    (rd x 3 = 0xFF → detailed_block_tag x s = (1, detailed_block_serial x s)) := by
  refine ⟨?_, ?_, ?_, ?_, ?_, ?_, ?_, ?_, ?_⟩
  · intro h
    unfold detailed_block_tag
    by_cases hl : rd x 3 ≤ 0xF
    · rw [if_pos hl]
    · rw [if_neg hl]
      rcases h with h | h | h
      · exact absurd h hl
      all_goals (rw [h]; rfl)
  all_goals (intro h; unfold detailed_block_tag; rw [h]; rfl)

theorem track_view_eta (s : State) (hf : (track_view s).1 = (1, 1, 1, 1, 1)) :
    track_view s = ((1, 1, 1, 1, 1), (track_view s).2.1, (track_view s).2.2.1,
      (track_view s).2.2.2) := by
  rw [← hf]

theorem track_view_set_cvt (u : State) (h : u.has_valid_cvt = 1) :
    track_view { u with has_valid_cvt := 1 } = track_view u := by
  unfold track_view
  rw [h]

theorem observed_enclosed_of_view (B : RangeLimits) (s t : State)
    (h : observed_view t = observed_view s) (hs : observed_enclosed B s) :
    observed_enclosed B t := by
  simp only [observed_view, Prod.mk.injEq] at h
  unfold observed_enclosed
  rw [h.1, h.2.1, h.2.2.1, h.2.2.2.1, h.2.2.2.2]
  exact hs

theorem tag_known_cases (n : Nat) (h1 : ¬ (0x11 ≤ n ∧ n ≤ 0xF6)) (h2 : n ≤ 0xFF) :
    (n ≤ 0x0F ∨ n = 0xF9 ∨ n = 0xFB) ∨ n = 0x10 ∨ n = 0xF7 ∨ n = 0xFA ∨ n = 0xFE ∨
      n = 0xFF ∨ n = 0xF8 ∨ n = 0xFC ∨ n = 0xFD := by
  omega

theorem tag_other_cases (n : Nat) (h : (n ≤ 0x0F ∨ n = 0xF9 ∨ n = 0xFB) ∨ n = 0x10) :
    n ≠ 0xFC ∧ n ≠ 0xFD := by
  omega

/-- The tag dispatch on a monitor descriptor that passes the per-descriptor
checks and whose timings lie within the limits. -/
theorem detailed_block_tag_scenario (B : RangeLimits) (x : List Nat) (t : State)
    (hm : rd x 0 = 0 ∧ rd x 1 = 0)
    (hf : (track_view t).1 = (1, 1, 1, 1, 1))
    (hc3 : t.claims_one_point_three = 1) (hc4 : t.claims_one_point_four = 0)
    (hs : observed_enclosed B t) (hv : slot_valid x) (he : slot_enclosed B x)
    (hn : 0x0a ∈ name_step x t.name →
      string_accepted (name_step x t.name) (name_step x t.name).length) :
    (detailed_block_tag x t).1 = 1 ∧
    track_view (detailed_block_tag x t).2 = ((1, 1, 1, 1, 1), range_step x (track_view t).2.1,
      name_track x (track_view t).2.2.1, (track_view t).2.2.2) ∧
    observed_enclosed B (detailed_block_tag x t).2 := by
  unfold slot_valid at hv
  unfold slot_enclosed at he
  rw [if_pos hm] at hv he
  obtain ⟨v2, v4, vknown, vbyte, vdummy, vcvt, vrange, vstr⟩ := hv
  obtain ⟨e3, ecvt, estd⟩ := he
  obtain ⟨c0, c10, cF7, cF8, cFA, cFC, cFD, cFE, cFF⟩ := detailed_block_tag_cases x t
  have hplain : ∀ u : State, detailed_block_tag x t = (1, u) → track_view u = track_view t →
      observed_enclosed B u → rd x 3 ≠ 0xFC → rd x 3 ≠ 0xFD →
      (detailed_block_tag x t).1 = 1 ∧
      track_view (detailed_block_tag x t).2 = ((1, 1, 1, 1, 1), range_step x (track_view t).2.1,
        name_track x (track_view t).2.2.1, (track_view t).2.2.2) ∧
      observed_enclosed B (detailed_block_tag x t).2 := by
    intro u hu hvu hou hnc hnd
    rw [hu]
    refine ⟨rfl, ?_, hou⟩
    rw [range_step_other x _ (fun h => hnd h.2.2), name_track_other x _ (fun h => hnc h.2.2)]
    show track_view u = _
    rw [hvu]
    exact track_view_eta t hf
  rcases tag_known_cases (rd x 3) vknown vbyte with
    t0 | t10 | tF7 | tFA | tFE | tFF | tF8 | tFC | tFD
  · exact hplain t (c0 t0) rfl hs (tag_other_cases (rd x 3) (Or.inl t0)).1
      (tag_other_cases (rd x 3) (Or.inl t0)).2
  · have e := detailed_block_dummy_exact x t (vdummy t10)
    exact hplain t (by rw [c10 t10, e]) rfl hs (by rw [t10]; decide) (by rw [t10]; decide)
  · exact hplain _ (cF7 tF7) (detailed_block_est3_track_view x t)
      (detailed_block_est3_enclosed B x t hs (e3 tF7)) (by rw [tF7]; decide)
      (by rw [tF7]; decide)
  · exact hplain _ (cFA tFA) (detailed_block_standard_track_view x t)
      (detailed_block_standard_enclosed B x t hc3 hs (estd tFA)) (by rw [tFA]; decide)
      (by rw [tFA]; decide)
  · have e := detailed_block_ascii_exact x t (vstr (Or.inl tFE))
    exact hplain t (by rw [cFE tFE, e]) rfl hs (by rw [tFE]; decide) (by rw [tFE]; decide)
  · have e := detailed_block_serial_exact x t (vstr (Or.inr tFF))
    exact hplain { t with has_valid_serial_string := 1 } (by rw [cFF tFF, e]) rfl hs
      (by rw [tFF]; decide) (by rw [tFF]; decide)
  · obtain ⟨k5, kv⟩ := vcvt tF8
    obtain ⟨p, hp, hpv, hpo⟩ := detailed_block_cvt_fold B x t k5
    have hret := (detailed_block_cvt_ret x t).1.mpr ⟨k5, kv⟩
    rw [hp] at hret
    have hret1 : p.1 = 1 := hret
    have hcv : p.2.has_valid_cvt = 1 := by
      have h1 := hpv
      rw [track_view_eta t hf] at h1
      simp only [track_view, Prod.mk.injEq] at h1
      exact h1.1.2.2.1
    have hu : detailed_block_tag x t = (1, { p.2 with has_valid_cvt := 1 }) := by
      rw [cF8 tF8, hp, hret1, hcv]
      rfl
    refine hplain _ hu ?_ (hpo hs (ecvt tF8)) (by rw [tF8]; decide) (by rw [tF8]; decide)
    rw [track_view_set_cvt p.2 hcv, hpv]
  · obtain ⟨n1, n2⟩ := detailed_block_name_exact x t hm.1 hm.2 tFC hn
    rw [cFC tFC]
    refine ⟨rfl, ?_, observed_enclosed_of_view B t _ n2 hs⟩
    show track_view (detailed_block_name x t) = _
    rw [n1, range_step_other x _ (fun h => by rw [tFC] at h; exact absurd h.2.2 (by decide)),
      hf]
  · obtain ⟨k10, k56, k78⟩ := vrange tFD
    obtain ⟨r1, r2, r3⟩ := detailed_block_range_exact x t hm.1 hm.2 tFD hc4 v4 k10 k56 k78
    rw [cFD tFD]
    refine ⟨?_, ?_, observed_enclosed_of_view B t _ r3 hs⟩
    · rw [r1]
      have := hf
      simp only [track_view, Prod.mk.injEq] at this
      exact this.2.2.2.2
    · rw [r2, name_track_other x _ (fun h => by rw [tFD] at h; exact absurd h.2.2 (by decide)),
        hf]

/-- One descriptor slot of the base block that passes the per-descriptor checks
and whose timings lie within the limits: `detailed_block` returns 1, keeps the
five validity flags at 1 and the observed ranges within the limits, and moves
the declared limits and the name as `range_step` and `name_track` say. -/
theorem detailed_block_scenario (B : RangeLimits) (x : List Nat) (s : State)
    (hf : (track_view s).1 = (1, 1, 1, 1, 1))
    (hc3 : s.claims_one_point_three = 1) (hc4 : s.claims_one_point_four = 0)
    (hs : observed_enclosed B s) (hv : slot_valid x) (he : slot_enclosed B x)
    (hn : 0x0a ∈ name_step x s.name →
      string_accepted (name_step x s.name) (name_step x s.name).length) :
    ∃ r, detailed_block x 0 s = some r ∧ r.1 = 1 ∧
      track_view r.2 = ((1, 1, 1, 1, 1), range_step x (track_view s).2.1,
        name_track x (track_view s).2.2.1, (track_view s).2.2.2) ∧
      observed_enclosed B r.2 ∧
      (¬ (rd x 0 = 0 ∧ rd x 1 = 0) → r.2.did_detailed_timing = 1) := by
  by_cases hm : rd x 0 = 0 ∧ rd x 1 = 0
  · have hpad : detailed_block_pad x s = { s with seen_non_detailed_descriptor := 1 } := by
      unfold slot_valid at hv
      rw [if_pos hm] at hv
      exact detailed_block_pad_exact x s hv.1 hv.2.1
    have hd : detailed_block x 0 s
        = some (detailed_block_tag x { s with seen_non_detailed_descriptor := 1 }) := by
      unfold detailed_block detailed_block_monitor
      rw [if_pos hm, hpad]
    obtain ⟨a1, a2, a3⟩ := detailed_block_tag_scenario B x
      { s with seen_non_detailed_descriptor := 1 } hm hf hc3 hc4 hs hv he hn
    exact ⟨_, hd, a1, a2, a3, fun h => absurd hm h⟩
  · unfold slot_valid at hv
    unfold slot_enclosed at he
    rw [if_neg hm] at hv he
    obtain ⟨t, ht, hdid, _, _⟩ := (detailed_block_timing_result x 0 s).2 hv
    have hd : detailed_block x 0 s = some (1, t) := by
      unfold detailed_block
      rw [if_neg hm]
      exact ht
    refine ⟨(1, t), hd, rfl, ?_, detailed_block_timing_enclosed B x 0 s (1, t) ht hs he,
      fun _ => hdid⟩
    rw [range_step_other x _ (fun h => hm ⟨h.1, h.2.1⟩),
      name_track_other x _ (fun h => hm ⟨h.1, h.2.1⟩)]
    show track_view t = _
    rw [detailed_block_timing_track_view x 0 s (1, t) ht]
    exact track_view_eta s hf
theorem main_display_observed_view (edid : List Nat) (s : State) :
    observed_view (main_display edid s) = observed_view s := by
  unfold main_display main_digital_mask main_digital_14
  dsimp only
  repeat' (first | refine view_ite observed_view _ _ _ _ ?_ ?_ | rfl)

theorem main_features_observed_view (edid : List Nat) (s : State) :
    observed_view (main_features edid s) = observed_view s := by
  unfold main_features
  dsimp only
  repeat' (first | refine view_ite observed_view _ _ _ _ ?_ ?_ | rfl)

theorem memcmp_zero (a b : List Nat) :
    ∀ (n : Nat) (k : Nat), (∀ i, i < n → rd a (k + i) = rd b (k + i)) →
      memcmp (a.drop k) (b.drop k) n = 0 := by
  intro n
  induction n with
  | zero => intro k _; rfl
  | succ m ih =>
    intro k h
    unfold memcmp
    have e0 := h 0 (by omega)
    rw [Nat.add_zero] at e0
    rw [rd_drop, rd_drop, Nat.add_zero, if_pos e0, List.drop_drop, List.drop_drop]
    apply ih
    intro i hi
    have := h (i + 1) (by omega)
    rwa [show k + (i + 1) = k + 1 + i by omega] at this

/-- The header of a base block that declares revision 1.3 and whose display byte,
chromaticities and feature byte are in order: after `main_features` the five
validity flags are 1, no limits and no name are recorded, the two header flags
are 0, the preferred-timing flag is 1, and the observed ranges are untouched. -/
theorem main_header_scenario (tm : Int) (edid : List Nat)
    (h12 : rd edid 0x12 = 1) (h13 : rd edid 0x13 = 3)
    (hdig : rd edid 0x14 &&& 0x80 = 0 ∨ rd edid 0x14 &&& 0x7E = 0)
    (hsrgb : rd edid 0x18 &&& 0x04 = 0 ∨
      ∀ i, i < 10 → rd edid (0x19 + i) = rd srgb_chromaticity i)
    (hpref : rd edid 0x18 &&& 0x02 ≠ 0) :
    track_view (main_features edid (main_display edid
        (main_version edid (main_date tm edid (main_vendor edid State.init))).2))
      = ((1, 1, 1, 1, 1), ⟨0, 0, 0, 0, 0, 0⟩, ([], 0, 0), (0, 0, 1, 0, 1, 0)) ∧
    observed_view (main_features edid (main_display edid
        (main_version edid (main_date tm edid (main_vendor edid State.init))).2))
      = (0xfffffff, 0, 0xfffffff, 0, 0) := by
  have hgt : ¬ rd edid 0x13 > 4 := by omega
  have hver : (main_version edid (main_date tm edid (main_vendor edid State.init))).2
      = { main_date tm edid (main_vendor edid State.init) with
          claims_one_point_three := 1, claims_one_point_two := 1,
          claims_one_point_oh := 1 } := by
    unfold main_version
    rw [if_pos h12]
    dsimp only
    rw [if_neg hgt, h13]
    rfl
  have ht0 : track_view (main_date tm edid (main_vendor edid State.init))
      = track_view State.init := by
    rw [main_date_track_view, main_vendor_track_view]
  have ho0 : observed_view (main_date tm edid (main_vendor edid State.init))
      = observed_view State.init := by
    rw [main_date_observed_view, main_vendor_observed_view]
  rw [hver]
  generalize main_date tm edid (main_vendor edid State.init) = d at ht0 ho0
  simp only [track_view, Prod.mk.injEq, RangeLimits.mk.injEq] at ht0
  obtain ⟨⟨f1, f2, f3, f4, f5⟩, ⟨m1, m2, m3, m4, m5, m6⟩, ⟨n1, n2, n3⟩,
    ⟨g1, g2, g3, g4, g5, g6⟩⟩ := ht0
  have hdisp : track_view (main_display edid { d with claims_one_point_three := 1, claims_one_point_two := 1, claims_one_point_oh := 1 })
      = ((1, 1, 1, 1, 1), ⟨0, 0, 0, 0, 0, 0⟩, ([], 0, 0), (0, 0, 0, 0, 1, 0)) := by
    unfold main_display
    by_cases h7 : rd edid 0x14 &&& 0x80 ≠ 0
    · have hm : rd edid 0x14 &&& 0x7E = 0 := by
        rcases hdig with h | h
        · exact absurd h h7
        · exact h
      rw [if_pos h7]
      have c4 : ¬ ({ d with claims_one_point_three := 1, claims_one_point_two := 1, claims_one_point_oh := 1 } : State).claims_one_point_four ≠ 0 := not_not.mpr g6
      have c2 : ({ d with claims_one_point_three := 1, claims_one_point_two := 1, claims_one_point_oh := 1 } : State).claims_one_point_two ≠ 0 :=
        (by decide : (1 : Int) ≠ 0)
      rw [if_neg c4, if_pos c2]
      unfold main_digital_mask
      have c0 : ({ d with claims_one_point_three := 1, claims_one_point_two := 1, claims_one_point_oh := 1 } : State).nonconformant_digital_display = 0 := g1
      rw [if_pos c0, hm]
      simp only [track_view, f1, f2, f3, f4, f5, m1, m2, m3, m4, m5, m6, n1, n2, n3, g2, g3, g4,
        g6]
      rfl
    · rw [if_neg h7]
      simp only [track_view, f1, f2, f3, f4, f5, m1, m2, m3, m4, m5, m6, n1, n2, n3, g1, g2, g3,
        g4, g6]
      rfl
  have hdo : observed_view (main_display edid { d with claims_one_point_three := 1, claims_one_point_two := 1, claims_one_point_oh := 1 })
      = (0xfffffff, 0, 0xfffffff, 0, 0) := by
    rw [main_display_observed_view]
    exact ho0
  generalize main_display edid { d with claims_one_point_three := 1, claims_one_point_two := 1, claims_one_point_oh := 1 } = e at hdisp hdo
  refine ⟨?_, by rw [main_features_observed_view]; exact hdo⟩
  simp only [track_view, Prod.mk.injEq, RangeLimits.mk.injEq] at hdisp
  obtain ⟨⟨f1, f2, f3, f4, f5⟩, ⟨m1, m2, m3, m4, m5, m6⟩, ⟨n1, n2, n3⟩,
    ⟨g1, g2, g3, g4, g5, g6⟩⟩ := hdisp
  unfold main_features
  dsimp only
  rw [if_pos hpref]
  by_cases h4 : rd edid 0x18 &&& 0x04 ≠ 0
  · have hm : memcmp (edid.drop 0x19) srgb_chromaticity 10 = 0 := by
      rcases hsrgb with h | h
      · exact absurd h h4
      · have := memcmp_zero (edid.drop 0x19) srgb_chromaticity 10 0 (by
          intro i hi
          rw [Nat.zero_add, rd_drop]
          exact h i hi)
        exact this
    rw [if_pos h4, hm]
    simp only [track_view, f1, f2, f3, f4, f5, m1, m2, m3, m4, m5, m6, n1, n2, n3, g1, g4, g5,
      g6]
  · rw [if_neg h4]
    simp only [track_view, f1, f2, f3, f4, f5, m1, m2, m3, m4, m5, m6, n1, n2, n3, g1, g2, g4,
      g5, g6]

theorem name_step_newline (x nm : List Nat) (h : 0x0a ∈ nm) : name_step x nm = nm := by
  unfold name_step
  rw [if_neg (fun hc => hc.2.2.2 h)]

theorem name_track_fst (x : List Nat) (n : List Nat × Int × Int) :
    (name_track x n).1 = name_step x n.1 := by
  unfold name_track
  by_cases h : rd x 0 = 0 ∧ rd x 1 = 0 ∧ rd x 3 = 0xFC
  · rw [if_pos h]
  · rw [if_neg h, name_step_other x _ h]

theorem name_track_inv (x : List Nat) (n : List Nat × Int × Int)
    (h : 0x0a ∈ n.1 → n.2 = (1, 1)) :
    0x0a ∈ (name_track x n).1 → (name_track x n).2 = (1, 1) := by
  unfold name_track
  by_cases hc : rd x 0 = 0 ∧ rd x 1 = 0 ∧ rd x 3 = 0xFC
  · rw [if_pos hc]
    intro hin
    have hin2 : 0x0a ∈ name_step x n.1 := hin
    by_cases hold : 0x0a ∈ n.1
    · have e := h hold
      have e2 : n.2.2 = 1 := by rw [e]
      show ((1 : Int), if 0x0a ∉ n.1 ∧ 0x0a ∈ name_step x n.1 then (1 : Int) else n.2.2) = _
      rw [if_neg (fun hh => hh.1 hold), e2]
    · show ((1 : Int), if 0x0a ∉ n.1 ∧ 0x0a ∈ name_step x n.1 then (1 : Int) else n.2.2) = _
      rw [if_pos ⟨hold, hin2⟩]
  · rw [if_neg hc]
    exact h

theorem range_step_present (x : List Nat) (b : RangeLimits) (h : b.present = 1) :
    (range_step x b).present = 1 := by
  unfold range_step
  by_cases hc : rd x 0 = 0 ∧ rd x 1 = 0 ∧ rd x 3 = 0xFD
  · rw [if_pos hc]
  · rw [if_neg hc]
    exact h

theorem range_step_present_here (x : List Nat) (b : RangeLimits)
    (h : rd x 0 = 0 ∧ rd x 1 = 0 ∧ rd x 3 = 0xFD) : (range_step x b).present = 1 := by
  unfold range_step
  rw [if_pos h]

theorem declared_range_present (edid : List Nat)
    (h : ∃ off ∈ descriptor_slots, is_monitor_slot edid off ∧ rd edid (off + 3) = 0xFD) :
    (declared_range edid).present = 1 := by
  obtain ⟨off, hoff, hm, ht⟩ := h
  have hc : rd (edid.drop off) 0 = 0 ∧ rd (edid.drop off) 1 = 0 ∧ rd (edid.drop off) 3 = 0xFD := by
    have := (monitor_slot_drop edid off).mpr hm
    exact ⟨this.1, this.2, by rw [rd_drop]; exact ht⟩
  unfold descriptor_slots at hoff
  simp only [List.mem_cons, List.mem_singleton, List.not_mem_nil, or_false] at hoff
  unfold declared_range
  rcases hoff with e | e | e | e <;> subst e
  · exact range_step_present _ _ (range_step_present _ _ (range_step_present _ _
      (range_step_present_here _ _ hc)))
  · exact range_step_present _ _ (range_step_present _ _ (range_step_present_here _ _ hc))
  · exact range_step_present _ _ (range_step_present_here _ _ hc)
  · exact range_step_present_here _ _ hc

/-- The bounds of the declared limits are such that the observed ranges of the
initial state lie within them. -/
theorem range_step_initial (x : List Nat) (hx : is_bytes x) (b : RangeLimits)
    (hb : b.min_vert ≤ 0xfffffff ∧ 0 ≤ b.max_vert ∧ b.min_hor ≤ 0xfffffff ∧ 0 ≤ b.max_hor ∧
      0 ≤ b.max_pixclk) :
    (range_step x b).min_vert ≤ 0xfffffff ∧ 0 ≤ (range_step x b).max_vert ∧
    (range_step x b).min_hor ≤ 0xfffffff ∧ 0 ≤ (range_step x b).max_hor ∧
    0 ≤ (range_step x b).max_pixclk := by
  unfold range_step
  by_cases hc : rd x 0 = 0 ∧ rd x 1 = 0 ∧ rd x 3 = 0xFD
  · rw [if_pos hc]
    have h5 := rd_lt x hx 5
    have h7 := rd_lt x hx 7
    refine ⟨?_, ?_, ?_, ?_, ?_⟩
    · show (rd x 5 : Int) ≤ 0xfffffff
      omega
    · show (0 : Int) ≤ (rd x 6 : Int)
      omega
    · show (rd x 7 : Int) * 1000 ≤ 0xfffffff
      omega
    · show (0 : Int) ≤ (rd x 8 : Int) * 1000
      omega
    · show (0 : Int) ≤ if rd x 9 ≠ 0 then (rd x 9 : Int) * 10000 else b.max_pixclk
      split_ifs
      · omega
      · exact hb.2.2.2.2
  · rw [if_neg hc]
    exact hb

theorem is_bytes_drop (x : List Nat) (h : is_bytes x) (k : Nat) : is_bytes (x.drop k) := by
  intro b hb
  exact h b (List.mem_of_mem_drop hb)

theorem declared_range_initial (edid : List Nat) (hb : is_bytes edid) :
    observed_enclosed (declared_range edid) State.init := by
  have h := range_step_initial (edid.drop 0x6C) (is_bytes_drop edid hb _) _
    (range_step_initial (edid.drop 0x5A) (is_bytes_drop edid hb _) _
      (range_step_initial (edid.drop 0x48) (is_bytes_drop edid hb _) _
        (range_step_initial (edid.drop 0x36) (is_bytes_drop edid hb _) ⟨0, 0, 0, 0, 0, 0⟩
          ⟨by decide, by decide, by decide, by decide, by decide⟩)))
  exact h

theorem track_view_set_blocks (u : State) (v : Int) :
    track_view { u with has_valid_detailed_blocks := v } =
      ((track_view u).1, (track_view u).2.1, (track_view u).2.2.1,
       ((track_view u).2.2.2.1, (track_view u).2.2.2.2.1, (track_view u).2.2.2.2.2.1, v,
        (track_view u).2.2.2.2.2.2.2.1, (track_view u).2.2.2.2.2.2.2.2)) := rfl

/-- The first descriptor slot, a numeric timing. -/
theorem main_detailed_first_scenario (B : RangeLimits) (edid : List Nat) (s : State)
    (M : RangeLimits) (N : List Nat × Int × Int)
    (htv : track_view s = ((1, 1, 1, 1, 1), M, N, (0, 0, 1, 0, 1, 0)))
    (hs : observed_enclosed B s) (hfirst : ¬ is_monitor_slot edid 0x36)
    (hv : slot_valid (edid.drop 0x36)) (he : slot_enclosed B (edid.drop 0x36))
    (hn : 0x0a ∈ name_step (edid.drop 0x36) N.1 →
      string_accepted (name_step (edid.drop 0x36) N.1) (name_step (edid.drop 0x36) N.1).length) :
    ∃ t, main_detailed_first edid s = some t ∧
      track_view t = ((1, 1, 1, 1, 1), range_step (edid.drop 0x36) M,
        name_track (edid.drop 0x36) N, (0, 0, 1, 1, 1, 0)) ∧
      observed_enclosed B t := by
  have hf : (track_view s).1 = (1, 1, 1, 1, 1) := by rw [htv]
  have hnm : s.name = N.1 := by
    have := congrArg (fun v => v.2.2.1.1) htv
    exact this
  have hc3 : s.claims_one_point_three = 1 := by
    have := congrArg (fun v => v.2.2.2.2.2.2.2.1) htv
    exact this
  have hc4 : s.claims_one_point_four = 0 := by
    have := congrArg (fun v => v.2.2.2.2.2.2.2.2) htv
    exact this
  rw [← hnm] at hn
  obtain ⟨r, hr, r1, rtv, ro, rdid⟩ :=
    detailed_block_scenario B (edid.drop 0x36) s hf hc3 hc4 hs hv he hn
  rw [htv] at rtv
  have hdid : r.2.did_detailed_timing = 1 :=
    rdid (fun h => hfirst ((monitor_slot_drop edid 0x36).mp h))
  refine ⟨{ r.2 with has_valid_detailed_blocks := r.1 }, ?_, ?_, ro⟩
  · unfold main_detailed_first
    rw [hr]
    dsimp only
    rw [if_neg (fun h => by
      have h2 : r.2.did_detailed_timing = 0 := h.2
      rw [hdid] at h2
      exact absurd h2 (by decide))]
  · rw [track_view_set_blocks, rtv, r1]

/-- A later descriptor slot. -/
theorem main_detailed_and_scenario (B : RangeLimits) (edid : List Nat) (off : Nat)
    (s : State) (M : RangeLimits) (N : List Nat × Int × Int)
    (htv : track_view s = ((1, 1, 1, 1, 1), M, N, (0, 0, 1, 1, 1, 0)))
    (hs : observed_enclosed B s)
    (hv : slot_valid (edid.drop off)) (he : slot_enclosed B (edid.drop off))
    (hn : 0x0a ∈ name_step (edid.drop off) N.1 →
      string_accepted (name_step (edid.drop off) N.1) (name_step (edid.drop off) N.1).length) :
    ∃ t, main_detailed_and edid off s = some t ∧
      track_view t = ((1, 1, 1, 1, 1), range_step (edid.drop off) M,
        name_track (edid.drop off) N, (0, 0, 1, 1, 1, 0)) ∧
      observed_enclosed B t := by
  have hf : (track_view s).1 = (1, 1, 1, 1, 1) := by rw [htv]
  have hnm : s.name = N.1 := by
    have := congrArg (fun v => v.2.2.1.1) htv
    exact this
  have hc3 : s.claims_one_point_three = 1 := by
    have := congrArg (fun v => v.2.2.2.2.2.2.2.1) htv
    exact this
  have hc4 : s.claims_one_point_four = 0 := by
    have := congrArg (fun v => v.2.2.2.2.2.2.2.2) htv
    exact this
  rw [← hnm] at hn
  obtain ⟨r, hr, r1, rtv, ro, _⟩ :=
    detailed_block_scenario B (edid.drop off) s hf hc3 hc4 hs hv he hn
  rw [htv] at rtv
  have hblk : r.2.has_valid_detailed_blocks = 1 := by
    have := congrArg (fun v => v.2.2.2.2.2.2.1) rtv
    exact this
  refine ⟨{ r.2 with has_valid_detailed_blocks := Int.land r.2.has_valid_detailed_blocks r.1 },
    ?_, ?_, ro⟩
  · unfold main_detailed_and
    rw [hr]
  · rw [track_view_set_blocks, rtv, r1, hblk]
    rfl

/-- The four descriptor slots of a base block that pass the per-descriptor checks
and whose timings lie within the declared limits. -/
theorem main_detailed_scenario (edid : List Nat) (s : State)
    (htv : track_view s = ((1, 1, 1, 1, 1), ⟨0, 0, 0, 0, 0, 0⟩, ([], 0, 0), (0, 0, 1, 0, 1, 0)))
    (hs : observed_enclosed (declared_range edid) s)
    (hfirst : ¬ is_monitor_slot edid 0x36)
    (hvalid : ∀ off ∈ descriptor_slots, slot_valid (edid.drop off))
    (hslot : ∀ off ∈ descriptor_slots, slot_enclosed (declared_range edid) (edid.drop off))
    (hname : string_accepted (decoded_name edid) (decoded_name edid).length) :
    ∃ (t : State) (n : Int × Int), main_detailed edid s = some t ∧
      track_view t = ((1, 1, 1, 1, 1), declared_range edid, (decoded_name edid, n),
        (0, 0, 1, 1, 1, 0)) ∧
      (0x0a ∈ decoded_name edid → n = (1, 1)) ∧
      observed_enclosed (declared_range edid) t := by
  have m1 : (0x36 : Nat) ∈ descriptor_slots := by decide
  have m2 : (0x48 : Nat) ∈ descriptor_slots := by decide
  have m3 : (0x5A : Nat) ∈ descriptor_slots := by decide
  have m4 : (0x6C : Nat) ∈ descriptor_slots := by decide
  have hdn : decoded_name edid = name_step (edid.drop 0x6C) (name_step (edid.drop 0x5A)
      (name_step (edid.drop 0x48) (name_step (edid.drop 0x36) []))) := rfl
  have a1 : 0x0a ∈ name_step (edid.drop 0x36) [] →
      string_accepted (name_step (edid.drop 0x36) []) (name_step (edid.drop 0x36) []).length := by
    intro h
    have e : decoded_name edid = name_step (edid.drop 0x36) [] := by
      rw [hdn, name_step_newline (edid.drop 0x48) _ h, name_step_newline (edid.drop 0x5A) _ h,
        name_step_newline (edid.drop 0x6C) _ h]
    rw [← e]
    exact hname
  have a2 : 0x0a ∈ name_step (edid.drop 0x48) (name_step (edid.drop 0x36) []) →
      string_accepted (name_step (edid.drop 0x48) (name_step (edid.drop 0x36) []))
        (name_step (edid.drop 0x48) (name_step (edid.drop 0x36) [])).length := by
    intro h
    have e : decoded_name edid = name_step (edid.drop 0x48) (name_step (edid.drop 0x36) []) := by
      rw [hdn, name_step_newline (edid.drop 0x5A) _ h, name_step_newline (edid.drop 0x6C) _ h]
    rw [← e]
    exact hname
  have a3 : 0x0a ∈ name_step (edid.drop 0x5A)
        (name_step (edid.drop 0x48) (name_step (edid.drop 0x36) [])) →
      string_accepted (name_step (edid.drop 0x5A)
          (name_step (edid.drop 0x48) (name_step (edid.drop 0x36) [])))
        (name_step (edid.drop 0x5A)
          (name_step (edid.drop 0x48) (name_step (edid.drop 0x36) []))).length := by
    intro h
    have e : decoded_name edid = name_step (edid.drop 0x5A)
        (name_step (edid.drop 0x48) (name_step (edid.drop 0x36) [])) := by
      rw [hdn, name_step_newline (edid.drop 0x6C) _ h]
    rw [← e]
    exact hname
  have a4 : 0x0a ∈ decoded_name edid →
      string_accepted (decoded_name edid) (decoded_name edid).length := fun _ => hname
  obtain ⟨t1, h1, v1, o1⟩ := main_detailed_first_scenario (declared_range edid) edid s _ _ htv hs
    hfirst (hvalid _ m1) (hslot _ m1) a1
  have f1 := name_track_fst (edid.drop 0x36) ([], 0, 0)
  have i1 := name_track_inv (edid.drop 0x36) ([], 0, 0) (fun h => absurd h (List.not_mem_nil _))
  generalize name_track (edid.drop 0x36) ([], 0, 0) = N1 at v1 f1 i1
  obtain ⟨t2, h2, v2, o2⟩ := main_detailed_and_scenario (declared_range edid) edid 0x48 t1 _ _ v1
    o1 (hvalid _ m2) (hslot _ m2) (by rw [f1]; exact a2)
  have f2 := name_track_fst (edid.drop 0x48) N1
  have i2 := name_track_inv (edid.drop 0x48) N1 i1
  rw [f1] at f2
  generalize name_track (edid.drop 0x48) N1 = N2 at v2 f2 i2
  obtain ⟨t3, h3, v3, o3⟩ := main_detailed_and_scenario (declared_range edid) edid 0x5A t2 _ _ v2
    o2 (hvalid _ m3) (hslot _ m3) (by rw [f2]; exact a3)
  have f3 := name_track_fst (edid.drop 0x5A) N2
  have i3 := name_track_inv (edid.drop 0x5A) N2 i2
  rw [f2] at f3
  generalize name_track (edid.drop 0x5A) N2 = N3 at v3 f3 i3
  obtain ⟨t4, h4, v4, o4⟩ := main_detailed_and_scenario (declared_range edid) edid 0x6C t3 _ _ v3
    o3 (hvalid _ m4) (hslot _ m4) (by rw [f3, ← hdn]; exact a4)
  have f4 := name_track_fst (edid.drop 0x6C) N3
  have i4 := name_track_inv (edid.drop 0x6C) N3 i3
  rw [f3, ← hdn] at f4
  generalize name_track (edid.drop 0x6C) N3 = N4 at v4 f4 i4
  refine ⟨t4, N4.2, ?_, ?_, ?_, o4⟩
  · unfold main_detailed
    rw [h1, Option.some_bind, h2, Option.some_bind, h3, Option.some_bind, h4]
  · rw [v4, ← f4]
    rfl
  · intro h
    rw [← f4] at h
    exact i4 h

theorem main_date_year (tm : Int) (edid : List Nat) (s : State)
    (hweek : rd edid 0x10 < 55 ∨ rd edid 0x10 = 0xff)
    (hyear : 0x0f < rd edid 0x11 ∧ (rd edid 0x10 = 0xff ∨ (rd edid 0x11 : Int) + 90 ≤ tm)) :
    (main_date tm edid s).has_valid_year = 1 := by
  unfold main_date
  rw [if_pos hweek]
  dsimp only
  rw [if_pos (show rd edid 0x11 > 0x0f from hyear.1)]
  by_cases hff : rd edid 0x10 = 0xff
  · rw [if_pos hff]
  · rw [if_neg hff]
    rcases hyear.2 with h | h
    · exact absurd h hff
    · rw [if_pos h]

/-- The verdict on a state in which every flag that the three stages read is in
order. -/
theorem main_verdict_pass (s : State) (hconf : s.conformant = 1)
    (hc3 : s.claims_one_point_three = 1)
    (he1 : s.nonconformant_extension = 0) (he2 : s.has_cea861 = 0)
    (he3 : s.nonconformant_hf_vsdb_position = 0) (he4 : s.nonconformant_cea861_640x480 = 0)
    (hck : s.has_valid_checksum = 1)
    (hname : s.has_name_descriptor = 1) (hterm : s.name_descriptor_terminated = 1)
    (hpref : s.has_preferred_timing = 1) (hrange : s.has_range_descriptor = 1)
    (henc : s.mon_min_vert_freq_hz ≤ s.min_vert_freq_hz ∧
      s.max_vert_freq_hz ≤ s.mon_max_vert_freq_hz ∧
      s.mon_min_hor_freq_hz ≤ s.min_hor_freq_hz ∧
      s.max_hor_freq_hz ≤ s.mon_max_hor_freq_hz ∧
      s.max_pixclk_khz ≤ s.mon_max_pixclk_khz)
    (hdig : s.nonconformant_digital_display = 0)
    (hsrgb : s.nonconformant_srgb_chromaticity = 0)
    (hstr : s.has_valid_string_termination = 1) (hpad : s.has_valid_descriptor_pad = 1)
    (hcvt : s.has_valid_cvt = 1) (hyear : s.has_valid_year = 1) (hweek : s.has_valid_week = 1)
    (hdet : s.has_valid_detailed_blocks = 1) (hdummy : s.has_valid_dummy_block = 1)
    (hord : s.has_valid_descriptor_ordering ≠ 0) (hvr : s.has_valid_range_descriptor = 1)
    (hman : s.manufacturer_name_well_formed = 1) :
    main_return (main_verdict s) = 0 := by
  have r1 : verdict_revision s = s := by
    unfold verdict_revision fails_one_point_three
    simp [hc3, hdig, he3, hsrgb, he4, hstr, hpad, hname, hterm, hpref, hrange]
  have r2 : verdict_range s = s := by
    unfold verdict_range fails_range
    obtain ⟨a1, a2, a3, a4, a5⟩ := henc
    simp [hvr, not_lt.mpr a1, not_lt.mpr a2, not_lt.mpr a3, not_lt.mpr a4, not_lt.mpr a5]
  have r3 : verdict_always s = s := by
    unfold verdict_always fails_always
    simp [he1, he2, hck, hcvt, hyear, hweek, hdet, hdummy, hord, hvr, hman]
  simp only [main_verdict, r1, r2, r3, main_return, lnot, hconf]
  rfl

/-- Claim C7 as amended, on the bytes of the block: for every 128-byte base block
without extension blocks that declares revision 1.3, has a valid checksum, a
monitor name that holds a newline, the preferred-timing bit with a numeric
timing in the first descriptor slot, and a range descriptor whose limits
(`declared_range`) enclose every timing the decoder records (established
timings, standard timings, detailed timings, established-timings-III, CVT and
standard-timing descriptors), and which in addition has a valid week and year of
manufacture, a well-formed manufacturer name, a conformant digital-input byte,
sRGB chromaticities that match when sRGB is signalled, numeric timings before
monitor descriptors, descriptors that pass the per-descriptor checks
(`slot_valid`) and a well-ended monitor name, `main` returns 0. -/
theorem scenario_A_conformant (tm : Int) (edid : List Nat) (lines : Int) (junk : Nat → Int)
    (hlen : edid.length = 128) (hb : is_bytes edid) (hl : Int.tdiv lines 8 ≤ 1)
    (h12 : rd edid 0x12 = 1) (h13 : rd edid 0x13 = 3)
    (hsum : edid.sum % 256 = 0)
    (hweek : rd edid 0x10 < 55 ∨ rd edid 0x10 = 0xff)
    (hyear : 0x0f < rd edid 0x11 ∧ (rd edid 0x10 = 0xff ∨ (rd edid 0x11 : Int) + 90 ≤ tm))
    (hman : letters_in_range (rd edid 8) (rd edid 9))
    (hdig : rd edid 0x14 &&& 0x80 = 0 ∨ rd edid 0x14 &&& 0x7E = 0)
    (hsrgb : rd edid 0x18 &&& 0x04 = 0 ∨
      ∀ i, i < 10 → rd edid (0x19 + i) = rd srgb_chromaticity i)
    (hpref : rd edid 0x18 &&& 0x02 ≠ 0) (hfirst : ¬ is_monitor_slot edid 0x36)
    (hord : ∀ p ∈ slot_pairs, is_monitor_slot edid p.1 → is_monitor_slot edid p.2)
    (hvalid : ∀ off ∈ descriptor_slots, slot_valid (edid.drop off))
    (hname : 0x0a ∈ decoded_name edid)
    (hterm : string_accepted (decoded_name edid) (decoded_name edid).length)
    (hrange : ∃ off ∈ descriptor_slots, is_monitor_slot edid off ∧ rd edid (off + 3) = 0xFD)
    (hest : ∀ i, i < 17 → established_bit edid i = true →
      timing_enclosed (declared_range edid) (established_timings.getD i default).refresh
        (established_timings.getD i default).hor_freq_hz
        (established_timings.getD i default).pixclk_khz)
    (hstd : ∀ i, i < 8 → standard_timing_enclosed (declared_range edid)
      (rd edid (0x26 + i * 2)) (rd edid (0x26 + i * 2 + 1)))
    (hslot : ∀ off ∈ descriptor_slots, slot_enclosed (declared_range edid) (edid.drop off)) :
    main tm edid lines junk = some 0 := by
  obtain ⟨hv1, _⟩ := main_version_rev3 edid (main_date tm edid (main_vendor edid State.init))
    h12 h13
  obtain ⟨htv, hov⟩ := main_header_scenario tm edid h12 h13 hdig hsrgb hpref
  have hinit : observed_enclosed (declared_range edid)
      (main_features edid (main_display edid
        (main_version edid (main_date tm edid (main_vendor edid State.init))).2)) :=
    observed_enclosed_of_view _ State.init _ hov (declared_range_initial edid hb)
  generalize hsh : main_features edid (main_display edid
    (main_version edid (main_date tm edid (main_vendor edid State.init))).2) = sh
    at htv hinit
  have he1 := main_established_enclosed (declared_range edid) edid sh hinit hest
  have ht1 : track_view (main_established edid sh) = _ :=
    (main_established_track_view edid sh).trans htv
  have hc3 : (main_established edid sh).claims_one_point_three = 1 := by
    have := congrArg (fun v => v.2.2.2.2.2.2.2.1) ht1
    exact this
  have he2 := main_standard_enclosed (declared_range edid) edid _ hc3 he1 hstd
  have ht2 : track_view (main_standard edid (main_established edid sh)) = _ :=
    (main_standard_track_view edid _).trans ht1
  obtain ⟨t, n, hdet, htt, hnn, hot⟩ :=
    main_detailed_scenario edid _ ht2 he2 hfirst hvalid hslot hterm
  have hn0 : (Int.tdiv lines 8 - 1).toNat = 0 := by
    rw [Int.toNat_eq_zero]; omega
  have hdec : main_decode tm edid lines junk
      = some { t with has_valid_checksum := (do_checksum edid 128).ret } := by
    unfold main_decode
    dsimp only
    rw [hv1, hsh, hdet, hn0]
    rfl
  have hbase := main_decode_base_only tm edid lines junk _ hl hdec
  have hid := main_decode_id_view tm edid lines junk _ hdec
  have hmf := main_decode_manufacturer tm edid lines junk _ (rd_lt edid hb 8) (rd_lt edid hb 9)
    hdec
  have hor := main_decode_order tm edid lines junk _ hdec
  have hck : (do_checksum edid 128).ret = 1 := by
    rw [do_checksum_ret edid hlen, if_pos hsum]
  simp only [base_view, Prod.mk.injEq] at hbase
  simp only [id_view, Prod.mk.injEq] at hid
  have hwk : (main_date tm edid (main_vendor edid State.init)).has_valid_week = 1 := by
    rw [main_date_week, if_pos hweek]
  have hyr := main_date_year tm edid (main_vendor edid State.init) hweek hyear
  have hpr := declared_range_present edid hrange
  simp only [track_view, Prod.mk.injEq] at htt
  obtain ⟨⟨f1, f2, f3, f4, f5⟩, fm, ⟨_, fn⟩, ⟨g1, g2, g3, g4, g5, g6⟩⟩ := htt
  have hnv := hnn hname
  rw [hnv] at fn
  simp only [Prod.mk.injEq] at fn
  have hmon : declared_range edid = ⟨t.has_range_descriptor, t.mon_min_vert_freq_hz,
      t.mon_max_vert_freq_hz, t.mon_min_hor_freq_hz, t.mon_max_hor_freq_hz,
      t.mon_max_pixclk_khz⟩ := fm.symm
  rw [hmon] at hpr hot
  have hordv : t.has_valid_descriptor_ordering ≠ 0 := by
    intro h0
    obtain ⟨p, hp, hm1, hm2⟩ := hor.1.mp h0
    exact hm2 (hord p hp hm1)
  have hres := main_verdict_pass { t with has_valid_checksum := (do_checksum edid 128).ret }
    hbase.2.2 g5 hbase.2.1.1 hbase.2.1.2.1 hbase.2.1.2.2.1 hbase.2.1.2.2.2 hck fn.1 fn.2 g3
    hpr hot g1 g2 f1 f2 f3 (hid.2.1.trans hyr) (hid.1.trans hwk) g4 f4 hordv f5
    (by rw [hmf, if_pos hman])
  unfold main
  rw [hdec]
  simp only [Option.map, hres]

theorem scenario_A_conformant_witness :
    (sample_edid.length = 128 ∧ rd sample_edid 0x12 = 1 ∧ rd sample_edid 0x13 = 3 ∧
      sample_edid.sum % 256 = 0 ∧
      declared_range sample_edid = ⟨1, 50, 75, 30000, 80000, 140000⟩ ∧
      decoded_name sample_edid =
        [0x54, 0x65, 0x73, 0x74, 0x0a, 0x20, 0x20, 0x20, 0x20, 0x20, 0x20, 0x20, 0x20]) ∧
    main 126 sample_edid 8 junk_zero = some 0 :=
  ⟨⟨by decide!, by decide!, by decide!, by decide!, by decide!, by decide!⟩,
    scenario_A_conformant 126 sample_edid 8 junk_zero (by decide!) (by decide!) (by decide)
      (by decide!) (by decide!) (by decide!) (by decide!) (by decide!) (by decide!)
      (by decide!) (by decide!) (by decide!) (by decide!) (by decide!) (by decide!)
      (by decide!) (by decide!) (by decide!) (by decide!) (by decide!) (by decide!)⟩


/-- The block `sample_edid_week60` meets every condition of scenario A on its
bytes except the week of manufacture: byte 0x10 is 60. -/
theorem sample_edid_week60_conditions :
    (sample_edid_week60.length = 128 ∧ is_bytes sample_edid_week60 ∧
      rd sample_edid_week60 0x12 = 1 ∧ rd sample_edid_week60 0x13 = 3 ∧
      sample_edid_week60.sum % 256 = 0) ∧
    (0x0f < rd sample_edid_week60 0x11 ∧
      (rd sample_edid_week60 0x10 = 0xff ∨ (rd sample_edid_week60 0x11 : Int) + 90 ≤ 126)) ∧
    letters_in_range (rd sample_edid_week60 8) (rd sample_edid_week60 9) ∧
    (rd sample_edid_week60 0x14 &&& 0x80 = 0 ∨ rd sample_edid_week60 0x14 &&& 0x7E = 0) ∧
    (rd sample_edid_week60 0x18 &&& 0x04 = 0 ∨
      ∀ i, i < 10 → rd sample_edid_week60 (0x19 + i) = rd srgb_chromaticity i) ∧
    (rd sample_edid_week60 0x18 &&& 0x02 ≠ 0 ∧ ¬ is_monitor_slot sample_edid_week60 0x36) ∧
    (∀ p ∈ slot_pairs,
      is_monitor_slot sample_edid_week60 p.1 → is_monitor_slot sample_edid_week60 p.2) ∧
    (∀ off ∈ descriptor_slots, slot_valid (sample_edid_week60.drop off)) ∧
    (0x0a ∈ decoded_name sample_edid_week60 ∧
      string_accepted (decoded_name sample_edid_week60)
        (decoded_name sample_edid_week60).length) ∧
    (∃ off ∈ descriptor_slots,
      is_monitor_slot sample_edid_week60 off ∧ rd sample_edid_week60 (off + 3) = 0xFD) ∧
    (∀ i, i < 17 → established_bit sample_edid_week60 i = true →
      timing_enclosed (declared_range sample_edid_week60)
        (established_timings.getD i default).refresh
        (established_timings.getD i default).hor_freq_hz
        (established_timings.getD i default).pixclk_khz) ∧
    (∀ i, i < 8 → standard_timing_enclosed (declared_range sample_edid_week60)
      (rd sample_edid_week60 (0x26 + i * 2)) (rd sample_edid_week60 (0x26 + i * 2 + 1))) ∧
    (∀ off ∈ descriptor_slots,
      slot_enclosed (declared_range sample_edid_week60) (sample_edid_week60.drop off)) ∧
    ¬ (rd sample_edid_week60 0x10 < 55 ∨ rd sample_edid_week60 0x10 = 0xff) := by
  refine ⟨⟨by decide!, by decide!, by decide!, by decide!, by decide!⟩, by decide!, by decide!,
    by decide!, by decide!, by decide!, by decide!, by decide!, by decide!, by decide!,
    by decide!, by decide!, by decide!, by decide!⟩

/-! ## `parse_cea` when the walk is not reached -/

/-- With revision byte 0 the body of `parse_cea` is skipped: no data block and no
detailed descriptor is visited. -/
theorem parse_cea_revision_zero (x : List Nat) (s : State) (h : rd x 1 = 0) :
    parse_cea x s = some (0, parse_cea_tail x s) := by
  unfold parse_cea
  rw [if_neg (show ¬ rd x 1 ≥ 1 by omega)]

/-- With a detailed-descriptor offset below 4 the body of `parse_cea` is left
before the walk: no data block and no detailed descriptor is visited. -/
theorem parse_cea_short_offset (x : List Nat) (s : State) (hv : 1 ≤ rd x 1)
    (hd : rd x 2 < 4) :
    parse_cea x s =
      some ((if rd x 1 = 1 ∧ rd x 3 ≠ 0 then 1 else 0), parse_cea_tail x s) := by
  unfold parse_cea parse_cea_body
  rw [if_pos (show rd x 1 ≥ 1 from hv)]
  dsimp only
  rw [if_pos hd]

/-- A walk towards an offset of at most 4 visits nothing. -/
theorem cea_walk_empty (x : List Nat) (d fuel : Nat) (hd : d ≤ 4) :
    cea_walk x d fuel 4 = [] := by
  cases fuel with
  | zero => rfl
  | succ n =>
    unfold cea_walk
    rw [if_neg (by omega)]

end EdidDecode
